import Mathlib

/-! # DVB scan: section reassembly, table interpreters and the network model

A shallow embedding of `util/scan/scan.c`.

* Memory is modelled by arenas: `net_model.transponders` holds every
  `struct transponder` ever allocated and `filter_sched.filters` every
  `struct section_buf`; a C pointer is the index of the object in its arena.
  The kernel lists (`list_head`) are lists of such indices.
* A function receives the globals it accesses: `net_model` (the transponder
  registries and `current_tp`), `filter_sched` (the filter lists, `n_running`
  and the outcomes of the demux calls), `config` (the command line flags and
  `fe_info.type`).
* `int` values are `Int`, unsigned bytes and `uintN_t` fields are `Nat`
  (reduced modulo `2^N` where the C arithmetic can wrap).
* Loops are structural recursions on a fuel argument; every caller passes the
  remaining length as fuel, which bounds the number of iterations because each
  iteration that continues consumes at least one byte of it.
-/

namespace DvbScan

/-! ## Bytes -/

/-- Read of the `unsigned char` at offset `i` of a buffer.  A read outside the
modelled bytes yields 0 (in C it would reach whatever memory follows). -/
def rd (buf : List Nat) (i : Nat) : Nat := buf.getD i 0 % 256

/-- The `n` bytes starting at offset `off` (the source of a `memcpy`). -/
def rd_bytes (buf : List Nat) (off n : Nat) : List Nat :=
  (List.range n).map (fun i => rd buf (off + i))

/-- Reduction of an arithmetic result to `uint32_t`. -/
def u32 (x : Nat) : Nat := x % 4294967296

/-! ## Constants of `linux/dvb/frontend.h` and of scan.c -/

def FE_QPSK : Int := 0
def FE_QAM : Int := 1
def FE_OFDM : Int := 2

def FEC_NONE : Nat := 0
def FEC_1_2 : Nat := 1
def FEC_2_3 : Nat := 2
def FEC_3_4 : Nat := 3
def FEC_4_5 : Nat := 4
def FEC_5_6 : Nat := 5
def FEC_6_7 : Nat := 6
def FEC_7_8 : Nat := 7
def FEC_8_9 : Nat := 8
def FEC_AUTO : Nat := 9

def QPSK : Nat := 0
def QAM_16 : Nat := 1
def QAM_32 : Nat := 2
def QAM_64 : Nat := 3
def QAM_128 : Nat := 4
def QAM_256 : Nat := 5
def QAM_AUTO : Nat := 6

def BANDWIDTH_8_MHZ : Nat := 0
def TRANSMISSION_MODE_2K : Nat := 0
def TRANSMISSION_MODE_8K : Nat := 1
def GUARD_INTERVAL_1_32 : Nat := 0
def HIERARCHY_NONE : Nat := 0

def INVERSION_OFF : Nat := 0
def INVERSION_ON : Nat := 1
def INVERSION_AUTO : Nat := 2
def BANDWIDTH_7_MHZ : Nat := 1
def BANDWIDTH_6_MHZ : Nat := 2
def GUARD_INTERVAL_1_16 : Nat := 1
def GUARD_INTERVAL_1_8 : Nat := 2
def GUARD_INTERVAL_1_4 : Nat := 3
def HIERARCHY_1 : Nat := 1
def HIERARCHY_2 : Nat := 2
def HIERARCHY_4 : Nat := 3

def AUDIO_CHAN_MAX : Nat := 32
def CA_SYSTEM_ID_MAX : Nat := 16
def MAX_RUNNING : Int := 32

/-- The `enum table_type` of scan.c. -/
inductive table_type where
  | PAT
  | PMT
  | SDT
  | NIT
  deriving DecidableEq, Repr

/-! ## The data model -/

/-- The `struct service` of scan.c without its list link.  `provider_name` and
`service_name` are `char *` (`none` is NULL); `ca_id` is kept as the 32 raw
bytes of the `uint16_t[16]` array, which is how `memcpy` fills it; `priv` is
the pointer to the PMT filter (an index of `filter_sched.filters`). -/
structure service where
  transport_stream_id : Int
  service_id : Int
  provider_name : Option (List Nat)
  service_name : Option (List Nat)
  pmt_pid : Nat
  pcr_pid : Nat
  video_pid : Nat
  audio_pid : List Nat
  audio_lang : List (List Nat)
  audio_num : Nat
  ca_id : List Nat
  ca_num : Int
  teletext_pid : Nat
  subtitling_pid : Nat
  ac3_pid : Nat
  type : Nat
  scrambled : Nat
  running : Int
  priv : Option Nat
  channel_num : Int
  deriving DecidableEq, Repr

/-- The `struct dvb_frontend_parameters`: `u0 .. u6` are the seven 32-bit words
of the union `u`.  `u.qpsk` is (symbol_rate, fec_inner) = (u0, u1), `u.qam` is
(symbol_rate, fec_inner, modulation) = (u0, u1, u2) and `u.ofdm` is (bandwidth,
code_rate_HP, code_rate_LP, constellation, transmission_mode, guard_interval,
hierarchy_information) = (u0, ..., u6). -/
structure dvb_frontend_parameters where
  frequency : Nat
  inversion : Nat
  u0 : Nat
  u1 : Nat
  u2 : Nat
  u3 : Nat
  u4 : Nat
  u5 : Nat
  u6 : Nat
  deriving DecidableEq, Repr

/-- The `struct transponder` of scan.c; `services` is the list it owns and
`other_f` the (possibly NULL) frequency array. -/
structure transponder where
  services : List service
  network_id : Int
  transport_stream_id : Int
  type : Int
  param : dvb_frontend_parameters
  polarisation : Nat
  orbital_pos : Int
  we_flag : Nat
  scan_done : Nat
  last_tuning_failed : Nat
  other_frequency_flag : Nat
  n_other_f : Nat
  other_f : Option (List Nat)
  deriving DecidableEq, Repr

/-- The `struct section_buf` of scan.c without its links: the list link is the
membership of the filter in `running_filters` or `waiting_filters` and
`next_seg` is the position of the state in the chain of its filter. -/
structure section_buf where
  run_once : Bool
  segmented : Bool
  fd : Int
  pid : Int
  table_id : Int
  table_id_ext : Int
  section_version_number : Int
  section_done : List Nat
  sectionfilter_done : Int
  buf : List Nat
  timeout : Int
  start_time : Int
  running_time : Int
  deriving DecidableEq, Repr

/-- The command line flags and `fe_info.type`. -/
structure config where
  fe_type : Int
  current_tp_only : Bool
  long_timeout : Bool
  vdr_dump_channum : Bool
  spectral_inversion : Nat
  deriving DecidableEq, Repr

/-- The transponder registries: the arena of all transponders, the two lists
`scanned_transponders` and `new_transponders`, and `current_tp`. -/
structure net_model where
  transponders : List transponder
  scanned_transponders : List Nat
  new_transponders : List Nat
  current_tp : Nat
  deriving DecidableEq, Repr

/-- One call of `open` on the demux device followed (when it succeeds) by
`ioctl(DMX_SET_FILTER)` and `time`: the descriptor returned, the result of the
ioctl and the clock value. -/
structure dmx_call where
  fd : Int
  set_filter : Int
  now : Int
  deriving DecidableEq, Repr

/-- The filter scheduler: the arena of filters (each the chain of a section_buf
and its `next_seg` siblings), the running and waiting lists, `n_running`, and
the outcomes of the coming demux calls. -/
structure filter_sched where
  filters : List (List section_buf)
  running_filters : List Nat
  waiting_filters : List Nat
  n_running : Int
  hw : List dmx_call
  deriving DecidableEq, Repr

/-- What `calloc(1, sizeof(struct service))` returns. -/
def calloc_service : service :=
  { transport_stream_id := 0, service_id := 0, provider_name := none,
    service_name := none, pmt_pid := 0, pcr_pid := 0, video_pid := 0,
    audio_pid := List.replicate 32 0,
    audio_lang := List.replicate 32 [0, 0, 0, 0],
    audio_num := 0, ca_id := List.replicate 32 0, ca_num := 0,
    teletext_pid := 0, subtitling_pid := 0, ac3_pid := 0, type := 0,
    scrambled := 0, running := 0, priv := none, channel_num := 0 }

/-- An all-zero `struct dvb_frontend_parameters`. -/
def zero_param : dvb_frontend_parameters :=
  { frequency := 0, inversion := 0, u0 := 0, u1 := 0, u2 := 0, u3 := 0,
    u4 := 0, u5 := 0, u6 := 0 }

/-- What `calloc(1, sizeof(struct transponder))` returns. -/
def calloc_transponder : transponder :=
  { services := [], network_id := 0, transport_stream_id := 0, type := 0,
    param := zero_param, polarisation := 0, orbital_pos := 0, we_flag := 0,
    scan_done := 0, last_tuning_failed := 0, other_frequency_flag := 0,
    n_other_f := 0, other_f := none }

/-- What `calloc(1, sizeof(struct section_buf))` returns. -/
def calloc_section_buf : section_buf :=
  { run_once := false, segmented := false, fd := 0, pid := 0, table_id := 0,
    table_id_ext := 0, section_version_number := 0,
    section_done := List.replicate 32 0, sectionfilter_done := 0,
    buf := List.replicate 1024 0, timeout := 0, start_time := 0,
    running_time := 0 }

/-- The transponder a pointer refers to. -/
def tp_at (net : net_model) (p : Nat) : transponder :=
  net.transponders.getD p calloc_transponder

/-- Store through a transponder pointer. -/
def tp_store (net : net_model) (p : Nat) (t : transponder) : net_model :=
  { net with transponders := net.transponders.set p t }

/-! ## Transponders -/

/-- The function alloc_transponder: a zeroed transponder with the given
frequency, appended to `new_transponders`; returns the pointer. -/
def alloc_transponder (net : net_model) (frequency : Nat) : net_model × Nat :=
  let tp : transponder :=
    { calloc_transponder with param := { zero_param with frequency := frequency } }
  ({ net with transponders := net.transponders ++ [tp],
              new_transponders := net.new_transponders ++ [net.transponders.length] },
   net.transponders.length)

/-- The function is_same_transponder on two `uint32_t` frequencies. -/
def is_same_transponder (f1 f2 : Nat) : Int :=
  if f1 = f2 then 1
  else
    let diff : Nat := if f1 > f2 then f1 - f2 else f2 - f1
    if diff < 2000 then 1 else 0

/-- The first loop of find_transponder, over `scanned_transponders`. -/
def find_in_scanned (cfg : config) (net : net_model) (frequency : Nat) :
    List Nat → Option Nat
  | [] => none
  | pos :: rest =>
    if cfg.current_tp_only then some pos
    else if is_same_transponder (tp_at net pos).param.frequency frequency ≠ 0 then some pos
    else find_in_scanned cfg net frequency rest

/-- The second loop of find_transponder, over `new_transponders`. -/
def find_in_new (net : net_model) (frequency : Nat) : List Nat → Option Nat
  | [] => none
  | pos :: rest =>
    if is_same_transponder (tp_at net pos).param.frequency frequency ≠ 0 then some pos
    else find_in_new net frequency rest

/-- The function find_transponder; `none` is NULL. -/
def find_transponder (cfg : config) (net : net_model) (frequency : Nat) : Option Nat :=
  match find_in_scanned cfg net frequency net.scanned_transponders with
  | some tp => some tp
  | none => find_in_new net frequency net.new_transponders

/-- The function copy_transponder: every field but the list link and the
service list is overwritten from `s`. -/
def copy_transponder (d s : transponder) : transponder :=
  { d with
    network_id := s.network_id,
    transport_stream_id := s.transport_stream_id,
    type := s.type,
    param := s.param,
    polarisation := s.polarisation,
    orbital_pos := s.orbital_pos,
    we_flag := s.we_flag,
    scan_done := s.scan_done,
    last_tuning_failed := s.last_tuning_failed,
    other_frequency_flag := s.other_frequency_flag,
    n_other_f := s.n_other_f,
    other_f := if s.n_other_f ≠ 0 then s.other_f.map (List.take s.n_other_f) else none }

/-! ## Services -/

/-- The function alloc_service: a zeroed service with the given id at the tail
of the list of `tp`; returns its position in the list. -/
def alloc_service (tp : transponder) (service_id : Int) : transponder × Nat :=
  ({ tp with services := tp.services ++ [{ calloc_service with service_id := service_id }] },
   tp.services.length)

/-- The loop of find_service from position `i` on. -/
def find_service_from : List service → Int → Nat → Option Nat
  | [], _, _ => none
  | s :: rest, service_id, i =>
    if s.service_id = service_id then some i
    else find_service_from rest service_id (i + 1)

/-- The function find_service: the position of the first service with the
given id; `none` is NULL. -/
def find_service (tp : transponder) (service_id : Int) : Option Nat :=
  find_service_from tp.services service_id 0

/-- The service a pointer into the list of `tp` refers to. -/
def service_at (tp : transponder) (i : Nat) : service :=
  tp.services.getD i calloc_service

/-- Store through a service pointer. -/
def service_store (tp : transponder) (i : Nat) (s : service) : transponder :=
  { tp with services := tp.services.set i s }

/-! ## Descriptor parsers

A descriptor parser receives the section buffer and the offset `off` of the
descriptor (the C pointer `buf`), so that `buf[i]` is `rd buf (off + i)`. -/

/-- The `void *data` argument of parse_descriptors: NULL, a service (PMT and
SDT loops) or the scratch transponder of parse_nit. -/
inductive desc_data where
  | NULL
  | svc (s : service)
  | tp (t : transponder)
  deriving DecidableEq, Repr

/-- The function parse_ca_identifier_descriptor: `memcpy` of at most
`sizeof(s->ca_id)` = 32 bytes over the start of `ca_id`. -/
def parse_ca_identifier_descriptor (buf : List Nat) (off : Nat) (s : service) : service :=
  let len := rd buf (off + 1)
  let len := if len > 32 then 32 else len
  { s with ca_id := rd_bytes buf (off + 2) len ++ s.ca_id.drop len }

/-- The function parse_iso639_language_descriptor: three bytes are copied to
`audio_lang[audio_num]` when the descriptor length is at least 4. -/
def parse_iso639_language_descriptor (buf : List Nat) (off : Nat) (s : service) : service :=
  let len := rd buf (off + 1)
  if len ≥ 4 then
    { s with
      audio_lang := s.audio_lang.set s.audio_num
                      (rd_bytes buf (off + 2) 3 ++ (s.audio_lang.getD s.audio_num []).drop 3) }
  else s

/-- The assignment `s->channel_num = channel_num` on every service of `t` with
the given id (inner loop of parse_terrestrial_uk_channel_number). -/
def set_channel_num (service_id channel_num : Int) (t : transponder) : transponder :=
  { t with services := t.services.map (fun s =>
      if s.service_id = service_id then { s with channel_num := channel_num } else s) }

/-- One record of parse_terrestrial_uk_channel_number applied to every scanned
transponder. -/
def uk_channel_record (net : net_model) (service_id channel_num : Int) : net_model :=
  net.scanned_transponders.foldl
    (fun n p => tp_store n p (set_channel_num service_id channel_num (tp_at n p))) net

/-- The function parse_terrestrial_uk_channel_number.  The channel number is
`(buf[2]&0x03<<8)|(buf[3]&0xff)` with the precedence of C. -/
def parse_terrestrial_uk_channel_number (buf : List Nat) (off : Nat) (net : net_model) :
    net_model :=
  let n := rd buf (off + 1) / 4
  if n < 1 then net
  else
    (List.range n).foldl (fun net i =>
      let b := off + 2 + 4 * i
      let service_id : Nat := (rd buf b <<< 8) ||| (rd buf (b + 1) &&& 0xff)
      let channel_num : Nat := (rd buf (b + 2) &&& (0x03 <<< 8)) ||| (rd buf (b + 3) &&& 0xff)
      uk_channel_record net service_id channel_num) net

/-- The function bcd32_to_cpu. -/
def bcd32_to_cpu (b0 b1 b2 b3 : Nat) : Nat :=
  ((b0 >>> 4) &&& 0x0f) * 10000000 + (b0 &&& 0x0f) * 1000000 +
  ((b1 >>> 4) &&& 0x0f) * 100000 + (b1 &&& 0x0f) * 10000 +
  ((b2 >>> 4) &&& 0x0f) * 1000 + (b2 &&& 0x0f) * 100 +
  ((b3 >>> 4) &&& 0x0f) * 10 + (b3 &&& 0x0f)

def fec_tab : List Nat :=
  [FEC_AUTO, FEC_1_2, FEC_2_3, FEC_3_4, FEC_5_6, FEC_7_8, FEC_NONE, FEC_NONE]

def qam_tab : List Nat := [QAM_AUTO, QAM_16, QAM_32, QAM_64, QAM_128, QAM_256]

def m_tab : List Nat := [QPSK, QAM_16, QAM_64, QAM_AUTO]

def ofec_tab : List Nat := [FEC_1_2, FEC_2_3, FEC_3_4, FEC_5_6, FEC_7_8, 0, 0, 0]

/-- The function parse_cable_delivery_system_descriptor on a non-NULL `t`. -/
def parse_cable_delivery_system_descriptor (cfg : config) (buf : List Nat) (off : Nat)
    (t : transponder) : transponder :=
  let b := fun i => rd buf (off + i)
  { t with
    type := FE_QAM,
    param := { t.param with
      frequency := u32 (u32 (bcd32_to_cpu (b 2) (b 3) (b 4) (b 5)) * 100),
      u1 := fec_tab.getD (b 12 &&& 0x07) 0,
      u0 := u32 (10 * bcd32_to_cpu (b 9) (b 10) (b 11) (b 12 &&& 0xf0)),
      u2 := if (b 8 &&& 0x0f) > 5 then QAM_AUTO else qam_tab.getD (b 8 &&& 0x0f) 0,
      inversion := cfg.spectral_inversion } }

/-- The function parse_satellite_delivery_system_descriptor on a non-NULL `t`. -/
def parse_satellite_delivery_system_descriptor (cfg : config) (buf : List Nat) (off : Nat)
    (t : transponder) : transponder :=
  let b := fun i => rd buf (off + i)
  { t with
    type := FE_QPSK,
    param := { t.param with
      frequency := u32 (10 * bcd32_to_cpu (b 2) (b 3) (b 4) (b 5)),
      u1 := fec_tab.getD (b 12 &&& 0x07) 0,
      u0 := u32 (10 * bcd32_to_cpu (b 9) (b 10) (b 11) (b 12 &&& 0xf0)),
      inversion := cfg.spectral_inversion },
    polarisation := (b 8 >>> 5) &&& 0x03,
    orbital_pos := bcd32_to_cpu 0 0 (b 6) (b 7),
    we_flag := (b 8 >>> 7) % 2 }

/-- The function parse_terrestrial_delivery_system_descriptor on a non-NULL
`t`. -/
def parse_terrestrial_delivery_system_descriptor (cfg : config) (buf : List Nat) (off : Nat)
    (t : transponder) : transponder :=
  let b := fun i => rd buf (off + i)
  { t with
    type := FE_OFDM,
    param := {
      frequency := u32 (u32 ((b 2 <<< 24) ||| (b 3 <<< 16) ||| ((b 4 <<< 8) ||| b 5)) * 10),
      inversion := cfg.spectral_inversion,
      u0 := BANDWIDTH_8_MHZ + ((b 6 >>> 5) &&& 0x3),
      u3 := m_tab.getD ((b 7 >>> 6) &&& 0x3) 0,
      u6 := HIERARCHY_NONE + ((b 7 >>> 3) &&& 0x3),
      u1 := if (b 7 &&& 0x7) > 4 then FEC_AUTO else ofec_tab.getD (b 7 &&& 0x7) 0,
      u2 := if ((b 8 >>> 5) &&& 0x7) > 4 then FEC_AUTO
            else ofec_tab.getD ((b 8 >>> 5) &&& 0x7) 0,
      u5 := GUARD_INTERVAL_1_32 + ((b 8 >>> 3) &&& 0x3),
      u4 := if (b 8 &&& 0x2) ≠ 0 then TRANSMISSION_MODE_8K else TRANSMISSION_MODE_2K },
    other_frequency_flag := b 8 &&& 0x01 }

/-- The function parse_frequency_list_descriptor on a non-NULL `t`.  The count
`(buf[1] - 1) / 4` is 0 for `buf[1] = 0` in C as with the truncated
subtraction here. -/
def parse_frequency_list_descriptor (buf : List Nat) (off : Nat) (t : transponder) :
    transponder :=
  if t.other_f.isSome then t
  else
    let n := (rd buf (off + 1) - 1) / 4
    if n < 1 ∨ (rd buf (off + 2) &&& 0x03) ≠ 3 then t
    else
      { t with
        n_other_f := n,
        other_f := some ((List.range n).map (fun i =>
          let b := off + 3 + 4 * i
          u32 (u32 ((rd buf b <<< 24) ||| (rd buf (b + 1) <<< 16) |||
                    (rd buf (b + 2) <<< 8) ||| rd buf (b + 3)) * 10))) }

/-- The clean-up of a name in parse_service_descriptor: the copy is a C string,
so it ends at its first NUL byte; the control characters are removed; an empty
result is freed and the pointer set to 0. -/
def strip_name (raw : List Nat) : Option (List Nat) :=
  let kept := (raw.takeWhile (fun c => c ≠ 0)).filter
    (fun c => decide (c ≥ 0x20) && (decide (c < 0x80) || decide (c > 0x9f)))
  if kept = [] then none else some kept

/-- The loop `for (src = dest = name; *src; src++)` of parse_service_descriptor
on the bytes `p` of the copy of a name: a byte that is not a control character
is moved to `dest`.  Returns the bytes and `dest` when the loop ends. -/
def remove_control_loop : Nat → List Nat → Nat → Nat → List Nat × Nat
  | 0, p, _, dest => (p, dest)
  | fuel + 1, p, src, dest =>
    let c := p.getD src 0
    if c ≠ 0 then
      if c ≥ 0x20 ∧ (c < 0x80 ∨ c > 0x9f) then
        remove_control_loop fuel (p.set dest c) (src + 1) (dest + 1)
      else remove_control_loop fuel p (src + 1) dest
    else (p, dest)

/-- The clean-up of a name in parse_service_descriptor, on the bytes of the
copy: `malloc (len + 1)`, `memcpy` and the terminating NUL give `raw ++ [0]`;
the loop moves the bytes kept to the front; `*dest = 0` ends the string; a
name whose first byte is NUL is freed and the pointer set to 0.  The name
stored is the C string in the copy. -/
def clean_name (raw : List Nat) : Option (List Nat) :=
  let r := remove_control_loop (raw.length + 1) (raw ++ [0]) 0 0
  let p := r.1.set r.2 0
  if p.getD 0 0 = 0 then none else some (p.takeWhile (fun c => c ≠ 0))

/-- The function parse_service_descriptor. -/
def parse_service_descriptor (buf : List Nat) (off : Nat) (s : service) : service :=
  let len := rd buf (off + 3)
  let provider := strip_name (rd_bytes buf (off + 4) len)
  let off2 := off + 4 + len
  let len2 := rd buf off2
  let name := strip_name (rd_bytes buf (off2 + 1) len2)
  { s with type := rd buf (off + 2), provider_name := provider, service_name := name }

/-- The function find_descriptor with NULL `desc` and `desc_len`, as all its
callers use it.  `descriptor_len` is an `unsigned char`, hence the reduction
modulo 256. -/
def find_descriptor (tag : Nat) (buf : List Nat) : Nat → Nat → Int → Int
  | 0, _, _ => 0
  | fuel + 1, off, descriptors_loop_len =>
    if descriptors_loop_len > 0 then
      let descriptor_tag := rd buf off
      let descriptor_len := (rd buf (off + 1) + 2) % 256
      if descriptor_len = 0 then 0
      else if tag = descriptor_tag then 1
      else find_descriptor tag buf fuel (off + descriptor_len)
             (descriptors_loop_len - descriptor_len)
    else 0

/-- The `switch (descriptor_tag)` of parse_descriptors. -/
def dispatch_descriptor (cfg : config) (t : table_type) (buf : List Nat) (off : Nat)
    (w : net_model × desc_data) : net_model × desc_data :=
  let descriptor_tag := rd buf off
  if descriptor_tag = 0x0a then
    match t, w.2 with
    | .PMT, .svc s => (w.1, .svc (parse_iso639_language_descriptor buf off s))
    | _, _ => w
  else if descriptor_tag = 0x40 then w
  else if descriptor_tag = 0x43 then
    match t, w.2 with
    | .NIT, .tp tn => (w.1, .tp (parse_satellite_delivery_system_descriptor cfg buf off tn))
    | _, _ => w
  else if descriptor_tag = 0x44 then
    match t, w.2 with
    | .NIT, .tp tn => (w.1, .tp (parse_cable_delivery_system_descriptor cfg buf off tn))
    | _, _ => w
  else if descriptor_tag = 0x48 then
    match t, w.2 with
    | .SDT, .svc s => (w.1, .svc (parse_service_descriptor buf off s))
    | _, _ => w
  else if descriptor_tag = 0x53 then
    match t, w.2 with
    | .SDT, .svc s => (w.1, .svc (parse_ca_identifier_descriptor buf off s))
    | _, _ => w
  else if descriptor_tag = 0x5a then
    match t, w.2 with
    | .NIT, .tp tn => (w.1, .tp (parse_terrestrial_delivery_system_descriptor cfg buf off tn))
    | _, _ => w
  else if descriptor_tag = 0x62 then
    match t, w.2 with
    | .NIT, .tp tn => (w.1, .tp (parse_frequency_list_descriptor buf off tn))
    | _, _ => w
  else if descriptor_tag = 0x83 then
    if t = .NIT ∧ cfg.vdr_dump_channum then
      (parse_terrestrial_uk_channel_number buf off w.1, w.2)
    else w
  else w

/-- The function parse_descriptors.  `descriptor_len` is an `unsigned char`,
hence the reduction modulo 256. -/
def parse_descriptors (cfg : config) (t : table_type) (buf : List Nat) :
    Nat → Nat → Int → net_model × desc_data → net_model × desc_data
  | 0, _, _, w => w
  | fuel + 1, off, descriptors_loop_len, w =>
    if descriptors_loop_len > 0 then
      let descriptor_len := (rd buf (off + 1) + 2) % 256
      if descriptor_len = 0 then w
      else
        parse_descriptors cfg t buf fuel (off + descriptor_len)
          (descriptors_loop_len - descriptor_len) (dispatch_descriptor cfg t buf off w)
    else w

/-! ## Filters -/

/-- The whole scanner state the section parser works on. -/
structure scan_state where
  net : net_model
  flt : filter_sched
  deriving DecidableEq, Repr

/-- The chain stored at a filter pointer: the section_buf followed by its
`next_seg` siblings. -/
def chain_at (flt : filter_sched) (s : Nat) : List section_buf := flt.filters.getD s []

/-- The `k`-th state of the chain of filter `s` (`k = 0` is the filter itself,
`k + 1` is the `next_seg` of `k`). -/
def seg_at (flt : filter_sched) (s k : Nat) : section_buf :=
  (chain_at flt s).getD k calloc_section_buf

/-- Store through the pointer to the `k`-th state of the chain of filter `s`. -/
def seg_update (flt : filter_sched) (s k : Nat) (f : section_buf → section_buf) :
    filter_sched :=
  { flt with filters := flt.filters.set s ((chain_at flt s).set k (f (seg_at flt s k))) }

/-- The function setup_filter: the value it leaves in `*s` (whose `next_seg` is
NULL).  The device name is the same for all filters and is not modelled. -/
def setup_filter (cfg : config) (pid tid : Int) (run_once segmented : Bool) (timeout : Int) :
    section_buf :=
  { calloc_section_buf with
    fd := -1,
    pid := pid,
    table_id := tid,
    run_once := run_once,
    segmented := segmented,
    timeout := if cfg.long_timeout then 5 * timeout else timeout,
    table_id_ext := -1,
    section_version_number := -1 }

/-- The assignment `s->fd = open (...)` of start_filter. -/
def opened (c : dmx_call) (b : section_buf) : section_buf := { b with fd := c.fd }

/-- The assignments `s->sectionfilter_done = 0` and `time(&s->start_time)` of
start_filter. -/
def started (c : dmx_call) (b : section_buf) : section_buf :=
  { b with sectionfilter_done := 0, start_time := c.now }

/-- The function start_filter.  The results of `open`, `ioctl(DMX_SET_FILTER)`
and `time` are taken from the head of `hw` (with no outcome left, `open` fails).
`list_del_init` takes the filter out of the list it is in and `list_add` puts it
at the head of `running_filters`.  The bookkeeping of update_poll_fds is not
modelled. -/
def start_filter (flt : filter_sched) (s : Nat) : Int × filter_sched :=
  if flt.n_running ≥ MAX_RUNNING then (-1, flt)
  else
    let c := flt.hw.headD { fd := -1, set_filter := -1, now := 0 }
    let flt := { flt with hw := flt.hw.tail }
    let flt := seg_update flt s 0 (opened c)
    if c.fd < 0 then (-1, flt)
    else if c.set_filter = -1 then (-1, flt)
    else
      let flt := seg_update flt s 0 (started c)
      (0, { flt with
            running_filters := s :: flt.running_filters.erase s,
            waiting_filters := flt.waiting_filters.erase s,
            n_running := flt.n_running + 1 })

/-- The function add_filter. -/
def add_filter (flt : filter_sched) (s : Nat) : filter_sched :=
  let r := start_filter flt s
  if r.1 ≠ 0 then { r.2 with waiting_filters := r.2.waiting_filters ++ [s] }
  else r.2

/-- The function stop_filter; `now` is the value `time(NULL)` returns.
`list_del` takes the filter out of the list it is in. -/
def stop_filter (flt : filter_sched) (s : Nat) (now : Int) : filter_sched :=
  let flt := seg_update flt s 0 (fun b =>
    { b with fd := -1, running_time := b.running_time + (now - b.start_time) })
  { flt with
    running_filters := flt.running_filters.erase s,
    waiting_filters := flt.waiting_filters.erase s,
    n_running := flt.n_running - 1 }

/-- The loop of remove_filter: the head of `waiting_filters` is started until a
start fails or the list is empty. -/
def remove_filter_loop : Nat → filter_sched → filter_sched
  | 0, flt => flt
  | fuel + 1, flt =>
    match flt.waiting_filters with
    | [] => flt
    | next :: _ =>
      let r := start_filter flt next
      if r.1 ≠ 0 then r.2 else remove_filter_loop fuel r.2

/-- The function remove_filter.  A start that succeeds takes its filter out of
`waiting_filters`, so the length of that list bounds the iterations of the
loop. -/
def remove_filter (flt : filter_sched) (s : Nat) (now : Int) : filter_sched :=
  let flt := stop_filter flt s now
  remove_filter_loop flt.waiting_filters.length flt

/-! ## Table interpreters

Each interpreter receives the section buffer and the offset `off` its C
pointer `buf` has in it. -/

/-- The service behind the pointer `(tp, s)`. -/
def svc_at (net : net_model) (tp s : Nat) : service := service_at (tp_at net tp) s

/-- Store through the service pointer `(tp, s)`. -/
def svc_store (net : net_model) (tp s : Nat) (sv : service) : net_model :=
  tp_store net tp (service_store (tp_at net tp) s sv)

/-- The body of the loop of parse_pat for the entry at `off`: an entry with
service_id 0 is skipped; otherwise the service is found or allocated, its
pmt_pid set, and a PMT filter requested when it has none and the pid is not 0. -/
def parse_pat_entry (cfg : config) (buf : List Nat) (off : Nat) (st : scan_state) :
    scan_state :=
  let service_id : Nat := (rd buf off <<< 8) ||| rd buf (off + 1)
  if service_id = 0 then st
  else
    let cur := st.net.current_tp
    let tp := tp_at st.net cur
    let r := match find_service tp service_id with
      | some s => (tp, s)
      | none => alloc_service tp service_id
    let net := tp_store st.net cur r.1
    let s := r.2
    let sv : service := { svc_at net cur s with
                pmt_pid := ((rd buf (off + 2) &&& 0x1f) <<< 8) ||| rd buf (off + 3) }
    if sv.priv.isNone ∧ sv.pmt_pid ≠ 0 then
      let p := st.flt.filters.length
      let flt := { st.flt with
        filters := st.flt.filters ++ [[setup_filter cfg sv.pmt_pid 0x02 true false 5]] }
      { net := svc_store net cur s { sv with priv := some p },
        flt := add_filter flt p }
    else { net := svc_store net cur s sv, flt := st.flt }

/-- The loop of parse_pat. -/
def parse_pat_loop (cfg : config) (buf : List Nat) :
    Nat → Nat → Int → scan_state → scan_state
  | 0, _, _, st => st
  | fuel + 1, off, section_length, st =>
    if section_length > 0 then
      parse_pat_loop cfg buf fuel (off + 4) (section_length - 4) (parse_pat_entry cfg buf off st)
    else st

/-- The function parse_pat. -/
def parse_pat (cfg : config) (buf : List Nat) (off : Nat) (section_length : Int)
    (_transport_stream_id : Int) (st : scan_state) : scan_state :=
  parse_pat_loop cfg buf section_length.toNat off section_length st

/-- The body of the elementary stream loop of parse_pmt for the entry at
`off`. -/
def parse_pmt_stream (cfg : config) (buf : List Nat) (off : Nat) (tp s : Nat)
    (net : net_model) : net_model :=
  let ES_info_len : Nat := ((rd buf (off + 3) &&& 0x0f) <<< 8) ||| rd buf (off + 4)
  let elementary_pid : Nat := ((rd buf (off + 1) &&& 0x1f) <<< 8) ||| rd buf (off + 2)
  let sv := svc_at net tp s
  let stream_type := rd buf off
  if stream_type = 0x01 ∨ stream_type = 0x02 then
    if sv.video_pid = 0 then svc_store net tp s { sv with video_pid := elementary_pid }
    else net
  else if stream_type = 0x03 ∨ stream_type = 0x04 then
    if sv.audio_num < AUDIO_CHAN_MAX then
      let sv := { sv with audio_pid := sv.audio_pid.set sv.audio_num elementary_pid }
      let r := parse_descriptors cfg .PMT buf ES_info_len (off + 5) ES_info_len (net, .svc sv)
      let sv := match r.2 with
        | .svc x => x
        | _ => sv
      svc_store r.1 tp s { sv with audio_num := sv.audio_num + 1 }
    else net
  else if stream_type = 0x06 then
    if find_descriptor 0x56 buf ES_info_len (off + 5) ES_info_len ≠ 0 then
      svc_store net tp s { sv with teletext_pid := elementary_pid }
    else if find_descriptor 0x59 buf ES_info_len (off + 5) ES_info_len ≠ 0 then
      svc_store net tp s { sv with subtitling_pid := elementary_pid }
    else if find_descriptor 0x6a buf ES_info_len (off + 5) ES_info_len ≠ 0 then
      svc_store net tp s { sv with ac3_pid := elementary_pid }
    else net
  else net

/-- The elementary stream loop of parse_pmt. -/
def parse_pmt_loop (cfg : config) (buf : List Nat) (tp s : Nat) :
    Nat → Nat → Int → net_model → net_model
  | 0, _, _, net => net
  | fuel + 1, off, section_length, net =>
    if section_length > 0 then
      let ES_info_len : Nat := ((rd buf (off + 3) &&& 0x0f) <<< 8) ||| rd buf (off + 4)
      parse_pmt_loop cfg buf tp s fuel (off + (ES_info_len + 5))
        (section_length - (ES_info_len + 5)) (parse_pmt_stream cfg buf off tp s net)
    else net

/-- The function parse_pmt. -/
def parse_pmt (cfg : config) (buf : List Nat) (off : Nat) (section_length : Int)
    (service_id : Int) (net : net_model) : net_model :=
  match find_service (tp_at net net.current_tp) service_id with
  | none => net
  | some s =>
    let tp := net.current_tp
    let net := svc_store net tp s
      { svc_at net tp s with pcr_pid := ((rd buf off &&& 0x1f) <<< 8) ||| rd buf (off + 1) }
    let program_info_len : Nat := ((rd buf (off + 2) &&& 0x0f) <<< 8) ||| rd buf (off + 3)
    let section_length := section_length - (program_info_len + 4)
    let net := parse_pmt_loop cfg buf tp s section_length.toNat (off + (program_info_len + 4))
      section_length net
    let sv := svc_at net tp s
    if sv.audio_num > AUDIO_CHAN_MAX then svc_store net tp s { sv with audio_num := AUDIO_CHAN_MAX }
    else net

/-- The block of parse_nit guarded by `tn.type == fe_info.type`: the transponder
found for the frequency of `tn`, or else a newly allocated one, is overwritten
with `tn` by copy_transponder. -/
def store_transponder (cfg : config) (net : net_model) (tn : transponder) : net_model :=
  let a := match find_transponder cfg net tn.param.frequency with
    | some t => (net, t)
    | none => alloc_transponder net tn.param.frequency
  tp_store a.1 a.2 (copy_transponder (tp_at a.1 a.2) tn)

/-- The body of the transport stream loop of parse_nit for the entry at `off`,
after its length check. -/
def parse_nit_entry (cfg : config) (buf : List Nat) (network_id : Int) (off : Nat)
    (net : net_model) : net_model :=
  let transport_stream_id : Nat := (rd buf off <<< 8) ||| rd buf (off + 1)
  let descriptors_loop_len : Nat := ((rd buf (off + 4) &&& 0x0f) <<< 8) ||| rd buf (off + 5)
  let tn : transponder :=
    { calloc_transponder with
      type := -1, network_id := network_id, transport_stream_id := transport_stream_id }
  let r := parse_descriptors cfg .NIT buf descriptors_loop_len (off + 6)
    descriptors_loop_len (net, .tp tn)
  let tn := match r.2 with
    | .tp x => x
    | _ => tn
  if tn.type = cfg.fe_type then store_transponder cfg r.1 tn
  else r.1

/-- The transport stream loop of parse_nit. -/
def parse_nit_loop (cfg : config) (buf : List Nat) (network_id : Int) :
    Nat → Nat → Int → net_model → net_model
  | 0, _, _, net => net
  | fuel + 1, off, section_length, net =>
    if section_length > 6 then
      let descriptors_loop_len : Nat := ((rd buf (off + 4) &&& 0x0f) <<< 8) ||| rd buf (off + 5)
      if section_length < descriptors_loop_len + 4 then net
      else
        parse_nit_loop cfg buf network_id fuel (off + (descriptors_loop_len + 6))
          (section_length - (descriptors_loop_len + 6))
          (parse_nit_entry cfg buf network_id off net)
    else net

/-- The function parse_nit. -/
def parse_nit (cfg : config) (buf : List Nat) (off : Nat) (section_length : Int)
    (network_id : Int) (net : net_model) : net_model :=
  let descriptors_loop_len : Nat := ((rd buf off &&& 0x0f) <<< 8) ||| rd buf (off + 1)
  if section_length < descriptors_loop_len + 4 then net
  else
    let r := parse_descriptors cfg .NIT buf descriptors_loop_len (off + 2)
      descriptors_loop_len (net, .NULL)
    let section_length := section_length - (descriptors_loop_len + 4)
    parse_nit_loop cfg buf network_id section_length.toNat (off + (descriptors_loop_len + 4))
      section_length r.1

/-- The body of the service loop of parse_sdt for the entry at `off`, after its
length check. -/
def parse_sdt_entry (cfg : config) (buf : List Nat) (off : Nat) (net : net_model) :
    net_model :=
  let service_id : Nat := (rd buf off <<< 8) ||| rd buf (off + 1)
  let descriptors_loop_len : Nat := ((rd buf (off + 3) &&& 0x0f) <<< 8) ||| rd buf (off + 4)
  let cur := net.current_tp
  let tp := tp_at net cur
  let a := match find_service tp service_id with
    | some s => (tp, s)
    | none => alloc_service tp service_id
  let net := tp_store net cur a.1
  let s := a.2
  let sv : service := { svc_at net cur s with
              running := (((rd buf (off + 3) >>> 5) &&& 0x7 : Nat) : Int),
              scrambled := (rd buf (off + 3) >>> 4) &&& 1 }
  let r := parse_descriptors cfg .SDT buf descriptors_loop_len (off + 5)
    descriptors_loop_len (net, .svc sv)
  let sv := match r.2 with
    | .svc x => x
    | _ => sv
  svc_store r.1 cur s sv

/-- The service loop of parse_sdt. -/
def parse_sdt_loop (cfg : config) (buf : List Nat) :
    Nat → Nat → Int → net_model → net_model
  | 0, _, _, net => net
  | fuel + 1, off, section_length, net =>
    if section_length > 4 then
      let descriptors_loop_len : Nat := ((rd buf (off + 3) &&& 0x0f) <<< 8) ||| rd buf (off + 4)
      if section_length < descriptors_loop_len ∨ descriptors_loop_len = 0 then net
      else
        parse_sdt_loop cfg buf fuel (off + (descriptors_loop_len + 5))
          (section_length - (descriptors_loop_len + 5)) (parse_sdt_entry cfg buf off net)
    else net

/-- The function parse_sdt. -/
def parse_sdt (cfg : config) (buf : List Nat) (off : Nat) (section_length : Int)
    (_transport_stream_id : Int) (net : net_model) : net_model :=
  parse_sdt_loop cfg buf section_length.toNat (off + 3) section_length net

/-! ## Section reassembly -/

/-- The function get_bit on a `uint8_t` array. -/
def get_bit (bitfield : List Nat) (bit : Nat) : Nat :=
  (bitfield.getD (bit / 8) 0 >>> (bit % 8)) &&& 1

/-- The function set_bit on a `uint8_t` array. -/
def set_bit (bitfield : List Nat) (bit : Nat) : List Nat :=
  bitfield.set (bit / 8) ((bitfield.getD (bit / 8) 0 ||| (1 <<< (bit % 8))) % 256)

/-- The walk `while (s->next_seg) { s = s->next_seg; if (...) break; }` of
parse_section: `rest` is the chain after the state at position `k`; the result
is the position at which the walk stops. -/
def seg_find : List section_buf → Int → Nat → Nat
  | [], _, k => k
  | n :: rest, table_id_ext, k =>
    if n.table_id_ext = table_id_ext then k + 1
    else seg_find rest table_id_ext (k + 1)

/-- The block of parse_section that finds or allocates the state matching
`table_id_ext` in the chain of a segmented filter: the chain afterwards and the
position in it of the state `s` now points to. -/
def select_segment (chain : List section_buf) (table_id table_id_ext
    section_version_number : Int) : List section_buf × Nat :=
  let head := chain.getD 0 calloc_section_buf
  if head.segmented ∧ head.table_id_ext ≠ -1 ∧ head.table_id_ext ≠ table_id_ext then
    let k := seg_find chain.tail table_id_ext 0
    let s := chain.getD k calloc_section_buf
    if s.table_id_ext ≠ table_id_ext then
      let n : section_buf :=
        { calloc_section_buf with
          segmented := s.segmented,
          run_once := s.run_once,
          timeout := s.timeout,
          table_id := table_id,
          table_id_ext := table_id_ext,
          section_version_number := section_version_number }
      (chain ++ [n], chain.length)
    else (chain, k)
  else (chain, 0)

/-- The block of parse_section that resets the state when the version number
or table_id_ext differs from the stored one. -/
def version_check (s : section_buf) (table_id_ext section_version_number : Int) :
    section_buf :=
  if s.section_version_number ≠ section_version_number ∨ s.table_id_ext ≠ table_id_ext then
    { s with
      table_id_ext := table_id_ext,
      section_version_number := section_version_number,
      sectionfilter_done := 0,
      section_done := List.replicate 32 0 }
  else s

/-- The `switch (table_id)` of parse_section; the payload starts at offset 8. -/
def interpret_section (cfg : config) (table_id : Int) (buf : List Nat) (section_length : Int)
    (table_id_ext : Int) (st : scan_state) : scan_state :=
  if table_id = 0x00 then parse_pat cfg buf 8 section_length table_id_ext st
  else if table_id = 0x02 then
    { st with net := parse_pmt cfg buf 8 section_length table_id_ext st.net }
  else if table_id = 0x41 ∨ table_id = 0x40 then
    { st with net := parse_nit cfg buf 8 section_length table_id_ext st.net }
  else if table_id = 0x42 ∨ table_id = 0x46 then
    { st with net := parse_sdt cfg buf 8 section_length table_id_ext st.net }
  else st

/-- The test made by the loop `for (i = 0; i <= last_section_number; i++)`
followed by `if (i > last_section_number)`: no bit of `0..last_section_number`
is clear. -/
def all_sections_seen (section_done : List Nat) (last_section_number : Nat) : Bool :=
  (List.range (last_section_number + 1)).all (fun i => get_bit section_done i ≠ 0)

/-- The first part of parse_section after the header is decoded: the state for
`table_id_ext` is selected in the chain of the filter at `sp` (and allocated if
needed) and reset if its version or table_id_ext differs.  Returns the
scheduler and the position `k` in the chain of the state `s` points to. -/
def enter_segment (flt : filter_sched) (sp : Nat) (table_id table_id_ext
    section_version_number : Int) : filter_sched × Nat :=
  let sel := select_segment (chain_at flt sp) table_id table_id_ext section_version_number
  (seg_update { flt with filters := flt.filters.set sp sel.1 } sp sel.2
     (fun s => version_check s table_id_ext section_version_number), sel.2)

/-- The assignment made by `set_bit (s->section_done, section_number)`. -/
def mark_section (section_number : Nat) (s : section_buf) : section_buf :=
  { s with section_done := set_bit s.section_done section_number }

/-- The assignment `s->sectionfilter_done = 1`. -/
def mark_done (s : section_buf) : section_buf := { s with sectionfilter_done := 1 }

/-- The block `if (!get_bit(s->section_done, section_number)) { ... }` of
parse_section for the state at position `k` of the chain of filter `sp`. -/
def record_section (cfg : config) (sp k : Nat) (table_id : Int) (buf : List Nat)
    (section_length table_id_ext : Int) (section_number last_section_number : Nat)
    (st : scan_state) : scan_state :=
  if get_bit (seg_at st.flt sp k).section_done section_number = 0 then
    let st := interpret_section cfg table_id buf section_length table_id_ext
      { st with flt := seg_update st.flt sp k (mark_section section_number) }
    if all_sections_seen (seg_at st.flt sp k).section_done last_section_number then
      { st with flt := seg_update st.flt sp k mark_done }
    else st
  else st

/-- The return value of parse_section, from the state `s` points to at the
end. -/
def section_result (s : section_buf) : Int :=
  if s.segmented then 0
  else if s.sectionfilter_done ≠ 0 then 1
  else 0

/-- The function parse_section on the filter at pointer `sp`, whose `buf` holds
the section.  Returns 0 when more sections are expected, 1 when all sections
are read, -1 on an invalid table id. -/
def parse_section (cfg : config) (sp : Nat) (st : scan_state) : Int × scan_state :=
  let buf := (seg_at st.flt sp 0).buf
  let table_id : Nat := rd buf 0
  if (seg_at st.flt sp 0).table_id ≠ table_id then (-1, st)
  else
    let section_length : Int := ((((rd buf 1 &&& 0x0f) <<< 8) ||| rd buf 2 : Nat) : Int) - 11
    let table_id_ext : Nat := (rd buf 3 <<< 8) ||| rd buf 4
    let section_version_number : Nat := (rd buf 5 >>> 1) &&& 0x1f
    let section_number := rd buf 6
    let last_section_number := rd buf 7
    let e := enter_segment st.flt sp table_id table_id_ext section_version_number
    let st := record_section cfg sp e.2 table_id buf section_length table_id_ext
      section_number last_section_number { st with flt := e.1 }
    (section_result (seg_at st.flt sp e.2), st)

/-- The outcome of one `read` on the demux descriptor: the return value, `errno`
when it is negative, and the bytes delivered. -/
structure read_result where
  count : Int
  errno : Int
  data : List Nat
  deriving DecidableEq, Repr

def EOVERFLOW : Int := 75

/-- The effect of `read (s->fd, s->buf, sizeof(s->buf))` on the buffer: the
first `count` bytes (at most 1024) are replaced, the others keep their
content. -/
def read_into (b : section_buf) (r : read_result) : section_buf :=
  if r.count < 0 then b
  else
    let n := min r.count.toNat 1024
    { b with buf := rd_bytes r.data 0 n ++ b.buf.drop n }

/-- A `read` that delivers the given bytes. -/
def read_of (data : List Nat) : read_result :=
  { count := data.length, errno := 0, data := data }

/-- The two `read` calls of read_sections: the final `count` and the state with
the buffer of the filter filled; `r1` is the outcome of the first `read` and
`r2` that of the second, made only after `EOVERFLOW`. -/
def read_outcome (sp : Nat) (r1 r2 : read_result) (st : scan_state) : Int × scan_state :=
  let st1 : scan_state := { st with flt := seg_update st.flt sp 0 (fun b => read_into b r1) }
  if r1.count < 0 ∧ r1.errno = EOVERFLOW then
    (r2.count, { st1 with flt := seg_update st1.flt sp 0 (fun b => read_into b r2) })
  else (r1.count, st1)

/-- The function read_sections. -/
def read_sections (cfg : config) (sp : Nat) (r1 r2 : read_result) (st : scan_state) :
    Int × scan_state :=
  if (seg_at st.flt sp 0).sectionfilter_done ≠ 0 ∧ ¬ (seg_at st.flt sp 0).segmented then (1, st)
  else
    let c := read_outcome sp r1 r2 st
    let count := c.1
    let st := c.2
    if count < 0 then (-1, st)
    else if count < 4 then (-1, st)
    else
      let buf := (seg_at st.flt sp 0).buf
      let section_length : Nat := ((rd buf 1 &&& 0x0f) <<< 8) ||| rd buf 2
      if count ≠ section_length + 3 then (-1, st)
      else if (parse_section cfg sp st).1 = 1 then (1, (parse_section cfg sp st).2)
      else (0, (parse_section cfg sp st).2)

/-! ## Tuning -/

/-- The bit FE_HAS_LOCK of `fe_status_t`. -/
def FE_HAS_LOCK : Nat := 0x10

/-- One use of the frontend by __tune_to_transponder: the result of
`ioctl(FE_SET_FRONTEND)` and, for the calls of `ioctl(FE_READ_STATUS)` that
follow, the result and the status word of each. -/
structure fe_call where
  set_frontend : Int
  status : List (Int × Nat)
  deriving DecidableEq, Repr

/-- The state the tuning functions work on: the transponder registries, the
outcomes of the coming uses of the frontend, and the frequencies reported by
the messages "retrying with f=" so far. -/
structure tuner where
  net : net_model
  fe : List fe_call
  retrying : List Nat
  deriving DecidableEq, Repr

/-- The loop `for (i = 0; i < 10; i++)` of __tune_to_transponder on the
results of FE_READ_STATUS (with none left, the ioctl fails): `some 0` when a
status has FE_HAS_LOCK, `some (-1)` when the ioctl fails, `none` when the loop
ends without a lock. -/
def wait_for_lock : Nat → List (Int × Nat) → Option Int
  | 0, _ => none
  | n + 1, r =>
    let c := r.headD (-1, 0)
    if c.1 = -1 then some (-1)
    else if c.2 &&& FE_HAS_LOCK ≠ 0 then some 0
    else wait_for_lock n r.tail

/-- The function __tune_to_transponder.  The outcome of the frontend is taken
from the head of `fe` (with none left, FE_SET_FRONTEND fails).  The switch
commands and the frequency offset of a satellite frontend only concern what is
sent to the hardware and are not modelled. -/
def __tune_to_transponder (t : Nat) (st : tuner) : Int × tuner :=
  let st := { st with net := { st.net with current_tp := t } }
  if (tp_at st.net t).param = zero_param then (-1, st)
  else
    let c := st.fe.headD { set_frontend := -1, status := [] }
    let st := { st with fe := st.fe.tail }
    if c.set_frontend = -1 then (-1, st)
    else
      match wait_for_lock 10 c.status with
      | some r =>
        if r = 0 then
          (0, { st with net := tp_store st.net t { tp_at st.net t with last_tuning_failed := 0 } })
        else (-1, st)
      | none =>
        (-1, { st with net := tp_store st.net t { tp_at st.net t with last_tuning_failed := 1 } })

/-- The first statements of tune_to_transponder: the transponder is moved from
the list it is in to the tail of `scanned_transponders` and marked as
scanned. -/
def mark_scanned (t : Nat) (net : net_model) : net_model :=
  let net := { net with
    new_transponders := net.new_transponders.erase t,
    scanned_transponders := net.scanned_transponders.erase t ++ [t] }
  tp_store net t { tp_at net t with scan_done := 1 }

/-- The function tune_to_transponder: the transponder is moved to the scanned
list; one of another delivery system is marked as failed; otherwise it is
tuned to, a second time if the first attempt fails. -/
def tune_to_transponder (cfg : config) (t : Nat) (st : tuner) : Int × tuner :=
  let net := mark_scanned t st.net
  if (tp_at net t).type ≠ cfg.fe_type then
    (-1, { st with net := tp_store net t { tp_at net t with last_tuning_failed := 1 } })
  else
    let r := __tune_to_transponder t { st with net := net }
    if r.1 = 0 then (0, r.2) else __tune_to_transponder t r.2

/-- The assignments of tune_to_next_transponder before `goto retry`: the
frequency becomes the last of the alternatives, `n_other_f` is decremented and
the frequency is reported. -/
def next_other_f (t : Nat) (st : tuner) : tuner :=
  let tp := tp_at st.net t
  let f := (tp.other_f.getD []).getD (tp.n_other_f - 1) 0
  { st with
    net := tp_store st.net t
      { tp with param := { tp.param with frequency := f }, n_other_f := tp.n_other_f - 1 },
    retrying := st.retrying ++ [f] }

/-- The body of the loop of tune_to_next_transponder for the transponder `t`,
with its `goto retry`: `none` when the fuel runs out, else the value of the
last tune_to_transponder and the state. -/
def tune_retry (cfg : config) (t : Nat) : Nat → tuner → Option (Int × tuner)
  | 0, _ => none
  | fuel + 1, st =>
    let r := tune_to_transponder cfg t st
    if r.1 = 0 then some (0, r.2)
    else
      let tp := tp_at r.2.net t
      if tp.other_frequency_flag ≠ 0 ∧ tp.other_f.isSome ∧ tp.n_other_f ≠ 0 then
        tune_retry cfg t fuel (next_other_f t r.2)
      else some (-1, r.2)

/-- The loop `list_for_each_safe` of tune_to_next_transponder over the
transponders that are in `new_transponders` when it starts.  Each transponder
may be retried once for each of its alternative frequencies, which bounds the
fuel of its retries. -/
def tune_to_next_loop (cfg : config) : List Nat → tuner → Option (Int × tuner)
  | [], st => some (-1, st)
  | t :: rest, st =>
    match tune_retry cfg t ((tp_at st.net t).n_other_f + 1) st with
    | none => none
    | some r => if r.1 = 0 then some (0, r.2) else tune_to_next_loop cfg rest r.2

/-- The function tune_to_next_transponder. -/
def tune_to_next_transponder (cfg : config) (st : tuner) : Option (Int × tuner) :=
  tune_to_next_loop cfg st.net.new_transponders st

/-! ## The function get_pmt_pid of szap -/

/-- The effect of `read (patfd, buf, sizeof(buft))` on the 4096-byte buffer of
get_pmt_pid: the first `count` bytes are replaced. -/
def read_buft (buf : List Nat) (r : read_result) : List Nat :=
  if r.count < 0 then buf
  else
    let n := min r.count.toNat 4096
    rd_bytes r.data 0 n ++ buf.drop n

/-- The loop `while (section_length > 0)` of get_pmt_pid, with `buf` at offset
`off` of the section: the value of `pmt_pid` when it ends. -/
def pmt_pid_loop (buf : List Nat) (sid : Int) : Nat → Nat → Int → Int → Int
  | 0, _, _, pmt_pid => pmt_pid
  | fuel + 1, off, section_length, pmt_pid =>
    if section_length > 0 then
      let service_id : Nat := (rd buf off <<< 8) ||| rd buf (off + 1)
      if (service_id : Int) = sid then
        pmt_pid_loop buf sid fuel (off + 4) (0 - 4)
          ((((rd buf (off + 2) &&& 0x1f) <<< 8) ||| rd buf (off + 3) : Nat) : Int)
      else pmt_pid_loop buf sid fuel (off + 4) (section_length - 4) pmt_pid
    else pmt_pid

/-- The loop `while (!patread)` of get_pmt_pid: `reads` holds the outcomes of
the coming calls of `read`; with none left the call does not return, which is
`none`. -/
def get_pmt_pid_reads (sid : Int) : Nat → List read_result → List Nat → Option Int
  | 0, _, _ => none
  | fuel + 1, reads, buf =>
    match reads with
    | [] => none
    | r1 :: rest =>
      let again := decide (r1.count < 0 ∧ r1.errno = EOVERFLOW)
      if again ∧ rest = [] then none
      else
        let r2 := rest.headD r1
        let count := if again then r2.count else r1.count
        let buf := if again then read_buft (read_buft buf r1) r2 else read_buft buf r1
        let rest := if again then rest.tail else rest
        if count < 0 then some (-1)
        else
          let section_length : Nat := ((rd buf 1 &&& 0x0f) <<< 8) ||| rd buf 2
          if count ≠ (section_length : Int) + 3 then get_pmt_pid_reads sid fuel rest buf
          else
            some (pmt_pid_loop buf sid ((section_length : Int) - 8).toNat 8
              ((section_length : Int) - 8) 0)

/-- The function get_pmt_pid: `open_result` and `set_filter` are the results
of `open` and of `ioctl(DMX_SET_FILTER)`, `reads` the outcomes of the calls of
`read`, and `buft` the content of the buffer, which is not initialised. -/
def get_pmt_pid (open_result set_filter : Int) (reads : List read_result) (buft : List Nat)
    (sid : Int) : Option Int :=
  if open_result < 0 then some (-1)
  else if set_filter = -1 then some (-1)
  else get_pmt_pid_reads sid reads.length reads buft

/-! ## The parameter tables of tzap.c -/

/-- The characters of a C string literal as `char` values; the terminating NUL
is not part of the list. -/
def c_string (s : String) : List Nat := s.toList.map (fun c => c.toNat)

/-- The `Param` of tzap.c: a name and the value it stands for. -/
structure Param where
  name : List Nat
  value : Int
  deriving DecidableEq, Repr

def inversion_list : List Param :=
  [{ name := c_string "INVERSION_OFF", value := INVERSION_OFF },
   { name := c_string "INVERSION_ON", value := INVERSION_ON },
   { name := c_string "INVERSION_AUTO", value := INVERSION_AUTO }]

def bw_list : List Param :=
  [{ name := c_string "BANDWIDTH_6_MHZ", value := BANDWIDTH_6_MHZ },
   { name := c_string "BANDWIDTH_7_MHZ", value := BANDWIDTH_7_MHZ },
   { name := c_string "BANDWIDTH_8_MHZ", value := BANDWIDTH_8_MHZ }]

def fec_list : List Param :=
  [{ name := c_string "FEC_1_2", value := FEC_1_2 },
   { name := c_string "FEC_2_3", value := FEC_2_3 },
   { name := c_string "FEC_3_4", value := FEC_3_4 },
   { name := c_string "FEC_4_5", value := FEC_4_5 },
   { name := c_string "FEC_5_6", value := FEC_5_6 },
   { name := c_string "FEC_6_7", value := FEC_6_7 },
   { name := c_string "FEC_7_8", value := FEC_7_8 },
   { name := c_string "FEC_8_9", value := FEC_8_9 },
   { name := c_string "FEC_AUTO", value := FEC_AUTO },
   { name := c_string "FEC_NONE", value := FEC_NONE }]

def guard_list : List Param :=
  [{ name := c_string "GUARD_INTERVAL_1_16", value := GUARD_INTERVAL_1_16 },
   { name := c_string "GUARD_INTERVAL_1_32", value := GUARD_INTERVAL_1_32 },
   { name := c_string "GUARD_INTERVAL_1_4", value := GUARD_INTERVAL_1_4 },
   { name := c_string "GUARD_INTERVAL_1_8", value := GUARD_INTERVAL_1_8 }]

def hierarchy_list : List Param :=
  [{ name := c_string "HIERARCHY_1", value := HIERARCHY_1 },
   { name := c_string "HIERARCHY_2", value := HIERARCHY_2 },
   { name := c_string "HIERARCHY_4", value := HIERARCHY_4 },
   { name := c_string "HIERARCHY_NONE", value := HIERARCHY_NONE }]

def constellation_list : List Param :=
  [{ name := c_string "QPSK", value := QPSK },
   { name := c_string "QAM_128", value := QAM_128 },
   { name := c_string "QAM_16", value := QAM_16 },
   { name := c_string "QAM_256", value := QAM_256 },
   { name := c_string "QAM_32", value := QAM_32 },
   { name := c_string "QAM_64", value := QAM_64 }]

def transmissionmode_list : List Param :=
  [{ name := c_string "TRANSMISSION_MODE_2K", value := TRANSMISSION_MODE_2K },
   { name := c_string "TRANSMISSION_MODE_8K", value := TRANSMISSION_MODE_8K }]

/-- The macro LIST_SIZE. -/
def LIST_SIZE (x : List Param) : Int := x.length

/-- The function toupper in the C locale. -/
def toupper (c : Nat) : Nat := if 97 ≤ c ∧ c ≤ 122 then c - 32 else c

/-- The read `plist->name[character]` with `plist` at position `index` of the
table: a character of the name, or the NUL that ends it; `none` for a read
beyond the NUL or beyond the table, which C leaves undefined. -/
def name_at (plist : List Param) (index character : Nat) : Option Nat :=
  match plist.get? index with
  | none => none
  | some p =>
    if character < p.name.length then some (p.name.getD character 0)
    else if character = p.name.length then some 0
    else none

/-- The inner loop `while (toupper(c) != plist->name[character])` of
parse_param: `some (some index)` is the position of `plist` when the loop
ends, `some none` is `return -2`, and `none` is an undefined read or the end of
the fuel. -/
def skip_entries (plist : List Param) (list_size : Int) (c character : Nat) :
    Nat → Nat → Option (Option Nat)
  | 0, _ => none
  | fuel + 1, index =>
    match name_at plist index character with
    | none => none
    | some x =>
      if toupper c ≠ x then
        if ((index + 1 : Nat) : Int) ≥ list_size then some none
        else skip_entries plist list_size c character fuel (index + 1)
      else some (some index)

/-- The loop `while (1)` of parse_param on the characters the descriptor still
delivers: the return value and the value of `*param` afterwards; `none` is an
undefined read. -/
def parse_param_loop (plist : List Param) (list_size : Int) (param : Int) :
    List Nat → Nat → Nat → Option (Int × Int)
  | [], _, _ => some (-1, param)
  | c :: rest, character, index =>
    match name_at plist index character with
    | none => none
    | some x =>
      if (c = 58 ∨ c = 10) ∧ x = 0 then
        some (0, ((plist.get? index).map (fun p => p.value)).getD param)
      else
        match skip_entries plist list_size c character (plist.length + 1) index with
        | none => none
        | some none => some (-2, param)
        | some (some i) => parse_param_loop plist list_size param rest (character + 1) i

/-- The function parse_param: `input` holds the characters the file descriptor
delivers, one per `read`, and `param` the value of `*param` before the call.
Returns the return value and `*param` afterwards. -/
def parse_param (input : List Nat) (plist : List Param) (list_size : Int) (param : Int) :
    Option (Int × Int) :=
  parse_param_loop plist list_size param input 0 0

/-! ## The descriptor iterators of libsi2

A descriptor is the byte list `d` that starts at its tag; a pointer into it is
the byte offset from `d`, and NULL is `none`. -/

/-- The size of `struct descriptor` (tag and length): the `2` of
`(uint8_t*) d + 2`. -/
def sizeof_descriptor : Nat := 2

def sizeof_dvb_multilingual_network_name_descriptor : Nat := sizeof_descriptor
def sizeof_dvb_multilingual_network_name : Nat := 3 + 1
def sizeof_dvb_multilingual_component_descriptor : Nat := sizeof_descriptor + 1
def sizeof_dvb_multilingual_component : Nat := 3 + 1
def sizeof_dvb_cell_list_descriptor : Nat := sizeof_descriptor
def sizeof_dvb_cell_list_entry : Nat := 2 + 2 + 2 + 4

/-- The C expression `p + n` on a pointer to objects of `size` bytes. -/
def ptr_add (p n size : Nat) : Nat := p + n * size

/-- The loop of dvb_multilingual_network_name_descriptor_parse: `some true`
when it ends with the descriptor accepted, `some false` for NULL; `none` when
the fuel runs out. -/
def names_parse_loop (d : List Nat) (len : Nat) : Nat → Nat → Option Bool
  | 0, _ => none
  | fuel + 1, pos =>
    if pos < len then
      let e := 2 + pos
      let pos1 := pos + sizeof_dvb_multilingual_network_name
      if pos1 > len then some false
      else
        let pos2 := pos1 + rd d (e + 3)
        if pos2 > len then some false
        else names_parse_loop d len fuel pos2
    else some true

/-- The function dvb_multilingual_network_name_descriptor_parse: `some true`
when it returns the descriptor, `some false` when it returns NULL. -/
def dvb_multilingual_network_name_descriptor_parse (d : List Nat) : Option Bool :=
  names_parse_loop d (rd d 1) (rd d 1 + 1) 0

/-- The function dvb_multilingual_network_name_descriptor_names_first.  In
`(struct dvb_multilingual_network_name *) (uint8_t*) d + sizeof(...)` both
casts apply to `d` before the addition, which therefore is an addition to a
pointer to `struct dvb_multilingual_network_name`. -/
def dvb_multilingual_network_name_descriptor_names_first (d : List Nat) : Option Nat :=
  if rd d 1 = 0 then none
  else
    some (ptr_add 0 sizeof_dvb_multilingual_network_name_descriptor
      sizeof_dvb_multilingual_network_name)

/-- The function dvb_multilingual_network_name_descriptor_names_next. -/
def dvb_multilingual_network_name_descriptor_names_next (d : List Nat) (pos : Nat) :
    Option Nat :=
  let e := ptr_add (ptr_add 0 2 1) (rd d 1) 1
  let next := ptr_add (ptr_add pos sizeof_dvb_multilingual_network_name 1) (rd d (pos + 3)) 1
  if next ≥ e then none else some next

/-- The positions a `for` loop visits that starts with `pos` and steps with
dvb_multilingual_network_name_descriptor_names_next; `none` when the fuel runs
out. -/
def names_iterate (d : List Nat) : Nat → Option Nat → Option (List Nat)
  | _, none => some []
  | 0, some _ => none
  | fuel + 1, some pos =>
    (names_iterate d fuel (dvb_multilingual_network_name_descriptor_names_next d pos)).map
      (fun l => pos :: l)

/-- The macro dvb_multilingual_network_name_descriptor_names_for_each: the
positions its loop visits. -/
def dvb_multilingual_network_name_descriptor_names_for_each (d : List Nat) :
    Option (List Nat) :=
  names_iterate d (rd d 1 + 3) (dvb_multilingual_network_name_descriptor_names_first d)

/-- The function dvb_multilingual_component_descriptor_components_first, with
the cast applied before the addition as in names_first. -/
def dvb_multilingual_component_descriptor_components_first (d : List Nat) : Option Nat :=
  if rd d 1 = 1 then none
  else
    some (ptr_add 0 sizeof_dvb_multilingual_component_descriptor
      sizeof_dvb_multilingual_component)

/-- The function dvb_cell_list_descriptor_cells_first, with the cast applied
before the addition as in names_first. -/
def dvb_cell_list_descriptor_cells_first (d : List Nat) : Option Nat :=
  if rd d 1 = 0 then none
  else some (ptr_add 0 sizeof_dvb_cell_list_descriptor sizeof_dvb_cell_list_entry)

/-! ## Auxiliary definitions of the verification -/

/-- A section_buf with its receive buffer blanked: what is left is the
reassembly state and the filter parameters. -/
def erase_buf (s : section_buf) : section_buf := { s with buf := [] }

/-- The effect of enter_segment on the chain of the filter. -/
def chain_enter (chain : List section_buf) (table_id table_id_ext
    section_version_number : Int) : List section_buf × Nat :=
  let sel := select_segment chain table_id table_id_ext section_version_number
  (sel.1.set sel.2 (version_check (sel.1.getD sel.2 calloc_section_buf) table_id_ext
     section_version_number), sel.2)

/-- The effect of record_section on the chain of the filter. -/
def chain_record (chain : List section_buf) (k section_number last_section_number : Nat) :
    List section_buf :=
  if get_bit (chain.getD k calloc_section_buf).section_done section_number = 0 then
    let c := chain.set k (mark_section section_number (chain.getD k calloc_section_buf))
    if all_sections_seen (c.getD k calloc_section_buf).section_done last_section_number then
      c.set k (mark_done (c.getD k calloc_section_buf))
    else c
  else chain

/-- The effect of parse_section on the chain of its filter, as a function of
the chain alone: the return value and the chain afterwards.  It is the text of
parse_section with the call of the table interpreter left out. -/
def reassemble (chain : List section_buf) : Int × List section_buf :=
  let buf := (chain.getD 0 calloc_section_buf).buf
  let table_id : Nat := rd buf 0
  if (chain.getD 0 calloc_section_buf).table_id ≠ table_id then (-1, chain)
  else
    let table_id_ext : Nat := (rd buf 3 <<< 8) ||| rd buf 4
    let section_version_number : Nat := (rd buf 5 >>> 1) &&& 0x1f
    let section_number := rd buf 6
    let last_section_number := rd buf 7
    let e := chain_enter chain table_id table_id_ext section_version_number
    let c := chain_record e.1 e.2 section_number last_section_number
    (section_result (c.getD e.2 calloc_section_buf), c)

/-- The table_id of the section in `buf`, as parse_section decodes it. -/
def hdr_tid (buf : List Nat) : Int := ((rd buf 0 : Nat) : Int)

/-- The table_id_ext of the section in `buf`, as parse_section decodes it. -/
def hdr_ext (buf : List Nat) : Int := (((rd buf 3 <<< 8) ||| rd buf 4 : Nat) : Int)

/-- The version_number of the section in `buf`, as parse_section decodes it. -/
def hdr_ver (buf : List Nat) : Int := ((((rd buf 5 >>> 1) &&& 0x1f) : Nat) : Int)

/-- What record_section does to the state it works on: the bit of the section is
set if it was clear, and the done flag raised if no bit of
`0..last_section_number` is clear then. -/
def record_state (s : section_buf) (section_number last_section_number : Nat) : section_buf :=
  if get_bit s.section_done section_number = 0 then
    if all_sections_seen (mark_section section_number s).section_done last_section_number then
      mark_done (mark_section section_number s)
    else mark_section section_number s
  else s

/-- What parse_section does to the state it selects: version_check followed by
record_state. -/
def update_state (s : section_buf) (table_id_ext section_version_number : Int)
    (section_number last_section_number : Nat) : section_buf :=
  record_state (version_check s table_id_ext section_version_number) section_number
    last_section_number

/-- The effect of parse_descriptors on the service it is given in a PMT loop:
only the ISO-639 language descriptor (tag 0x0a) is acted on. -/
def pmt_descriptors (buf : List Nat) : Nat → Nat → Int → service → service
  | 0, _, _, sv => sv
  | fuel + 1, off, descriptors_loop_len, sv =>
    if descriptors_loop_len > 0 then
      let descriptor_len := (rd buf (off + 1) + 2) % 256
      if descriptor_len = 0 then sv
      else
        pmt_descriptors buf fuel (off + descriptor_len) (descriptors_loop_len - descriptor_len)
          (if rd buf off = 0x0a then parse_iso639_language_descriptor buf off sv else sv)
    else sv

/-- The effect of parse_pmt_stream on the service of the PMT. -/
def pmt_stream_service (buf : List Nat) (off : Nat) (sv : service) : service :=
  let ES_info_len : Nat := ((rd buf (off + 3) &&& 0x0f) <<< 8) ||| rd buf (off + 4)
  let elementary_pid : Nat := ((rd buf (off + 1) &&& 0x1f) <<< 8) ||| rd buf (off + 2)
  let stream_type := rd buf off
  if stream_type = 0x01 ∨ stream_type = 0x02 then
    if sv.video_pid = 0 then { sv with video_pid := elementary_pid } else sv
  else if stream_type = 0x03 ∨ stream_type = 0x04 then
    if sv.audio_num < AUDIO_CHAN_MAX then
      let sv2 := pmt_descriptors buf ES_info_len (off + 5) ES_info_len
        { sv with audio_pid := sv.audio_pid.set sv.audio_num elementary_pid }
      { sv2 with audio_num := sv2.audio_num + 1 }
    else sv
  else if stream_type = 0x06 then
    if find_descriptor 0x56 buf ES_info_len (off + 5) ES_info_len ≠ 0 then
      { sv with teletext_pid := elementary_pid }
    else if find_descriptor 0x59 buf ES_info_len (off + 5) ES_info_len ≠ 0 then
      { sv with subtitling_pid := elementary_pid }
    else if find_descriptor 0x6a buf ES_info_len (off + 5) ES_info_len ≠ 0 then
      { sv with ac3_pid := elementary_pid }
    else sv
  else sv

/-- The effect of parse_pmt_loop on the service of the PMT. -/
def pmt_loop_service (buf : List Nat) : Nat → Nat → Int → service → service
  | 0, _, _, sv => sv
  | fuel + 1, off, section_length, sv =>
    if section_length > 0 then
      let ES_info_len : Nat := ((rd buf (off + 3) &&& 0x0f) <<< 8) ||| rd buf (off + 4)
      pmt_loop_service buf fuel (off + (ES_info_len + 5)) (section_length - (ES_info_len + 5))
        (pmt_stream_service buf off sv)
    else sv

/-- The effect of parse_pmt on the service it finds. -/
def pmt_service (buf : List Nat) (off : Nat) (section_length : Int) (sv : service) : service :=
  let sv : service :=
    { sv with pcr_pid := ((rd buf off &&& 0x1f) <<< 8) ||| rd buf (off + 1) }
  let program_info_len : Nat := ((rd buf (off + 2) &&& 0x0f) <<< 8) ||| rd buf (off + 3)
  let section_length := section_length - (program_info_len + 4)
  let sv := pmt_loop_service buf section_length.toNat (off + (program_info_len + 4))
    section_length sv
  if sv.audio_num > AUDIO_CHAN_MAX then { sv with audio_num := AUDIO_CHAN_MAX } else sv

/-- The effect of parse_descriptors on the service it is given in an SDT loop:
the service descriptor (tag 0x48) and the CA identifier descriptor (tag 0x53)
are acted on. -/
def sdt_descriptors (buf : List Nat) : Nat → Nat → Int → service → service
  | 0, _, _, sv => sv
  | fuel + 1, off, descriptors_loop_len, sv =>
    if descriptors_loop_len > 0 then
      let descriptor_len := (rd buf (off + 1) + 2) % 256
      if descriptor_len = 0 then sv
      else
        sdt_descriptors buf fuel (off + descriptor_len) (descriptors_loop_len - descriptor_len)
          (if rd buf off = 0x48 then parse_service_descriptor buf off sv
           else if rd buf off = 0x53 then parse_ca_identifier_descriptor buf off sv
           else sv)
    else sv

/-- The 20 bytes of an SDT section up to the provider name: the section header
(table_id 0x42), the original_network_id and the reserved byte, then one service
entry for `sid` with running_status `r`, free_CA_mode `c` and a descriptor loop
holding one service descriptor (tag 0x48, service_type 1) for names of `np` and
`ns` bytes. -/
def sdt_head (sid r c np ns : Nat) : List Nat :=
  [0x42, 0xf0 + (22 + (np + ns)) / 256, (22 + (np + ns)) % 256, 0x00, 0x01, 0xc1, 0x00, 0x00,
   0x00, 0x01, 0xff,
   sid / 256, sid % 256, 0xfc, r * 32 + c * 16 + (5 + (np + ns)) / 256, (5 + (np + ns)) % 256,
   0x48, 3 + (np + ns), 0x01, np]

/-- An SDT section with one service entry for `sid` with running_status `r`,
free_CA_mode `c` and a service descriptor with provider name `P` and service
name `S`; four CRC bytes follow. -/
def sdt_section (sid r c : Nat) (P S : List Nat) : List Nat :=
  sdt_head sid r c P.length S.length ++ (P ++ ([S.length] ++ (S ++ [0x12, 0x34, 0x56, 0x78])))

/-- A name of printable ASCII characters. -/
def printable (name : List Nat) : Prop := ∀ ch ∈ name, 0x20 ≤ ch ∧ ch < 0x7f

instance printable_decidable (name : List Nat) : Decidable (printable name) :=
  inferInstanceAs (Decidable (∀ ch ∈ name, 0x20 ≤ ch ∧ ch < 0x7f))

/-- A NIT section (table_id 0x40) of network `nid` with an empty network
descriptor loop and one transport stream entry for `tsid` whose descriptor loop
holds one terrestrial delivery system descriptor (tag 0x5a, length 11):
centre_frequency `x` in units of 10 Hz, then the bytes `b6 b7 b8` with
bandwidth, constellation, code rates, guard interval, mode and the
other_frequency flag, then four reserved bytes; four CRC bytes follow. -/
def nit_section (nid tsid x b6 b7 b8 : Nat) : List Nat :=
  [0x40, 0xf0, 0x20, nid / 256, nid % 256, 0xc1, 0x00, 0x00,
   0xf0, 0x00,
   0xf0, 0x13,
   tsid / 256, tsid % 256, 0x00, 0x01, 0xf0, 0x0d,
   0x5a, 0x0b, x / 16777216, x / 65536 % 256, x / 256 % 256, x % 256, b6, b7, b8,
   0xff, 0xff, 0xff, 0xff,
   0x12, 0x34, 0x56, 0x78]

/-- The scenario of two NIT sections for one transport stream: a section at
centre_frequency `x1`, then one at `x2`, both parsed by parse_nit as
parse_section calls it (`buf + 8`, section_length field 32 less 11). -/
def nit_scenario (cfg : config) (net : net_model) (nid tsid x1 x2 b6 b7 b8 : Nat) : net_model :=
  parse_nit cfg (nit_section nid tsid x2 b6 b7 b8) 8 21 nid
    (parse_nit cfg (nit_section nid tsid x1 b6 b7 b8) 8 21 nid net)

/-- The number of transponders with the given transport_stream_id among those
of the scanned and new lists. -/
def count_tsid (net : net_model) (tsid : Int) : Nat :=
  ((net.scanned_transponders ++ net.new_transponders).filter
    (fun p => decide ((tp_at net p).transport_stream_id = tsid))).length

/-- The state after a `read` has delivered the section `sec` into the buffer of
the filter at `sp`. -/
def load_section (sp : Nat) (sec : List Nat) (st : scan_state) : scan_state :=
  { st with flt := seg_update st.flt sp 0 (fun b => read_into b (read_of sec)) }

/-- The sections of a list delivered one after the other to the filter at `sp`
and handed to parse_section: for each section the value parse_section returns
and the `sectionfilter_done` flag of the filter after the call; and the final
state. -/
def feed_sections (cfg : config) (sp : Nat) :
    List (List Nat) → scan_state → List (Int × Int) × scan_state
  | [], st => ([], st)
  | sec :: rest, st =>
    let r := parse_section cfg sp (load_section sp sec st)
    let t := feed_sections cfg sp rest r.2
    ((r.1, (seg_at r.2.flt sp 0).sectionfilter_done) :: t.1, t.2)

/-- A chain of exactly three states, for table_id_ext 1, 2 and 3 in this order,
whose head is a segmented filter for `tid`, each with a bitmap of 32 bytes. -/
def three_segments (tid : Int) : List section_buf → Bool
  | [a, b, c] =>
    a.segmented && decide (a.table_id = tid) && decide (a.table_id_ext = 1) &&
    decide (b.table_id_ext = 2) && decide (c.table_id_ext = 3) &&
    decide (a.section_done.length = 32) && decide (b.section_done.length = 32) &&
    decide (c.section_done.length = 32)
  | _ => false

/-- A PAT section with one program entry: service `sid` with PMT pid `p` (the
reserved bits set), followed by four CRC bytes. -/
def pat_section (sid p : Nat) : List Nat :=
  [0x00, 0xb0, 0x0d, 0x00, 0x01, 0xc1, 0x00, 0x00,
   sid / 256, sid % 256, 0xe0 + p / 256, p % 256,
   0, 0, 0, 0]

/-- A PMT section for service `sid`: PCR pid `v`, empty program info, a video
stream (type 0x02, pid `v`, no descriptors) and an audio stream (type 0x04, pid
`a`) with one ISO-639 language descriptor of length 4 carrying the language
code `l0 l1 l2`; four CRC bytes follow. -/
def pmt_section (sid v a l0 l1 l2 : Nat) : List Nat :=
  [0x02, 0xb0, 0x1d, sid / 256, sid % 256, 0xc1, 0x00, 0x00,
   0xe0 + v / 256, v % 256, 0xf0, 0x00,
   0x02, 0xe0 + v / 256, v % 256, 0xf0, 0x00,
   0x04, 0xe0 + a / 256, a % 256, 0xf0, 0x06, 0x0a, 0x04, l0, l1, l2, 0x00,
   0, 0, 0, 0]

/-! ## The service list as a table keyed by service_id -/

/-- The service find_service returns for an id, as a value; `none` when it
returns NULL. -/
def lookup_service (tp : transponder) (service_id : Int) : Option service :=
  (find_service tp service_id).map (service_at tp)

/-- The service alloc_service creates: zeroed but for its id. -/
def new_service (service_id : Int) : service :=
  { calloc_service with service_id := service_id }

/-- The pattern `s = find_service(tp, id); if (!s) s = alloc_service(tp, id);`
followed by assignments `f` to fields of `*s`, on the service list. -/
def upsert_service (services : List service) (service_id : Int) (f : service → service) :
    List service :=
  match find_service_from services service_id 0 with
  | some i => services.set i (f (services.getD i calloc_service))
  | none => services ++ [f (new_service service_id)]

/-- The service the find-or-allocate pattern works on: the one found, or the
one alloc_service creates. -/
def upsert_target (tp : transponder) (service_id : Int) : service :=
  (lookup_service tp service_id).getD (new_service service_id)

/-- The service_id of the PAT entry at `off`. -/
def pat_sid (buf : List Nat) (off : Nat) : Nat := (rd buf off <<< 8) ||| rd buf (off + 1)

/-- The 13-bit PMT pid of the PAT entry at `off`. -/
def pat_pid (buf : List Nat) (off : Nat) : Nat :=
  ((rd buf (off + 2) &&& 0x1f) <<< 8) ||| rd buf (off + 3)

/-- The assignments parse_pat makes to the service of an entry: `pmt_pid`, and
`priv` when the service has no filter yet and the pid is not 0; `p` is the
pointer to the filter that is then allocated. -/
def pat_update (pid p : Nat) (sv : service) : service :=
  let sv : service := { sv with pmt_pid := pid }
  if sv.priv.isNone ∧ sv.pmt_pid ≠ 0 then { sv with priv := some p } else sv

/-- The offsets of the entries the loop of parse_pat visits (the loop control
of parse_pat_loop). -/
def pat_offsets : Nat → Nat → Int → List Nat
  | 0, _, _ => []
  | fuel + 1, off, section_length =>
    if section_length > 0 then off :: pat_offsets fuel (off + 4) (section_length - 4)
    else []

/-- The pmt_pid of the last entry for `service_id` among the PAT entries at the
given offsets; `none` when there is no such entry. -/
def pat_last_pid (buf : List Nat) (offs : List Nat) (service_id : Int) : Option Nat :=
  offs.foldl (fun acc o => if ((pat_sid buf o : Nat) : Int) = service_id then
    some (pat_pid buf o) else acc) none

/-- The service_id of the SDT service entry at `off`. -/
def sdt_sid (buf : List Nat) (off : Nat) : Nat := (rd buf off <<< 8) ||| rd buf (off + 1)

/-- The descriptors_loop_length of the SDT service entry at `off`. -/
def sdt_dll (buf : List Nat) (off : Nat) : Nat :=
  ((rd buf (off + 3) &&& 0x0f) <<< 8) ||| rd buf (off + 4)

/-- The 3-bit running_status of the SDT service entry at `off`. -/
def sdt_running (buf : List Nat) (off : Nat) : Int :=
  (((rd buf (off + 3) >>> 5) &&& 0x7 : Nat) : Int)

/-- The free_CA_mode bit of the SDT service entry at `off`. -/
def sdt_scrambled (buf : List Nat) (off : Nat) : Nat := (rd buf (off + 3) >>> 4) &&& 1

/-- The assignments parse_sdt makes to the service of the entry at `off`:
`running`, `scrambled`, and what the descriptors of the entry set. -/
def sdt_update (buf : List Nat) (off : Nat) (sv : service) : service :=
  sdt_descriptors buf (sdt_dll buf off) (off + 5) (sdt_dll buf off)
    { sv with running := sdt_running buf off, scrambled := sdt_scrambled buf off }

/-- The offsets of the service entries the loop of parse_sdt visits (the loop
control of parse_sdt_loop): the walk ends at an entry whose descriptor loop is
empty or longer than the remaining section_length. -/
def sdt_offsets (buf : List Nat) : Nat → Nat → Int → List Nat
  | 0, _, _ => []
  | fuel + 1, off, section_length =>
    if section_length > 4 then
      let descriptors_loop_len : Nat := ((rd buf (off + 3) &&& 0x0f) <<< 8) ||| rd buf (off + 4)
      if section_length < descriptors_loop_len ∨ descriptors_loop_len = 0 then []
      else
        off :: sdt_offsets buf fuel (off + (descriptors_loop_len + 5))
          (section_length - (descriptors_loop_len + 5))
    else []

/-- The offset of the last entry for `service_id` among the SDT entries at the
given offsets; `none` when there is no such entry. -/
def sdt_last_offset (buf : List Nat) (offs : List Nat) (service_id : Int) : Option Nat :=
  offs.foldl (fun acc o => if ((sdt_sid buf o : Nat) : Int) = service_id then some o else acc)
    none

/-- No two services of a transponder share a service_id, in every transponder
of the arena. -/
def unique_service_ids (net : net_model) : Prop :=
  ∀ t ∈ net.transponders, (t.services.map (fun s => s.service_id)).Nodup

/-- The PMT filters the services of a transponder own (their non-NULL `priv`
pointers), in list order. -/
def filter_owners (tp : transponder) : List Nat := tp.services.filterMap (fun s => s.priv)

/-- The service of the current transponder with the given id. -/
def current_service (net : net_model) (service_id : Int) : Option service :=
  lookup_service (tp_at net net.current_tp) service_id

/-- The body of the loop of parse_sdt on the whole scanner state. -/
def sdt_entry_on (cfg : config) (buf : List Nat) (off : Nat) (st : scan_state) : scan_state :=
  { st with net := parse_sdt_entry cfg buf off st.net }

/-- Two scanner states with the same filters and the same service for every
service_id of the current transponder. -/
def same_services (a b : scan_state) : Prop :=
  a.flt = b.flt ∧ ∀ j, current_service a.net j = current_service b.net j

instance unique_service_ids_decidable (net : net_model) : Decidable (unique_service_ids net) :=
  inferInstanceAs (Decidable (∀ t ∈ net.transponders,
    (t.services.map (fun s : service => s.service_id)).Nodup))

/-- The filter pointers of the scheduler are valid, and so are the current
transponder and the `priv` pointers of its services. -/
def pat_filters_wf (st : scan_state) : Prop :=
  st.net.current_tp < st.net.transponders.length ∧
  (∀ p ∈ st.flt.running_filters ++ st.flt.waiting_filters, p < st.flt.filters.length) ∧
  (∀ q ∈ filter_owners (tp_at st.net st.net.current_tp), q < st.flt.filters.length)

/-- What a run of parse_pat from state `a` to state `b` does to the filters:
the filters allocated in between are the pointers from `a.flt.filters.length`
up to `b.flt.filters.length`; each of them is owned by one more service and
listed once more in the running or waiting list; a service keeps the filter it
had; the new filters are PMT filters (table_id 0x02) with a non-zero pid; and
the filters of `a` are untouched. -/
def pat_filters_step (a b : scan_state) : Prop :=
  b.net.current_tp = a.net.current_tp ∧
  b.net.transponders.length = a.net.transponders.length ∧
  a.flt.filters.length ≤ b.flt.filters.length ∧
  (filter_owners (tp_at b.net b.net.current_tp)).Perm
    (filter_owners (tp_at a.net a.net.current_tp) ++
      List.range' a.flt.filters.length (b.flt.filters.length - a.flt.filters.length)) ∧
  (b.flt.running_filters ++ b.flt.waiting_filters).Perm
    (a.flt.running_filters ++ a.flt.waiting_filters ++
      List.range' a.flt.filters.length (b.flt.filters.length - a.flt.filters.length)) ∧
  (∀ (sid : Int) (q : Nat), (current_service a.net sid).bind (fun s => s.priv) = some q →
    (current_service b.net sid).bind (fun s => s.priv) = some q) ∧
  (∀ p, a.flt.filters.length ≤ p → p < b.flt.filters.length →
    (seg_at b.flt p 0).table_id = 0x02 ∧ (seg_at b.flt p 0).pid ≠ 0) ∧
  (∀ p, p < a.flt.filters.length → chain_at b.flt p = chain_at a.flt p)

/-- A sequence of PAT sections handed to parse_pat one after the other; each is
given by its buffer, the offset of its payload and its section_length. -/
def pat_feed (cfg : config) : List (List Nat × Nat × Int) → scan_state → scan_state
  | [], st => st
  | sec :: rest, st => pat_feed cfg rest (parse_pat cfg sec.1 sec.2.1 sec.2.2 0 st)

/-- A transponder with the channel_num of its services blanked: what is left is
every field of the transponder and every other field of its services. -/
def without_channel_num (t : transponder) : transponder :=
  { t with services := t.services.map (fun s => { s with channel_num := 0 }) }

/-- The model `b` differs from `a` at most in the channel_num of services: the
two lists, `current_tp`, the number of transponders, every field of every
transponder and every other field of every service are the same. -/
def same_but_channel_num (a b : net_model) : Prop :=
  b.scanned_transponders = a.scanned_transponders ∧
  b.new_transponders = a.new_transponders ∧
  b.current_tp = a.current_tp ∧
  b.transponders.length = a.transponders.length ∧
  b.transponders.map without_channel_num = a.transponders.map without_channel_num

/-- The scratch transponder `tn` of parse_nit after the descriptors of the entry
at `off` have been parsed. -/
def nit_scratch (cfg : config) (buf : List Nat) (network_id : Int) (off : Nat)
    (net : net_model) : transponder :=
  let transport_stream_id : Nat := (rd buf off <<< 8) ||| rd buf (off + 1)
  let descriptors_loop_len : Nat := ((rd buf (off + 4) &&& 0x0f) <<< 8) ||| rd buf (off + 5)
  let tn : transponder :=
    { calloc_transponder with
      type := -1, network_id := network_id, transport_stream_id := transport_stream_id }
  match (parse_descriptors cfg .NIT buf descriptors_loop_len (off + 6)
    descriptors_loop_len (net, .tp tn)).2 with
  | .tp x => x
  | _ => tn

/-! ## The filter scheduler -/

/-- The scheduler before any filter is added: the two lists are empty and
`n_running` is 0. -/
def initial_sched (hw : List dmx_call) : filter_sched :=
  { filters := [], running_filters := [], waiting_filters := [], n_running := 0, hw := hw }

/-- The outcome start_filter takes from the demux device: the head of `hw`, or a
failing `open` when no outcome is left. -/
def next_call (flt : filter_sched) : dmx_call :=
  flt.hw.headD { fd := -1, set_filter := -1, now := 0 }

/-- The condition under which start_filter installs a filter: fewer than
MAX_RUNNING filters are running, `open` returns a descriptor and
`ioctl(DMX_SET_FILTER)` does not return -1. -/
def can_start (flt : filter_sched) : Prop :=
  flt.n_running < MAX_RUNNING ∧ 0 ≤ (next_call flt).fd ∧ (next_call flt).set_filter ≠ -1

instance can_start_decidable (flt : filter_sched) : Decidable (can_start flt) :=
  inferInstanceAs (Decidable (_ ∧ _ ∧ _))

/-- The consistency of the scheduler: `n_running` counts the running filters,
is at most MAX_RUNNING, and no filter is linked twice into the two lists. -/
def sched_ok (flt : filter_sched) : Prop :=
  flt.n_running = flt.running_filters.length ∧ flt.n_running ≤ MAX_RUNNING ∧
  (flt.running_filters ++ flt.waiting_filters).Nodup

instance sched_ok_decidable (flt : filter_sched) : Decidable (sched_ok flt) :=
  inferInstanceAs (Decidable (_ ∧ _ ∧ _))

/-- A demux call that lets start_filter go on: `open` returns a descriptor and
`ioctl(DMX_SET_FILTER)` does not return -1. -/
def call_ok (c : dmx_call) : Bool := decide (0 ≤ c.fd) && decide (c.set_filter ≠ -1)

/-- The number of filters the loop of remove_filter starts: it is bounded by
the length of `waiting_filters`, by the free slots up to MAX_RUNNING and by
the number of coming demux calls that succeed in a row. -/
def n_started (flt : filter_sched) : Nat :=
  min (min flt.waiting_filters.length (MAX_RUNNING - flt.n_running).toNat)
    (flt.hw.takeWhile call_ok).length

/-- The number of filters remove_filter moves from `waiting_filters` to
`running_filters`: one slot has become free, and filters are started for as
long as there is a waiting filter, a free slot and a demux call that
succeeds. -/
def n_moved (flt : filter_sched) : Nat :=
  min (min flt.waiting_filters.length (MAX_RUNNING - (flt.n_running - 1)).toNat)
    (flt.hw.takeWhile call_ok).length

/-! ## The elementary streams of a PMT -/

/-- The ES_info_length of the elementary stream entry at `off` of a PMT. -/
def pmt_es_len (buf : List Nat) (off : Nat) : Nat :=
  ((rd buf (off + 3) &&& 0x0f) <<< 8) ||| rd buf (off + 4)

/-- The elementary_PID of the elementary stream entry at `off` of a PMT. -/
def pmt_es_pid (buf : List Nat) (off : Nat) : Nat :=
  ((rd buf (off + 1) &&& 0x1f) <<< 8) ||| rd buf (off + 2)

/-- The offsets of the elementary stream entries the loop of parse_pmt visits
(the loop control of parse_pmt_loop). -/
def pmt_offsets (buf : List Nat) : Nat → Nat → Int → List Nat
  | 0, _, _ => []
  | fuel + 1, off, section_length =>
    if section_length > 0 then
      off :: pmt_offsets buf fuel (off + (pmt_es_len buf off + 5))
        (section_length - (pmt_es_len buf off + 5))
    else []

/-- The offsets of the elementary stream entries parse_pmt visits in the
payload at `off`: the loop starts behind the program info. -/
def pmt_streams (buf : List Nat) (off : Nat) (section_length : Int) : List Nat :=
  let program_info_len : Nat := ((rd buf (off + 2) &&& 0x0f) <<< 8) ||| rd buf (off + 3)
  pmt_offsets buf (section_length - (program_info_len + 4)).toNat (off + (program_info_len + 4))
    (section_length - (program_info_len + 4))

/-- The entry at `off` is a video stream (stream_type 0x01 or 0x02). -/
def is_video (buf : List Nat) (off : Nat) : Bool :=
  decide (rd buf off = 0x01) || decide (rd buf off = 0x02)

/-- The entry at `off` is an audio stream (stream_type 0x03 or 0x04). -/
def is_audio (buf : List Nat) (off : Nat) : Bool :=
  decide (rd buf off = 0x03) || decide (rd buf off = 0x04)

/-- The block of parse_pmt for an audio stream that fits: the pid is stored at
index `audio_num`, the descriptors of the stream are parsed, and `audio_num` is
incremented. -/
def add_audio_stream (buf : List Nat) (off : Nat) (sv : service) : service :=
  let sv2 := pmt_descriptors buf (pmt_es_len buf off) (off + 5) (pmt_es_len buf off)
    { sv with audio_pid := sv.audio_pid.set sv.audio_num (pmt_es_pid buf off) }
  { sv2 with audio_num := sv2.audio_num + 1 }

/-- The tags of the descriptors a walk over a descriptor loop visits (the loop
control of parse_descriptors and find_descriptor, with its 8-bit
`descriptor_len`). -/
def desc_tags (buf : List Nat) : Nat → Nat → Int → List Nat
  | 0, _, _ => []
  | fuel + 1, off, descriptors_loop_len =>
    if descriptors_loop_len > 0 then
      let descriptor_len := (rd buf (off + 1) + 2) % 256
      if descriptor_len = 0 then []
      else rd buf off :: desc_tags buf fuel (off + descriptor_len)
             (descriptors_loop_len - descriptor_len)
    else []

/-- The offsets of the audio streams among the entries parse_pmt visits. -/
def pmt_audio_streams (buf : List Nat) (off : Nat) (section_length : Int) : List Nat :=
  (pmt_streams buf off section_length).filter (is_audio buf)

/-- Two services agree on their audio fields. -/
def same_audio (a b : service) : Prop :=
  a.audio_pid = b.audio_pid ∧ a.audio_lang = b.audio_lang ∧ a.audio_num = b.audio_num

/-- The non-zero pid of the first video stream that has one among the entries
at the given offsets, or 0. -/
def first_video_pid (buf : List Nat) (offs : List Nat) : Nat :=
  ((((offs.filter (is_video buf)).map (pmt_es_pid buf)).find? (fun p => decide (p ≠ 0)))).getD 0

/-! ## BCD numbers -/

/-- The eight nibbles of four bytes as decimal digits, the least significant
(the low nibble of `b3`) first. -/
def bcd_digits (b0 b1 b2 b3 : Nat) : List Nat :=
  [b3 % 16, b3 / 16, b2 % 16, b2 / 16, b1 % 16, b1 / 16, b0 % 16, b0 / 16]

/-! ## Names without control characters -/

/-- A control character that the names of a service descriptor must not
keep: a byte below 0x20 or in 0x80..0x9f. -/
def is_control (c : Nat) : Bool := decide (c < 0x20) || (decide (0x80 ≤ c) && decide (c ≤ 0x9f))

/-- The bytes of a name field up to its first zero byte (all of them when it
has none). -/
def upto_nul (raw : List Nat) : List Nat := raw.takeWhile (fun c => c ≠ 0)

/-- A name with the control characters removed, the other bytes kept in
order; `none` when nothing is left. -/
def without_control (raw : List Nat) : Option (List Nat) :=
  if raw.filter (fun c => !is_control c) = [] then none
  else some (raw.filter (fun c => !is_control c))

/-! ## Tuning when the frontend never locks -/

/-- A use of the frontend that does not end with a lock. -/
def fe_fails (c : fe_call) : Bool :=
  decide (c.set_frontend = -1) || decide (wait_for_lock 10 c.status ≠ some 0)

/-- No coming use of the frontend ends with a lock: every tuning attempt
fails. -/
def never_locks (fe : List fe_call) : Prop := ∀ c ∈ fe, fe_fails c = true

instance never_locks_decidable (fe : List fe_call) : Decidable (never_locks fe) :=
  inferInstanceAs (Decidable (∀ c ∈ fe, fe_fails c = true))

/-- The state in which `t` is retried at the frequency `f`: the frequency of
the transponder is `f`, its count of alternatives is one less, and `f` has
been reported. -/
def retune (t f : Nat) (st : tuner) : tuner :=
  { st with
    net := tp_store st.net t
      { tp_at st.net t with
        param := { (tp_at st.net t).param with frequency := f },
        n_other_f := (tp_at st.net t).n_other_f - 1 },
    retrying := st.retrying ++ [f] }

/-- Two transponder records agree on what the retries of
tune_to_next_transponder read: the delivery type, the tuning parameters, the
other_frequency flag and the alternative frequencies. -/
def same_tuning (x y : transponder) : Prop :=
  x.type = y.type ∧ x.param = y.param ∧ x.other_frequency_flag = y.other_frequency_flag ∧
  x.other_f = y.other_f ∧ x.n_other_f = y.n_other_f

/-- What a tuning attempt on `t` keeps: the number of transponders, every
other transponder, the tuning data of `t`, and the frequencies reported. -/
def tune_keeps (t : Nat) (a b : tuner) : Prop :=
  b.net.transponders.length = a.net.transponders.length ∧
  (∀ p, p ≠ t → tp_at b.net p = tp_at a.net p) ∧
  same_tuning (tp_at b.net t) (tp_at a.net t) ∧
  b.retrying = a.retrying

/-! ## The transponder lists, the loops and the tables -/

/-- The position in the chain of the filter at `sp` of the state parse_section
works on for the section in the buffer of the filter: the value of `s` after
the `if (s->segmented && ...)` block. -/
def selected_pos (st : scan_state) (sp : Nat) : Nat :=
  (select_segment (chain_at st.flt sp) (hdr_tid (seg_at st.flt sp 0).buf)
    (hdr_ext (seg_at st.flt sp 0).buf) (hdr_ver (seg_at st.flt sp 0).buf)).2

/-- The state parse_section works on, as it is before the version check. -/
def selected_state (st : scan_state) (sp : Nat) : section_buf :=
  (select_segment (chain_at st.flt sp) (hdr_tid (seg_at st.flt sp 0).buf)
    (hdr_ext (seg_at st.flt sp 0).buf) (hdr_ver (seg_at st.flt sp 0).buf)).1.getD
    (selected_pos st sp) calloc_section_buf

/-- The offsets of the transport stream entries the loop of parse_nit processes:
the loop control of parse_nit_loop without the work on the entries. -/
def nit_offsets (buf : List Nat) : Nat → Nat → Int → List Nat
  | 0, _, _ => []
  | fuel + 1, off, section_length =>
    if section_length > 6 then
      let descriptors_loop_len : Nat := ((rd buf (off + 4) &&& 0x0f) <<< 8) ||| rd buf (off + 5)
      if section_length < descriptors_loop_len + 4 then []
      else
        off :: nit_offsets buf fuel (off + (descriptors_loop_len + 6))
          (section_length - (descriptors_loop_len + 6))
    else []

/-- Every transponder is in exactly one of the two lists, once: no pointer
occurs twice in `scanned_transponders` followed by `new_transponders`, every
pointer in them refers to an allocated transponder, and every allocated
transponder is in them. -/
def lists_ok (net : net_model) : Prop :=
  (net.scanned_transponders ++ net.new_transponders).Nodup ∧
  (∀ p ∈ net.scanned_transponders ++ net.new_transponders, p < net.transponders.length) ∧
  (∀ p ∈ List.range net.transponders.length,
    p ∈ net.scanned_transponders ++ net.new_transponders)

instance lists_ok_decidable (net : net_model) : Decidable (lists_ok net) :=
  inferInstanceAs (Decidable (_ ∧ _ ∧ _))

/-- The registries `b` have the lists of `a`, as many transponders, and the
`scan_done` and `n_other_f` of each. -/
def lists_kept (a b : net_model) : Prop :=
  b.new_transponders = a.new_transponders ∧
  b.scanned_transponders = a.scanned_transponders ∧
  b.transponders.length = a.transponders.length ∧
  ∀ p, (tp_at b p).scan_done = (tp_at a p).scan_done ∧
    (tp_at b p).n_other_f = (tp_at a p).n_other_f

/-- From `a` to `b` the transponder `t` has been unlinked from the list it was
in and linked to the tail of `scanned_transponders`, and its `scan_done` is 1;
of the other transponders `scan_done` and `n_other_f` are kept. -/
def moved_to_scanned (t : Nat) (a b : net_model) : Prop :=
  b.new_transponders = a.new_transponders.erase t ∧
  b.scanned_transponders = a.scanned_transponders.erase t ++ [t] ∧
  b.transponders.length = a.transponders.length ∧
  (t < a.transponders.length → (tp_at b t).scan_done = 1) ∧
  ∀ p, p ≠ t → (tp_at b p).scan_done = (tp_at a p).scan_done ∧
    (tp_at b p).n_other_f = (tp_at a p).n_other_f

/-- The list operations of tune_to_transponder: `list_del_init` followed by
`list_add_tail` to `scanned_transponders`. -/
def relink (t : Nat) (net : net_model) : net_model :=
  { net with
    new_transponders := net.new_transponders.erase t,
    scanned_transponders := net.scanned_transponders.erase t ++ [t] }

/-- The transponders tune_to_transponder is called with by the loop of
tune_to_next_transponder: the loop of tune_to_next_loop with the transponder of
each iteration recorded. -/
def handed_to_tuner (cfg : config) : List Nat → tuner → List Nat
  | [], _ => []
  | t :: rest, st =>
    match tune_retry cfg t ((tp_at st.net t).n_other_f + 1) st with
    | none => [t]
    | some r => if r.1 = 0 then [t] else t :: handed_to_tuner cfg rest r.2

/-- The registries when the program starts: `LIST_HEAD` makes both lists empty
and no transponder is allocated. -/
def initial_net : net_model :=
  { transponders := [], scanned_transponders := [], new_transponders := [], current_tp := 0 }

/-- The program_number of the PAT entry at `off`, as get_pmt_pid decodes it. -/
def pat_entry_sid (buf : List Nat) (off : Nat) : Int :=
  (((rd buf off <<< 8) ||| rd buf (off + 1) : Nat) : Int)

/-- The PID of the PAT entry at `off`, as get_pmt_pid decodes it. -/
def pat_entry_pid (buf : List Nat) (off : Nat) : Int :=
  ((((rd buf (off + 2) &&& 0x1f) <<< 8) ||| rd buf (off + 3) : Nat) : Int)

/-- Every entry of the table is read back from its name followed by the
terminator `t`, whatever follows and whatever `*param` held. -/
def table_parses (plist : List Param) (t : Nat) : Bool :=
  plist.all (fun p =>
    parse_param (p.name ++ [t]) plist (LIST_SIZE plist) (-1) == some (0, p.value))

/-- The offsets from `d` of the entries `e` the loop of
dvb_multilingual_network_name_descriptor_parse walks: the loop of
names_parse_loop with its entries recorded. -/
def names_walked_loop (d : List Nat) (len : Nat) : Nat → Nat → List Nat
  | 0, _ => []
  | fuel + 1, pos =>
    if pos < len then
      let e := 2 + pos
      let pos1 := pos + sizeof_dvb_multilingual_network_name
      if pos1 > len then [e]
      else
        let pos2 := pos1 + rd d (e + 3)
        if pos2 > len then [e]
        else e :: names_walked_loop d len fuel pos2
    else []

/-- The entries dvb_multilingual_network_name_descriptor_parse walks. -/
def names_walked (d : List Nat) : List Nat :=
  names_walked_loop d (rd d 1) (rd d 1 + 1) 0

/-! ## Descriptor loops as the standard lays them out -/

/-- A descriptor as the standard defines it: a tag and a payload of at most
255 bytes. -/
structure spec_descriptor where
  tag : Nat
  payload : List Nat
  deriving DecidableEq, Repr

/-- The bytes of a descriptor loop that holds the given descriptors one after
the other: for each its tag, its length byte and its payload. -/
def spec_loop_bytes : List spec_descriptor → List Nat
  | [] => []
  | d :: ds => d.tag :: d.payload.length :: (d.payload ++ spec_loop_bytes ds)

/-- The tags of the descriptors a loop contains. -/
def spec_loop_tags (ds : List spec_descriptor) : List Nat := ds.map (fun d => d.tag)

/-! ## Example states -/

/-- A terrestrial frontend, scanning a whole network. -/
def ex_cfg : config :=
  { fe_type := FE_OFDM, current_tp_only := false, long_timeout := false,
    vdr_dump_channum := false, spectral_inversion := 2 }

/-- One scanned transponder without services, which is the current one. -/
def ex_net : net_model :=
  { transponders := [{ calloc_transponder with scan_done := 1 }], scanned_transponders := [0],
    new_transponders := [], current_tp := 0 }

/-- A scheduler running one filter set up with `pid`, `tid` and `segmented`;
the next two demux calls succeed. -/
def ex_flt (pid tid : Int) (segmented : Bool) : filter_sched :=
  { filters := [[{ setup_filter ex_cfg pid tid true segmented 5 with fd := 4 }]],
    running_filters := [0], waiting_filters := [], n_running := 1,
    hw := [{ fd := 5, set_filter := 0, now := 100 }, { fd := 6, set_filter := 0, now := 100 }] }

/-- The example state with a PAT filter. -/
def ex_state : scan_state := { net := ex_net, flt := ex_flt 0 0 false }

/-- A PAT section cut short: its length field announces 13 bytes after the
first three but only 9 arrive. -/
def ex_short_pat : List Nat := [0x00, 0xb0, 13, 0, 1, 0xc1, 0, 0, 0, 100, 0xe2, 0x00]

/-- A PAT section (table_id 0, transport_stream_id 1, version 0) with the given
section_number and last_section_number and one program entry: service
100 + section_number with PMT pid 0x200 + section_number; four CRC bytes
follow. -/
def ex_pat_section (section_number last_section_number : Nat) : List Nat :=
  [0x00, 0xb0, 13, 0, 1, 0xc1, section_number, last_section_number,
   0, 100 + section_number, 0xe2, section_number, 0x12, 0x34, 0x56, 0x78]

/-- A NIT-other section (table_id 0x41, version 0, section 0 of 0) of the network
`network_id` with an empty network descriptor loop and an empty transport
stream loop; four CRC bytes follow. -/
def ex_nit_other (network_id : Nat) : List Nat :=
  [0x41, 0xf0, 13, 0x00, network_id, 0xc1, 0, 0, 0xf0, 0x00, 0xf0, 0x00,
   0x12, 0x34, 0x56, 0x78]

/-- The example state with a segmented NIT-other filter in place of the PAT
filter. -/
def ex_seg_start : scan_state := { net := ex_net, flt := ex_flt 0x10 0x41 true }

/-- The segmented example after the section of network 1 has been read into the
buffer of the filter. -/
def ex_seg_state : scan_state := load_section 0 (ex_nit_other 1) ex_seg_start

/-- The segmented example after the sections of the networks 1, 2 and 3 have
been received in this order. -/
def ex_seg_three : scan_state :=
  (feed_sections ex_cfg 0 [ex_nit_other 1, ex_nit_other 2, ex_nit_other 3] ex_seg_start).2

/-- The example state after a complete PAT (section 0 of 0, service 100 with PMT
pid 0x200) has been read into the buffer of the PAT filter. -/
def ex_pat_loaded : scan_state := load_section 0 (ex_pat_section 0 0) ex_state

/-- The example state after the PAT entry (service 100, PMT pid 0x200) has been
parsed. -/
def ex_after_pat : scan_state := parse_pat ex_cfg (pat_section 100 0x200) 8 2 1 ex_state

/-- The name "ProviderX". -/
def ex_provider : List Nat := [80, 114, 111, 118, 105, 100, 101, 114, 88]

/-- The name "ServiceY". -/
def ex_service : List Nat := [83, 101, 114, 118, 105, 99, 101, 89]

/-- One scanned transponder, the current one, tuned at 500 002 100 Hz. -/
def ex_net_near : net_model :=
  { transponders :=
      [{ calloc_transponder with
         type := FE_OFDM, scan_done := 1,
         param := { zero_param with frequency := 500002100 } }],
    scanned_transponders := [0], new_transponders := [], current_tp := 0 }

/-- A PMT section of 24 bytes for service 100 (section_length field 21) whose
inner lengths overstate what it holds: one audio stream (type 0x04, pid 0x211)
declares an ES_info_length of 10 although only three descriptor bytes and the
four CRC bytes follow, and its descriptor (tag 0x52) declares a length of 5, so
that it ends at offset 24, the end of the section. -/
def ex_pmt_overrun : List Nat :=
  [0x02, 0xb0, 21, 0x00, 0x64, 0xc1, 0x00, 0x00,
   0xe2, 0x10, 0xf0, 0x00,
   0x04, 0xe2, 0x11, 0xf0, 10, 0x52, 0x05, 0x01,
   0x12, 0x34, 0x56, 0x78]

/-- The state after the PAT, with the receive buffer of the PMT filter holding
bytes left by an earlier, longer read: from offset 24 on they look like an
ISO-639 language descriptor for "eng". -/
def ex_pmt_stale : scan_state :=
  { ex_after_pat with
    flt := seg_update ex_after_pat.flt 1 0 (fun b =>
      { b with buf := List.replicate 24 0 ++ [0x0a, 0x04, 0x65, 0x6e, 0x67, 0x00] ++
          List.replicate 994 0 }) }

/-- An SDT section (table_id 0x42) with one service entry for service 100 with
running_status 4 whose descriptor loop is empty (descriptors_loop_length 0);
four CRC bytes follow. -/
def ex_sdt_empty_loop : List Nat :=
  [0x42, 0xf0, 0x11, 0x00, 0x01, 0xc1, 0x00, 0x00,
   0x00, 0x01, 0xff,
   0x00, 0x64, 0xfc, 0x80, 0x00,
   0x12, 0x34, 0x56, 0x78]

/-- A PAT section with four entries: the NIT entry (service_id 0), service 100
with PMT pid 0x200, service 101 with PMT pid 0x201, and service 100 again with
PMT pid 0x300; four CRC bytes follow. -/
def ex_pat_repeat : List Nat :=
  [0x00, 0xb0, 0x19, 0x00, 0x01, 0xc1, 0x00, 0x00,
   0x00, 0x00, 0xe0, 0x10,
   0x00, 0x64, 0xe2, 0x00,
   0x00, 0x65, 0xe2, 0x01,
   0x00, 0x64, 0xe3, 0x00,
   0x12, 0x34, 0x56, 0x78]

/-- A satellite frontend, scanning a whole network. -/
def ex_cfg_sat : config := { ex_cfg with fe_type := FE_QPSK }

/-- A scheduler with filter 0 running and the filters 1, 2 and 3 waiting, in
this order. -/
def ex_sched (hw : List dmx_call) : filter_sched :=
  { filters := [[{ setup_filter ex_cfg 0 0 true false 5 with fd := 4 }],
                [setup_filter ex_cfg 0x200 0x02 true false 5],
                [setup_filter ex_cfg 0x201 0x02 true false 5],
                [setup_filter ex_cfg 0x202 0x02 true false 5]],
    running_filters := [0], waiting_filters := [1, 2, 3], n_running := 1, hw := hw }

/-- A demux call that succeeds, returning the descriptor `fd`. -/
def ex_call_ok (fd : Int) : dmx_call := { fd := fd, set_filter := 0, now := 100 }

/-- A demux call whose `open` fails. -/
def ex_call_fails : dmx_call := { fd := -1, set_filter := 0, now := 100 }

/-- A PMT section for service 100 with two video streams (type 0x02): the
first with pid 0, the second with pid 0x100; four CRC bytes follow. -/
def ex_pmt_video : List Nat :=
  [0x02, 0xb0, 23, 0x00, 0x64, 0xc1, 0x00, 0x00,
   0xe1, 0x00, 0xf0, 0x00,
   0x02, 0xe0, 0x00, 0xf0, 0x00,
   0x02, 0xe1, 0x00, 0xf0, 0x00,
   0x12, 0x34, 0x56, 0x78]

/-- A PMT section for service 100 with three audio streams (type 0x04) with
the pids 0x211, 0x212 and 0x213; the second carries an ISO-639 language
descriptor for "deu"; four CRC bytes follow. -/
def ex_pmt_audio : List Nat :=
  [0x02, 0xb0, 34, 0x00, 0x64, 0xc1, 0x00, 0x00,
   0xe2, 0x10, 0xf0, 0x00,
   0x04, 0xe2, 0x11, 0xf0, 0x00,
   0x04, 0xe2, 0x12, 0xf0, 0x06, 0x0a, 0x04, 0x64, 0x65, 0x75, 0x00,
   0x04, 0xe2, 0x13, 0xf0, 0x00,
   0x12, 0x34, 0x56, 0x78]

/-- The network after the PAT, with 30 audio channels already recorded for
service 100. -/
def ex_net_audio : net_model :=
  svc_store ex_after_pat.net 0 0 { svc_at ex_after_pat.net 0 0 with audio_num := 30 }

/-- A PMT section for service 100 with three private streams (type 0x06): pid
0x301 with a teletext descriptor (0x56) behind a subtitling descriptor (0x59),
pid 0x302 with an AC-3 descriptor (0x6a), and pid 0x303 with a stream
identifier descriptor (0x52) only; four CRC bytes follow. -/
def ex_pmt_private : List Nat :=
  [0x02, 0xb0, 37, 0x00, 0x64, 0xc1, 0x00, 0x00,
   0xe2, 0x10, 0xf0, 0x00,
   0x06, 0xe3, 0x01, 0xf0, 0x04, 0x59, 0x00, 0x56, 0x00,
   0x06, 0xe3, 0x02, 0xf0, 0x02, 0x6a, 0x00,
   0x06, 0xe3, 0x03, 0xf0, 0x03, 0x52, 0x01, 0x07,
   0x12, 0x34, 0x56, 0x78]

/-- A satellite delivery system descriptor (tag 0x43) for 11.7625 GHz
(BCD 01 17 62 50, in units of 10 kHz), and the same bytes read as a cable
delivery system descriptor. -/
def ex_delivery : List Nat :=
  [0x43, 0x0b, 0x01, 0x17, 0x62, 0x50, 0x01, 0x92, 0x81, 0x02, 0x75, 0x00, 0x03]

/-- A service descriptor (tag 0x48) of service_type 1 whose provider name is
"A", a zero byte, "B" and whose service name is "C", 0x86, "D". -/
def ex_service_descriptor : List Nat :=
  [0x48, 0x09, 0x01, 0x03, 0x41, 0x00, 0x42, 0x03, 0x43, 0x86, 0x44]

/-- A CA identifier descriptor (tag 0x53) of declared length 36: eighteen CA
system ids 0x0101, 0x0202, ..., 0x1212. -/
def ex_ca_descriptor : List Nat :=
  [0x53, 36] ++ (List.range 18).flatMap (fun i => [i + 1, i + 1])

/-- A terrestrial transponder at 506 MHz with the alternative frequencies 514,
522 and 530 MHz, not yet scanned. -/
def ex_tp_other : transponder :=
  { calloc_transponder with
    type := FE_OFDM, param := { zero_param with frequency := 506000000 },
    other_frequency_flag := 1, n_other_f := 3,
    other_f := some [514000000, 522000000, 530000000] }

/-- A terrestrial transponder at 618 MHz without alternatives. -/
def ex_tp_plain : transponder :=
  { calloc_transponder with type := FE_OFDM, param := { zero_param with frequency := 618000000 } }

/-- The tuner before tune_to_next_transponder: the current transponder has been
scanned, two transponders are new, and the frontend never locks: its first use
ends with a failing FE_READ_STATUS, and with no outcome left after it every
FE_SET_FRONTEND fails. -/
def ex_tuner : tuner :=
  { net := { transponders := [{ calloc_transponder with scan_done := 1 }, ex_tp_plain, ex_tp_other],
             scanned_transponders := [0], new_transponders := [1, 2], current_tp := 0 },
    fe := [{ set_frontend := 0, status := [(0, 0), (0, 0), (-1, 0)] }],
    retrying := [] }

/-- Two new transponders at 500 000 kHz and 503 000 kHz, linked into
`new_transponders` in the order given by `order`. -/
def ex_net_order (order : List Nat) : net_model :=
  { transponders :=
      [{ calloc_transponder with param := { zero_param with frequency := 500000 } },
       { calloc_transponder with param := { zero_param with frequency := 503000 } }],
    scanned_transponders := [], new_transponders := order, current_tp := 0 }

/-- A PAT section like `ex_pat_section 1 1` but of version 1. -/
def ex_pat_version1 : List Nat :=
  [0x00, 0xb0, 13, 0, 1, 0xc3, 1, 1, 0, 101, 0xe2, 1, 0x12, 0x34, 0x56, 0x78]

/-- The example state after section 0 of a two-section PAT of version 0 has
been parsed and section 1 of version 1 has been read into the buffer. -/
def ex_pat_reversioned : scan_state :=
  load_section 0 ex_pat_version1
    (parse_section ex_cfg 0 (load_section 0 (ex_pat_section 0 1) ex_state)).2

/-- A NIT section (section_length field 42) with an empty network descriptor
loop and two transport stream entries: the first, at offset 12, carries a
terrestrial delivery system descriptor for 500 MHz in its 13 descriptor bytes;
the second, at offset 31, declares 20 descriptor bytes although only four
bytes and the CRC follow. -/
def ex_nit_truncated : List Nat :=
  [0x40, 0xf0, 0x2a, 0x00, 0x01, 0xc1, 0x00, 0x00,
   0xf0, 0x00,
   0xf0, 0x1d,
   0x00, 0x01, 0x00, 0x01, 0xf0, 0x0d,
   0x5a, 0x0b, 0x02, 0xfa, 0xf0, 0x80, 0x1f, 0x00, 0x00, 0xff, 0xff, 0xff, 0xff,
   0x00, 0x02, 0x00, 0x01, 0xf0, 0x14,
   0x5a, 0x0b, 0x02, 0xfa,
   0x12, 0x34, 0x56, 0x78]

/-- The example tuner with a frontend that locks at its second use: the first
attempt on transponder 1 sees no lock in ten status reads, the second one
locks. -/
def ex_tuner_locks : tuner :=
  { ex_tuner with
    fe := [{ set_frontend := 0, status := List.replicate 10 (0, 0) },
           { set_frontend := 0, status := [(0, 0), (0, 0x1f)] }] }

/-- A complete PAT section with the one program 100 on PID 0x200, whose CRC
is 00 65 e1 23. -/
def ex_pat_crc : List Nat :=
  [0x00, 0xb0, 13, 0x00, 0x01, 0xc1, 0x00, 0x00,
   0x00, 100, 0xe2, 0x00,
   0x00, 0x65, 0xe1, 0x23]

/-- A multilingual network name descriptor (tag 0x5b, length 14) with the two
names "abc" in English, at offset 2, and "xyz" in German, at offset 9. -/
def ex_network_names : List Nat :=
  [0x5b, 14,
   0x65, 0x6e, 0x67, 3, 0x61, 0x62, 0x63,
   0x64, 0x65, 0x75, 3, 0x78, 0x79, 0x7a]

/-- The descriptor loop of a private stream: a registration descriptor (tag
0x05) with a payload of 254 bytes, followed by a teletext descriptor (tag
0x56) for the language "eng". -/
def ex_private_descriptors : List spec_descriptor :=
  [{ tag := 0x05, payload := List.replicate 254 0 },
   { tag := 0x56, payload := [0x65, 0x6e, 0x67, 0x09, 0x00] }]

/-- A PMT section for service 100 (section_length field 281) with one private
stream (type 0x06, pid 0x301) whose descriptor loop of 263 bytes holds
`ex_private_descriptors`; four CRC bytes follow. -/
def ex_pmt_long_descriptor : List Nat :=
  [0x02, 0xb1, 0x19, 0x00, 0x64, 0xc1, 0x00, 0x00,
   0xe2, 0x10, 0xf0, 0x00,
   0x06, 0xe3, 0x01, 0xf1, 0x07] ++
  spec_loop_bytes ex_private_descriptors ++
  [0x12, 0x34, 0x56, 0x78]

/-! # Theorems -/

/-! ## Lists and pointers -/

theorem list_set_getD_self {α : Type} (l : List α) (i : Nat) (d : α) :
    l.set i (l.getD i d) = l := by
  induction l generalizing i with
  | nil => simp
  | cons a l ih =>
    cases i with
    | zero => simp
    | succ i => simpa using ih i

theorem list_getD_set_same {α : Type} (l : List α) (i : Nat) (x d : α) :
    (l.set i x).getD i d = if i < l.length then x else d := by
  induction l generalizing i with
  | nil => simp
  | cons a l ih =>
    cases i with
    | zero => simp
    | succ i => simpa using ih i

theorem list_getD_set_other {α : Type} (l : List α) (i j : Nat) (x d : α) (h : i ≠ j) :
    (l.set i x).getD j d = l.getD j d := by
  induction l generalizing i j with
  | nil => simp
  | cons a l ih =>
    cases i with
    | zero =>
      cases j with
      | zero => exact absurd rfl h
      | succ j => simp
    | succ i =>
      cases j with
      | zero => simp
      | succ j => simpa using ih i j (fun e => h (by rw [e]))

theorem chain_at_seg_update (flt : filter_sched) (s k i : Nat) (f : section_buf → section_buf) :
    chain_at (seg_update flt s k f) i =
      if i = s then (chain_at flt s).set k (f (seg_at flt s k)) else chain_at flt i := by
  unfold chain_at seg_update
  by_cases h : i = s
  · subst h
    simp only [if_true, list_getD_set_same]
    split
    · rfl
    · rename_i hlt
      have : flt.filters.getD i [] = [] := by
        rw [List.getD_eq_getElem?_getD, List.getElem?_eq_none (by omega)]; rfl
      rw [this]; rfl
  · simp only [if_neg h]
    exact list_getD_set_other _ _ _ _ _ (fun e => h e.symm)

theorem seg_at_seg_update (flt : filter_sched) (s k : Nat) (f : section_buf → section_buf) :
    seg_at (seg_update flt s k f) s k =
      if k < (chain_at flt s).length then f (seg_at flt s k) else calloc_section_buf := by
  unfold seg_at
  rw [chain_at_seg_update, if_pos rfl, list_getD_set_same]
  rfl

theorem seg_update_length (flt : filter_sched) (s k : Nat) (f : section_buf → section_buf) :
    (seg_update flt s k f).filters.length = flt.filters.length := by
  simp [seg_update]


/-! ## C1: invalid sections are dropped by read_sections -/

theorem list_set_eq_of_map_eq {α β : Type} (g : α → β) (l : List α) (i : Nat) (x d : α)
    (h : g x = g (l.getD i d)) : (l.set i x).map g = l.map g := by
  induction l generalizing i with
  | nil => simp
  | cons a l ih =>
    cases i with
    | zero => simpa using h
    | succ i => simpa using ih i (by simpa using h)

theorem seg_update_erase_buf (flt : filter_sched) (s k : Nat) (f : section_buf → section_buf)
    (hf : ∀ b, erase_buf (f b) = erase_buf b) :
    (seg_update flt s k f).filters.map (List.map erase_buf) =
      flt.filters.map (List.map erase_buf) := by
  unfold seg_update
  apply list_set_eq_of_map_eq (List.map erase_buf) _ _ _ []
  exact list_set_eq_of_map_eq erase_buf _ _ _ calloc_section_buf (hf _)

theorem erase_buf_read_into (b : section_buf) (r : read_result) :
    erase_buf (read_into b r) = erase_buf b := by
  unfold read_into erase_buf
  split <;> rfl

/-- What the two reads leave unchanged. -/
theorem read_outcome_frame (sp : Nat) (r1 r2 : read_result) (st : scan_state) :
    (read_outcome sp r1 r2 st).2.net = st.net ∧
    (read_outcome sp r1 r2 st).2.flt.filters.map (List.map erase_buf) =
      st.flt.filters.map (List.map erase_buf) ∧
    (read_outcome sp r1 r2 st).2.flt.running_filters = st.flt.running_filters ∧
    (read_outcome sp r1 r2 st).2.flt.waiting_filters = st.flt.waiting_filters ∧
    (read_outcome sp r1 r2 st).2.flt.n_running = st.flt.n_running ∧
    (read_outcome sp r1 r2 st).2.flt.hw = st.flt.hw := by
  unfold read_outcome
  split
  · refine ⟨rfl, ?_, rfl, rfl, rfl, rfl⟩
    simp only
    rw [seg_update_erase_buf _ _ _ _ (fun b => erase_buf_read_into b r2),
        seg_update_erase_buf _ _ _ _ (fun b => erase_buf_read_into b r1)]
  · refine ⟨rfl, ?_, rfl, rfl, rfl, rfl⟩
    simp only
    rw [seg_update_erase_buf _ _ _ _ (fun b => erase_buf_read_into b r1)]

theorem list_getD_map {α β : Type} (g : α → β) (l : List α) (i : Nat) (d : α) :
    (l.map g).getD i (g d) = g (l.getD i d) := by
  induction l generalizing i with
  | nil => simp
  | cons a l ih =>
    cases i with
    | zero => simp
    | succ i => simp

theorem erase_buf_seg_at (flt1 flt2 : filter_sched)
    (h : flt1.filters.map (List.map erase_buf) = flt2.filters.map (List.map erase_buf))
    (a k : Nat) : erase_buf (seg_at flt1 a k) = erase_buf (seg_at flt2 a k) := by
  unfold seg_at chain_at
  rw [← list_getD_map erase_buf, ← list_getD_map erase_buf]
  have e : ([] : List section_buf) = List.map erase_buf [] := rfl
  have h1 := list_getD_map (List.map erase_buf) flt1.filters a []
  have h2 := list_getD_map (List.map erase_buf) flt2.filters a []
  rw [← h1, ← h2, h]

theorem read_outcome_table_id (sp : Nat) (r1 r2 : read_result) (st : scan_state) :
    (seg_at (read_outcome sp r1 r2 st).2.flt sp 0).table_id = (seg_at st.flt sp 0).table_id := by
  have h := congrArg (fun b : section_buf => b.table_id)
    (erase_buf_seg_at _ _ (read_outcome_frame sp r1 r2 st).2.1 sp 0)
  exact h

/-- C1: when the filter is not already complete and the bytes read are fewer
than 4, or their number differs from 3 + section_length, or the table_id byte
differs from the one the filter expects, read_sections returns -1 or 0 (never
1), the transponder and service model is unchanged, every filter keeps all its
fields but the receive buffer (table_id_ext, version, bitmap, done flag and
sibling chain included), and the filter lists are unchanged. -/
theorem read_sections_drops_invalid (cfg : config) (sp : Nat) (r1 r2 : read_result)
    (st : scan_state)
    (hopen : ¬ ((seg_at st.flt sp 0).sectionfilter_done ≠ 0 ∧ ¬ (seg_at st.flt sp 0).segmented))
    (hbad : (read_outcome sp r1 r2 st).1 < 4 ∨
      (read_outcome sp r1 r2 st).1 ≠
        3 + ((((rd (seg_at (read_outcome sp r1 r2 st).2.flt sp 0).buf 1 &&& 0x0f) <<< 8) |||
              rd (seg_at (read_outcome sp r1 r2 st).2.flt sp 0).buf 2 : Nat) : Int) ∨
      ((rd (seg_at (read_outcome sp r1 r2 st).2.flt sp 0).buf 0 : Nat) : Int) ≠
        (seg_at st.flt sp 0).table_id) :
    ((read_sections cfg sp r1 r2 st).1 = -1 ∨ (read_sections cfg sp r1 r2 st).1 = 0) ∧
    (read_sections cfg sp r1 r2 st).1 ≠ 1 ∧
    (read_sections cfg sp r1 r2 st).2.net = st.net ∧
    (read_sections cfg sp r1 r2 st).2.flt.filters.map (List.map erase_buf) =
      st.flt.filters.map (List.map erase_buf) ∧
    (read_sections cfg sp r1 r2 st).2.flt.running_filters = st.flt.running_filters ∧
    (read_sections cfg sp r1 r2 st).2.flt.waiting_filters = st.flt.waiting_filters ∧
    (read_sections cfg sp r1 r2 st).2.flt.n_running = st.flt.n_running := by
  have hfr := read_outcome_frame sp r1 r2 st
  have htid := read_outcome_table_id sp r1 r2 st
  have key : (read_sections cfg sp r1 r2 st).1 ≠ 1 ∧
      ((read_sections cfg sp r1 r2 st).1 = -1 ∨ (read_sections cfg sp r1 r2 st).1 = 0) ∧
      (read_sections cfg sp r1 r2 st).2 = (read_outcome sp r1 r2 st).2 := by
    unfold read_sections
    rw [if_neg hopen]
    simp only
    by_cases h0 : (read_outcome sp r1 r2 st).1 < 0
    · rw [if_pos h0]; simp
    rw [if_neg h0]
    by_cases h4 : (read_outcome sp r1 r2 st).1 < 4
    · rw [if_pos h4]; simp
    rw [if_neg h4]
    split
    · simp
    · rename_i hlen
      have hlen2 : (read_outcome sp r1 r2 st).1 =
          3 + ((((rd (seg_at (read_outcome sp r1 r2 st).2.flt sp 0).buf 1 &&& 0x0f) <<< 8) |||
              rd (seg_at (read_outcome sp r1 r2 st).2.flt sp 0).buf 2 : Nat) : Int) := by
        have := not_not.mp hlen
        omega
      have hmis : (seg_at (read_outcome sp r1 r2 st).2.flt sp 0).table_id ≠
          ((rd (seg_at (read_outcome sp r1 r2 st).2.flt sp 0).buf 0 : Nat) : Int) := by
        rcases hbad with h | h | h
        · exact absurd h h4
        · exact absurd hlen2 h
        · rw [htid]; exact fun e => h e.symm
      have hps : parse_section cfg sp (read_outcome sp r1 r2 st).2 =
          (-1, (read_outcome sp r1 r2 st).2) := by
        unfold parse_section
        rw [if_pos hmis]
      rw [hps]
      simp
  obtain ⟨k1, k2, k3⟩ := key
  rw [k3]
  exact ⟨k2, k1, hfr.1, hfr.2.1, hfr.2.2.1, hfr.2.2.2.1, hfr.2.2.2.2.1⟩

theorem read_sections_drops_invalid_witness :
    ((read_sections ex_cfg 0 (read_of ex_short_pat) (read_of []) ex_state).1 = -1 ∨
      (read_sections ex_cfg 0 (read_of ex_short_pat) (read_of []) ex_state).1 = 0) ∧
    (read_sections ex_cfg 0 (read_of ex_short_pat) (read_of []) ex_state).1 ≠ 1 ∧
    (read_sections ex_cfg 0 (read_of ex_short_pat) (read_of []) ex_state).2.net = ex_state.net ∧
    (read_sections ex_cfg 0 (read_of ex_short_pat) (read_of []) ex_state).2.flt.filters.map
        (List.map erase_buf) = ex_state.flt.filters.map (List.map erase_buf) ∧
    (read_sections ex_cfg 0 (read_of ex_short_pat) (read_of []) ex_state).2.flt.running_filters =
      ex_state.flt.running_filters ∧
    (read_sections ex_cfg 0 (read_of ex_short_pat) (read_of []) ex_state).2.flt.waiting_filters =
      ex_state.flt.waiting_filters ∧
    (read_sections ex_cfg 0 (read_of ex_short_pat) (read_of []) ex_state).2.flt.n_running =
      ex_state.flt.n_running :=
  read_sections_drops_invalid ex_cfg 0 (read_of ex_short_pat) (read_of []) ex_state
    (by decide) (by decide)

/-! ## C3: the frequency tolerance of is_same_transponder -/

/-- C3: is_same_transponder f1 f2 returns 1 exactly when the absolute difference
of the two frequencies, computed without wrap-around, is below 2000, and it
returns 0 for every difference of 2000 or more.  The statement holds for all
naturals, in particular for all 32-bit frequencies. -/
theorem is_same_transponder_iff_diff_lt (f1 f2 : Nat) :
    (is_same_transponder f1 f2 = 1 ↔ |(f1 : Int) - (f2 : Int)| < 2000) ∧
    (2000 ≤ |(f1 : Int) - (f2 : Int)| → is_same_transponder f1 f2 = 0) := by
  unfold is_same_transponder
  by_cases h : f1 = f2
  · subst h; simp
  · simp only [if_neg h]
    by_cases hgt : f1 > f2
    · simp only [if_pos hgt]
      have habs : |(f1 : Int) - (f2 : Int)| = ((f1 - f2 : Nat) : Int) := by
        rw [abs_of_nonneg (by omega)]; omega
      rw [habs]
      by_cases hd : f1 - f2 < 2000
      · simp [hd]
      · simp [hd]
    · simp only [if_neg hgt]
      have habs : |(f1 : Int) - (f2 : Int)| = ((f2 - f1 : Nat) : Int) := by
        rw [abs_of_nonpos (by omega)]; omega
      rw [habs]
      by_cases hd : f2 - f1 < 2000
      · simp [hd]
      · simp [hd]

/-! ## The section parser and the chain of its filter -/

theorem chain_at_append_lt (flt : filter_sched) (x : List section_buf) (i : Nat)
    (h : i < flt.filters.length) :
    (flt.filters ++ [x]).getD i [] = flt.filters.getD i [] := by
  simp [List.getD_eq_getElem?_getD, List.getElem?_append_left h]

theorem seg_update_filters_getD (flt : filter_sched) (s k : Nat)
    (f : section_buf → section_buf) (i : Nat) (h : i ≠ s) :
    (seg_update flt s k f).filters.getD i [] = flt.filters.getD i [] := by
  have := chain_at_seg_update flt s k i f
  rw [if_neg h] at this
  exact this

/-- What start_filter leaves unchanged: the number of filters and every filter
but `s`. -/
theorem start_filter_frame (flt : filter_sched) (s : Nat) :
    (start_filter flt s).2.filters.length = flt.filters.length ∧
    ∀ i, i ≠ s → chain_at (start_filter flt s).2 i = chain_at flt i := by
  unfold start_filter
  split
  · exact ⟨rfl, fun _ _ => rfl⟩
  · simp only
    split
    · refine ⟨by rw [seg_update_length], fun i hi => ?_⟩
      rw [chain_at_seg_update, if_neg hi]; rfl
    · split
      · refine ⟨by rw [seg_update_length], fun i hi => ?_⟩
        rw [chain_at_seg_update, if_neg hi]; rfl
      · refine ⟨by simp only [seg_update_length], fun i hi => ?_⟩
        simp only [chain_at]
        rw [seg_update_filters_getD _ _ _ _ _ hi, seg_update_filters_getD _ _ _ _ _ hi]

theorem add_filter_frame (flt : filter_sched) (s : Nat) :
    (add_filter flt s).filters.length = flt.filters.length ∧
    ∀ i, i ≠ s → chain_at (add_filter flt s) i = chain_at flt i := by
  unfold add_filter
  have h := start_filter_frame flt s
  simp only
  split
  · exact ⟨h.1, fun i hi => h.2 i hi⟩
  · exact h

theorem parse_pat_entry_frame (cfg : config) (buf : List Nat) (off : Nat) (st : scan_state) :
    st.flt.filters.length ≤ (parse_pat_entry cfg buf off st).flt.filters.length ∧
    ∀ i, i < st.flt.filters.length →
      chain_at (parse_pat_entry cfg buf off st).flt i = chain_at st.flt i := by
  unfold parse_pat_entry
  simp only
  split
  · exact ⟨le_refl _, fun _ _ => rfl⟩
  · split
    · refine ⟨?_, ?_⟩
      · simp only
        rw [(add_filter_frame _ _).1]
        simp
      · intro i hlt
        simp only
        rw [(add_filter_frame _ _).2 i (by omega)]
        exact chain_at_append_lt _ _ _ hlt
    · exact ⟨le_refl _, fun _ _ => rfl⟩

/-- What the PAT interpreter leaves unchanged in the scheduler: filters are only
added, and the filters that exist keep their chains. -/
theorem parse_pat_loop_frame (cfg : config) (buf : List Nat) (fuel : Nat) :
    ∀ (off : Nat) (section_length : Int) (st : scan_state),
      st.flt.filters.length ≤ (parse_pat_loop cfg buf fuel off section_length st).flt.filters.length ∧
      ∀ i, i < st.flt.filters.length →
        chain_at (parse_pat_loop cfg buf fuel off section_length st).flt i = chain_at st.flt i := by
  induction fuel with
  | zero => intro off sl st; exact ⟨le_refl _, fun _ _ => rfl⟩
  | succ fuel ih =>
    intro off sl st
    unfold parse_pat_loop
    split
    · have h1 := parse_pat_entry_frame cfg buf off st
      have h2 := ih (off + 4) (sl - 4) (parse_pat_entry cfg buf off st)
      refine ⟨le_trans h1.1 h2.1, fun i hi => ?_⟩
      rw [h2.2 i (lt_of_lt_of_le hi h1.1), h1.2 i hi]
    · exact ⟨le_refl _, fun _ _ => rfl⟩

theorem interpret_section_frame (cfg : config) (table_id : Int) (buf : List Nat)
    (section_length table_id_ext : Int) (st : scan_state) :
    st.flt.filters.length ≤
      (interpret_section cfg table_id buf section_length table_id_ext st).flt.filters.length ∧
    ∀ i, i < st.flt.filters.length →
      chain_at (interpret_section cfg table_id buf section_length table_id_ext st).flt i =
        chain_at st.flt i := by
  unfold interpret_section
  split
  · exact parse_pat_loop_frame cfg buf _ _ _ st
  · split
    · exact ⟨le_refl _, fun _ _ => rfl⟩
    · split
      · exact ⟨le_refl _, fun _ _ => rfl⟩
      · split
        · exact ⟨le_refl _, fun _ _ => rfl⟩
        · exact ⟨le_refl _, fun _ _ => rfl⟩



theorem chain_at_set_same (flt : filter_sched) (sp : Nat) (c : List section_buf)
    (hsp : sp < flt.filters.length) :
    chain_at { flt with filters := flt.filters.set sp c } sp = c := by
  unfold chain_at
  simp only
  rw [list_getD_set_same, if_pos hsp]

theorem chain_at_set_other (flt : filter_sched) (sp i : Nat) (c : List section_buf)
    (h : i ≠ sp) :
    chain_at { flt with filters := flt.filters.set sp c } i = chain_at flt i := by
  unfold chain_at
  exact list_getD_set_other _ _ _ _ _ (fun e => h e.symm)

/-- The function enter_segment acts on the chain of its filter as chain_enter
does and leaves every other filter alone. -/
theorem enter_segment_chain (flt : filter_sched) (sp : Nat) (tid ext ver : Int)
    (hsp : sp < flt.filters.length) :
    chain_at (enter_segment flt sp tid ext ver).1 sp = (chain_enter (chain_at flt sp) tid ext ver).1 ∧
    (enter_segment flt sp tid ext ver).2 = (chain_enter (chain_at flt sp) tid ext ver).2 ∧
    (enter_segment flt sp tid ext ver).1.filters.length = flt.filters.length ∧
    (∀ i, i ≠ sp → chain_at (enter_segment flt sp tid ext ver).1 i = chain_at flt i) := by
  unfold enter_segment chain_enter
  refine ⟨?_, rfl, ?_, ?_⟩
  · simp only
    rw [chain_at_seg_update, if_pos rfl]
    unfold seg_at
    rw [chain_at_set_same _ _ _ hsp]
  · simp only
    rw [seg_update_length]; simp
  · intro i hi
    simp only
    rw [chain_at_seg_update, if_neg hi, chain_at_set_other _ _ _ _ hi]

theorem enter_segment_lists (flt : filter_sched) (sp : Nat) (tid ext ver : Int) :
    (enter_segment flt sp tid ext ver).1.running_filters = flt.running_filters ∧
    (enter_segment flt sp tid ext ver).1.waiting_filters = flt.waiting_filters ∧
    (enter_segment flt sp tid ext ver).1.n_running = flt.n_running ∧
    (enter_segment flt sp tid ext ver).1.hw = flt.hw := by
  refine ⟨?_, ?_, ?_, ?_⟩ <;> rfl

/-- The function record_section acts on the chain of its filter as chain_record
does; it only adds filters and leaves the other existing filters alone. -/
theorem record_section_chain (cfg : config) (sp k : Nat) (tid : Int) (buf : List Nat)
    (sl ext : Int) (n last : Nat) (st : scan_state) (hsp : sp < st.flt.filters.length) :
    chain_at (record_section cfg sp k tid buf sl ext n last st).flt sp =
      chain_record (chain_at st.flt sp) k n last ∧
    st.flt.filters.length ≤ (record_section cfg sp k tid buf sl ext n last st).flt.filters.length ∧
    (∀ i, i < st.flt.filters.length → i ≠ sp →
      chain_at (record_section cfg sp k tid buf sl ext n last st).flt i = chain_at st.flt i) := by
  unfold record_section chain_record
  simp only [seg_at]
  by_cases hb : get_bit ((chain_at st.flt sp).getD k calloc_section_buf).section_done n = 0
  · rw [if_pos hb, if_pos hb]
    have hfr := interpret_section_frame cfg tid buf sl ext
      { st with flt := seg_update st.flt sp k (mark_section n) }
    have hc2 : chain_at (seg_update st.flt sp k (mark_section n)) sp =
        (chain_at st.flt sp).set k (mark_section n ((chain_at st.flt sp).getD k calloc_section_buf)) := by
      rw [chain_at_seg_update, if_pos rfl]; rfl
    have hlen : (seg_update st.flt sp k (mark_section n)).filters.length = st.flt.filters.length :=
      seg_update_length _ _ _ _
    generalize interpret_section cfg tid buf sl ext
      { st with flt := seg_update st.flt sp k (mark_section n) } = st2 at hfr ⊢
    simp only [hlen] at hfr
    have hc := hfr.2 sp hsp
    rw [hc2] at hc
    have hoth : ∀ i, i < st.flt.filters.length → i ≠ sp → chain_at st2.flt i = chain_at st.flt i := by
      intro i hi hne
      rw [hfr.2 i hi, chain_at_seg_update, if_neg hne]
    by_cases ha : all_sections_seen
        ((chain_at st2.flt sp).getD k calloc_section_buf).section_done last = true
    · have ha2 := ha
      rw [hc] at ha2
      rw [if_pos ha, if_pos ha2]
      refine ⟨?_, ?_, ?_⟩
      · simp only
        rw [chain_at_seg_update, if_pos rfl]
        unfold seg_at
        rw [hc]
      · simp only
        rw [seg_update_length]; exact hfr.1
      · intro i hi hne
        simp only
        rw [chain_at_seg_update, if_neg hne]
        exact hoth i hi hne
    · have ha2 := ha
      rw [hc] at ha2
      rw [if_neg ha, if_neg ha2]
      exact ⟨hc, hfr.1, hoth⟩
  · rw [if_neg hb, if_neg hb]
    exact ⟨rfl, le_refl _, fun _ _ _ => rfl⟩

/-- On a filter that exists, parse_section returns what reassemble computes
from its chain and leaves that chain as reassemble does; it only adds filters
and leaves the other existing filters alone. -/
theorem parse_section_chain (cfg : config) (sp : Nat) (st : scan_state)
    (hsp : sp < st.flt.filters.length) :
    (parse_section cfg sp st).1 = (reassemble (chain_at st.flt sp)).1 ∧
    chain_at (parse_section cfg sp st).2.flt sp = (reassemble (chain_at st.flt sp)).2 ∧
    st.flt.filters.length ≤ (parse_section cfg sp st).2.flt.filters.length ∧
    (∀ i, i < st.flt.filters.length → i ≠ sp →
      chain_at (parse_section cfg sp st).2.flt i = chain_at st.flt i) := by
  unfold parse_section reassemble
  simp only [seg_at]
  split
  · exact ⟨rfl, rfl, le_refl _, fun _ _ _ => rfl⟩
  · generalize hbuf : ((chain_at st.flt sp).getD 0 calloc_section_buf).buf = buf
    generalize ((rd buf 0 : Nat) : Int) = tid
    generalize (((rd buf 3 <<< 8 ||| rd buf 4 : Nat)) : Int) = ext
    generalize ((((rd buf 5 >>> 1) &&& 0x1f : Nat)) : Int) = ver
    have he := enter_segment_chain st.flt sp tid ext ver hsp
    generalize enter_segment st.flt sp tid ext ver = e at he ⊢
    obtain ⟨he1, he2, he3, he4⟩ := he
    have hr := record_section_chain cfg sp e.2 tid buf
      (((((rd buf 1 &&& 0x0f) <<< 8) ||| rd buf 2 : Nat) : Int) - 11) ext (rd buf 6) (rd buf 7)
      { st with flt := e.1 } (by simp only; rw [he3]; exact hsp)
    generalize record_section cfg sp e.2 tid buf _ ext (rd buf 6) (rd buf 7)
      { st with flt := e.1 } = st3 at hr ⊢
    simp only at hr
    obtain ⟨hr1, hr2, hr3⟩ := hr
    rw [he1, he2] at hr1
    rw [he3] at hr2 hr3
    refine ⟨?_, ?_, hr2, ?_⟩
    · simp only; rw [hr1, he2]
    · simp only; rw [hr1]
    · intro i hi hne
      simp only
      rw [hr3 i hi hne, he4 i hne]

/-! ## The section bitmap -/

theorem get_bit_eq_testBit (sd : List Nat) (m : Nat) :
    get_bit sd m = ((sd.getD (m / 8) 0).testBit (m % 8)).toNat := by
  unfold get_bit
  rw [Nat.and_one_is_mod, Nat.shiftRight_eq_div_pow, Nat.toNat_testBit]

theorem set_bit_length (sd : List Nat) (n : Nat) : (set_bit sd n).length = sd.length := by
  simp [set_bit]

theorem get_bit_set_bit_same (sd : List Nat) (n : Nat) (h : n / 8 < sd.length) :
    get_bit (set_bit sd n) n = 1 := by
  rw [get_bit_eq_testBit]
  unfold set_bit
  rw [list_getD_set_same, if_pos h]
  have h8 : n % 8 < 8 := Nat.mod_lt _ (by norm_num)
  have : (256 : Nat) = 2 ^ 8 := by norm_num
  rw [this, Nat.testBit_mod_two_pow, Nat.testBit_or, Nat.one_shiftLeft, Nat.testBit_two_pow]
  simp [h8]

theorem get_bit_set_bit_other (sd : List Nat) (n m : Nat) (h : m ≠ n) :
    get_bit (set_bit sd n) m = get_bit sd m := by
  rw [get_bit_eq_testBit, get_bit_eq_testBit]
  unfold set_bit
  by_cases hq : m / 8 = n / 8
  · rw [hq, list_getD_set_same]
    split
    · have h8 : m % 8 < 8 := Nat.mod_lt _ (by norm_num)
      have hne : n % 8 ≠ m % 8 := by omega
      have : (256 : Nat) = 2 ^ 8 := by norm_num
      rw [this, Nat.testBit_mod_two_pow, Nat.testBit_or, Nat.one_shiftLeft, Nat.testBit_two_pow]
      simp [h8, hne]
    · rename_i hlt
      rw [List.getD_eq_getElem?_getD, List.getElem?_eq_none (by omega)]
      rfl
  · rw [list_getD_set_other _ _ _ _ _ (fun e => hq e.symm)]

theorem get_bit_zero (m : Nat) : get_bit (List.replicate 32 0) m = 0 := by
  rw [get_bit_eq_testBit]
  have : (List.replicate 32 0).getD (m / 8) 0 = 0 := by
    rw [List.getD_eq_getElem?_getD, List.getElem?_replicate]
    split <;> rfl
  rw [this]; simp

theorem get_bit_le_one (sd : List Nat) (m : Nat) : get_bit sd m ≤ 1 := by
  rw [get_bit_eq_testBit]
  cases (sd.getD (m / 8) 0).testBit (m % 8) <;> simp

/-! ## C2: completion does not depend on the arrival order -/

theorem all_sections_seen_iff (sd : List Nat) (last : Nat) :
    all_sections_seen sd last = true ↔ ∀ i, i ≤ last → get_bit sd i ≠ 0 := by
  unfold all_sections_seen
  rw [List.all_eq_true]
  constructor
  · intro h i hi
    have := h i (List.mem_range.mpr (by omega))
    simpa using this
  · intro h i hi
    have := h i (by have := List.mem_range.mp hi; omega)
    simpa using this

theorem rd_lt (buf : List Nat) (i : Nat) : rd buf i < 256 := by
  unfold rd; exact Nat.mod_lt _ (by norm_num)

theorem chain_enter_single (s : section_buf) (tid ext ver : Int) (hseg : s.segmented = false) :
    chain_enter [s] tid ext ver = ([version_check s ext ver], 0) := by
  unfold chain_enter select_segment
  simp [hseg]

theorem chain_record_single (s : section_buf) (n last : Nat)
    (hb : get_bit s.section_done n = 0) :
    chain_record [s] 0 n last =
      [if all_sections_seen (mark_section n s).section_done last then mark_done (mark_section n s)
       else mark_section n s] := by
  unfold chain_record
  simp only [List.getD_cons_zero, hb, if_true, List.set_cons_zero]
  split <;> rfl

/-- One section on a filter without siblings that is not segmented. -/
theorem reassemble_single (s : section_buf) (seen : List Nat)
    (hseg : s.segmented = false)
    (htid : s.table_id = ((rd s.buf 0 : Nat) : Int))
    (hlen : s.section_done.length = 32)
    (hst : (s.table_id_ext = -1 ∧ s.section_version_number = -1 ∧ seen = []) ∨
      (s.table_id_ext = (((rd s.buf 3 <<< 8) ||| rd s.buf 4 : Nat) : Int) ∧
       s.section_version_number = ((((rd s.buf 5 >>> 1) &&& 0x1f) : Nat) : Int)))
    (hbits : ∀ m, get_bit s.section_done m ≠ 0 ↔ m ∈ seen)
    (hdone : s.sectionfilter_done = 0)
    (hn : rd s.buf 6 ∉ seen) :
    ∃ s2, (reassemble [s]).2 = [s2] ∧ s2.segmented = false ∧ s2.table_id = s.table_id ∧
      s2.section_done.length = 32 ∧
      s2.table_id_ext = (((rd s.buf 3 <<< 8) ||| rd s.buf 4 : Nat) : Int) ∧
      s2.section_version_number = ((((rd s.buf 5 >>> 1) &&& 0x1f) : Nat) : Int) ∧
      (∀ m, get_bit s2.section_done m ≠ 0 ↔ m ∈ seen ++ [rd s.buf 6]) ∧
      s2.sectionfilter_done = (if all_sections_seen s2.section_done (rd s.buf 7) then 1 else 0) ∧
      (reassemble [s]).1 = (if all_sections_seen s2.section_done (rd s.buf 7) then 1 else 0) := by
  -- the state after the version check
  obtain ⟨s1, hs1, h1seg, h1tid, h1len, h1ext, h1ver, h1bits, h1done⟩ :
      ∃ s1, version_check s (((rd s.buf 3 <<< 8) ||| rd s.buf 4 : Nat) : Int)
          ((((rd s.buf 5 >>> 1) &&& 0x1f) : Nat) : Int) = s1 ∧
        s1.segmented = false ∧ s1.table_id = s.table_id ∧ s1.section_done.length = 32 ∧
        s1.table_id_ext = (((rd s.buf 3 <<< 8) ||| rd s.buf 4 : Nat) : Int) ∧
        s1.section_version_number = ((((rd s.buf 5 >>> 1) &&& 0x1f) : Nat) : Int) ∧
        (∀ m, get_bit s1.section_done m ≠ 0 ↔ m ∈ seen) ∧ s1.sectionfilter_done = 0 := by
    refine ⟨_, rfl, ?_⟩
    unfold version_check
    rcases hst with ⟨he, hv, hs⟩ | ⟨he, hv⟩
    · have hne : s.section_version_number ≠ ((((rd s.buf 5 >>> 1) &&& 0x1f) : Nat) : Int) := by
        rw [hv]; omega
      rw [if_pos (Or.inl hne)]
      refine ⟨hseg, rfl, by simp, rfl, rfl, ?_, rfl⟩
      intro m
      rw [hs]
      simp only [List.not_mem_nil, iff_false, not_not]
      exact get_bit_zero m
    · rw [if_neg (by rw [he, hv]; simp)]
      exact ⟨hseg, rfl, hlen, he, hv, hbits, hdone⟩
  have hclear : get_bit s1.section_done (rd s.buf 6) = 0 := by
    by_contra h
    exact hn ((h1bits _).mp h)
  have hn8 : rd s.buf 6 / 8 < s1.section_done.length := by
    have := rd_lt s.buf 6
    omega
  have hbits2 : ∀ m, get_bit (mark_section (rd s.buf 6) s1).section_done m ≠ 0 ↔
      m ∈ seen ++ [rd s.buf 6] := by
    intro m
    unfold mark_section
    simp only [List.mem_append, List.mem_singleton]
    by_cases hm : m = rd s.buf 6
    · subst hm
      rw [get_bit_set_bit_same _ _ hn8]
      simp
    · rw [get_bit_set_bit_other _ _ _ hm, h1bits]
      simp [hm]
  have hre : reassemble [s] =
      (section_result (if all_sections_seen (mark_section (rd s.buf 6) s1).section_done (rd s.buf 7)
          then mark_done (mark_section (rd s.buf 6) s1) else mark_section (rd s.buf 6) s1),
       [if all_sections_seen (mark_section (rd s.buf 6) s1).section_done (rd s.buf 7)
          then mark_done (mark_section (rd s.buf 6) s1) else mark_section (rd s.buf 6) s1]) := by
    unfold reassemble
    simp only [List.getD_cons_zero]
    rw [if_neg (not_not.mpr htid), chain_enter_single _ _ _ _ hseg, hs1]
    simp only
    rw [chain_record_single _ _ _ hclear]
    rfl
  rw [hre]
  by_cases hall : all_sections_seen (mark_section (rd s.buf 6) s1).section_done (rd s.buf 7) = true
  · refine ⟨mark_done (mark_section (rd s.buf 6) s1), by rw [if_pos hall], h1seg, h1tid,
      by simp [mark_done, mark_section, set_bit_length, h1len], h1ext, h1ver, hbits2, ?_, ?_⟩
    · have : all_sections_seen (mark_done (mark_section (rd s.buf 6) s1)).section_done (rd s.buf 7)
          = true := hall
      rw [if_pos this]; rfl
    · have : all_sections_seen (mark_done (mark_section (rd s.buf 6) s1)).section_done (rd s.buf 7)
          = true := hall
      rw [if_pos this, if_pos hall]
      unfold section_result
      rw [show (mark_done (mark_section (rd s.buf 6) s1)).segmented = false from h1seg]
      simp [mark_done]
  · refine ⟨mark_section (rd s.buf 6) s1, by rw [if_neg hall], h1seg, h1tid,
      by simp [mark_section, set_bit_length, h1len], h1ext, h1ver, hbits2, ?_, ?_⟩
    · rw [if_neg hall]; exact h1done
    · rw [if_neg hall]
      unfold section_result
      rw [show (mark_section (rd s.buf 6) s1).segmented = false from h1seg,
          show (mark_section (rd s.buf 6) s1).sectionfilter_done = 0 from h1done]
      simp [hall]


theorem rd_append_left (l rest : List Nat) (i : Nat) (h : i < l.length) :
    rd (l ++ rest) i = rd l i := by
  unfold rd
  rw [List.getD_eq_getElem?_getD, List.getD_eq_getElem?_getD, List.getElem?_append_left h]

theorem rd_append_right (l rest : List Nat) (i : Nat) :
    rd (l ++ rest) (l.length + i) = rd rest i := by
  unfold rd
  rw [List.getD_eq_getElem?_getD, List.getD_eq_getElem?_getD,
    List.getElem?_append_right (by omega)]
  simp

theorem rd_bytes_length (buf : List Nat) (off n : Nat) : (rd_bytes buf off n).length = n := by
  simp [rd_bytes]

theorem rd_rd_bytes (buf : List Nat) (off n i : Nat) (h : i < n) :
    rd (rd_bytes buf off n) i = rd buf (off + i) := by
  have hm : (rd_bytes buf off n).getD i 0 = rd buf (off + i) := by
    unfold rd_bytes
    rw [List.getD_eq_getElem?_getD, List.getElem?_map, List.getElem?_range h]
    rfl
  show (rd_bytes buf off n).getD i 0 % 256 = _
  rw [hm]
  exact Nat.mod_eq_of_lt (rd_lt _ _)

theorem rd_rd_bytes_append (sec rest : List Nat) (n i : Nat) (h : i < n) :
    rd (rd_bytes sec 0 n ++ rest) i = rd sec i := by
  rw [rd_append_left _ _ _ (by rw [rd_bytes_length]; exact h), rd_rd_bytes _ _ _ _ h, Nat.zero_add]

theorem rd_read_into (b : section_buf) (sec : List Nat) (i : Nat)
    (h : i < sec.length) (h2 : i < 1024) :
    rd (read_into b (read_of sec)).buf i = rd sec i := by
  unfold read_into read_of
  simp only
  rw [if_neg (by omega)]
  simp only
  apply rd_rd_bytes_append
  simp only [Int.toNat_ofNat]
  omega

theorem read_into_fields (b : section_buf) (r : read_result) :
    (read_into b r).segmented = b.segmented ∧ (read_into b r).table_id = b.table_id ∧
    (read_into b r).table_id_ext = b.table_id_ext ∧
    (read_into b r).section_version_number = b.section_version_number ∧
    (read_into b r).section_done = b.section_done ∧
    (read_into b r).sectionfilter_done = b.sectionfilter_done := by
  unfold read_into
  split <;> exact ⟨rfl, rfl, rfl, rfl, rfl, rfl⟩

theorem load_section_chain (sp : Nat) (sec : List Nat) (st : scan_state) :
    chain_at (load_section sp sec st).flt sp =
      (chain_at st.flt sp).set 0 (read_into (seg_at st.flt sp 0) (read_of sec)) ∧
    (load_section sp sec st).flt.filters.length = st.flt.filters.length := by
  unfold load_section
  refine ⟨?_, seg_update_length _ _ _ _⟩
  simp only
  rw [chain_at_seg_update, if_pos rfl]

theorem mem_of_nodup_le_length (l : List Nat) (N : Nat) (hnd : l.Nodup)
    (hle : ∀ x ∈ l, x ≤ N) (hlen : l.length = N + 1) : ∀ i, i ≤ N → i ∈ l := by
  have hsub : l ⊆ List.range (N + 1) := fun x hx => List.mem_range.mpr (by have := hle x hx; omega)
  have hsp := List.subperm_of_subset hnd hsub
  have hperm := hsp.perm_of_length_le (by simp [hlen])
  intro i hi
  exact hperm.symm.subset (List.mem_range.mpr (by omega))

theorem length_ge_of_all_mem (l : List Nat) (N : Nat) (h : ∀ i, i ≤ N → i ∈ l) :
    N + 1 ≤ l.length := by
  have hsub : List.range (N + 1) ⊆ l := fun x hx => h x (by have := List.mem_range.mp hx; omega)
  have := (List.subperm_of_subset (List.nodup_range _) hsub).length_le
  simpa using this

/-- The induction behind C2: `seen` are the section numbers already recorded in
the bitmap of the filter. -/
theorem feed_sections_order_free_aux (cfg : config) (sp : Nat) (tid : Int) (ext ver N : Nat) :
    ∀ (secs : List (List Nat)) (seen : List Nat) (st : scan_state) (s : section_buf),
      sp < st.flt.filters.length → chain_at st.flt sp = [s] → s.segmented = false →
      s.table_id = tid → s.section_done.length = 32 →
      ((s.table_id_ext = -1 ∧ s.section_version_number = -1 ∧ seen = []) ∨
        (s.table_id_ext = (ext : Int) ∧ s.section_version_number = (ver : Int))) →
      (∀ m, get_bit s.section_done m ≠ 0 ↔ m ∈ seen) → s.sectionfilter_done = 0 →
      (∀ sec ∈ secs, 8 ≤ sec.length ∧ ((rd sec 0 : Nat) : Int) = tid ∧
        ((rd sec 3 <<< 8) ||| rd sec 4) = ext ∧ ((rd sec 5 >>> 1) &&& 0x1f) = ver ∧
        rd sec 7 = N) →
      (seen ++ secs.map (fun sec => rd sec 6)).Nodup →
      (∀ x ∈ seen ++ secs.map (fun sec => rd sec 6), x ≤ N) →
      seen.length + secs.length = N + 1 → secs ≠ [] →
      (feed_sections cfg sp secs st).1 = List.replicate (secs.length - 1) (0, 0) ++ [(1, 1)] := by
  intro secs
  induction secs with
  | nil => intro _ _ _ _ _ _ _ _ _ _ _ _ _ _ _ h; exact absurd rfl h
  | cons sec rest ih =>
    intro seen st s hsp hch hseg htid hlen hst hbits hdone hsecs hnd hle hcount _
    obtain ⟨h8, hs0, hsext, hsver, hslast⟩ := hsecs sec (List.mem_cons_self _ _)
    -- the state after the read
    have hl := load_section_chain sp sec st
    have hch1 : chain_at (load_section sp sec st).flt sp = [read_into s (read_of sec)] := by
      rw [hl.1, hch]
      unfold seg_at
      rw [hch]
      rfl
    have hf := read_into_fields s (read_of sec)
    have hr := fun i (hi : i < 8) => rd_read_into s sec i (by omega) (by omega)
    have hpc := parse_section_chain cfg sp (load_section sp sec st) (by rw [hl.2]; exact hsp)
    rw [hch1] at hpc
    obtain ⟨hp1, hp2, hp3, -⟩ := hpc
    rw [hl.2] at hp3
    have hnot : rd (read_into s (read_of sec)).buf 6 ∉ seen := by
      rw [hr 6 (by norm_num)]
      intro hmem
      have := List.nodup_append.mp hnd
      exact this.2.2 hmem (by simp)
    obtain ⟨s2, h2ch, h2seg, h2tid, h2len, h2ext, h2ver, h2bits, h2done, h2ret⟩ :=
      reassemble_single (read_into s (read_of sec)) seen (by rw [hf.1]; exact hseg)
        (by rw [hf.2.1, hr 0 (by norm_num), hs0]; exact htid)
        (by rw [hf.2.2.2.2.1]; exact hlen)
        (by
          rw [hf.2.2.1, hf.2.2.2.1, hr 3 (by norm_num), hr 4 (by norm_num), hr 5 (by norm_num),
            hsext, hsver]
          exact hst)
        (by rw [hf.2.2.2.2.1]; exact hbits)
        (by rw [hf.2.2.2.2.2]; exact hdone)
        hnot
    rw [hr 3 (by norm_num), hr 4 (by norm_num), hsext] at h2ext
    rw [hr 5 (by norm_num), hsver] at h2ver
    rw [hr 6 (by norm_num)] at h2bits
    rw [hr 7 (by norm_num), hslast] at h2done h2ret
    rw [h2ch] at hp2
    rw [h2ret] at hp1
    have hseg0 : seg_at (parse_section cfg sp (load_section sp sec st)).2.flt sp 0 = s2 := by
      unfold seg_at; rw [hp2]; rfl
    have hall : all_sections_seen s2.section_done N = true ↔ rest = [] := by
      rw [all_sections_seen_iff]
      constructor
      · intro h
        have hmem : ∀ i, i ≤ N → i ∈ seen ++ [rd sec 6] := fun i hi => (h2bits i).mp (h i hi)
        have := length_ge_of_all_mem _ _ hmem
        simp only [List.length_append, List.length_cons, List.length_nil] at this hcount
        have : rest.length = 0 := by omega
        exact List.length_eq_zero.mp this
      · intro h i hi
        subst h
        rw [h2bits]
        simp only [List.map_cons, List.map_nil, List.length_cons, List.length_nil] at hnd hle hcount
        exact mem_of_nodup_le_length _ N hnd hle (by simp; omega) i hi
    unfold feed_sections
    simp only
    rw [hp1, hseg0, h2done]
    by_cases hrest : rest = []
    · subst hrest
      rw [if_pos (hall.mpr rfl)]
      simp [feed_sections]
    · rw [if_neg (fun h => hrest (hall.mp h))]
      have hnd2 : ((seen ++ [rd sec 6]) ++ rest.map (fun sec => rd sec 6)).Nodup := by
        simpa using hnd
      have hle2 : ∀ x ∈ (seen ++ [rd sec 6]) ++ rest.map (fun sec => rd sec 6), x ≤ N := by
        simpa using hle
      have hih := ih (seen ++ [rd sec 6]) (parse_section cfg sp (load_section sp sec st)).2 s2
        (lt_of_lt_of_le hsp hp3) hp2 h2seg (by rw [h2tid, hf.2.1]; exact htid) h2len
        (Or.inr ⟨h2ext, h2ver⟩) h2bits
        (by rw [h2done, if_neg (fun h => hrest (hall.mp h))])
        (fun x hx => hsecs x (List.mem_cons_of_mem _ hx)) hnd2 hle2
        (by simp only [List.length_append, List.length_cons, List.length_nil] at hcount ⊢; omega)
        hrest
      rw [hih]
      have : (sec :: rest).length - 1 = (rest.length - 1) + 1 := by
        have := List.length_pos.mpr hrest
        simp only [List.length_cons]; omega
      rw [this, List.replicate_succ]
      rfl

/-- C2: a freshly set-up filter that is not segmented is fed N + 1 sections that
carry its table_id, one table_id_ext, one version_number and
last_section_number = N, their section_numbers being a permutation of 0..N
(N <= 255 follows, a section number being a byte).  Whatever the permutation and
the payloads, parse_section returns 0 and leaves sectionfilter_done at 0 for
each of the first N sections, and returns 1 with sectionfilter_done = 1 for the
last. -/
theorem parse_section_completes_in_any_order (cfg : config) (sp : Nat) (st : scan_state)
    (s : section_buf) (N ext ver : Nat) (secs : List (List Nat))
    (hsp : sp < st.flt.filters.length) (hch : chain_at st.flt sp = [s])
    (hseg : s.segmented = false) (hext : s.table_id_ext = -1)
    (hver : s.section_version_number = -1) (hsd : s.section_done = List.replicate 32 0)
    (hdone : s.sectionfilter_done = 0)
    (hsecs : ∀ sec ∈ secs, 8 ≤ sec.length ∧ ((rd sec 0 : Nat) : Int) = s.table_id ∧
      ((rd sec 3 <<< 8) ||| rd sec 4) = ext ∧ ((rd sec 5 >>> 1) &&& 0x1f) = ver ∧
      rd sec 7 = N)
    (hperm : (secs.map (fun sec => rd sec 6)).Perm (List.range (N + 1))) :
    (feed_sections cfg sp secs st).1 = List.replicate N (0, 0) ++ [(1, 1)] := by
  have hlen : secs.length = N + 1 := by
    have := hperm.length_eq
    simpa using this
  have hne : secs ≠ [] := by
    intro h; rw [h] at hlen; simp at hlen
  have h := feed_sections_order_free_aux cfg sp s.table_id ext ver N secs [] st s hsp hch hseg rfl
    (by rw [hsd]; simp) (Or.inl ⟨hext, hver, rfl⟩)
    (by intro m; rw [hsd]; simp only [List.not_mem_nil, iff_false, not_not]; exact get_bit_zero m)
    hdone hsecs
    (by rw [List.nil_append]; exact hperm.nodup_iff.mpr (List.nodup_range _))
    (by
      intro x hx
      rw [List.nil_append] at hx
      have := List.mem_range.mp (hperm.subset hx)
      omega)
    (by simp [hlen]) hne
  rw [h, hlen]
  rfl

theorem parse_section_completes_in_any_order_witness :
    (feed_sections ex_cfg 0 [ex_pat_section 2 2, ex_pat_section 0 2, ex_pat_section 1 2]
        ex_state).1 = List.replicate 2 (0, 0) ++ [(1, 1)] ∧
    (feed_sections ex_cfg 0 [ex_pat_section 0 2, ex_pat_section 1 2, ex_pat_section 2 2]
        ex_state).1 = List.replicate 2 (0, 0) ++ [(1, 1)] :=
  ⟨parse_section_completes_in_any_order ex_cfg 0 ex_state
      { setup_filter ex_cfg 0 0 true false 5 with fd := 4 } 2 1 0
      [ex_pat_section 2 2, ex_pat_section 0 2, ex_pat_section 1 2]
      (by decide) rfl rfl rfl rfl rfl rfl (by decide) (by decide),
   parse_section_completes_in_any_order ex_cfg 0 ex_state
      { setup_filter ex_cfg 0 0 true false 5 with fd := 4 } 2 1 0
      [ex_pat_section 0 2, ex_pat_section 1 2, ex_pat_section 2 2]
      (by decide) rfl rfl rfl rfl rfl rfl (by decide) (by decide)⟩

/-! ## C9: a segmented filter never reports completion -/

theorem forall_mem_set {α : Type} (P : α → Prop) (l : List α) (i : Nat) (a : α)
    (h : ∀ x ∈ l, P x) (ha : P a) : ∀ x ∈ l.set i a, P x := by
  intro x hx
  rcases List.mem_or_eq_of_mem_set hx with h1 | h1
  · exact h x h1
  · rw [h1]; exact ha

theorem getD_mem_of_lt {α : Type} (l : List α) (k : Nat) (d : α) (h : k < l.length) :
    l.getD k d ∈ l := by
  rw [List.getD_eq_getElem?_getD, List.getElem?_eq_getElem h]
  exact List.getElem_mem h

theorem seg_find_le (rest : List section_buf) (ext : Int) (k : Nat) :
    seg_find rest ext k ≤ k + rest.length := by
  induction rest generalizing k with
  | nil => simp [seg_find]
  | cons n rest ih =>
    unfold seg_find
    split
    · simp
    · have := ih (k + 1)
      simp only [List.length_cons]
      omega

/-- The state selected by select_segment lies in the chain it returns, and every
state of that chain is segmented when those of the given chain are. -/
theorem select_segment_segmented (chain : List section_buf) (tid ext ver : Int)
    (hne : chain ≠ []) (hall : ∀ s ∈ chain, s.segmented = true) :
    (select_segment chain tid ext ver).2 < (select_segment chain tid ext ver).1.length ∧
    ∀ s ∈ (select_segment chain tid ext ver).1, s.segmented = true := by
  have hpos : 0 < chain.length := List.length_pos.mpr hne
  have hk : seg_find chain.tail ext 0 < chain.length := by
    have := seg_find_le chain.tail ext 0
    simp only [List.length_tail] at this
    omega
  unfold select_segment
  simp only
  split
  · split
    · refine ⟨by simp, ?_⟩
      intro s hs
      rcases List.mem_append.mp hs with h | h
      · exact hall s h
      · rw [List.mem_singleton] at h
        rw [h]
        show (chain.getD (seg_find chain.tail ext 0) calloc_section_buf).segmented = true
        exact hall _ (getD_mem_of_lt _ _ _ hk)
    · exact ⟨hk, hall⟩
  · exact ⟨hpos, hall⟩

theorem version_check_segmented (s : section_buf) (ext ver : Int) :
    (version_check s ext ver).segmented = s.segmented := by
  unfold version_check
  split <;> rfl

theorem chain_enter_segmented (chain : List section_buf) (tid ext ver : Int)
    (hne : chain ≠ []) (hall : ∀ s ∈ chain, s.segmented = true) :
    (chain_enter chain tid ext ver).2 < (chain_enter chain tid ext ver).1.length ∧
    ∀ s ∈ (chain_enter chain tid ext ver).1, s.segmented = true := by
  have h := select_segment_segmented chain tid ext ver hne hall
  unfold chain_enter
  simp only
  refine ⟨by rw [List.length_set]; exact h.1, ?_⟩
  apply forall_mem_set _ _ _ _ h.2
  rw [version_check_segmented]
  exact h.2 _ (getD_mem_of_lt _ _ _ h.1)

theorem chain_record_segmented (chain : List section_buf) (k n last : Nat)
    (hk : k < chain.length) (hall : ∀ s ∈ chain, s.segmented = true) :
    k < (chain_record chain k n last).length ∧
    ∀ s ∈ chain_record chain k n last, s.segmented = true := by
  have hkseg : (chain.getD k calloc_section_buf).segmented = true :=
    hall _ (getD_mem_of_lt _ _ _ hk)
  have h1 : ∀ s ∈ chain.set k (mark_section n (chain.getD k calloc_section_buf)),
      s.segmented = true := forall_mem_set _ _ _ _ hall hkseg
  unfold chain_record
  split
  · simp only
    split
    · refine ⟨by simp [List.length_set]; exact hk, ?_⟩
      apply forall_mem_set _ _ _ _ h1
      show ((chain.set k (mark_section n (chain.getD k calloc_section_buf))).getD k
        calloc_section_buf).segmented = true
      exact h1 _ (getD_mem_of_lt _ _ _ (by rw [List.length_set]; exact hk))
    · exact ⟨by rw [List.length_set]; exact hk, h1⟩
  · exact ⟨hk, hall⟩

/-- On a chain of segmented states reassemble never returns 1, and the chain
stays one of segmented states. -/
theorem reassemble_segmented (chain : List section_buf)
    (hne : chain ≠ []) (hall : ∀ s ∈ chain, s.segmented = true) :
    ((reassemble chain).1 = 0 ∨ (reassemble chain).1 = -1) ∧
    (reassemble chain).2 ≠ [] ∧ ∀ s ∈ (reassemble chain).2, s.segmented = true := by
  unfold reassemble
  simp only
  split
  · exact ⟨Or.inr rfl, hne, hall⟩
  · generalize hbuf : (chain.getD 0 calloc_section_buf).buf = buf
    have he := chain_enter_segmented chain ((rd buf 0 : Nat) : Int)
      (((rd buf 3 <<< 8) ||| rd buf 4 : Nat) : Int) ((((rd buf 5 >>> 1) &&& 0x1f) : Nat) : Int)
      hne hall
    generalize chain_enter chain _ _ _ = e at he ⊢
    have hr := chain_record_segmented e.1 e.2 (rd buf 6) (rd buf 7) he.1 he.2
    generalize chain_record e.1 e.2 (rd buf 6) (rd buf 7) = c at hr ⊢
    refine ⟨Or.inl ?_, ?_, hr.2⟩
    · unfold section_result
      rw [if_pos (hr.2 _ (getD_mem_of_lt _ _ _ hr.1))]
    · intro h
      have h2 : c = [] := h
      rw [h2] at hr
      exact absurd hr.1 (by simp)

theorem lt_length_of_chain_ne_nil (flt : filter_sched) (sp : Nat) (h : chain_at flt sp ≠ []) :
    sp < flt.filters.length := by
  by_contra hlt
  apply h
  unfold chain_at
  rw [List.getD_eq_getElem?_getD, List.getElem?_eq_none (by omega)]
  rfl

theorem erase_buf_chain_at (flt1 flt2 : filter_sched)
    (h : flt1.filters.map (List.map erase_buf) = flt2.filters.map (List.map erase_buf))
    (a : Nat) : (chain_at flt1 a).map erase_buf = (chain_at flt2 a).map erase_buf := by
  unfold chain_at
  have h1 := list_getD_map (List.map erase_buf) flt1.filters a []
  have h2 := list_getD_map (List.map erase_buf) flt2.filters a []
  rw [← h1, ← h2, h]

/-- The two reads keep the chain of the filter non-empty and segmented. -/
theorem read_outcome_segmented (sp : Nat) (r1 r2 : read_result) (st : scan_state)
    (hne : chain_at st.flt sp ≠ []) (hall : ∀ s ∈ chain_at st.flt sp, s.segmented = true) :
    chain_at (read_outcome sp r1 r2 st).2.flt sp ≠ [] ∧
    ∀ s ∈ chain_at (read_outcome sp r1 r2 st).2.flt sp, s.segmented = true := by
  have h := erase_buf_chain_at _ _ (read_outcome_frame sp r1 r2 st).2.1 sp
  constructor
  · intro h0
    rw [h0] at h
    exact hne (List.map_eq_nil_iff.mp h.symm)
  · intro s hs
    have hm : erase_buf s ∈ (chain_at st.flt sp).map erase_buf := by
      rw [← h]; exact List.mem_map_of_mem _ hs
    obtain ⟨s0, hs0, he⟩ := List.mem_map.mp hm
    have := congrArg (fun b : section_buf => b.segmented) he
    simp only [erase_buf] at this
    rw [← this]
    exact hall s0 hs0

/-- C9: on a filter whose states all carry the segmented flag (the filter and
the next_seg siblings, which inherit the flag when they are allocated),
parse_section returns 0 or -1 and read_sections returns 0 or -1, never 1,
whatever the buffer holds and whatever bits are set in the bitmaps; and both
leave a chain of segmented states, so this holds for every later section too. -/
theorem segmented_filter_never_completes (cfg : config) (sp : Nat) (st : scan_state)
    (r1 r2 : read_result)
    (hne : chain_at st.flt sp ≠ []) (hall : ∀ s ∈ chain_at st.flt sp, s.segmented = true) :
    ((parse_section cfg sp st).1 = 0 ∨ (parse_section cfg sp st).1 = -1) ∧
    ((read_sections cfg sp r1 r2 st).1 = 0 ∨ (read_sections cfg sp r1 r2 st).1 = -1) ∧
    (chain_at (parse_section cfg sp st).2.flt sp ≠ [] ∧
      ∀ s ∈ chain_at (parse_section cfg sp st).2.flt sp, s.segmented = true) ∧
    (chain_at (read_sections cfg sp r1 r2 st).2.flt sp ≠ [] ∧
      ∀ s ∈ chain_at (read_sections cfg sp r1 r2 st).2.flt sp, s.segmented = true) := by
  have key : ∀ st : scan_state, chain_at st.flt sp ≠ [] →
      (∀ s ∈ chain_at st.flt sp, s.segmented = true) →
      ((parse_section cfg sp st).1 = 0 ∨ (parse_section cfg sp st).1 = -1) ∧
      (chain_at (parse_section cfg sp st).2.flt sp ≠ [] ∧
        ∀ s ∈ chain_at (parse_section cfg sp st).2.flt sp, s.segmented = true) := by
    intro st hne hall
    have hp := parse_section_chain cfg sp st (lt_length_of_chain_ne_nil _ _ hne)
    have hr := reassemble_segmented _ hne hall
    rw [hp.1, hp.2.1]
    exact hr
  refine ⟨(key st hne hall).1, ?_, (key st hne hall).2, ?_⟩
  · have hro := read_outcome_segmented sp r1 r2 st hne hall
    have hk := key _ hro.1 hro.2
    unfold read_sections
    have hhead : (seg_at st.flt sp 0).segmented = true :=
      hall _ (getD_mem_of_lt _ _ _ (List.length_pos.mpr hne))
    rw [if_neg (by simp [hhead])]
    simp only
    split
    · exact Or.inr rfl
    · split
      · exact Or.inr rfl
      · split
        · exact Or.inr rfl
        · split
          · rename_i h1
            rcases hk.1 with h | h <;> rw [h] at h1 <;> simp at h1
          · exact Or.inl rfl
  · have hro := read_outcome_segmented sp r1 r2 st hne hall
    have hk := key _ hro.1 hro.2
    unfold read_sections
    have hhead : (seg_at st.flt sp 0).segmented = true :=
      hall _ (getD_mem_of_lt _ _ _ (List.length_pos.mpr hne))
    rw [if_neg (by simp [hhead])]
    simp only
    split
    · exact hro
    · split
      · exact hro
      · split
        · exact hro
        · split
          · exact hk.2
          · exact hk.2

theorem segmented_filter_never_completes_witness :
    ((parse_section ex_cfg 0 ex_seg_state).1 = 0 ∨ (parse_section ex_cfg 0 ex_seg_state).1 = -1) ∧
    ((read_sections ex_cfg 0 (read_of (ex_nit_other 1)) (read_of []) ex_seg_state).1 = 0 ∨
      (read_sections ex_cfg 0 (read_of (ex_nit_other 1)) (read_of []) ex_seg_state).1 = -1) ∧
    chain_at (parse_section ex_cfg 0 ex_seg_state).2.flt 0 ≠ [] :=
  ⟨(segmented_filter_never_completes ex_cfg 0 ex_seg_state (read_of (ex_nit_other 1))
      (read_of []) (by decide) (by decide)).1,
   (segmented_filter_never_completes ex_cfg 0 ex_seg_state (read_of (ex_nit_other 1))
      (read_of []) (by decide) (by decide)).2.1,
   (segmented_filter_never_completes ex_cfg 0 ex_seg_state (read_of (ex_nit_other 1))
      (read_of []) (by decide) (by decide)).2.2.1.1⟩

/-! ## The state selected and updated by parse_section -/

theorem list_set_set_same {α : Type} (l : List α) (k : Nat) (x y : α) :
    (l.set k x).set k y = l.set k y := by
  induction l generalizing k with
  | nil => simp
  | cons a l ih =>
    cases k with
    | zero => simp
    | succ k => simp

theorem chain_record_eq (chain : List section_buf) (k n last : Nat) (hk : k < chain.length) :
    chain_record chain k n last =
      chain.set k (record_state (chain.getD k calloc_section_buf) n last) := by
  unfold chain_record record_state
  split
  · simp only
    rw [list_getD_set_same, if_pos hk]
    split
    · rw [list_set_set_same]
    · rfl
  · rw [list_set_getD_self]

theorem chain_enter_bound (chain : List section_buf) (tid ext ver : Int) (hne : chain ≠ []) :
    (select_segment chain tid ext ver).2 < (select_segment chain tid ext ver).1.length := by
  have hpos : 0 < chain.length := List.length_pos.mpr hne
  have hk : seg_find chain.tail ext 0 < chain.length := by
    have := seg_find_le chain.tail ext 0
    simp only [List.length_tail] at this
    omega
  unfold select_segment
  simp only
  split
  · split
    · simp
    · exact hk
  · exact hpos

/-- The effect of reassemble in terms of select_segment and update_state. -/
theorem reassemble_eq (chain : List section_buf) (buf : List Nat) (hne : chain ≠ [])
    (hbuf : (chain.getD 0 calloc_section_buf).buf = buf)
    (htid : (chain.getD 0 calloc_section_buf).table_id = hdr_tid buf) :
    reassemble chain =
      (section_result (update_state
          ((select_segment chain (hdr_tid buf) (hdr_ext buf) (hdr_ver buf)).1.getD
            (select_segment chain (hdr_tid buf) (hdr_ext buf) (hdr_ver buf)).2 calloc_section_buf)
          (hdr_ext buf) (hdr_ver buf) (rd buf 6) (rd buf 7)),
       (select_segment chain (hdr_tid buf) (hdr_ext buf) (hdr_ver buf)).1.set
          (select_segment chain (hdr_tid buf) (hdr_ext buf) (hdr_ver buf)).2
          (update_state
            ((select_segment chain (hdr_tid buf) (hdr_ext buf) (hdr_ver buf)).1.getD
              (select_segment chain (hdr_tid buf) (hdr_ext buf) (hdr_ver buf)).2 calloc_section_buf)
            (hdr_ext buf) (hdr_ver buf) (rd buf 6) (rd buf 7))) := by
  unfold reassemble
  simp only
  rw [hbuf]
  have hb := chain_enter_bound chain (hdr_tid buf) (hdr_ext buf) (hdr_ver buf) hne
  unfold chain_enter update_state
  unfold hdr_tid at htid
  unfold hdr_tid hdr_ext hdr_ver at hb ⊢
  rw [if_neg (not_not.mpr htid)]
  generalize select_segment chain _ _ _ = sel at hb ⊢
  simp only
  rw [chain_record_eq _ _ _ _ (by rw [List.length_set]; exact hb)]
  simp only [List.length_set, hb, if_true, list_getD_set_same, list_set_set_same]

/-! ## C8: one reassembly state per table_id_ext -/

theorem version_check_fields (s : section_buf) (ext ver : Int) :
    (version_check s ext ver).table_id_ext = ext ∧
    (version_check s ext ver).section_version_number = ver ∧
    (version_check s ext ver).segmented = s.segmented ∧
    (version_check s ext ver).table_id = s.table_id ∧
    (version_check s ext ver).buf = s.buf ∧
    (s.section_done.length = 32 → (version_check s ext ver).section_done.length = 32) := by
  unfold version_check
  split
  · exact ⟨rfl, rfl, rfl, rfl, rfl, fun _ => by simp⟩
  · rename_i h
    have h2 := not_or.mp h
    exact ⟨(not_not.mp h2.2), (not_not.mp h2.1), rfl, rfl, rfl, fun h => h⟩

theorem record_state_fields (s : section_buf) (n last : Nat) :
    (record_state s n last).table_id_ext = s.table_id_ext ∧
    (record_state s n last).section_version_number = s.section_version_number ∧
    (record_state s n last).segmented = s.segmented ∧
    (record_state s n last).table_id = s.table_id ∧
    (record_state s n last).buf = s.buf ∧
    (record_state s n last).section_done.length = s.section_done.length ∧
    (n / 8 < s.section_done.length → get_bit (record_state s n last).section_done n ≠ 0) := by
  unfold record_state
  split
  · split
    · refine ⟨rfl, rfl, rfl, rfl, rfl, set_bit_length _ _, fun h => ?_⟩
      show get_bit (set_bit s.section_done n) n ≠ 0
      rw [get_bit_set_bit_same _ _ h]; norm_num
    · refine ⟨rfl, rfl, rfl, rfl, rfl, set_bit_length _ _, fun h => ?_⟩
      show get_bit (set_bit s.section_done n) n ≠ 0
      rw [get_bit_set_bit_same _ _ h]; norm_num
  · rename_i h
    exact ⟨rfl, rfl, rfl, rfl, rfl, rfl, fun _ => h⟩

/-- The fields of the state parse_section has worked on. -/
theorem update_state_fields (s : section_buf) (ext ver : Int) (n last : Nat) :
    (update_state s ext ver n last).table_id_ext = ext ∧
    (update_state s ext ver n last).section_version_number = ver ∧
    (update_state s ext ver n last).segmented = s.segmented ∧
    (update_state s ext ver n last).table_id = s.table_id ∧
    (update_state s ext ver n last).buf = s.buf ∧
    (s.section_done.length = 32 → (update_state s ext ver n last).section_done.length = 32) ∧
    (s.section_done.length = 32 → n < 256 →
      get_bit (update_state s ext ver n last).section_done n ≠ 0) := by
  unfold update_state
  have hv := version_check_fields s ext ver
  have hr := record_state_fields (version_check s ext ver) n last
  refine ⟨hr.1.trans hv.1, hr.2.1.trans hv.2.1, hr.2.2.1.trans hv.2.2.1,
    hr.2.2.2.1.trans hv.2.2.2.1, hr.2.2.2.2.1.trans hv.2.2.2.2.1, ?_, ?_⟩
  · intro h; rw [hr.2.2.2.2.2.1]; exact hv.2.2.2.2.2 h
  · intro h hn
    apply hr.2.2.2.2.2.2
    rw [hv.2.2.2.2.2 h]; omega

/-- The state calloc'ed by select_segment for a new table_id_ext. -/
theorem select_segment_one (a : section_buf) (tid ext ver : Int)
    (hseg : a.segmented = true) (ha : a.table_id_ext ≠ -1) (hne : a.table_id_ext ≠ ext) :
    select_segment [a] tid ext ver =
      ([a, { calloc_section_buf with
              segmented := a.segmented, run_once := a.run_once, timeout := a.timeout,
              table_id := tid, table_id_ext := ext, section_version_number := ver }], 1) := by
  unfold select_segment
  simp [hseg, ha, hne, seg_find]

theorem select_segment_two (a b : section_buf) (tid ext ver : Int)
    (hseg : a.segmented = true) (ha : a.table_id_ext ≠ -1) (hne : a.table_id_ext ≠ ext)
    (hb : b.table_id_ext ≠ ext) :
    select_segment [a, b] tid ext ver =
      ([a, b, { calloc_section_buf with
              segmented := b.segmented, run_once := b.run_once, timeout := b.timeout,
              table_id := tid, table_id_ext := ext, section_version_number := ver }], 2) := by
  unfold select_segment
  simp [hseg, ha, hne, hb, seg_find]

theorem select_segment_fresh (a : section_buf) (rest : List section_buf) (tid ext ver : Int)
    (ha : a.table_id_ext = -1 ∨ a.table_id_ext = ext) :
    select_segment (a :: rest) tid ext ver = (a :: rest, 0) := by
  unfold select_segment
  rcases ha with h | h <;> simp [h]

theorem select_segment_three (a b c : section_buf) (tid : Int) (k : Nat) (ver : Int)
    (hk : k = 1 ∨ k = 2 ∨ k = 3)
    (hseg : a.segmented = true) (ha : a.table_id_ext = 1) (hb : b.table_id_ext = 2)
    (hc : c.table_id_ext = 3) :
    select_segment [a, b, c] tid (k : Int) ver = ([a, b, c], k - 1) := by
  unfold select_segment
  rcases hk with h | h | h <;> subst h <;> simp [hseg, ha, hb, hc, seg_find]

theorem hdr_read_into (b : section_buf) (sec : List Nat) (h8 : 8 ≤ sec.length) :
    hdr_tid (read_into b (read_of sec)).buf = hdr_tid sec ∧
    hdr_ext (read_into b (read_of sec)).buf = hdr_ext sec ∧
    hdr_ver (read_into b (read_of sec)).buf = hdr_ver sec ∧
    rd (read_into b (read_of sec)).buf 6 = rd sec 6 ∧
    rd (read_into b (read_of sec)).buf 7 = rd sec 7 := by
  have hr := fun i (hi : i < 8) => rd_read_into b sec i (by omega) (by omega)
  unfold hdr_tid hdr_ext hdr_ver
  rw [hr 0 (by norm_num), hr 3 (by norm_num), hr 4 (by norm_num), hr 5 (by norm_num),
    hr 6 (by norm_num), hr 7 (by norm_num)]
  exact ⟨rfl, rfl, rfl, rfl, rfl⟩

/-- A section delivered to a filter and parsed: the chain of the filter
afterwards, and the value returned, in terms of select_segment and
update_state. -/
theorem parse_loaded_section (cfg : config) (sp : Nat) (sec : List Nat) (st : scan_state)
    (a : section_buf) (rest : List section_buf)
    (hsp : sp < st.flt.filters.length) (hch : chain_at st.flt sp = a :: rest)
    (h8 : 8 ≤ sec.length) (htid : hdr_tid sec = a.table_id) :
    chain_at (parse_section cfg sp (load_section sp sec st)).2.flt sp =
      (select_segment (read_into a (read_of sec) :: rest) (hdr_tid sec) (hdr_ext sec)
          (hdr_ver sec)).1.set
        (select_segment (read_into a (read_of sec) :: rest) (hdr_tid sec) (hdr_ext sec)
          (hdr_ver sec)).2
        (update_state
          ((select_segment (read_into a (read_of sec) :: rest) (hdr_tid sec) (hdr_ext sec)
              (hdr_ver sec)).1.getD
            (select_segment (read_into a (read_of sec) :: rest) (hdr_tid sec) (hdr_ext sec)
              (hdr_ver sec)).2 calloc_section_buf)
          (hdr_ext sec) (hdr_ver sec) (rd sec 6) (rd sec 7)) ∧
    (parse_section cfg sp (load_section sp sec st)).1 =
      section_result (update_state
          ((select_segment (read_into a (read_of sec) :: rest) (hdr_tid sec) (hdr_ext sec)
              (hdr_ver sec)).1.getD
            (select_segment (read_into a (read_of sec) :: rest) (hdr_tid sec) (hdr_ext sec)
              (hdr_ver sec)).2 calloc_section_buf)
          (hdr_ext sec) (hdr_ver sec) (rd sec 6) (rd sec 7)) ∧
    st.flt.filters.length ≤ (parse_section cfg sp (load_section sp sec st)).2.flt.filters.length := by
  have hl := load_section_chain sp sec st
  have hch1 : chain_at (load_section sp sec st).flt sp = read_into a (read_of sec) :: rest := by
    rw [hl.1, hch]
    unfold seg_at
    rw [hch]
    rfl
  have hpc := parse_section_chain cfg sp (load_section sp sec st) (by rw [hl.2]; exact hsp)
  rw [hch1, hl.2] at hpc
  have hh := hdr_read_into a sec h8
  have hre := reassemble_eq (read_into a (read_of sec) :: rest) (read_into a (read_of sec)).buf
    (by simp) rfl
    (by
      show (read_into a (read_of sec)).table_id = _
      rw [(read_into_fields a (read_of sec)).2.1, hh.1, htid])
  rw [hh.1, hh.2.1, hh.2.2.1, hh.2.2.2.1, hh.2.2.2.2] at hre
  rw [hre] at hpc
  exact ⟨hpc.2.1, hpc.1, hpc.2.2.1⟩

theorem three_segments_iff (tid : Int) (chain : List section_buf) :
    three_segments tid chain = true ↔
      ∃ a b c, chain = [a, b, c] ∧ a.segmented = true ∧ a.table_id = tid ∧
        a.table_id_ext = 1 ∧ b.table_id_ext = 2 ∧ c.table_id_ext = 3 ∧
        a.section_done.length = 32 ∧ b.section_done.length = 32 ∧
        c.section_done.length = 32 := by
  constructor
  · intro h
    cases chain with
    | nil => exact absurd h Bool.false_ne_true
    | cons a t =>
      cases t with
      | nil => exact absurd h Bool.false_ne_true
      | cons b t =>
        cases t with
        | nil => exact absurd h Bool.false_ne_true
        | cons c t =>
          cases t with
          | nil =>
            unfold three_segments at h
            simp only [Bool.and_eq_true, decide_eq_true_eq] at h
            exact ⟨a, b, c, rfl, h.1.1.1.1.1.1.1, h.1.1.1.1.1.1.2, h.1.1.1.1.1.2, h.1.1.1.1.2,
              h.1.1.1.2, h.1.1.2, h.1.2, h.2⟩
          | cons d t => exact absurd h Bool.false_ne_true
  · rintro ⟨a, b, c, rfl, h1, h2, h3, h4, h5, h6, h7, h8⟩
    unfold three_segments
    simp only [Bool.and_eq_true, decide_eq_true_eq]
    exact ⟨⟨⟨⟨⟨⟨⟨h1, h2⟩, h3⟩, h4⟩, h5⟩, h6⟩, h7⟩, h8⟩

/-- Part of C8: the first three sections, for table_id_ext 1, 2 and 3, build the
chain of three states. -/
theorem three_sections_build_chain (cfg : config) (sp : Nat) (st : scan_state) (s : section_buf)
    (sec1 sec2 sec3 : List Nat)
    (hsp : sp < st.flt.filters.length) (hch : chain_at st.flt sp = [s])
    (hseg : s.segmented = true) (hext : s.table_id_ext = -1)
    (hsd : s.section_done.length = 32)
    (h1 : 8 ≤ sec1.length ∧ hdr_tid sec1 = s.table_id ∧ hdr_ext sec1 = 1)
    (h2 : 8 ≤ sec2.length ∧ hdr_tid sec2 = s.table_id ∧ hdr_ext sec2 = 2)
    (h3 : 8 ≤ sec3.length ∧ hdr_tid sec3 = s.table_id ∧ hdr_ext sec3 = 3) :
    sp < (feed_sections cfg sp [sec1, sec2, sec3] st).2.flt.filters.length ∧
    three_segments s.table_id
      (chain_at (feed_sections cfg sp [sec1, sec2, sec3] st).2.flt sp) = true := by
  -- first section
  have p1 := parse_loaded_section cfg sp sec1 st s [] hsp hch h1.1 h1.2.1
  have f1 := read_into_fields s (read_of sec1)
  rw [select_segment_fresh _ _ _ _ _ (Or.inl (by rw [f1.2.2.1]; exact hext))] at p1
  simp only [List.getD_cons_zero, List.set_cons_zero] at p1
  have u1 := update_state_fields (read_into s (read_of sec1)) (hdr_ext sec1) (hdr_ver sec1)
    (rd sec1 6) (rd sec1 7)
  generalize update_state (read_into s (read_of sec1)) (hdr_ext sec1) (hdr_ver sec1)
    (rd sec1 6) (rd sec1 7) = x1 at p1 u1
  generalize hst1 : (parse_section cfg sp (load_section sp sec1 st)).2 = st1 at p1
  rw [f1.1, f1.2.1, f1.2.2.2.2.1, h1.2.2] at u1
  -- second section
  have p2 := parse_loaded_section cfg sp sec2 st1 x1 [] (lt_of_lt_of_le hsp p1.2.2) p1.1 h2.1
    (by rw [h2.2.1, u1.2.2.2.1])
  have f2 := read_into_fields x1 (read_of sec2)
  rw [select_segment_one _ _ _ _ (by rw [f2.1, u1.2.2.1]; exact hseg)
    (by rw [f2.2.2.1, u1.1]; norm_num) (by rw [f2.2.2.1, u1.1, h2.2.2]; norm_num)] at p2
  simp only [List.getD_cons_succ, List.getD_cons_zero, List.set_cons_succ,
    List.set_cons_zero] at p2
  have u2 := update_state_fields
    { calloc_section_buf with
      segmented := (read_into x1 (read_of sec2)).segmented,
      run_once := (read_into x1 (read_of sec2)).run_once,
      timeout := (read_into x1 (read_of sec2)).timeout,
      table_id := hdr_tid sec2, table_id_ext := hdr_ext sec2,
      section_version_number := hdr_ver sec2 }
    (hdr_ext sec2) (hdr_ver sec2) (rd sec2 6) (rd sec2 7)
  generalize update_state _ (hdr_ext sec2) (hdr_ver sec2) (rd sec2 6) (rd sec2 7) = x2 at p2 u2
  generalize hst2 : (parse_section cfg sp (load_section sp sec2 st1)).2 = st2 at p2
  -- third section
  have p3 := parse_loaded_section cfg sp sec3 st2 (read_into x1 (read_of sec2)) [x2]
    (lt_of_lt_of_le (lt_of_lt_of_le hsp p1.2.2) p2.2.2) p2.1 h3.1
    (by rw [h3.2.1, f2.2.1, u1.2.2.2.1])
  have f3 := read_into_fields (read_into x1 (read_of sec2)) (read_of sec3)
  rw [select_segment_two _ _ _ _ _ (by rw [f3.1, f2.1, u1.2.2.1]; exact hseg)
    (by rw [f3.2.2.1, f2.2.2.1, u1.1]; norm_num)
    (by rw [f3.2.2.1, f2.2.2.1, u1.1, h3.2.2]; norm_num)
    (by rw [u2.1, h2.2.2, h3.2.2]; norm_num)] at p3
  simp only [List.getD_cons_succ, List.getD_cons_zero, List.set_cons_succ,
    List.set_cons_zero] at p3
  have u3 := update_state_fields
    { calloc_section_buf with
      segmented := x2.segmented, run_once := x2.run_once, timeout := x2.timeout,
      table_id := hdr_tid sec3, table_id_ext := hdr_ext sec3,
      section_version_number := hdr_ver sec3 }
    (hdr_ext sec3) (hdr_ver sec3) (rd sec3 6) (rd sec3 7)
  generalize update_state _ (hdr_ext sec3) (hdr_ver sec3) (rd sec3 6) (rd sec3 7) = x3 at p3 u3
  generalize hst3 : (parse_section cfg sp (load_section sp sec3 st2)).2 = st3 at p3
  have hfeed : (feed_sections cfg sp [sec1, sec2, sec3] st).2 = st3 := by
    simp only [feed_sections]
    rw [hst1, hst2, hst3]
  rw [hfeed]
  refine ⟨lt_of_lt_of_le (lt_of_lt_of_le (lt_of_lt_of_le hsp p1.2.2) p2.2.2) p3.2.2, ?_⟩
  rw [p3.1, three_segments_iff]
  refine ⟨_, _, _, rfl, by rw [f3.1, f2.1, u1.2.2.1]; exact hseg,
    by rw [f3.2.1, f2.2.1, u1.2.2.2.1], by rw [f3.2.2.1, f2.2.2.1, u1.1],
    by rw [u2.1, h2.2.2], by rw [u3.1, h3.2.2],
    by rw [f3.2.2.2.2.1, f2.2.2.2.2.1]; exact u1.2.2.2.2.2.1 hsd,
    u2.2.2.2.2.2.1 (by rfl), u3.2.2.2.2.2.1 (by rfl)⟩

/-- Part of C8: on a chain of three states for table_id_ext 1, 2 and 3, a
section for table_id_ext k is recorded in the k-th state and nowhere else. -/
theorem later_section_one_state (cfg : config) (sp : Nat) (st : scan_state) (tid : Int)
    (sec : List Nat) (k : Nat)
    (hsp : sp < st.flt.filters.length)
    (h3 : three_segments tid (chain_at st.flt sp) = true)
    (h8 : 8 ≤ sec.length) (htid : hdr_tid sec = tid) (hk : k = 1 ∨ k = 2 ∨ k = 3)
    (hext : hdr_ext sec = (k : Int)) :
    sp < (parse_section cfg sp (load_section sp sec st)).2.flt.filters.length ∧
    three_segments tid (chain_at (parse_section cfg sp (load_section sp sec st)).2.flt sp) = true ∧
    get_bit ((chain_at (parse_section cfg sp (load_section sp sec st)).2.flt sp).getD (k - 1)
      calloc_section_buf).section_done (rd sec 6) ≠ 0 ∧
    ∀ j, j ≠ k - 1 →
      erase_buf ((chain_at (parse_section cfg sp (load_section sp sec st)).2.flt sp).getD j
        calloc_section_buf) =
      erase_buf ((chain_at st.flt sp).getD j calloc_section_buf) := by
  obtain ⟨a, b, c, hch, hseg, hatid, ha, hb, hc, hla, hlb, hlc⟩ := (three_segments_iff _ _).mp h3
  have p := parse_loaded_section cfg sp sec st a [b, c] hsp hch h8 (by rw [htid, hatid])
  have f := read_into_fields a (read_of sec)
  rw [hext, select_segment_three _ _ _ _ _ _ hk (by rw [f.1]; exact hseg)
    (by rw [f.2.2.1]; exact ha) hb hc] at p
  simp only at p
  have hn : rd sec 6 < 256 := rd_lt _ _
  refine ⟨lt_of_lt_of_le hsp p.2.2, ?_⟩
  rw [p.1, hch]
  have he : erase_buf (read_into a (read_of sec)) = erase_buf a := erase_buf_read_into _ _
  rcases hk with h | h | h <;> subst h
  · have u := update_state_fields (read_into a (read_of sec)) ((1 : Nat) : Int) (hdr_ver sec)
      (rd sec 6) (rd sec 7)
    simp only [List.getD_cons_zero, List.set_cons_zero, Nat.sub_self] at u ⊢
    generalize update_state (read_into a (read_of sec)) _ (hdr_ver sec) (rd sec 6) (rd sec 7) = x
      at u ⊢
    refine ⟨?_, u.2.2.2.2.2.2 (by rw [f.2.2.2.2.1]; exact hla) hn, ?_⟩
    · rw [three_segments_iff]
      exact ⟨_, _, _, rfl, by rw [u.2.2.1, f.1]; exact hseg, by rw [u.2.2.2.1, f.2.1]; exact hatid,
        by rw [u.1]; rfl, hb, hc, u.2.2.2.2.2.1 (by rw [f.2.2.2.2.1]; exact hla), hlb, hlc⟩
    · intro j hj
      match j, hj with
      | j + 1, _ => rfl
  · have u := update_state_fields b ((2 : Nat) : Int) (hdr_ver sec) (rd sec 6) (rd sec 7)
    simp only [List.getD_cons_succ, List.getD_cons_zero, List.set_cons_succ, List.set_cons_zero,
      Nat.add_one_sub_one] at u ⊢
    generalize update_state b _ (hdr_ver sec) (rd sec 6) (rd sec 7) = x at u ⊢
    refine ⟨?_, u.2.2.2.2.2.2 hlb hn, ?_⟩
    · rw [three_segments_iff]
      exact ⟨_, _, _, rfl, by rw [f.1]; exact hseg, by rw [f.2.1]; exact hatid,
        by rw [f.2.2.1]; exact ha, by rw [u.1]; rfl, hc, by rw [f.2.2.2.2.1]; exact hla,
        u.2.2.2.2.2.1 hlb, hlc⟩
    · intro j hj
      match j, hj with
      | 0, _ => exact he
      | j + 2, _ => rfl
  · have u := update_state_fields c ((3 : Nat) : Int) (hdr_ver sec) (rd sec 6) (rd sec 7)
    simp only [List.getD_cons_succ, List.getD_cons_zero, List.set_cons_succ, List.set_cons_zero,
      Nat.add_one_sub_one] at u ⊢
    generalize update_state c _ (hdr_ver sec) (rd sec 6) (rd sec 7) = x at u ⊢
    refine ⟨?_, u.2.2.2.2.2.2 hlc hn, ?_⟩
    · rw [three_segments_iff]
      exact ⟨_, _, _, rfl, by rw [f.1]; exact hseg, by rw [f.2.1]; exact hatid,
        by rw [f.2.2.1]; exact ha, hb, by rw [u.1]; rfl, by rw [f.2.2.2.2.1]; exact hla,
        hlb, u.2.2.2.2.2.1 hlc⟩
    · intro j hj
      match j, hj with
      | 0, _ => exact he
      | 1, _ => rfl
      | j + 3, _ => rfl

/-- C8: a freshly set-up segmented filter (table_id_ext still -1) that receives
valid sections with table_id_ext 1, 2 and 3 in this order ends with a chain of
exactly three states, the filter and two next_seg siblings, whose table_id_ext
are 1, 2 and 3.  On every such chain, a later section with table_id_ext k in
{1, 2, 3} leaves a chain of the same shape (no state is allocated), has its
section_number marked in the bitmap of the k-th state, and leaves every field
of the other two states unchanged but the receive buffer of the filter, into
which the section was read. -/
theorem segmented_filter_one_state_per_table_id_ext (cfg : config) (sp : Nat)
    (st : scan_state) (s : section_buf) (sec1 sec2 sec3 : List Nat)
    (hsp : sp < st.flt.filters.length) (hch : chain_at st.flt sp = [s])
    (hseg : s.segmented = true) (hext : s.table_id_ext = -1)
    (hsd : s.section_done.length = 32)
    (h1 : 8 ≤ sec1.length ∧ hdr_tid sec1 = s.table_id ∧ hdr_ext sec1 = 1)
    (h2 : 8 ≤ sec2.length ∧ hdr_tid sec2 = s.table_id ∧ hdr_ext sec2 = 2)
    (h3 : 8 ≤ sec3.length ∧ hdr_tid sec3 = s.table_id ∧ hdr_ext sec3 = 3) :
    (sp < (feed_sections cfg sp [sec1, sec2, sec3] st).2.flt.filters.length ∧
      three_segments s.table_id
        (chain_at (feed_sections cfg sp [sec1, sec2, sec3] st).2.flt sp) = true) ∧
    ∀ (st2 : scan_state) (sec : List Nat) (k : Nat),
      sp < st2.flt.filters.length → three_segments s.table_id (chain_at st2.flt sp) = true →
      8 ≤ sec.length → hdr_tid sec = s.table_id → (k = 1 ∨ k = 2 ∨ k = 3) →
      hdr_ext sec = (k : Int) →
      sp < (parse_section cfg sp (load_section sp sec st2)).2.flt.filters.length ∧
      three_segments s.table_id
        (chain_at (parse_section cfg sp (load_section sp sec st2)).2.flt sp) = true ∧
      get_bit ((chain_at (parse_section cfg sp (load_section sp sec st2)).2.flt sp).getD (k - 1)
        calloc_section_buf).section_done (rd sec 6) ≠ 0 ∧
      ∀ j, j ≠ k - 1 →
        erase_buf ((chain_at (parse_section cfg sp (load_section sp sec st2)).2.flt sp).getD j
          calloc_section_buf) =
        erase_buf ((chain_at st2.flt sp).getD j calloc_section_buf) :=
  ⟨three_sections_build_chain cfg sp st s sec1 sec2 sec3 hsp hch hseg hext hsd h1 h2 h3,
   fun st2 sec k g1 g2 g3 g4 g5 g6 =>
     later_section_one_state cfg sp st2 s.table_id sec k g1 g2 g3 g4 g5 g6⟩

theorem segmented_filter_one_state_per_table_id_ext_witness :
    three_segments 0x41 (chain_at ex_seg_three.flt 0) = true ∧
    three_segments 0x41
      (chain_at (parse_section ex_cfg 0 (load_section 0 (ex_nit_other 2) ex_seg_three)).2.flt
        0) = true ∧
    erase_buf ((chain_at (parse_section ex_cfg 0
        (load_section 0 (ex_nit_other 2) ex_seg_three)).2.flt 0).getD 0 calloc_section_buf) =
      erase_buf ((chain_at ex_seg_three.flt 0).getD 0 calloc_section_buf) ∧
    erase_buf ((chain_at (parse_section ex_cfg 0
        (load_section 0 (ex_nit_other 2) ex_seg_three)).2.flt 0).getD 2 calloc_section_buf) =
      erase_buf ((chain_at ex_seg_three.flt 0).getD 2 calloc_section_buf) :=
  ⟨(segmented_filter_one_state_per_table_id_ext ex_cfg 0 ex_seg_start
      { setup_filter ex_cfg 0x10 0x41 true true 5 with fd := 4 }
      (ex_nit_other 1) (ex_nit_other 2) (ex_nit_other 3)
      (by decide) rfl rfl rfl rfl (by decide) (by decide) (by decide)).1.2,
   ((segmented_filter_one_state_per_table_id_ext ex_cfg 0 ex_seg_start
      { setup_filter ex_cfg 0x10 0x41 true true 5 with fd := 4 }
      (ex_nit_other 1) (ex_nit_other 2) (ex_nit_other 3)
      (by decide) rfl rfl rfl rfl (by decide) (by decide) (by decide)).2
      ex_seg_three (ex_nit_other 2) 2 (by decide) (by decide) (by decide) (by decide)
      (by decide) (by decide)).2.1,
   ((segmented_filter_one_state_per_table_id_ext ex_cfg 0 ex_seg_start
      { setup_filter ex_cfg 0x10 0x41 true true 5 with fd := 4 }
      (ex_nit_other 1) (ex_nit_other 2) (ex_nit_other 3)
      (by decide) rfl rfl rfl rfl (by decide) (by decide) (by decide)).2
      ex_seg_three (ex_nit_other 2) 2 (by decide) (by decide) (by decide) (by decide)
      (by decide) (by decide)).2.2.2 0 (by decide),
   ((segmented_filter_one_state_per_table_id_ext ex_cfg 0 ex_seg_start
      { setup_filter ex_cfg 0x10 0x41 true true 5 with fd := 4 }
      (ex_nit_other 1) (ex_nit_other 2) (ex_nit_other 3)
      (by decide) rfl rfl rfl rfl (by decide) (by decide) (by decide)).2
      ex_seg_three (ex_nit_other 2) 2 (by decide) (by decide) (by decide) (by decide)
      (by decide) (by decide)).2.2.2 2 (by decide)⟩

/-! ## C4: a section parsed twice -/

theorem seg_find_none (rest : List section_buf) (e : Int) (k : Nat)
    (h : ∀ s ∈ rest, s.table_id_ext ≠ e) : seg_find rest e k = k + rest.length := by
  induction rest generalizing k with
  | nil => simp [seg_find]
  | cons n rest ih =>
    unfold seg_find
    rw [if_neg (h n (List.mem_cons_self _ _)), ih (k + 1) (fun s hs => h s (List.mem_cons_of_mem _ hs))]
    simp only [List.length_cons]; omega

theorem seg_find_append (rest : List section_buf) (y : section_buf) (e : Int) (k : Nat)
    (h : ∀ s ∈ rest, s.table_id_ext ≠ e) (hy : y.table_id_ext = e) :
    seg_find (rest ++ [y]) e k = k + rest.length + 1 := by
  induction rest generalizing k with
  | nil => simp [seg_find, hy]
  | cons n rest ih =>
    rw [List.cons_append]
    unfold seg_find
    rw [if_neg (h n (List.mem_cons_self _ _)), ih (k + 1) (fun s hs => h s (List.mem_cons_of_mem _ hs))]
    simp only [List.length_cons]; omega

/-- Where the walk over the siblings stops: at the end when no sibling matches,
else at the first sibling that matches, and there again when that sibling is
replaced by another matching one. -/
theorem seg_find_spec (rest : List section_buf) (e : Int) (k : Nat) :
    ((∀ s ∈ rest, s.table_id_ext ≠ e) ∧ seg_find rest e k = k + rest.length) ∨
    ∃ j, j < rest.length ∧ seg_find rest e k = k + j + 1 ∧
      (rest.getD j calloc_section_buf).table_id_ext = e ∧
      ∀ y : section_buf, y.table_id_ext = e → seg_find (rest.set j y) e k = k + j + 1 := by
  induction rest generalizing k with
  | nil => left; simp [seg_find]
  | cons n rest ih =>
    by_cases hn : n.table_id_ext = e
    · right
      refine ⟨0, by simp, by simp [seg_find, hn], by simpa using hn, ?_⟩
      intro y hy
      simp [seg_find, hy]
    · rcases ih (k + 1) with ⟨hall, hr⟩ | ⟨j, hj, hr, hje, hset⟩
      · left
        refine ⟨?_, ?_⟩
        · intro s hs
          rcases List.mem_cons.mp hs with h | h
          · rw [h]; exact hn
          · exact hall s h
        · unfold seg_find
          rw [if_neg hn, hr]
          simp only [List.length_cons]; omega
      · right
        refine ⟨j + 1, by simpa using hj, ?_, by simpa using hje, ?_⟩
        · unfold seg_find
          rw [if_neg hn, hr]
          omega
        · intro y hy
          simp only [List.set_cons_succ]
          unfold seg_find
          rw [if_neg hn, hset y hy]
          omega

theorem list_set_length_append {α : Type} (l : List α) (a x : α) :
    (l ++ [a]).set l.length x = l ++ [x] := by
  induction l with
  | nil => rfl
  | cons b l ih => simp [ih]

theorem list_getD_length_append {α : Type} (l : List α) (a d : α) :
    (l ++ [a]).getD l.length d = a := by
  induction l with
  | nil => rfl
  | cons b l ih => simp

/-- The selection made by select_segment is stable: once the selected state
carries the table_id_ext searched for, the same search selects it again and
allocates nothing. -/
theorem select_segment_stable (chain : List section_buf) (tid e v : Int) (x : section_buf)
    (hne : chain ≠ []) (hxe : x.table_id_ext = e) :
    select_segment ((select_segment chain tid e v).1.set (select_segment chain tid e v).2 x)
        tid e v =
      ((select_segment chain tid e v).1.set (select_segment chain tid e v).2 x,
       (select_segment chain tid e v).2) := by
  obtain ⟨a, rest, rfl⟩ := List.exists_cons_of_ne_nil hne
  by_cases hc : a.segmented = true ∧ a.table_id_ext ≠ -1 ∧ a.table_id_ext ≠ e
  · rcases seg_find_spec rest e 0 with ⟨hall, hr⟩ | ⟨j, hj, hr, hje, hset⟩
    · -- no sibling matches: the state is appended
      have hsel : select_segment (a :: rest) tid e v =
          ((a :: rest) ++ [{ calloc_section_buf with
              segmented := ((a :: rest).getD rest.length calloc_section_buf).segmented,
              run_once := ((a :: rest).getD rest.length calloc_section_buf).run_once,
              timeout := ((a :: rest).getD rest.length calloc_section_buf).timeout,
              table_id := tid, table_id_ext := e, section_version_number := v }],
            (a :: rest).length) := by
        have hlast : ((a :: rest).getD rest.length calloc_section_buf).table_id_ext ≠ e := by
          cases hrest : rest with
          | nil => simpa using hc.2.2
          | cons b r =>
            have : (a :: b :: r).getD (b :: r).length calloc_section_buf ∈ b :: r := by
              simp only [List.length_cons, List.getD_cons_succ]
              exact getD_mem_of_lt _ _ _ (by simp)
            rw [hrest] at hall
            exact hall _ this
        unfold select_segment
        simp only [List.getD_cons_zero, List.tail_cons]
        rw [if_pos hc, hr, Nat.zero_add, if_pos hlast]
      rw [hsel]
      simp only
      rw [list_set_length_append]
      unfold select_segment
      simp only [List.cons_append, List.getD_cons_zero, List.tail_cons]
      rw [if_pos hc, seg_find_append _ _ _ _ hall hxe, Nat.zero_add]
      have : (a :: (rest ++ [x])).getD (rest.length + 1) calloc_section_buf = x := by
        simp only [List.getD_cons_succ]
        exact list_getD_length_append _ _ _
      rw [this, if_neg (not_not.mpr hxe)]
      simp
    · -- the sibling at position j + 1 matches
      have hsel : select_segment (a :: rest) tid e v = (a :: rest, j + 1) := by
        unfold select_segment
        simp only [List.getD_cons_zero, List.tail_cons]
        rw [if_pos hc, hr, Nat.zero_add, List.getD_cons_succ, if_neg (not_not.mpr hje)]
      rw [hsel]
      simp only [List.set_cons_succ]
      unfold select_segment
      simp only [List.getD_cons_zero, List.tail_cons]
      rw [if_pos hc, hset x hxe, Nat.zero_add, List.getD_cons_succ, list_getD_set_same,
        if_pos hj, if_neg (not_not.mpr hxe)]
  · -- the filter itself is selected
    have hsel : select_segment (a :: rest) tid e v = (a :: rest, 0) := by
      unfold select_segment
      simp only [List.getD_cons_zero]
      rw [if_neg hc]
    rw [hsel]
    simp only [List.set_cons_zero, List.getD_cons_zero]
    exact select_segment_fresh _ _ _ _ _ (Or.inr hxe)

theorem select_segment_bitmaps (chain : List section_buf) (tid e v : Int)
    (hwf : ∀ s ∈ chain, s.section_done.length = 32) :
    ∀ s ∈ (select_segment chain tid e v).1, s.section_done.length = 32 := by
  unfold select_segment
  simp only
  split
  · split
    · intro s hs
      rcases List.mem_append.mp hs with h | h
      · exact hwf s h
      · rw [List.mem_singleton] at h
        rw [h]; rfl
    · exact hwf
  · exact hwf

theorem seg_update_same (flt : filter_sched) (s k : Nat) (f : section_buf → section_buf)
    (h : f (seg_at flt s k) = seg_at flt s k) : seg_update flt s k f = flt := by
  unfold seg_update
  rw [h]
  unfold seg_at chain_at
  rw [list_set_getD_self, list_set_getD_self]

theorem version_check_same (s : section_buf) (e v : Int) (he : s.table_id_ext = e)
    (hv : s.section_version_number = v) : version_check s e v = s := by
  unfold version_check
  rw [if_neg (by simp [he, hv])]

theorem select_segment_head (chain : List section_buf) (tid e v : Int) (hne : chain ≠ []) :
    (select_segment chain tid e v).1.getD 0 calloc_section_buf =
      chain.getD 0 calloc_section_buf := by
  obtain ⟨a, rest, rfl⟩ := List.exists_cons_of_ne_nil hne
  unfold select_segment
  simp only
  split
  · split
    · rfl
    · rfl
  · rfl

/-- The second of two calls of parse_section with the same buffer finds the bit
of the section set and returns without touching the state. -/
theorem parse_section_settled (cfg : config) (sp : Nat) (st : scan_state) (k : Nat)
    (buf : List Nat)
    (hbuf : (seg_at st.flt sp 0).buf = buf)
    (htid : (seg_at st.flt sp 0).table_id = hdr_tid buf)
    (hsel : select_segment (chain_at st.flt sp) (hdr_tid buf) (hdr_ext buf) (hdr_ver buf) =
      (chain_at st.flt sp, k))
    (hext : (seg_at st.flt sp k).table_id_ext = hdr_ext buf)
    (hver : (seg_at st.flt sp k).section_version_number = hdr_ver buf)
    (hbit : get_bit (seg_at st.flt sp k).section_done (rd buf 6) ≠ 0) :
    (parse_section cfg sp st).2 = st := by
  have he : enter_segment st.flt sp (hdr_tid buf) (hdr_ext buf) (hdr_ver buf) = (st.flt, k) := by
    unfold enter_segment
    rw [hsel]
    simp only
    have h1 : ({ st.flt with filters := st.flt.filters.set sp (chain_at st.flt sp) } : filter_sched)
        = st.flt := by
      unfold chain_at
      rw [list_set_getD_self]
    rw [h1, seg_update_same st.flt sp k (fun s => version_check s (hdr_ext buf) (hdr_ver buf))
      (version_check_same _ _ _ hext hver)]
  unfold parse_section
  simp only
  rw [hbuf]
  unfold hdr_tid at htid
  rw [if_neg (not_not.mpr htid)]
  unfold hdr_tid hdr_ext hdr_ver at he
  rw [he]
  simp only
  unfold record_section
  rw [if_neg hbit]

/-- C4: parse_section called a second time on the same filter with the same
section in its buffer changes nothing: the state after the second call is the
state after the first, so the service list of the current transponder, every
field of every service, and the running and waiting filter lists are those the
first call left; no PMT filter is requested again.  This holds for every
section, a PAT section in particular, on every filter that exists and whose
bitmaps are the 32-byte arrays of the C struct. -/
theorem parse_section_twice (cfg : config) (sp : Nat) (st : scan_state)
    (hne : chain_at st.flt sp ≠ [])
    (hwf : ∀ s ∈ chain_at st.flt sp, s.section_done.length = 32) :
    (parse_section cfg sp (parse_section cfg sp st).2).2 = (parse_section cfg sp st).2 := by
  by_cases hm : (seg_at st.flt sp 0).table_id = hdr_tid (seg_at st.flt sp 0).buf
  · have hsp := lt_length_of_chain_ne_nil _ _ hne
    have hpc := parse_section_chain cfg sp st hsp
    have hre := reassemble_eq (chain_at st.flt sp) (seg_at st.flt sp 0).buf hne rfl hm
    rw [hre] at hpc
    generalize hbuf : (seg_at st.flt sp 0).buf = buf at hm hpc
    have hb := chain_enter_bound (chain_at st.flt sp) (hdr_tid buf) (hdr_ext buf) (hdr_ver buf) hne
    have hhead := select_segment_head (chain_at st.flt sp) (hdr_tid buf) (hdr_ext buf)
      (hdr_ver buf) hne
    have hbm := select_segment_bitmaps (chain_at st.flt sp) (hdr_tid buf) (hdr_ext buf)
      (hdr_ver buf) hwf
    have hstab := fun x hx => select_segment_stable (chain_at st.flt sp) (hdr_tid buf)
      (hdr_ext buf) (hdr_ver buf) x hne hx
    generalize select_segment (chain_at st.flt sp) (hdr_tid buf) (hdr_ext buf) (hdr_ver buf) = sel
      at hpc hb hhead hbm hstab
    have hu := update_state_fields (sel.1.getD sel.2 calloc_section_buf) (hdr_ext buf)
      (hdr_ver buf) (rd buf 6) (rd buf 7)
    generalize update_state (sel.1.getD sel.2 calloc_section_buf) (hdr_ext buf)
      (hdr_ver buf) (rd buf 6) (rd buf 7) = x at hpc hu
    obtain ⟨-, hch1, -, -⟩ := hpc
    simp only at hch1
    have hk : seg_at (parse_section cfg sp st).2.flt sp sel.2 = x := by
      unfold seg_at
      rw [hch1, list_getD_set_same, if_pos hb]
    have h0 : (seg_at (parse_section cfg sp st).2.flt sp 0).buf = buf ∧
        (seg_at (parse_section cfg sp st).2.flt sp 0).table_id = hdr_tid buf := by
      by_cases hz : sel.2 = 0
      · rw [hz] at hk hu
        rw [hk, hu.2.2.2.2.1, hu.2.2.2.1, hhead]
        exact ⟨hbuf, hm⟩
      · unfold seg_at
        rw [hch1, list_getD_set_other _ _ _ _ _ hz, hhead]
        exact ⟨hbuf, hm⟩
    apply parse_section_settled cfg sp _ sel.2 buf h0.1 h0.2
    · rw [hch1]
      exact hstab x hu.1
    · rw [hk]; exact hu.1
    · rw [hk]; exact hu.2.1
    · rw [hk]
      exact hu.2.2.2.2.2.2 (hbm _ (getD_mem_of_lt _ _ _ hb)) (rd_lt _ _)
  · have h1 : parse_section cfg sp st = (-1, st) := by
      unfold parse_section
      unfold hdr_tid at hm
      simp only
      rw [if_pos hm]
    rw [h1]
    simp only
    rw [h1]

theorem parse_section_twice_witness :
    (parse_section ex_cfg 0 (parse_section ex_cfg 0 ex_pat_loaded).2).2 =
      (parse_section ex_cfg 0 ex_pat_loaded).2 :=
  parse_section_twice ex_cfg 0 ex_pat_loaded (by decide) (by decide)

/-! ## C5: a service built from PAT and PMT -/

theorem be16 (hi lo : Nat) (hlo : lo < 256) : (hi <<< 8) ||| lo = hi * 256 + lo := by
  rw [Nat.shiftLeft_eq]
  have := Nat.mul_add_lt_is_or (i := 8) (b := lo) (by simpa using hlo) hi
  rw [show hi * 2 ^ 8 = 2 ^ 8 * hi by ring, ← this]
  norm_num; ring

theorem and_1f (x : Nat) : x &&& 0x1f = x % 32 := by
  have : (0x1f : Nat) = 2 ^ 5 - 1 := by norm_num
  rw [this, Nat.and_pow_two_sub_one_eq_mod]

theorem and_0f (x : Nat) : x &&& 0x0f = x % 16 := by
  have : (0x0f : Nat) = 2 ^ 4 - 1 := by norm_num
  rw [this, Nat.and_pow_two_sub_one_eq_mod]

/-- The 13-bit PID decoded from its two bytes. -/
theorem pid13 (p : Nat) (hp : p < 8192) :
    (((0xe0 + p / 256) % 256 &&& 0x1f) <<< 8) ||| (p % 256 % 256) = p := by
  rw [and_1f, be16 _ _ (by omega)]
  omega

theorem sid16 (sid : Nat) (h : sid < 65536) :
    ((sid / 256 % 256) <<< 8) ||| (sid % 256 % 256) = sid := by
  rw [be16 _ _ (by omega)]
  omega

theorem tp_at_tp_store (net : net_model) (p : Nat) (t : transponder)
    (h : p < net.transponders.length) : tp_at (tp_store net p t) p = t := by
  unfold tp_at tp_store
  simp only
  rw [list_getD_set_same, if_pos h]

theorem tp_store_tp_store (net : net_model) (p : Nat) (t t2 : transponder) :
    tp_store (tp_store net p t) p t2 = tp_store net p t2 := by
  unfold tp_store
  simp only
  rw [list_set_set_same]

theorem find_service_from_append (l : List service) (s : service) (sid : Int) (i : Nat)
    (h : find_service_from l sid i = none) (hs : s.service_id = sid) :
    find_service_from (l ++ [s]) sid i = some (i + l.length) := by
  induction l generalizing i with
  | nil => simp [find_service_from, hs]
  | cons b l ih =>
    unfold find_service_from at h
    split at h
    · exact absurd h (by simp)
    · rename_i hb
      rw [List.cons_append]
      unfold find_service_from
      rw [if_neg hb, ih (i + 1) h]
      simp only [List.length_cons]
      congr 1; omega

theorem rd_pat_section (sid p : Nat) :
    rd (pat_section sid p) 8 = sid / 256 % 256 ∧ rd (pat_section sid p) 9 = sid % 256 % 256 ∧
    rd (pat_section sid p) 10 = (0xe0 + p / 256) % 256 ∧
    rd (pat_section sid p) 11 = p % 256 % 256 :=
  ⟨rfl, rfl, rfl, rfl⟩

/-- The service a PAT entry creates when its service_id is not known yet. -/
theorem parse_pat_entry_new (cfg : config) (buf : List Nat) (off : Nat) (st : scan_state)
    (sid p : Nat)
    (hsid : (rd buf off <<< 8) ||| rd buf (off + 1) = sid) (hne : sid ≠ 0)
    (hp : ((rd buf (off + 2) &&& 0x1f) <<< 8) ||| rd buf (off + 3) = p)
    (hcur : st.net.current_tp < st.net.transponders.length)
    (hnone : find_service (tp_at st.net st.net.current_tp) (sid : Int) = none) :
    (parse_pat_entry cfg buf off st).net =
      tp_store st.net st.net.current_tp
        { tp_at st.net st.net.current_tp with
          services := (tp_at st.net st.net.current_tp).services ++
            [{ calloc_service with
               service_id := (sid : Int), pmt_pid := p,
               priv := if p ≠ 0 then some st.flt.filters.length else none }] } := by
  unfold parse_pat_entry
  simp only
  rw [hsid, hp, if_neg hne, hnone]
  simp only [alloc_service]
  have hsv : svc_at (tp_store st.net st.net.current_tp
      { tp_at st.net st.net.current_tp with
        services := (tp_at st.net st.net.current_tp).services ++
          [{ calloc_service with service_id := (sid : Int) }] }) st.net.current_tp
      (tp_at st.net st.net.current_tp).services.length =
      { calloc_service with service_id := (sid : Int) } := by
    unfold svc_at
    rw [tp_at_tp_store _ _ _ hcur]
    unfold service_at
    simp only
    exact list_getD_length_append _ _ _
  rw [hsv]
  by_cases hp0 : p = 0
  · subst hp0
    simp only [ne_eq, not_true_eq_false, and_false, if_false]
    unfold svc_store
    rw [tp_at_tp_store _ _ _ hcur, tp_store_tp_store]
    unfold service_store
    simp only
    rw [list_set_length_append]
    rfl
  · have hc : (calloc_service.priv.isNone = true ∧ p ≠ 0) := ⟨rfl, hp0⟩
    simp only [hc, hp0, ne_eq, not_false_eq_true, and_self, if_true]
    unfold svc_store
    rw [tp_at_tp_store _ _ _ hcur, tp_store_tp_store]
    unfold service_store
    simp only
    rw [list_set_length_append]


theorem tp_store_tp_at (net : net_model) (p : Nat) : tp_store net p (tp_at net p) = net := by
  unfold tp_store tp_at
  rw [list_set_getD_self]

theorem service_store_service_at (tp : transponder) (i : Nat) :
    service_store tp i (service_at tp i) = tp := by
  unfold service_store service_at
  rw [list_set_getD_self]

theorem svc_store_svc_at (net : net_model) (tp s : Nat) :
    svc_store net tp s (svc_at net tp s) = net := by
  unfold svc_store svc_at
  rw [service_store_service_at, tp_store_tp_at]

theorem svc_store_svc_store (net : net_model) (tp s : Nat) (x y : service) :
    svc_store (svc_store net tp s x) tp s y = svc_store net tp s y := by
  unfold svc_store
  by_cases h : tp < net.transponders.length
  · rw [tp_at_tp_store _ _ _ h, tp_store_tp_store]
    unfold service_store
    simp only
    rw [list_set_set_same]
  · have h1 : ∀ t, tp_store net tp t = net := by
      intro t
      unfold tp_store
      rw [List.set_eq_of_length_le (by omega)]
    simp only [h1]

theorem svc_at_svc_store (net : net_model) (tp s : Nat) (x : service)
    (htp : tp < net.transponders.length) (hs : s < (tp_at net tp).services.length) :
    svc_at (svc_store net tp s x) tp s = x := by
  unfold svc_at svc_store
  rw [tp_at_tp_store _ _ _ htp]
  unfold service_at service_store
  simp only
  rw [list_getD_set_same, if_pos hs]

theorem svc_store_valid (net : net_model) (tp s : Nat) (x : service) :
    (svc_store net tp s x).transponders.length = net.transponders.length ∧
    (tp_at (svc_store net tp s x) tp).services.length = (tp_at net tp).services.length ∧
    (svc_store net tp s x).current_tp = net.current_tp := by
  unfold svc_store
  refine ⟨by simp [tp_store], ?_, rfl⟩
  by_cases h : tp < net.transponders.length
  · rw [tp_at_tp_store _ _ _ h]
    simp [service_store]
  · have h1 : ∀ t, tp_store net tp t = net := by
      intro t
      unfold tp_store
      rw [List.set_eq_of_length_le (by omega)]
    rw [h1]

/-- In a PMT loop the `switch` of parse_descriptors acts on the ISO-639 language
descriptor only. -/
theorem dispatch_descriptor_pmt (cfg : config) (buf : List Nat) (off : Nat) (net : net_model)
    (sv : service) :
    dispatch_descriptor cfg .PMT buf off (net, .svc sv) =
      (net, .svc (if rd buf off = 0x0a then parse_iso639_language_descriptor buf off sv
        else sv)) := by
  unfold dispatch_descriptor
  generalize rd buf off = tag
  by_cases h0 : tag = 0x0a
  · rw [if_pos h0, if_pos h0]
  rw [if_neg h0, if_neg h0]
  by_cases h1 : tag = 0x40
  · rw [if_pos h1]
  rw [if_neg h1]
  by_cases h2 : tag = 0x43
  · rw [if_pos h2]
  rw [if_neg h2]
  by_cases h3 : tag = 0x44
  · rw [if_pos h3]
  rw [if_neg h3]
  by_cases h4 : tag = 0x48
  · rw [if_pos h4]
  rw [if_neg h4]
  by_cases h5 : tag = 0x53
  · rw [if_pos h5]
  rw [if_neg h5]
  by_cases h6 : tag = 0x5a
  · rw [if_pos h6]
  rw [if_neg h6]
  by_cases h7 : tag = 0x62
  · rw [if_pos h7]
  rw [if_neg h7]
  by_cases h8 : tag = 0x83
  · rw [if_pos h8, if_neg (fun h => absurd h.1 (by decide))]
  rw [if_neg h8]

/-- In a PMT loop parse_descriptors works on the service alone. -/
theorem parse_descriptors_pmt (cfg : config) (buf : List Nat) (fuel : Nat) :
    ∀ (off : Nat) (len : Int) (net : net_model) (sv : service),
      parse_descriptors cfg .PMT buf fuel off len (net, .svc sv) =
        (net, .svc (pmt_descriptors buf fuel off len sv)) := by
  induction fuel with
  | zero => intro off len net sv; rfl
  | succ fuel ih =>
    intro off len net sv
    unfold parse_descriptors pmt_descriptors
    split
    · simp only
      split
      · rfl
      · rw [dispatch_descriptor_pmt, ih]
    · rfl

theorem parse_pmt_stream_service (cfg : config) (buf : List Nat) (off tp s : Nat)
    (net : net_model) :
    parse_pmt_stream cfg buf off tp s net =
      svc_store net tp s (pmt_stream_service buf off (svc_at net tp s)) := by
  unfold parse_pmt_stream pmt_stream_service
  simp only
  split
  · split
    · rfl
    · rw [svc_store_svc_at]
  · split
    · split
      · rw [parse_descriptors_pmt]
      · rw [svc_store_svc_at]
    · split
      · split
        · rfl
        · split
          · rfl
          · split
            · rfl
            · rw [svc_store_svc_at]
      · rw [svc_store_svc_at]

theorem parse_pmt_loop_service (cfg : config) (buf : List Nat) (tp s : Nat) (fuel : Nat) :
    ∀ (off : Nat) (sl : Int) (net : net_model),
      tp < net.transponders.length → s < (tp_at net tp).services.length →
      parse_pmt_loop cfg buf tp s fuel off sl net =
        svc_store net tp s (pmt_loop_service buf fuel off sl (svc_at net tp s)) := by
  induction fuel with
  | zero =>
    intro off sl net _ _
    unfold parse_pmt_loop pmt_loop_service
    rw [svc_store_svc_at]
  | succ fuel ih =>
    intro off sl net htp hs
    unfold parse_pmt_loop pmt_loop_service
    split
    · simp only
      rw [parse_pmt_stream_service]
      have hv := svc_store_valid net tp s (pmt_stream_service buf off (svc_at net tp s))
      rw [ih _ _ _ (by rw [hv.1]; exact htp) (by rw [hv.2.1]; exact hs),
        svc_at_svc_store _ _ _ _ htp hs, svc_store_svc_store]
    · rw [svc_store_svc_at]

theorem find_service_from_lt (l : List service) (sid : Int) (i s : Nat)
    (h : find_service_from l sid i = some s) : i ≤ s ∧ s < i + l.length := by
  induction l generalizing i with
  | nil => simp [find_service_from] at h
  | cons b l ih =>
    unfold find_service_from at h
    split at h
    · simp only [Option.some.injEq] at h
      simp only [List.length_cons]; omega
    · have := ih (i + 1) h
      simp only [List.length_cons]; omega

theorem tp_at_default (net : net_model) (p : Nat) (h : ¬ p < net.transponders.length) :
    tp_at net p = calloc_transponder := by
  unfold tp_at
  rw [List.getD_eq_getElem?_getD, List.getElem?_eq_none (by omega)]
  rfl

/-- The function parse_pmt changes nothing when the service is unknown, and
otherwise rewrites the service it finds as pmt_service describes. -/
theorem parse_pmt_eq (cfg : config) (buf : List Nat) (off : Nat) (sl : Int) (sid : Int)
    (net : net_model) :
    parse_pmt cfg buf off sl sid net =
      match find_service (tp_at net net.current_tp) sid with
      | none => net
      | some s => svc_store net net.current_tp s
          (pmt_service buf off sl (svc_at net net.current_tp s)) := by
  unfold parse_pmt
  cases hf : find_service (tp_at net net.current_tp) sid with
  | none => rfl
  | some s =>
    simp only
    have hs := (find_service_from_lt _ _ _ _ hf).2
    rw [Nat.zero_add] at hs
    have htp : net.current_tp < net.transponders.length := by
      by_contra h
      rw [tp_at_default _ _ h] at hs
      simp [calloc_transponder] at hs
    have hv := svc_store_valid net net.current_tp s
      { svc_at net net.current_tp s with
        pcr_pid := ((rd buf off &&& 0x1f) <<< 8) ||| rd buf (off + 1) }
    rw [parse_pmt_loop_service _ _ _ _ _ _ _ _ (by rw [hv.1]; exact htp) (by rw [hv.2.1]; exact hs),
      svc_at_svc_store _ _ _ _ htp hs, svc_store_svc_store]
    have hv2 := fun x => svc_store_valid net net.current_tp s x
    unfold pmt_service
    simp only
    rw [svc_at_svc_store _ _ _ _ htp hs]
    split
    · rw [svc_store_svc_store]
    · rfl

theorem pmt_loop_service_step (buf : List Nat) (fuel off : Nat) (sl : Int) (sv : service)
    (hf : fuel ≠ 0) (h : sl > 0) :
    pmt_loop_service buf fuel off sl sv =
      pmt_loop_service buf (fuel - 1)
        (off + ((((rd buf (off + 3) &&& 0x0f) <<< 8) ||| rd buf (off + 4)) + 5))
        (sl - (((((rd buf (off + 3) &&& 0x0f) <<< 8) ||| rd buf (off + 4) : Nat) : Int) + 5))
        (pmt_stream_service buf off sv) := by
  obtain ⟨k, rfl⟩ := Nat.exists_eq_succ_of_ne_zero hf
  rw [pmt_loop_service, if_pos h]
  rfl

theorem pmt_loop_service_stop (buf : List Nat) (fuel off : Nat) (sl : Int) (sv : service)
    (h : sl ≤ 0) : pmt_loop_service buf fuel off sl sv = sv := by
  cases fuel with
  | zero => rfl
  | succ fuel =>
    rw [pmt_loop_service, if_neg (by omega)]

/-- The service after the PMT of the scenario. -/
theorem pmt_service_scenario (sid v a l0 l1 l2 : Nat) (sv : service)
    (hv : v < 8192) (ha : a < 8192) (hl0 : l0 < 256) (hl1 : l1 < 256) (hl2 : l2 < 256)
    (hvid : sv.video_pid = 0) (haud : sv.audio_num = 0) :
    pmt_service (pmt_section sid v a l0 l1 l2) 8 18 sv =
      { sv with
        pcr_pid := v, video_pid := v,
        audio_pid := sv.audio_pid.set 0 a,
        audio_lang := sv.audio_lang.set 0 ([l0, l1, l2] ++ (sv.audio_lang.getD 0 []).drop 3),
        audio_num := 1 } := by
  have r8 : rd (pmt_section sid v a l0 l1 l2) 8 = (0xe0 + v / 256) % 256 := rfl
  have r9 : rd (pmt_section sid v a l0 l1 l2) 9 = v % 256 % 256 := rfl
  have r10 : rd (pmt_section sid v a l0 l1 l2) 10 = 0xf0 := rfl
  have r11 : rd (pmt_section sid v a l0 l1 l2) 11 = 0 := rfl
  have r12 : rd (pmt_section sid v a l0 l1 l2) 12 = 2 := rfl
  have r13 : rd (pmt_section sid v a l0 l1 l2) 13 = (0xe0 + v / 256) % 256 := rfl
  have r14 : rd (pmt_section sid v a l0 l1 l2) 14 = v % 256 % 256 := rfl
  have r15 : rd (pmt_section sid v a l0 l1 l2) 15 = 0xf0 := rfl
  have r16 : rd (pmt_section sid v a l0 l1 l2) 16 = 0 := rfl
  have r17 : rd (pmt_section sid v a l0 l1 l2) 17 = 4 := rfl
  have r18 : rd (pmt_section sid v a l0 l1 l2) 18 = (0xe0 + a / 256) % 256 := rfl
  have r19 : rd (pmt_section sid v a l0 l1 l2) 19 = a % 256 % 256 := rfl
  have r20 : rd (pmt_section sid v a l0 l1 l2) 20 = 0xf0 := rfl
  have r21 : rd (pmt_section sid v a l0 l1 l2) 21 = 6 := rfl
  have r22 : rd (pmt_section sid v a l0 l1 l2) 22 = 0x0a := rfl
  have r23 : rd (pmt_section sid v a l0 l1 l2) 23 = 4 := rfl
  have r24 : rd (pmt_section sid v a l0 l1 l2) 24 = l0 % 256 := rfl
  have r25 : rd (pmt_section sid v a l0 l1 l2) 25 = l1 % 256 := rfl
  have r26 : rd (pmt_section sid v a l0 l1 l2) 26 = l2 % 256 := rfl
  have hpv := pid13 v hv
  have hpa := pid13 a ha
  -- the video stream
  have s1 : pmt_stream_service (pmt_section sid v a l0 l1 l2) 12 { sv with pcr_pid := v } =
      { sv with pcr_pid := v, video_pid := v } := by
    unfold pmt_stream_service
    simp only [r12, r13, r14, hpv, hvid]
    simp
  -- the language descriptor of the audio stream
  have d1 : ∀ x : service, x.audio_num = 0 →
      pmt_descriptors (pmt_section sid v a l0 l1 l2) 6 22 6 x =
        { x with audio_lang :=
            x.audio_lang.set 0 ([l0, l1, l2] ++ (x.audio_lang.getD 0 []).drop 3) } := by
    intro x hx
    have hb : rd_bytes (pmt_section sid v a l0 l1 l2) 24 3 = [l0, l1, l2] := by
      show [rd (pmt_section sid v a l0 l1 l2) (24 + 0), rd (pmt_section sid v a l0 l1 l2) (24 + 1),
        rd (pmt_section sid v a l0 l1 l2) (24 + 2)] = _
      simp only [Nat.add_zero, Nat.reduceAdd, r24, r25, r26, Nat.mod_eq_of_lt hl0,
        Nat.mod_eq_of_lt hl1, Nat.mod_eq_of_lt hl2]
    unfold pmt_descriptors
    simp only [r22, r23, Nat.reduceAdd, Nat.reduceMod]
    unfold parse_iso639_language_descriptor
    simp only [r23, Nat.reduceAdd, hb, hx]
    unfold pmt_descriptors
    simp
  -- the audio stream
  have s2 : pmt_stream_service (pmt_section sid v a l0 l1 l2) 17
      { sv with pcr_pid := v, video_pid := v } =
      { sv with
        pcr_pid := v, video_pid := v,
        audio_pid := sv.audio_pid.set 0 a,
        audio_lang := sv.audio_lang.set 0 ([l0, l1, l2] ++ (sv.audio_lang.getD 0 []).drop 3),
        audio_num := 1 } := by
    unfold pmt_stream_service
    have hes : ((240 &&& 0x0f) <<< 8) ||| 6 = 6 := by decide
    simp only [r17, r18, r19, r20, r21, hpa, Nat.reduceAdd, hes, Nat.cast_ofNat]
    rw [d1]
    · simp [AUDIO_CHAN_MAX, haud]
    · exact haud
  have h0 : ((240 &&& 0x0f) <<< 8) ||| 0 = 0 := by decide
  have hes : ((240 &&& 0x0f) <<< 8) ||| 6 = 6 := by decide
  have lp : ∀ x : service, pmt_loop_service (pmt_section sid v a l0 l1 l2) 14 12 14 x =
      pmt_stream_service (pmt_section sid v a l0 l1 l2) 17
        (pmt_stream_service (pmt_section sid v a l0 l1 l2) 12 x) := by
    intro x
    have q15 : rd (pmt_section sid v a l0 l1 l2) (12 + 3) = 0xf0 := rfl
    have q16 : rd (pmt_section sid v a l0 l1 l2) (12 + 4) = 0 := rfl
    have q20 : rd (pmt_section sid v a l0 l1 l2) (17 + 3) = 0xf0 := rfl
    have q21 : rd (pmt_section sid v a l0 l1 l2) (17 + 4) = 6 := rfl
    rw [pmt_loop_service_step _ _ _ _ _ (by decide) (by decide), q15, q16, h0,
      pmt_loop_service_step _ _ _ _ _ (by decide) (by decide), q20, q21, hes,
      pmt_loop_service_stop _ _ _ _ _ (by decide)]
  unfold pmt_service
  simp only [r8, r9, r10, r11, hpv, Nat.reduceAdd, h0, Nat.cast_ofNat]
  have hg : ((18 : Int) - (((0 : Nat) : Int) + 4)) = 14 := by norm_num
  have hf : (14 : Int).toNat = 14 := rfl
  rw [hg, hf, lp, s1, s2]
  simp [AUDIO_CHAN_MAX]

/-- C5: in a transponder that has no service `sid` yet (sid a non-zero 16-bit
id), parse_pat on the PAT entry (sid, pmt_pid p) followed by parse_pmt for sid
on a PMT with empty program info, one video stream (type 0x02, pid v, no
descriptors) and one audio stream (type 0x04, pid a, one ISO-639 language
descriptor of length 4 carrying l0 l1 l2) appends exactly one service to the
list of the current transponder: the service sid with pmt_pid = p,
video_pid = v, audio_num = 1, audio_pid[0] = a and audio_lang[0] = l0 l1 l2
followed by a NUL byte.  Both functions get the section_length parse_section
passes them (the length field minus 11). -/
theorem pat_then_pmt_scenario (cfg : config) (st : scan_state) (sid p v a l0 l1 l2 : Nat)
    (hsid0 : sid ≠ 0) (hsid : sid < 65536) (hp : p < 8192) (hv : v < 8192) (ha : a < 8192)
    (hl0 : l0 < 256) (hl1 : l1 < 256) (hl2 : l2 < 256)
    (hcur : st.net.current_tp < st.net.transponders.length)
    (hnone : find_service (tp_at st.net st.net.current_tp) (sid : Int) = none) :
    (tp_at (parse_pmt cfg (pmt_section sid v a l0 l1 l2) 8 18 (sid : Int)
        (parse_pat cfg (pat_section sid p) 8 2 1 st).net) st.net.current_tp).services =
      (tp_at st.net st.net.current_tp).services ++
        [{ calloc_service with
           service_id := (sid : Int), pmt_pid := p,
           priv := if p ≠ 0 then some st.flt.filters.length else none,
           pcr_pid := v, video_pid := v,
           audio_pid := (List.replicate 32 0).set 0 a,
           audio_lang := (List.replicate 32 [0, 0, 0, 0]).set 0 [l0, l1, l2, 0],
           audio_num := 1 }] := by
  have hpat : parse_pat cfg (pat_section sid p) 8 2 1 st =
      parse_pat_entry cfg (pat_section sid p) 8 st := by
    unfold parse_pat
    show parse_pat_loop cfg _ (1 + 1) 8 2 st = _
    unfold parse_pat_loop
    norm_num
    show parse_pat_loop cfg _ (0 + 1) 12 (-2) _ = _
    unfold parse_pat_loop
    norm_num
  have hr := rd_pat_section sid p
  have hnew := parse_pat_entry_new cfg (pat_section sid p) 8 st sid p
    (by rw [hr.1, hr.2.1]; exact sid16 sid hsid) hsid0
    (by rw [hr.2.2.1, hr.2.2.2]; exact pid13 p hp) hcur hnone
  rw [hpat, hnew, parse_pmt_eq]
  have hc : (tp_store st.net st.net.current_tp
      { tp_at st.net st.net.current_tp with
        services := (tp_at st.net st.net.current_tp).services ++
          [{ calloc_service with
             service_id := (sid : Int), pmt_pid := p,
             priv := if p ≠ 0 then some st.flt.filters.length else none }] }).current_tp =
      st.net.current_tp := rfl
  rw [hc, tp_at_tp_store _ _ _ hcur]
  have hf : find_service
      { tp_at st.net st.net.current_tp with
        services := (tp_at st.net st.net.current_tp).services ++
          [{ calloc_service with
             service_id := (sid : Int), pmt_pid := p,
             priv := if p ≠ 0 then some st.flt.filters.length else none }] } (sid : Int) =
      some (tp_at st.net st.net.current_tp).services.length := by
    unfold find_service at hnone ⊢
    simp only
    rw [find_service_from_append _ _ _ _ hnone rfl, Nat.zero_add]
  rw [hf]
  simp only
  unfold svc_store svc_at
  rw [tp_at_tp_store _ _ _ hcur, tp_at_tp_store _ _ _ (by simpa [tp_store] using hcur)]
  unfold service_store service_at
  simp only
  rw [list_getD_length_append, list_set_length_append,
    pmt_service_scenario sid v a l0 l1 l2 _ hv ha hl0 hl1 hl2 rfl rfl]
  rfl

theorem pat_then_pmt_scenario_witness :
    (tp_at (parse_pmt ex_cfg (pmt_section 100 0x210 0x211 101 110 103) 8 18 100
        (parse_pat ex_cfg (pat_section 100 0x200) 8 2 1 ex_state).net) 0).services =
      [{ calloc_service with
         service_id := 100, pmt_pid := 0x200, priv := some 1,
         pcr_pid := 0x210, video_pid := 0x210,
         audio_pid := (List.replicate 32 0).set 0 0x211,
         audio_lang := (List.replicate 32 [0, 0, 0, 0]).set 0 [101, 110, 103, 0],
         audio_num := 1 }] :=
  pat_then_pmt_scenario ex_cfg ex_state 100 0x200 0x210 0x211 101 110 103 (by decide)
    (by decide) (by decide) (by decide) (by decide) (by decide) (by decide) (by decide)
    (by decide) (by decide)

/-! ## C6: the SDT updates the service the PAT created -/

/-- In an SDT loop the `switch` of parse_descriptors acts on the service
descriptor and the CA identifier descriptor only. -/
theorem dispatch_descriptor_sdt (cfg : config) (buf : List Nat) (off : Nat) (net : net_model)
    (sv : service) :
    dispatch_descriptor cfg .SDT buf off (net, .svc sv) =
      (net, .svc (if rd buf off = 0x48 then parse_service_descriptor buf off sv
        else if rd buf off = 0x53 then parse_ca_identifier_descriptor buf off sv
        else sv)) := by
  unfold dispatch_descriptor
  generalize rd buf off = tag
  by_cases h4 : tag = 0x48
  · rw [if_neg (by omega), if_neg (by omega), if_neg (by omega), if_neg (by omega), if_pos h4,
      if_pos h4]
  by_cases h5 : tag = 0x53
  · rw [if_neg (by omega), if_neg (by omega), if_neg (by omega), if_neg (by omega), if_neg h4,
      if_pos h5, if_neg h4, if_pos h5]
  rw [if_neg h4, if_neg h5]
  by_cases h0 : tag = 0x0a
  · rw [if_pos h0]
  rw [if_neg h0]
  by_cases h1 : tag = 0x40
  · rw [if_pos h1]
  rw [if_neg h1]
  by_cases h2 : tag = 0x43
  · rw [if_pos h2]
  rw [if_neg h2]
  by_cases h3 : tag = 0x44
  · rw [if_pos h3]
  rw [if_neg h3, if_neg h4, if_neg h5]
  by_cases h6 : tag = 0x5a
  · rw [if_pos h6]
  rw [if_neg h6]
  by_cases h7 : tag = 0x62
  · rw [if_pos h7]
  rw [if_neg h7]
  by_cases h8 : tag = 0x83
  · rw [if_pos h8, if_neg (fun h => absurd h.1 (by decide))]
  rw [if_neg h8]

/-- In an SDT loop parse_descriptors works on the service alone. -/
theorem parse_descriptors_sdt (cfg : config) (buf : List Nat) (fuel : Nat) :
    ∀ (off : Nat) (len : Int) (net : net_model) (sv : service),
      parse_descriptors cfg .SDT buf fuel off len (net, .svc sv) =
        (net, .svc (sdt_descriptors buf fuel off len sv)) := by
  induction fuel with
  | zero => intro off len net sv; rfl
  | succ fuel ih =>
    intro off len net sv
    unfold parse_descriptors sdt_descriptors
    split
    · simp only
      split
      · rfl
      · rw [dispatch_descriptor_sdt, ih]
    · rfl

theorem strip_name_printable (name : List Nat) (h : printable name) :
    strip_name name = if name = [] then none else some name := by
  unfold strip_name
  have h1 : name.takeWhile (fun c => decide (c ≠ 0)) = name := by
    rw [List.takeWhile_eq_self_iff]
    intro c hc
    have := h c hc
    simp only [decide_eq_true_eq]
    omega
  have h2 : name.filter (fun c => decide (c ≥ 0x20) && (decide (c < 0x80) || decide (c > 0x9f)))
      = name := by
    rw [List.filter_eq_self]
    intro c hc
    have := h c hc
    simp only [Bool.and_eq_true, Bool.or_eq_true, decide_eq_true_eq]
    omega
  simp only
  rw [h1, h2]

theorem rd_bytes_middle (pre name post : List Nat) (h : ∀ c ∈ name, c < 256) :
    rd_bytes (pre ++ (name ++ post)) pre.length name.length = name := by
  apply List.ext_getElem
  · rw [rd_bytes_length]
  · intro i h1 h2
    unfold rd_bytes
    rw [List.getElem_map, List.getElem_range, rd_append_right,
      rd_append_left _ _ _ h2]
    unfold rd
    rw [List.getD_eq_getElem?_getD, List.getElem?_eq_getElem h2]
    simp only [Option.getD_some]
    exact Nat.mod_eq_of_lt (h _ (List.getElem_mem h2))

theorem parse_sdt_loop_stop (cfg : config) (buf : List Nat) (fuel off : Nat) (sl : Int)
    (net : net_model) (h : sl ≤ 4) : parse_sdt_loop cfg buf fuel off sl net = net := by
  cases fuel with
  | zero => rfl
  | succ fuel =>
    unfold parse_sdt_loop
    rw [if_neg (by omega)]

theorem sdt_descriptors_stop (buf : List Nat) (fuel off : Nat) (len : Int) (sv : service)
    (h : len ≤ 0) : sdt_descriptors buf fuel off len sv = sv := by
  cases fuel with
  | zero => rfl
  | succ fuel =>
    unfold sdt_descriptors
    rw [if_neg (by omega)]

theorem and_07 (x : Nat) : x &&& 0x7 = x % 8 := by
  have : (0x7 : Nat) = 2 ^ 3 - 1 := by norm_num
  rw [this, Nat.and_pow_two_sub_one_eq_mod]

/-- The bytes of the section of the scenario as the parser reads them. -/
theorem rd_sdt_section (sid r c : Nat) (P S : List Nat) (hsid : sid < 65536) (hr : r < 8)
    (hc : c < 2) (hP : printable P) (hS : printable S) (hlen : P.length + S.length ≤ 250) :
    (rd (sdt_section sid r c P S) 11 <<< 8) ||| rd (sdt_section sid r c P S) 12 = sid ∧
    ((rd (sdt_section sid r c P S) 14 &&& 0x0f) <<< 8) ||| rd (sdt_section sid r c P S) 15 =
      5 + (P.length + S.length) ∧
    (rd (sdt_section sid r c P S) 14 >>> 5) &&& 0x7 = r ∧
    (rd (sdt_section sid r c P S) 14 >>> 4) &&& 1 = c ∧
    rd (sdt_section sid r c P S) 16 = 0x48 ∧
    rd (sdt_section sid r c P S) 17 = 3 + (P.length + S.length) ∧
    rd (sdt_section sid r c P S) 18 = 1 ∧
    rd (sdt_section sid r c P S) 19 = P.length ∧
    rd_bytes (sdt_section sid r c P S) 20 P.length = P ∧
    rd (sdt_section sid r c P S) (20 + P.length) = S.length ∧
    rd_bytes (sdt_section sid r c P S) (20 + P.length + 1) S.length = S := by
  have hl : (sdt_head sid r c P.length S.length).length = 20 := rfl
  have hh : ∀ j, j < 20 → rd (sdt_section sid r c P S) j =
      rd (sdt_head sid r c P.length S.length) j := by
    intro j hj
    unfold sdt_section
    exact rd_append_left _ _ _ (by rw [hl]; exact hj)
  have h11 : rd (sdt_head sid r c P.length S.length) 11 = sid / 256 % 256 := rfl
  have h12 : rd (sdt_head sid r c P.length S.length) 12 = sid % 256 % 256 := rfl
  have h14 : rd (sdt_head sid r c P.length S.length) 14 =
      (r * 32 + c * 16 + (5 + (P.length + S.length)) / 256) % 256 := rfl
  have h15 : rd (sdt_head sid r c P.length S.length) 15 =
      (5 + (P.length + S.length)) % 256 % 256 := rfl
  have h16 : rd (sdt_head sid r c P.length S.length) 16 = 0x48 := rfl
  have h17 : rd (sdt_head sid r c P.length S.length) 17 = (3 + (P.length + S.length)) % 256 := rfl
  have h18 : rd (sdt_head sid r c P.length S.length) 18 = 1 := rfl
  have h19 : rd (sdt_head sid r c P.length S.length) 19 = P.length % 256 := rfl
  have hPb : ∀ ch ∈ P, ch < 256 := fun ch hch => by have := hP ch hch; omega
  have hSb : ∀ ch ∈ S, ch < 256 := fun ch hch => by have := hS ch hch; omega
  rw [hh 11 (by norm_num), hh 12 (by norm_num), hh 14 (by norm_num), hh 15 (by norm_num),
    hh 16 (by norm_num), hh 17 (by norm_num), hh 18 (by norm_num), hh 19 (by norm_num),
    h11, h12, h14, h15, h16, h17, h18, h19]
  refine ⟨?_, ?_, ?_, ?_, rfl, by omega, rfl, by omega, ?_, ?_, ?_⟩
  · rw [be16 _ _ (by omega)]; omega
  · rw [and_0f, be16 _ _ (by omega)]; omega
  · rw [and_07, Nat.shiftRight_eq_div_pow]; omega
  · rw [Nat.and_one_is_mod, Nat.shiftRight_eq_div_pow]; omega
  · unfold sdt_section
    rw [← hl]
    exact rd_bytes_middle _ _ _ hPb
  · unfold sdt_section
    rw [← hl, rd_append_right, ← Nat.add_zero P.length, rd_append_right]
    show S.length % 256 = S.length
    omega
  · have e : sdt_section sid r c P S =
        (sdt_head sid r c P.length S.length ++ P ++ [S.length]) ++ (S ++ [0x12, 0x34, 0x56, 0x78]) := by
      unfold sdt_section
      simp
    have el : 20 + P.length + 1 = (sdt_head sid r c P.length S.length ++ P ++ [S.length]).length := by
      simp [hl]; omega
    rw [e, el]
    exact rd_bytes_middle _ _ _ hSb

/-- The amended C6: for a service sid the current transponder already holds,
parse_sdt on a section with one service entry for sid (running_status r,
free_CA_mode c) whose service descriptor carries printable names P and S of at
most 250 bytes together rewrites that service in place: the list keeps its
length, every other service and every other field (pmt_pid among them) is
unchanged, and the service gets running = r, scrambled = c, the service_type of
the descriptor and the two names, an empty name being stored as NULL. -/
theorem sdt_updates_known_service (cfg : config) (net : net_model) (sid r c : Nat)
    (P S : List Nat) (i : Nat)
    (hsid : sid < 65536) (hr : r < 8) (hc : c < 2) (hP : printable P) (hS : printable S)
    (hlen : P.length + S.length ≤ 250)
    (hfind : find_service (tp_at net net.current_tp) (sid : Int) = some i) :
    (tp_at (parse_sdt cfg (sdt_section sid r c P S) 8 (11 + ((P.length + S.length : Nat) : Int)) 1
        net) net.current_tp).services =
      (tp_at net net.current_tp).services.set i
        { service_at (tp_at net net.current_tp) i with
          running := (r : Int), scrambled := c, type := 1,
          provider_name := if P = [] then none else some P,
          service_name := if S = [] then none else some S } := by
  obtain ⟨b1, b2, b3, b4, b5, b6, b7, b8, b9, b10, b11⟩ :=
    rd_sdt_section sid r c P S hsid hr hc hP hS hlen
  have hs := (find_service_from_lt _ _ _ _ hfind).2
  rw [Nat.zero_add] at hs
  have htp : net.current_tp < net.transponders.length := by
    by_contra h
    rw [tp_at_default _ _ h] at hs
    simp [calloc_transponder] at hs
  -- the service descriptor
  have hdesc : ∀ (fuel : Nat) (sv : service), fuel ≠ 0 →
      sdt_descriptors (sdt_section sid r c P S) fuel 16
        ((5 + (P.length + S.length) : Nat) : Int) sv =
      { sv with type := 1, provider_name := if P = [] then none else some P,
                service_name := if S = [] then none else some S } := by
    intro fuel sv hfuel
    obtain ⟨k, rfl⟩ := Nat.exists_eq_succ_of_ne_zero hfuel
    unfold sdt_descriptors
    rw [if_pos (by omega)]
    simp only [b5, b6]
    rw [if_neg (by omega), sdt_descriptors_stop _ _ _ _ _ (by omega)]
    simp only [if_true]
    unfold parse_service_descriptor
    simp only
    rw [b7, b8, show 16 + 4 = 20 from rfl, b9, b10, b11, strip_name_printable _ hP,
      strip_name_printable _ hS]
  -- the service entry
  have hentry : parse_sdt_entry cfg (sdt_section sid r c P S) 11 net =
      svc_store net net.current_tp i
        { service_at (tp_at net net.current_tp) i with
          running := (r : Int), scrambled := c, type := 1,
          provider_name := if P = [] then none else some P,
          service_name := if S = [] then none else some S } := by
    unfold parse_sdt_entry
    simp only
    rw [b1, hfind]
    simp only
    rw [tp_store_tp_at, b2, b3, b4, parse_descriptors_sdt, hdesc _ _ (by omega)]
    rfl
  have hloop : parse_sdt cfg (sdt_section sid r c P S) 8
      (11 + ((P.length + S.length : Nat) : Int)) 1 net =
      parse_sdt_entry cfg (sdt_section sid r c P S) 11 net := by
    unfold parse_sdt
    have hf : (11 + ((P.length + S.length : Nat) : Int)).toNat = (10 + (P.length + S.length)) + 1 := by
      omega
    rw [hf]
    unfold parse_sdt_loop
    rw [if_pos (by omega)]
    simp only
    rw [show 8 + 3 + 3 = 14 from rfl, show 8 + 3 + 4 = 15 from rfl, b2,
      if_neg (by omega), parse_sdt_loop_stop _ _ _ _ _ _ (by omega)]
  rw [hloop, hentry]
  unfold svc_store
  rw [tp_at_tp_store _ _ _ htp]
  rfl

theorem sdt_updates_known_service_witness :
    (tp_at (parse_sdt ex_cfg (sdt_section 100 4 0 ex_provider ex_service) 8 28 1
        ex_after_pat.net) 0).services =
      [{ calloc_service with
         service_id := 100, pmt_pid := 0x200, priv := some 1,
         running := 4, scrambled := 0, type := 1,
         provider_name := some ex_provider, service_name := some ex_service }] :=
  sdt_updates_known_service ex_cfg ex_after_pat.net 100 4 0 ex_provider ex_service 0
    (by decide) (by decide) (by decide) (by decide) (by decide) (by decide) (by decide)

/-- C6 as stated fails for an empty name: the section of the scenario with the
empty provider name P leaves the provider_name pointer of service 100 at NULL,
not at a string equal to P ("zap zero length names" in
parse_service_descriptor). -/
theorem sdt_empty_provider_name_is_null :
    (service_at (tp_at (parse_sdt ex_cfg (sdt_section 100 4 0 [] ex_service) 8 19 1
        ex_after_pat.net) 0) 0).provider_name = none ∧
    (service_at (tp_at (parse_sdt ex_cfg (sdt_section 100 4 0 [] ex_service) 8 19 1
        ex_after_pat.net) 0) 0).provider_name ≠ some [] := by
  decide

set_option maxRecDepth 100000 in
/-- A service descriptor whose length byte is 254 (names of 251 bytes) is not
parsed at all: the 8-bit `descriptor_len = buf[1] + 2` wraps to 0 and
parse_descriptors leaves the loop, so the names stay NULL. -/
theorem sdt_descriptor_of_254_bytes_is_skipped :
    (service_at (tp_at (parse_sdt ex_cfg
        (sdt_section 100 4 0 (List.replicate 251 65) []) 8 262 1 ex_after_pat.net) 0)
      0).provider_name = none := by
  decide

/-! ## C7: two NIT sections for one transport stream -/

/-- A 32-bit big-endian value decoded from its four bytes. -/
theorem be32 (x : Nat) (h : x < 4294967296) :
    ((x / 16777216 % 256) <<< 24) ||| ((x / 65536 % 256 % 256) <<< 16) |||
      (((x / 256 % 256 % 256) <<< 8) ||| (x % 256 % 256)) = x := by
  rw [be16 _ _ (by omega), Nat.shiftLeft_eq, Nat.shiftLeft_eq]
  have e1 := Nat.mul_add_lt_is_or (i := 24) (b := x / 65536 % 256 % 256 * 2 ^ 16)
    (by omega) (x / 16777216 % 256)
  rw [show x / 16777216 % 256 * 2 ^ 24 = 2 ^ 24 * (x / 16777216 % 256) by ring, ← e1]
  have e2 := Nat.mul_add_lt_is_or (i := 16) (b := x / 256 % 256 % 256 * 256 + x % 256 % 256)
    (by omega) (x / 16777216 % 256 * 256 + x / 65536 % 256 % 256)
  rw [show 2 ^ 24 * (x / 16777216 % 256) + x / 65536 % 256 % 256 * 2 ^ 16 =
    2 ^ 16 * (x / 16777216 % 256 * 256 + x / 65536 % 256 % 256) by ring, ← e2]
  omega

theorem parse_descriptors_stop (cfg : config) (t : table_type) (buf : List Nat) (fuel off : Nat)
    (len : Int) (w : net_model × desc_data) (h : len ≤ 0) :
    parse_descriptors cfg t buf fuel off len w = w := by
  cases fuel with
  | zero => rfl
  | succ fuel =>
    unfold parse_descriptors
    rw [if_neg (by omega)]

theorem parse_nit_loop_stop (cfg : config) (buf : List Nat) (nid : Int) (fuel off : Nat)
    (sl : Int) (net : net_model) (h : sl ≤ 6) :
    parse_nit_loop cfg buf nid fuel off sl net = net := by
  cases fuel with
  | zero => rfl
  | succ fuel =>
    unfold parse_nit_loop
    rw [if_neg (by omega)]

theorem parse_nit_loop_step (cfg : config) (buf : List Nat) (nid : Int) (fuel off : Nat)
    (sl : Int) (net : net_model) (hf : fuel ≠ 0) (h : sl > 6) :
    parse_nit_loop cfg buf nid fuel off sl net =
      if sl < ((((rd buf (off + 4) &&& 0x0f) <<< 8) ||| rd buf (off + 5) : Nat) : Int) + 4 then net
      else
        parse_nit_loop cfg buf nid (fuel - 1)
          (off + ((((rd buf (off + 4) &&& 0x0f) <<< 8) ||| rd buf (off + 5)) + 6))
          (sl - (((((rd buf (off + 4) &&& 0x0f) <<< 8) ||| rd buf (off + 5) : Nat) : Int) + 6))
          (parse_nit_entry cfg buf nid off net) := by
  obtain ⟨k, rfl⟩ := Nat.exists_eq_succ_of_ne_zero hf
  rw [parse_nit_loop, if_pos h]
  rfl

theorem dispatch_descriptor_nit_terrestrial (cfg : config) (buf : List Nat) (off : Nat)
    (net : net_model) (tn : transponder) (h : rd buf off = 0x5a) :
    dispatch_descriptor cfg .NIT buf off (net, .tp tn) =
      (net, .tp (parse_terrestrial_delivery_system_descriptor cfg buf off tn)) := by
  unfold dispatch_descriptor
  rw [h]
  rfl

theorem parse_nit_entry_eq (cfg : config) (buf : List Nat) (network_id : Int) (off : Nat)
    (net : net_model) (tn : transponder) (dll : Nat)
    (hd : ((rd buf (off + 4) &&& 0x0f) <<< 8) ||| rd buf (off + 5) = dll)
    (hp : parse_descriptors cfg .NIT buf dll (off + 6) dll
        (net, .tp { calloc_transponder with
          type := -1, network_id := network_id,
          transport_stream_id := (((rd buf off <<< 8) ||| rd buf (off + 1) : Nat) : Int) }) =
      (net, .tp tn)) :
    parse_nit_entry cfg buf network_id off net =
      if tn.type = cfg.fe_type then store_transponder cfg net tn else net := by
  unfold parse_nit_entry
  simp only
  rw [hd, hp]

/-- The section of the scenario is one pass through the transport stream loop
with the transponder read from the terrestrial delivery system descriptor. -/
theorem parse_nit_section (cfg : config) (nid tsid x b6 b7 b8 : Nat) (network_id : Int)
    (htsid : tsid < 65536) (hx : x < 4294967296) :
    ∃ tn : transponder, tn.transport_stream_id = tsid ∧ tn.network_id = network_id ∧
      tn.type = FE_OFDM ∧ tn.param.frequency = u32 (x * 10) ∧
      ∀ net : net_model,
        parse_nit cfg (nit_section nid tsid x b6 b7 b8) 8 21 network_id net =
          if FE_OFDM = cfg.fe_type then store_transponder cfg net tn else net := by
  generalize hb : nit_section nid tsid x b6 b7 b8 = buf
  have r8 : rd buf 8 = 0xf0 := by rw [← hb]; rfl
  have r9 : rd buf 9 = 0 := by rw [← hb]; rfl
  have r12 : rd buf 12 = tsid / 256 % 256 := by rw [← hb]; rfl
  have r13 : rd buf 13 = tsid % 256 % 256 := by rw [← hb]; rfl
  have r16 : rd buf 16 = 0xf0 := by rw [← hb]; rfl
  have r17 : rd buf 17 = 13 := by rw [← hb]; rfl
  have r18 : rd buf 18 = 0x5a := by rw [← hb]; rfl
  have r19 : rd buf 19 = 11 := by rw [← hb]; rfl
  have r20 : rd buf 20 = x / 16777216 % 256 := by rw [← hb]; rfl
  have r21 : rd buf 21 = x / 65536 % 256 % 256 := by rw [← hb]; rfl
  have r22 : rd buf 22 = x / 256 % 256 % 256 := by rw [← hb]; rfl
  have r23 : rd buf 23 = x % 256 % 256 := by rw [← hb]; rfl
  have hfreq : ∀ tn0 : transponder,
      (parse_terrestrial_delivery_system_descriptor cfg buf 18 tn0).param.frequency =
        u32 (x * 10) := by
    intro tn0
    unfold parse_terrestrial_delivery_system_descriptor
    simp only
    rw [show 18 + 2 = 20 from rfl, show 18 + 3 = 21 from rfl, show 18 + 4 = 22 from rfl,
      show 18 + 5 = 23 from rfl, r20, r21, r22, r23, be32 x hx]
    congr 2
    unfold u32
    exact Nat.mod_eq_of_lt hx
  have hdll : ((rd buf (12 + 4) &&& 0x0f) <<< 8) ||| rd buf (12 + 5) = 13 := by
    rw [show 12 + 4 = 16 from rfl, show 12 + 5 = 17 from rfl, r16, r17]
    rfl
  have hts : (rd buf 12 <<< 8) ||| rd buf (12 + 1) = tsid := by
    rw [show 12 + 1 = 13 from rfl, r12, r13]
    exact sid16 tsid htsid
  have hdesc : ∀ (net : net_model) (tn0 : transponder),
      parse_descriptors cfg .NIT buf 13 (12 + 6) ((13 : Nat) : Int) (net, .tp tn0) =
        (net, .tp (parse_terrestrial_delivery_system_descriptor cfg buf 18 tn0)) := by
    intro net tn0
    rw [parse_descriptors, if_pos (by decide)]
    simp only [show 12 + 6 + 1 = 19 from rfl, r19]
    rw [if_neg (by decide), parse_descriptors_stop _ _ _ _ _ _ _ (by decide)]
    exact dispatch_descriptor_nit_terrestrial cfg buf 18 net tn0 r18
  have hd0 : ((rd buf 8 &&& 0x0f) <<< 8) ||| rd buf (8 + 1) = 0 := by
    rw [show 8 + 1 = 9 from rfl, r8, r9]
    rfl
  refine ⟨parse_terrestrial_delivery_system_descriptor cfg buf 18
      { calloc_transponder with
        type := -1, network_id := network_id,
        transport_stream_id := (((rd buf 12 <<< 8) ||| rd buf (12 + 1) : Nat) : Int) },
    congrArg Nat.cast hts, rfl, rfl, hfreq _, ?_⟩
  intro net
  unfold parse_nit
  simp only [hd0]
  rw [if_neg (by decide), parse_descriptors_stop _ _ _ _ _ _ _ (by decide)]
  simp only
  rw [parse_nit_loop_step _ _ _ _ _ _ _ (by decide) (by decide),
    show 8 + (0 + 4) = 12 from rfl, hdll, if_neg (by decide),
    parse_nit_loop_stop _ _ _ _ _ _ _ (by decide)]
  exact parse_nit_entry_eq cfg buf network_id 12 net _ 13 hdll (hdesc net _)

theorem find_in_scanned_none (cfg : config) (net : net_model) (f : Nat)
    (hcur : cfg.current_tp_only = false) (l : List Nat)
    (h : ∀ p ∈ l, is_same_transponder (tp_at net p).param.frequency f = 0) :
    find_in_scanned cfg net f l = none := by
  induction l with
  | nil => rfl
  | cons p l ih =>
    unfold find_in_scanned
    rw [if_neg (by simp [hcur]), if_neg (by simp [h p (List.mem_cons_self _ _)])]
    exact ih (fun q hq => h q (List.mem_cons_of_mem _ hq))

theorem find_in_new_none (net : net_model) (f : Nat) (l : List Nat)
    (h : ∀ p ∈ l, is_same_transponder (tp_at net p).param.frequency f = 0) :
    find_in_new net f l = none := by
  induction l with
  | nil => rfl
  | cons p l ih =>
    unfold find_in_new
    rw [if_neg (by simp [h p (List.mem_cons_self _ _)])]
    exact ih (fun q hq => h q (List.mem_cons_of_mem _ hq))

theorem find_in_new_last (net : net_model) (f a : Nat) (l : List Nat)
    (h : ∀ p ∈ l, is_same_transponder (tp_at net p).param.frequency f = 0)
    (ha : is_same_transponder (tp_at net a).param.frequency f ≠ 0) :
    find_in_new net f (l ++ [a]) = some a := by
  induction l with
  | nil =>
    show find_in_new net f [a] = some a
    unfold find_in_new
    rw [if_pos ha]
  | cons p l ih =>
    show find_in_new net f (p :: (l ++ [a])) = some a
    unfold find_in_new
    rw [if_neg (by simp [h p (List.mem_cons_self _ _)])]
    exact ih (fun q hq => h q (List.mem_cons_of_mem _ hq))

theorem tp_at_append_lt (net : net_model) (l : List transponder) (sc nw : List Nat) (cur p : Nat)
    (h : p < net.transponders.length) :
    tp_at { transponders := net.transponders ++ l, scanned_transponders := sc,
            new_transponders := nw, current_tp := cur } p = tp_at net p := by
  unfold tp_at
  simp only
  rw [List.getD_eq_getElem?_getD, List.getD_eq_getElem?_getD, List.getElem?_append_left h]

theorem tp_at_append_length (net : net_model) (t : transponder) (sc nw : List Nat) (cur : Nat) :
    tp_at { transponders := net.transponders ++ [t], scanned_transponders := sc,
            new_transponders := nw, current_tp := cur } net.transponders.length = t := by
  unfold tp_at
  exact list_getD_length_append _ _ _

/-- A NIT entry for a frequency no known transponder is near allocates one
transponder at the tail of the new list. -/
theorem nit_store_new (cfg : config) (net : net_model) (tn : transponder)
    (hcur : cfg.current_tp_only = false)
    (hfar : ∀ p ∈ net.scanned_transponders ++ net.new_transponders,
      is_same_transponder (tp_at net p).param.frequency tn.param.frequency = 0) :
    store_transponder cfg net tn =
      { transponders := net.transponders ++
          [copy_transponder
            { calloc_transponder with
              param := { zero_param with frequency := tn.param.frequency } } tn],
        scanned_transponders := net.scanned_transponders,
        new_transponders := net.new_transponders ++ [net.transponders.length],
        current_tp := net.current_tp } := by
  have hnone : find_transponder cfg net tn.param.frequency = none := by
    unfold find_transponder
    rw [find_in_scanned_none cfg net _ hcur _
      (fun p hp => hfar p (List.mem_append_left _ hp))]
    exact find_in_new_none net _ _ (fun p hp => hfar p (List.mem_append_right _ hp))
  unfold store_transponder
  rw [hnone]
  unfold alloc_transponder tp_store
  simp only
  rw [tp_at_append_length, list_set_length_append]

/-- A NIT entry for a frequency near the last transponder of the new list only
overwrites that transponder. -/
theorem nit_store_last (cfg : config) (net : net_model) (t tn : transponder)
    (old : List transponder) (nw : List Nat)
    (hcur : cfg.current_tp_only = false)
    (ht : net.transponders = old ++ [t])
    (hn : net.new_transponders = nw ++ [old.length])
    (hfar : ∀ p ∈ net.scanned_transponders ++ nw,
      is_same_transponder (tp_at net p).param.frequency tn.param.frequency = 0)
    (hnear : is_same_transponder t.param.frequency tn.param.frequency ≠ 0) :
    store_transponder cfg net tn =
      { net with transponders := old ++ [copy_transponder t tn] } := by
  have hat : tp_at net old.length = t := by
    unfold tp_at
    rw [ht]
    exact list_getD_length_append _ _ _
  have hsome : find_transponder cfg net tn.param.frequency = some old.length := by
    unfold find_transponder
    rw [find_in_scanned_none cfg net _ hcur _
      (fun p hp => hfar p (List.mem_append_left _ hp))]
    simp only
    rw [hn]
    apply find_in_new_last
    · exact fun p hp => hfar p (List.mem_append_right _ hp)
    · rw [hat]
      exact hnear
  unfold store_transponder
  rw [hsome]
  simp only
  rw [hat]
  unfold tp_store
  rw [ht, list_set_length_append]

theorem is_same_transponder_near (f1 f2 : Nat) (h : f2 = f1 + 500) :
    is_same_transponder f1 f2 ≠ 0 := by
  subst h
  unfold is_same_transponder
  rw [if_neg (by omega)]
  simp only
  rw [if_neg (by omega : ¬ f1 > f1 + 500), if_pos (by omega)]
  decide

theorem filter_tsid_old (net net2 : net_model) (tsid : Int) (l : List Nat)
    (h : ∀ p ∈ l, tp_at net2 p = tp_at net p) :
    l.filter (fun p => decide ((tp_at net2 p).transport_stream_id = tsid)) =
      l.filter (fun p => decide ((tp_at net p).transport_stream_id = tsid)) := by
  apply List.filter_congr
  intro p hp
  rw [h p hp]

/-- The amended C7: with an OFDM frontend and current_tp_only off, if no known
transponder lies within 2000 of F = 10 * x1 nor of F + 500 = 10 * x2 (frequencies
as 32-bit values), then a NIT section for transport_stream_id tsid at F followed
by one at F + 500 leaves the scanned list unchanged and appends exactly one
pointer to the new list; the transponder behind it carries tsid and the
frequency of the second section, the transponders known before are unchanged,
and the number of listed transponders with this transport_stream_id has grown by
one. -/
theorem nit_twice_one_transponder (cfg : config) (net : net_model)
    (nid tsid x1 x2 b6 b7 b8 : Nat)
    (hfe : cfg.fe_type = FE_OFDM) (hcur : cfg.current_tp_only = false)
    (htsid : tsid < 65536) (hx1 : x1 < 4294967296) (hx2 : x2 < 4294967296)
    (hF : u32 (x2 * 10) = u32 (x1 * 10) + 500)
    (hvalid : ∀ p ∈ net.scanned_transponders ++ net.new_transponders,
      p < net.transponders.length)
    (hfar1 : ∀ p ∈ net.scanned_transponders ++ net.new_transponders,
      is_same_transponder (tp_at net p).param.frequency (u32 (x1 * 10)) = 0)
    (hfar2 : ∀ p ∈ net.scanned_transponders ++ net.new_transponders,
      is_same_transponder (tp_at net p).param.frequency (u32 (x2 * 10)) = 0) :
    (nit_scenario cfg net nid tsid x1 x2 b6 b7 b8).scanned_transponders =
      net.scanned_transponders ∧
    (nit_scenario cfg net nid tsid x1 x2 b6 b7 b8).new_transponders =
      net.new_transponders ++ [net.transponders.length] ∧
    (nit_scenario cfg net nid tsid x1 x2 b6 b7 b8).transponders.length =
      net.transponders.length + 1 ∧
    (nit_scenario cfg net nid tsid x1 x2 b6 b7 b8).transponders.take net.transponders.length =
      net.transponders ∧
    (tp_at (nit_scenario cfg net nid tsid x1 x2 b6 b7 b8)
      net.transponders.length).transport_stream_id = tsid ∧
    (tp_at (nit_scenario cfg net nid tsid x1 x2 b6 b7 b8)
      net.transponders.length).param.frequency = u32 (x2 * 10) ∧
    count_tsid (nit_scenario cfg net nid tsid x1 x2 b6 b7 b8) tsid = count_tsid net tsid + 1 := by
  obtain ⟨tn1, -, -, -, f1, h1⟩ := parse_nit_section cfg nid tsid x1 b6 b7 b8 nid htsid hx1
  obtain ⟨tn2, t2, -, -, f2, h2⟩ := parse_nit_section cfg nid tsid x2 b6 b7 b8 nid htsid hx2
  have hs : nit_scenario cfg net nid tsid x1 x2 b6 b7 b8 =
      { transponders := net.transponders ++
          [copy_transponder (copy_transponder
            { calloc_transponder with
              param := { zero_param with frequency := tn1.param.frequency } } tn1) tn2],
        scanned_transponders := net.scanned_transponders,
        new_transponders := net.new_transponders ++ [net.transponders.length],
        current_tp := net.current_tp } := by
    unfold nit_scenario
    rw [h1 net, if_pos hfe.symm, nit_store_new cfg net tn1 hcur (by rw [f1]; exact hfar1), h2,
      if_pos hfe.symm]
    rw [nit_store_last cfg _ _ tn2 net.transponders net.new_transponders hcur rfl rfl]
    · intro p hp
      rw [tp_at_append_lt _ _ _ _ _ _ (hvalid p hp), f2]
      exact hfar2 p hp
    · apply is_same_transponder_near
      rw [f2, hF, ← f1]
      rfl
  have hat : tp_at (nit_scenario cfg net nid tsid x1 x2 b6 b7 b8) net.transponders.length =
      copy_transponder (copy_transponder
        { calloc_transponder with
          param := { zero_param with frequency := tn1.param.frequency } } tn1) tn2 := by
    rw [hs]
    exact tp_at_append_length _ _ _ _ _
  have hold : ∀ p ∈ net.scanned_transponders ++ net.new_transponders,
      tp_at (nit_scenario cfg net nid tsid x1 x2 b6 b7 b8) p = tp_at net p := by
    intro p hp
    rw [hs]
    exact tp_at_append_lt _ _ _ _ _ _ (hvalid p hp)
  refine ⟨by rw [hs], by rw [hs], by rw [hs]; simp, by rw [hs]; simp, ?_, ?_, ?_⟩
  · rw [hat]
    exact t2
  · rw [hat]
    exact f2
  · unfold count_tsid
    have hl : (nit_scenario cfg net nid tsid x1 x2 b6 b7 b8).scanned_transponders ++
        (nit_scenario cfg net nid tsid x1 x2 b6 b7 b8).new_transponders =
        (net.scanned_transponders ++ net.new_transponders) ++ [net.transponders.length] := by
      rw [hs]
      simp
    rw [hl, List.filter_append, List.length_append, filter_tsid_old _ _ _ _ hold]
    have hlast : [net.transponders.length].filter
        (fun p => decide ((tp_at (nit_scenario cfg net nid tsid x1 x2 b6 b7 b8) p).transport_stream_id
          = (tsid : Int))) = [net.transponders.length] := by
      rw [List.filter_eq_self]
      intro p hp
      rw [List.mem_singleton] at hp
      rw [hp, hat]
      simpa using t2
    rw [hlast]
    rfl

theorem nit_twice_one_transponder_witness :
    (nit_scenario ex_cfg ex_net 1 500 50000000 50000050 0x1f 0 0).scanned_transponders = [0] ∧
    (nit_scenario ex_cfg ex_net 1 500 50000000 50000050 0x1f 0 0).new_transponders = [1] ∧
    (nit_scenario ex_cfg ex_net 1 500 50000000 50000050 0x1f 0 0).transponders.length = 2 ∧
    (nit_scenario ex_cfg ex_net 1 500 50000000 50000050 0x1f 0 0).transponders.take 1 =
      ex_net.transponders ∧
    (tp_at (nit_scenario ex_cfg ex_net 1 500 50000000 50000050 0x1f 0 0)
      1).transport_stream_id = 500 ∧
    (tp_at (nit_scenario ex_cfg ex_net 1 500 50000000 50000050 0x1f 0 0)
      1).param.frequency = 500000500 ∧
    count_tsid (nit_scenario ex_cfg ex_net 1 500 50000000 50000050 0x1f 0 0) 500 = 1 :=
  nit_twice_one_transponder ex_cfg ex_net 1 500 50000000 50000050 0x1f 0 0 rfl rfl
    (by decide) (by decide) (by decide) (by decide) (by decide) (by decide) (by decide)

/-- C7 as stated fails: the only known transponder is tuned at 500 002 100 Hz,
more than 2000 away from F = 500 000 000 Hz, so the first NIT section allocates
a transponder for transport_stream_id 500.  The second section, at F + 500, is
within 2000 of the known transponder, which find_transponder meets first (it
walks the scanned list before the new one), so that transponder is overwritten
and two transponders carry transport_stream_id 500; the one the first section
created keeps frequency F. -/
theorem nit_second_section_updates_other_transponder :
    ex_net_near.scanned_transponders ++ ex_net_near.new_transponders = [0] ∧
    is_same_transponder (tp_at ex_net_near 0).param.frequency 500000000 = 0 ∧
    (nit_scenario ex_cfg ex_net_near 1 500 50000000 50000050 0x1f 0 0).scanned_transponders
      = [0] ∧
    (nit_scenario ex_cfg ex_net_near 1 500 50000000 50000050 0x1f 0 0).new_transponders
      = [1] ∧
    (tp_at (nit_scenario ex_cfg ex_net_near 1 500 50000000 50000050 0x1f 0 0)
      0).transport_stream_id = 500 ∧
    (tp_at (nit_scenario ex_cfg ex_net_near 1 500 50000000 50000050 0x1f 0 0)
      0).param.frequency = 500000500 ∧
    (tp_at (nit_scenario ex_cfg ex_net_near 1 500 50000000 50000050 0x1f 0 0)
      1).transport_stream_id = 500 ∧
    (tp_at (nit_scenario ex_cfg ex_net_near 1 500 50000000 50000050 0x1f 0 0)
      1).param.frequency = 500000000 ∧
    count_tsid (nit_scenario ex_cfg ex_net_near 1 500 50000000 50000050 0x1f 0 0) 500 = 2 := by
  decide

/-! ## C10: reads beyond the end of the section -/

set_option maxRecDepth 100000 in
/-- C10 does not hold of the code: the same accepted PMT section of 24 bytes
(count = 3 + section_length = 24) is read into two receive buffers that differ
only at offsets 24 and above; read_sections accepts it in both and the buffers
agree on the 24 bytes of the section, yet the language of the audio channel of
service 100 comes out as "eng" in one and as zero bytes in the other.  So
parse_pmt, through parse_descriptors and parse_iso639_language_descriptor, has
read the bytes at offsets 24 to 28, past the end of the section: the
ES_info_length and the descriptor length are not checked against
section_length. -/
theorem pmt_reads_beyond_section :
    ex_pmt_overrun.length = 24 ∧
    (read_sections ex_cfg 1 (read_of ex_pmt_overrun) (read_of []) ex_after_pat).1 = 1 ∧
    (read_sections ex_cfg 1 (read_of ex_pmt_overrun) (read_of []) ex_pmt_stale).1 = 1 ∧
    (seg_at (read_sections ex_cfg 1 (read_of ex_pmt_overrun) (read_of [])
      ex_after_pat).2.flt 1 0).buf.take 24 = ex_pmt_overrun ∧
    (seg_at (read_sections ex_cfg 1 (read_of ex_pmt_overrun) (read_of [])
      ex_pmt_stale).2.flt 1 0).buf.take 24 = ex_pmt_overrun ∧
    (service_at (tp_at (read_sections ex_cfg 1 (read_of ex_pmt_overrun) (read_of [])
      ex_after_pat).2.net 0) 0).audio_lang.getD 0 [] = [0, 0, 0, 0] ∧
    (service_at (tp_at (read_sections ex_cfg 1 (read_of ex_pmt_overrun) (read_of [])
      ex_pmt_stale).2.net 0) 0).audio_lang.getD 0 [] = [0x65, 0x6e, 0x67, 0] := by
  refine ⟨rfl, ?_, ?_, ?_, ?_, ?_, ?_⟩ <;> decide

/-! ## C11: a descriptor with length byte 0 -/

/-- One pass of the two walks at a descriptor whose length byte is 0: its 8-bit
size `descriptor_len` is 2, so parse_descriptors hands it to the `switch` like
any other descriptor and goes on with the descriptor 2 bytes further, the loop
length reduced by 2; find_descriptor reports it as found when its tag is the
wanted one and otherwise goes on in the same way. -/
theorem zero_length_descriptor_is_walked (cfg : config) (t : table_type) (buf : List Nat)
    (fuel off : Nat) (len : Int) (w : net_model × desc_data) (tag : Nat)
    (hzero : rd buf (off + 1) = 0) (hlen : len > 0) :
    parse_descriptors cfg t buf (fuel + 1) off len w =
      parse_descriptors cfg t buf fuel (off + 2) (len - 2) (dispatch_descriptor cfg t buf off w) ∧
    find_descriptor tag buf (fuel + 1) off len =
      if tag = rd buf off then 1 else find_descriptor tag buf fuel (off + 2) (len - 2) := by
  constructor
  · rw [parse_descriptors, if_pos hlen, hzero]
    rfl
  · rw [find_descriptor, if_pos hlen, hzero]
    rfl

theorem zero_length_descriptor_is_walked_witness :
    parse_descriptors ex_cfg .PMT [0x52, 0x00, 0x0a, 0x04, 0x65, 0x6e, 0x67, 0x00] 8 0 8
        (ex_net, .svc calloc_service) =
      parse_descriptors ex_cfg .PMT [0x52, 0x00, 0x0a, 0x04, 0x65, 0x6e, 0x67, 0x00] 7 2 (8 - 2)
        (dispatch_descriptor ex_cfg .PMT [0x52, 0x00, 0x0a, 0x04, 0x65, 0x6e, 0x67, 0x00] 0
          (ex_net, .svc calloc_service)) ∧
    find_descriptor 0x56 [0x52, 0x00, 0x0a, 0x04, 0x65, 0x6e, 0x67, 0x00] 8 0 8 =
      if 0x56 = rd [0x52, 0x00, 0x0a, 0x04, 0x65, 0x6e, 0x67, 0x00] 0 then 1
      else find_descriptor 0x56 [0x52, 0x00, 0x0a, 0x04, 0x65, 0x6e, 0x67, 0x00] 7 2 (8 - 2) :=
  zero_length_descriptor_is_walked ex_cfg .PMT [0x52, 0x00, 0x0a, 0x04, 0x65, 0x6e, 0x67, 0x00]
    7 0 8 (ex_net, .svc calloc_service) 0x56 (by decide) (by decide)

/-- The walk does stop when the 8-bit `descriptor_len = buf[1] + 2` is 0, which
is the case for the length byte 254: the descriptor is not dispatched or
matched and nothing after it is looked at. -/
theorem descriptor_len_wrap_ends_walk (cfg : config) (t : table_type) (buf : List Nat)
    (fuel off : Nat) (len : Int) (w : net_model × desc_data) (tag : Nat)
    (h254 : rd buf (off + 1) = 254) :
    parse_descriptors cfg t buf fuel off len w = w ∧ find_descriptor tag buf fuel off len = 0 := by
  cases fuel with
  | zero => exact ⟨rfl, rfl⟩
  | succ fuel =>
    constructor
    · rw [parse_descriptors]
      split
      · rw [h254]
        rfl
      · rfl
    · rw [find_descriptor]
      split
      · rw [h254]
        rfl
      · rfl

/-- C11 does not hold of the code.  Both functions carry the test that is
meant to stop the walk at a zero length, `if (!descriptor_len)` with the
warning "len is 0" and a `break`; but `descriptor_len` is the 8-bit size
`buf[1] + 2`, which is 2 for the length byte 0 and 0 only for the length byte
254.  So for every loop with bytes left a descriptor with length byte 0 is
handed to the `switch` of parse_descriptors, or matched by find_descriptor,
and the walk goes on with the descriptor 2 bytes further; the test fires, and
the walk ends, at a descriptor with length byte 254 instead.  In a PMT loop
of 8 bytes a descriptor with length byte 0 (tag 0x52) is followed by an
ISO-639 language descriptor: the language "eng" is stored, so a later
descriptor is processed.  In an SDT loop a service descriptor (tag 0x48) with
length byte 0 is handed to parse_service_descriptor, which sets the service
type from the byte that follows.  And find_descriptor reports a descriptor
with length byte 0 as found. -/
theorem zero_length_descriptor_does_not_stop_walk :
    (∀ (buf : List Nat) (off : Nat),
      (rd buf (off + 1) + 2) % 256 = 0 ↔ rd buf (off + 1) = 254) ∧
    (∀ (cfg : config) (t : table_type) (buf : List Nat) (fuel off : Nat) (len : Int)
      (w : net_model × desc_data),
      rd buf (off + 1) = 0 → len > 0 →
      parse_descriptors cfg t buf (fuel + 1) off len w =
        parse_descriptors cfg t buf fuel (off + 2) (len - 2)
          (dispatch_descriptor cfg t buf off w)) ∧
    (∀ (tag : Nat) (buf : List Nat) (fuel off : Nat) (len : Int),
      rd buf (off + 1) = 0 → len > 0 →
      find_descriptor tag buf (fuel + 1) off len =
        if tag = rd buf off then 1 else find_descriptor tag buf fuel (off + 2) (len - 2)) ∧
    (∀ (cfg : config) (t : table_type) (buf : List Nat) (fuel off : Nat) (len : Int)
      (w : net_model × desc_data) (tag : Nat),
      rd buf (off + 1) = 254 →
      parse_descriptors cfg t buf fuel off len w = w ∧ find_descriptor tag buf fuel off len = 0) ∧
    (parse_descriptors ex_cfg .PMT [0x52, 0x00, 0x0a, 0x04, 0x65, 0x6e, 0x67, 0x00] 8 0 8
        (ex_net, .svc calloc_service)).2 =
      .svc { calloc_service with
             audio_lang := (List.replicate 32 [0, 0, 0, 0]).set 0 [0x65, 0x6e, 0x67, 0] } ∧
    (parse_descriptors ex_cfg .SDT [0x48, 0x00, 0x07, 0x00, 0x00] 2 0 2
        (ex_net, .svc calloc_service)).2 = .svc { calloc_service with type := 7 } ∧
    find_descriptor 0x56 [0x56, 0x00] 2 0 2 = 1 := by
  refine ⟨?_, ?_, ?_, ?_, by decide, by decide, by decide⟩
  · intro buf off
    have := rd_lt buf (off + 1)
    omega
  · intro cfg t buf fuel off len w hz hl
    exact (zero_length_descriptor_is_walked cfg t buf fuel off len w 0 hz hl).1
  · intro tag buf fuel off len hz hl
    exact (zero_length_descriptor_is_walked ex_cfg .PMT buf fuel off len
      (ex_net, .NULL) tag hz hl).2
  · intro cfg t buf fuel off len w tag h
    exact descriptor_len_wrap_ends_walk cfg t buf fuel off len w tag h

/-! ## C12: a descriptor that is longer than the rest of its loop -/

/-- C12 does not hold of the code: neither function compares the size of a
descriptor with the bytes left in the loop.  In an SDT loop declared 4 bytes
long, a service descriptor (tag 0x48) declaring 10 bytes (size 12) is handed to
parse_service_descriptor, which stores service type 1 and the names "AB" and
"C" from bytes lying outside the loop; and in a loop of 2 bytes find_descriptor
reports a descriptor of declared size 7 as found. -/
theorem descriptor_beyond_loop_is_dispatched :
    (parse_descriptors ex_cfg .SDT
        [0x48, 0x0a, 0x01, 0x02, 0x41, 0x42, 0x01, 0x43, 0x00, 0x00, 0x00, 0x00] 4 0 4
        (ex_net, .svc calloc_service)).2 =
      .svc { calloc_service with
             type := 1, provider_name := some [0x41, 0x42], service_name := some [0x43] } ∧
    find_descriptor 0x56 [0x56, 0x05, 0x00, 0x00, 0x00, 0x00, 0x00] 2 0 2 = 1 := by
  decide

/-! ## C18: a PMT for an unknown service -/

/-- C18: when the service_id of a PMT is not in the service list of the current
transponder, parse_pmt returns the model as it got it: no service is created
and no field of any service or transponder changes. -/
theorem parse_pmt_unknown_service (cfg : config) (buf : List Nat) (off : Nat)
    (section_length : Int) (service_id : Int) (net : net_model)
    (hnone : find_service (tp_at net net.current_tp) service_id = none) :
    parse_pmt cfg buf off section_length service_id net = net := by
  unfold parse_pmt
  rw [hnone]

theorem parse_pmt_unknown_service_witness :
    parse_pmt ex_cfg (pmt_section 101 0x210 0x211 0x65 0x6e 0x67) 8 18 101 ex_after_pat.net =
      ex_after_pat.net :=
  parse_pmt_unknown_service ex_cfg (pmt_section 101 0x210 0x211 0x65 0x6e 0x67) 8 18 101
    ex_after_pat.net (by decide)

/-! ## C20: a NIT entry for a known transponder -/

/-- C20: when find_transponder returns a transponder for the frequency of the
scratch transponder `tn`, the block of parse_nit that stores `tn` overwrites
that transponder by copy_transponder and does nothing else: its service list
(with every field of every service) is the one it had, the scanned and the new
list are unchanged, so the transponder keeps its position in its list, no
transponder is allocated and every other transponder is unchanged. -/
theorem store_transponder_keeps_services (cfg : config) (net : net_model) (tn : transponder)
    (t : Nat) (hfind : find_transponder cfg net tn.param.frequency = some t) :
    store_transponder cfg net tn = tp_store net t (copy_transponder (tp_at net t) tn) ∧
    (tp_at (store_transponder cfg net tn) t).services = (tp_at net t).services ∧
    (store_transponder cfg net tn).scanned_transponders = net.scanned_transponders ∧
    (store_transponder cfg net tn).new_transponders = net.new_transponders ∧
    (store_transponder cfg net tn).current_tp = net.current_tp ∧
    (store_transponder cfg net tn).transponders.length = net.transponders.length ∧
    ∀ p, p ≠ t → tp_at (store_transponder cfg net tn) p = tp_at net p := by
  have h : store_transponder cfg net tn = tp_store net t (copy_transponder (tp_at net t) tn) := by
    unfold store_transponder
    rw [hfind]
  rw [h]
  refine ⟨rfl, ?_, rfl, rfl, rfl, ?_, ?_⟩
  · by_cases ht : t < net.transponders.length
    · rw [tp_at_tp_store _ _ _ ht]
      rfl
    · rw [tp_at_default _ _ ht, tp_at_default]
      unfold tp_store
      simpa using ht
  · unfold tp_store
    simp
  · intro p hp
    unfold tp_at tp_store
    simp only
    rw [list_getD_set_other _ _ _ _ _ (Ne.symm hp)]

theorem store_transponder_keeps_services_witness :
    (tp_at (store_transponder ex_cfg ex_after_pat.net
        { calloc_transponder with
          transport_stream_id := 7, param := { zero_param with frequency := 500 } })
      0).services = (tp_at ex_after_pat.net 0).services ∧
    (store_transponder ex_cfg ex_after_pat.net
        { calloc_transponder with
          transport_stream_id := 7, param := { zero_param with frequency := 500 } }
      ).scanned_transponders = ex_after_pat.net.scanned_transponders :=
  ⟨(store_transponder_keeps_services ex_cfg ex_after_pat.net
      { calloc_transponder with
        transport_stream_id := 7, param := { zero_param with frequency := 500 } }
      0 (by decide)).2.1,
   (store_transponder_keeps_services ex_cfg ex_after_pat.net
      { calloc_transponder with
        transport_stream_id := 7, param := { zero_param with frequency := 500 } }
      0 (by decide)).2.2.1⟩

/-! ## Lookups in the service list -/

theorem find_service_from_succ (S : List service) (sid : Int) (k : Nat) :
    find_service_from S sid (k + 1) = (find_service_from S sid k).map (fun i => i + 1) := by
  induction S generalizing k with
  | nil => rfl
  | cons s S ih =>
    unfold find_service_from
    by_cases h : s.service_id = sid
    · rw [if_pos h, if_pos h]
      rfl
    · rw [if_neg h, if_neg h]
      exact ih (k + 1)

theorem upsert_service_nil (sid : Int) (f : service → service) :
    upsert_service [] sid f = [f (new_service sid)] := rfl

theorem upsert_service_cons (s : service) (S : List service) (sid : Int)
    (f : service → service) :
    upsert_service (s :: S) sid f =
      if s.service_id = sid then f s :: S else s :: upsert_service S sid f := by
  by_cases h : s.service_id = sid
  · have e : find_service_from (s :: S) sid 0 = some 0 := by
      rw [find_service_from, if_pos h]
    rw [if_pos h]
    unfold upsert_service
    rw [e]
    rfl
  · have e : find_service_from (s :: S) sid 0 =
        (find_service_from S sid 0).map (fun i => i + 1) := by
      rw [find_service_from, if_neg h, find_service_from_succ]
    rw [if_neg h]
    unfold upsert_service
    rw [e]
    cases find_service_from S sid 0 with
    | none => rfl
    | some i => rfl

/-- The function find_service as a search for the first service with the id. -/
theorem lookup_service_eq_find (tp : transponder) (sid : Int) :
    lookup_service tp sid = tp.services.find? (fun s => decide (s.service_id = sid)) := by
  unfold lookup_service find_service service_at
  generalize tp.services = S
  induction S with
  | nil => rfl
  | cons s S ih =>
    by_cases h : s.service_id = sid
    · have e : find_service_from (s :: S) sid 0 = some 0 := by
        rw [find_service_from, if_pos h]
      rw [e, List.find?_cons_of_pos _ (by simpa using h)]
      rfl
    · have e : find_service_from (s :: S) sid 0 =
          (find_service_from S sid 0).map (fun i => i + 1) := by
        rw [find_service_from, if_neg h, find_service_from_succ]
      rw [e, List.find?_cons_of_neg _ (by simpa using h), ← ih]
      cases find_service_from S sid 0 with
      | none => rfl
      | some i => rfl

theorem find_id_cons_pos (s : service) (S : List service) (j : Int) (h : s.service_id = j) :
    (s :: S).find? (fun s => decide (s.service_id = j)) = some s :=
  List.find?_cons_of_pos _ (by simpa using h)

theorem find_id_cons_neg (s : service) (S : List service) (j : Int) (h : s.service_id ≠ j) :
    (s :: S).find? (fun s => decide (s.service_id = j)) =
      S.find? (fun s => decide (s.service_id = j)) :=
  List.find?_cons_of_neg _ (by simpa using h)

theorem find_upsert_service (S : List service) (k j : Int) (f : service → service)
    (hf : ∀ x, (f x).service_id = x.service_id) :
    (upsert_service S k f).find? (fun s => decide (s.service_id = j)) =
      if j = k then
        some (f ((S.find? (fun s => decide (s.service_id = k))).getD
          (new_service k)))
      else S.find? (fun s => decide (s.service_id = j)) := by
  induction S with
  | nil =>
    rw [upsert_service_nil]
    by_cases hj : j = k
    · rw [if_pos hj, find_id_cons_pos _ _ _ (by rw [hf, hj]; rfl)]
      rfl
    · rw [if_neg hj, find_id_cons_neg _ _ _ (by rw [hf]; exact Ne.symm hj)]
  | cons s S ih =>
    rw [upsert_service_cons]
    by_cases hs : s.service_id = k
    · rw [if_pos hs, find_id_cons_pos s S k hs]
      by_cases hj : j = k
      · rw [if_pos hj, find_id_cons_pos _ _ _ (by rw [hf, hj, hs])]
        rfl
      · rw [if_neg hj, find_id_cons_neg _ _ _ (by rw [hf, hs]; exact Ne.symm hj),
          find_id_cons_neg _ _ _ (by rw [hs]; exact Ne.symm hj)]
    · rw [if_neg hs, find_id_cons_neg s S k hs]
      by_cases hsj : s.service_id = j
      · rw [find_id_cons_pos _ _ _ hsj, find_id_cons_pos _ _ _ hsj,
          if_neg (by rw [← hsj]; exact hs)]
      · rw [find_id_cons_neg _ _ _ hsj, find_id_cons_neg _ _ _ hsj, ih]

theorem ids_upsert_service (S : List service) (k : Int) (f : service → service)
    (hf : ∀ x, (f x).service_id = x.service_id) :
    (upsert_service S k f).map (fun s => s.service_id) =
      if k ∈ S.map (fun s => s.service_id) then S.map (fun s => s.service_id)
      else S.map (fun s => s.service_id) ++ [k] := by
  induction S with
  | nil =>
    rw [upsert_service_nil]
    simp [hf, new_service]
  | cons s S ih =>
    rw [upsert_service_cons]
    by_cases hs : s.service_id = k
    · rw [if_pos hs, if_pos (by simp [hs])]
      simp [hf]
    · rw [if_neg hs, List.map_cons, ih]
      by_cases hk : k ∈ S.map (fun s => s.service_id)
      · rw [if_pos hk, if_pos (by simp only [List.map_cons, List.mem_cons]; exact Or.inr hk)]
        rfl
      · rw [if_neg hk, if_neg (by
          simp only [List.map_cons, List.mem_cons, not_or]
          exact ⟨Ne.symm hs, hk⟩)]
        rfl

theorem nodup_upsert_service (S : List service) (k : Int) (f : service → service)
    (hf : ∀ x, (f x).service_id = x.service_id)
    (h : (S.map (fun s => s.service_id)).Nodup) :
    ((upsert_service S k f).map (fun s => s.service_id)).Nodup := by
  rw [ids_upsert_service S k f hf]
  by_cases hk : k ∈ S.map (fun s => s.service_id)
  · rw [if_pos hk]
    exact h
  · rw [if_neg hk]
    exact List.Nodup.append h (List.nodup_singleton k) (by simpa using hk)

theorem alloc_service_eq (tp : transponder) (sid : Int) :
    alloc_service tp sid =
      ({ tp with services := tp.services ++ [new_service sid] }, tp.services.length) := rfl

theorem upsert_target_some (tp : transponder) (sid : Int) (i : Nat)
    (h : find_service tp sid = some i) : upsert_target tp sid = service_at tp i := by
  unfold upsert_target lookup_service
  rw [h]
  rfl

theorem upsert_target_none (tp : transponder) (sid : Int)
    (h : find_service tp sid = none) :
    upsert_target tp sid = (new_service sid) := by
  unfold upsert_target lookup_service
  rw [h]
  rfl

theorem parse_sdt_entry_eq (cfg : config) (buf : List Nat) (off : Nat) (net : net_model)
    (hcur : net.current_tp < net.transponders.length) :
    parse_sdt_entry cfg buf off net =
      tp_store net net.current_tp
        { tp_at net net.current_tp with
          services := upsert_service (tp_at net net.current_tp).services
            ((sdt_sid buf off : Nat) : Int) (sdt_update buf off) } := by
  unfold parse_sdt_entry upsert_service sdt_update
  simp only [parse_descriptors_sdt]
  have hfs : find_service (tp_at net net.current_tp) ((sdt_sid buf off : Nat) : Int) =
      find_service_from (tp_at net net.current_tp).services ((sdt_sid buf off : Nat) : Int) 0 :=
    rfl
  unfold sdt_sid at hfs ⊢
  rw [hfs]
  cases find_service_from (tp_at net net.current_tp).services
      (((rd buf off <<< 8) ||| rd buf (off + 1) : Nat) : Int) 0 with
  | some i =>
    simp only
    rw [tp_store_tp_at]
    rfl
  | none =>
    simp only [alloc_service]
    unfold svc_store svc_at
    rw [tp_at_tp_store _ _ _ hcur, tp_store_tp_store]
    unfold service_store service_at
    simp only
    rw [list_getD_length_append, list_set_length_append]
    rfl

theorem pat_update_pos (pid p : Nat) (sv : service) (h : sv.priv.isNone = true ∧ pid ≠ 0) :
    pat_update pid p sv = { sv with pmt_pid := pid, priv := some p } := by
  unfold pat_update
  exact if_pos h

theorem pat_update_neg (pid p : Nat) (sv : service) (h : ¬ (sv.priv.isNone = true ∧ pid ≠ 0)) :
    pat_update pid p sv = { sv with pmt_pid := pid } := by
  unfold pat_update
  exact if_neg h

theorem parse_pat_entry_eq (cfg : config) (buf : List Nat) (off : Nat) (st : scan_state)
    (hcur : st.net.current_tp < st.net.transponders.length) :
    parse_pat_entry cfg buf off st =
      if pat_sid buf off = 0 then st
      else
        { net := tp_store st.net st.net.current_tp
            { tp_at st.net st.net.current_tp with
              services := upsert_service (tp_at st.net st.net.current_tp).services
                ((pat_sid buf off : Nat) : Int)
                (pat_update (pat_pid buf off) st.flt.filters.length) },
          flt :=
            if (upsert_target (tp_at st.net st.net.current_tp)
                ((pat_sid buf off : Nat) : Int)).priv.isNone = true ∧ pat_pid buf off ≠ 0 then
              add_filter
                { st.flt with
                  filters := st.flt.filters ++
                    [[setup_filter cfg (pat_pid buf off) 0x02 true false 5]] }
                st.flt.filters.length
            else st.flt } := by
  unfold parse_pat_entry
  by_cases h0 : pat_sid buf off = 0
  · rw [if_pos h0]
    unfold pat_sid at h0
    simp only
    rw [if_pos h0]
  · rw [if_neg h0]
    simp only
    rw [if_neg (by unfold pat_sid at h0; exact h0)]
    have hfs : find_service (tp_at st.net st.net.current_tp) ((pat_sid buf off : Nat) : Int) =
        find_service_from (tp_at st.net st.net.current_tp).services
          ((pat_sid buf off : Nat) : Int) 0 := rfl
    cases hf : find_service (tp_at st.net st.net.current_tp) ((pat_sid buf off : Nat) : Int) with
    | some i =>
      have hf2 := hf
      unfold pat_sid at hf2
      rw [hf2, upsert_target_some _ _ _ hf]
      unfold upsert_service
      rw [← hfs, hf]
      simp only
      rw [tp_store_tp_at]
      unfold pat_pid svc_at
      by_cases hc : (service_at (tp_at st.net st.net.current_tp) i).priv.isNone = true ∧
          ((rd buf (off + 2) &&& 0x1f) <<< 8) ||| rd buf (off + 3) ≠ 0
      · rw [if_pos hc, if_pos hc, pat_update_pos _ _
          ((tp_at st.net st.net.current_tp).services.getD i calloc_service) hc]
        rfl
      · rw [if_neg hc, if_neg hc, pat_update_neg _ _
          ((tp_at st.net st.net.current_tp).services.getD i calloc_service) hc]
        rfl
    | none =>
      have hf2 := hf
      unfold pat_sid at hf2
      rw [hf2, upsert_target_none _ _ hf]
      unfold upsert_service
      rw [← hfs, hf]
      simp only
      rw [alloc_service_eq]
      unfold svc_store svc_at pat_pid pat_sid
      simp only
      rw [tp_at_tp_store _ _ _ hcur]
      unfold service_store service_at
      simp only
      rw [list_getD_length_append]
      by_cases hc : (new_service (((rd buf off <<< 8) ||| rd buf (off + 1) : Nat) : Int)).priv.isNone
          = true ∧ ((rd buf (off + 2) &&& 0x1f) <<< 8) ||| rd buf (off + 3) ≠ 0
      · rw [if_pos hc, if_pos hc, pat_update_pos _ _ _ hc, tp_store_tp_store,
          list_set_length_append]
      · rw [if_neg hc, if_neg hc, pat_update_neg _ _ _ hc, tp_store_tp_store,
          list_set_length_append]

/-! ### What the SDT descriptors leave alone -/

theorem sdt_descriptors_keeps (buf : List Nat) (fuel : Nat) :
    ∀ (off : Nat) (len : Int) (x : service),
      (sdt_descriptors buf fuel off len x).service_id = x.service_id ∧
      (sdt_descriptors buf fuel off len x).priv = x.priv ∧
      (sdt_descriptors buf fuel off len x).pmt_pid = x.pmt_pid ∧
      (sdt_descriptors buf fuel off len x).running = x.running ∧
      (sdt_descriptors buf fuel off len x).scrambled = x.scrambled := by
  induction fuel with
  | zero => intro off len x; exact ⟨rfl, rfl, rfl, rfl, rfl⟩
  | succ fuel ih =>
    intro off len x
    rw [sdt_descriptors]
    by_cases h1 : len > 0
    · rw [if_pos h1]
      simp only
      by_cases h2 : (rd buf (off + 1) + 2) % 256 = 0
      · rw [if_pos h2]
        exact ⟨rfl, rfl, rfl, rfl, rfl⟩
      · rw [if_neg h2]
        have h := ih (off + (rd buf (off + 1) + 2) % 256) (len - ((rd buf (off + 1) + 2) % 256 : Nat))
          (if rd buf off = 0x48 then parse_service_descriptor buf off x
            else if rd buf off = 0x53 then parse_ca_identifier_descriptor buf off x else x)
        have hx : ∀ y : service,
            y = (if rd buf off = 0x48 then parse_service_descriptor buf off x
              else if rd buf off = 0x53 then parse_ca_identifier_descriptor buf off x else x) →
            y.service_id = x.service_id ∧ y.priv = x.priv ∧ y.pmt_pid = x.pmt_pid ∧
              y.running = x.running ∧ y.scrambled = x.scrambled := by
          intro y hy
          by_cases t1 : rd buf off = 0x48
          · rw [if_pos t1] at hy
            rw [hy]
            exact ⟨rfl, rfl, rfl, rfl, rfl⟩
          · rw [if_neg t1] at hy
            by_cases t2 : rd buf off = 0x53
            · rw [if_pos t2] at hy
              rw [hy]
              exact ⟨rfl, rfl, rfl, rfl, rfl⟩
            · rw [if_neg t2] at hy
              rw [hy]
              exact ⟨rfl, rfl, rfl, rfl, rfl⟩
        have hx2 := hx _ rfl
        exact ⟨h.1.trans hx2.1, h.2.1.trans hx2.2.1, h.2.2.1.trans hx2.2.2.1,
          h.2.2.2.1.trans hx2.2.2.2.1, h.2.2.2.2.trans hx2.2.2.2.2⟩
    · rw [if_neg h1]
      exact ⟨rfl, rfl, rfl, rfl, rfl⟩

/-- An assignment that commutes with the two SDT descriptor parsers commutes
with the walk over an SDT descriptor loop. -/
theorem sdt_descriptors_comm (buf : List Nat) (g : service → service)
    (h48 : ∀ off x, parse_service_descriptor buf off (g x) =
      g (parse_service_descriptor buf off x))
    (h53 : ∀ off x, parse_ca_identifier_descriptor buf off (g x) =
      g (parse_ca_identifier_descriptor buf off x)) (fuel : Nat) :
    ∀ (off : Nat) (len : Int) (x : service),
      sdt_descriptors buf fuel off len (g x) = g (sdt_descriptors buf fuel off len x) := by
  induction fuel with
  | zero => intro off len x; rfl
  | succ fuel ih =>
    intro off len x
    rw [sdt_descriptors, sdt_descriptors]
    by_cases h1 : len > 0
    · rw [if_pos h1, if_pos h1]
      simp only
      by_cases h2 : (rd buf (off + 1) + 2) % 256 = 0
      · rw [if_pos h2, if_pos h2]
      · rw [if_neg h2, if_neg h2]
        by_cases t1 : rd buf off = 0x48
        · rw [if_pos t1, if_pos t1, h48, ih]
        · rw [if_neg t1, if_neg t1]
          by_cases t2 : rd buf off = 0x53
          · rw [if_pos t2, if_pos t2, h53, ih]
          · rw [if_neg t2, if_neg t2, ih]
    · rw [if_neg h1, if_neg h1]

theorem sdt_update_keeps (buf : List Nat) (off : Nat) (x : service) :
    (sdt_update buf off x).service_id = x.service_id ∧
    (sdt_update buf off x).priv = x.priv ∧
    (sdt_update buf off x).pmt_pid = x.pmt_pid ∧
    (sdt_update buf off x).running = sdt_running buf off ∧
    (sdt_update buf off x).scrambled = sdt_scrambled buf off := by
  unfold sdt_update
  have h := sdt_descriptors_keeps buf (sdt_dll buf off) (off + 5) (sdt_dll buf off)
    { x with running := sdt_running buf off, scrambled := sdt_scrambled buf off }
  exact ⟨h.1, h.2.1, h.2.2.1, h.2.2.2.1, h.2.2.2.2⟩

theorem pat_update_keeps (pid p : Nat) (x : service) :
    (pat_update pid p x).service_id = x.service_id ∧ (pat_update pid p x).pmt_pid = pid := by
  unfold pat_update
  simp only
  split
  · exact ⟨rfl, rfl⟩
  · exact ⟨rfl, rfl⟩

/-- The assignments of parse_pat and of parse_sdt to one service commute. -/
theorem pat_update_sdt_update (buf : List Nat) (off pid p : Nat) (x : service) :
    pat_update pid p (sdt_update buf off x) = sdt_update buf off (pat_update pid p x) := by
  have hk := sdt_update_keeps buf off x
  by_cases hc : x.priv.isNone = true ∧ pid ≠ 0
  · rw [pat_update_pos _ _ _ (by rw [hk.2.1]; exact hc), pat_update_pos _ _ _ hc]
    unfold sdt_update
    exact (sdt_descriptors_comm buf (fun y => { y with pmt_pid := pid, priv := some p })
      (fun _ _ => rfl) (fun _ _ => rfl) _ _ _ _).symm
  · rw [pat_update_neg _ _ _ (by rw [hk.2.1]; exact hc), pat_update_neg _ _ _ hc]
    unfold sdt_update
    exact (sdt_descriptors_comm buf (fun y => { y with pmt_pid := pid })
      (fun _ _ => rfl) (fun _ _ => rfl) _ _ _ _).symm

/-! ## The loops of parse_pat and parse_sdt as folds over their entries -/

theorem parse_pat_loop_foldl (cfg : config) (buf : List Nat) (fuel : Nat) :
    ∀ (off : Nat) (sl : Int) (st : scan_state),
      parse_pat_loop cfg buf fuel off sl st =
        (pat_offsets fuel off sl).foldl (fun st o => parse_pat_entry cfg buf o st) st := by
  induction fuel with
  | zero => intro off sl st; rfl
  | succ fuel ih =>
    intro off sl st
    rw [parse_pat_loop, pat_offsets]
    by_cases h : sl > 0
    · rw [if_pos h, if_pos h, ih]
      rfl
    · rw [if_neg h, if_neg h]
      rfl

theorem parse_sdt_loop_foldl (cfg : config) (buf : List Nat) (fuel : Nat) :
    ∀ (off : Nat) (sl : Int) (net : net_model),
      parse_sdt_loop cfg buf fuel off sl net =
        (sdt_offsets buf fuel off sl).foldl (fun net o => parse_sdt_entry cfg buf o net) net := by
  induction fuel with
  | zero => intro off sl net; rfl
  | succ fuel ih =>
    intro off sl net
    rw [parse_sdt_loop, sdt_offsets]
    by_cases h : sl > 4
    · rw [if_pos h, if_pos h]
      simp only
      by_cases h2 : sl < ((((rd buf (off + 3) &&& 0x0f) <<< 8) ||| rd buf (off + 4) : Nat) : Int) ∨
          (((rd buf (off + 3) &&& 0x0f) <<< 8) ||| rd buf (off + 4)) = 0
      · rw [if_pos h2, if_pos h2]
        rfl
      · rw [if_neg h2, if_neg h2, ih]
        rfl
    · rw [if_neg h, if_neg h]
      rfl

theorem sdt_foldl_on (cfg : config) (buf : List Nat) (offs : List Nat) :
    ∀ st : scan_state,
      ({ st with net := offs.foldl (fun net o => parse_sdt_entry cfg buf o net) st.net } :
        scan_state) = offs.foldl (fun st o => sdt_entry_on cfg buf o st) st := by
  induction offs with
  | nil => intro st; rfl
  | cons o offs ih =>
    intro st
    rw [List.foldl_cons, List.foldl_cons, ← ih]
    rfl

/-! ## The effect of one entry on the lookups -/

theorem current_service_tp_store (net : net_model) (tp : transponder) (j : Int)
    (hcur : net.current_tp < net.transponders.length) :
    current_service (tp_store net net.current_tp tp) j =
      tp.services.find? (fun s => decide (s.service_id = j)) := by
  unfold current_service
  rw [show (tp_store net net.current_tp tp).current_tp = net.current_tp from rfl,
    tp_at_tp_store _ _ _ hcur, lookup_service_eq_find]

theorem current_service_eq_find (net : net_model) (j : Int) :
    current_service net j =
      (tp_at net net.current_tp).services.find? (fun s => decide (s.service_id = j)) := by
  unfold current_service
  rw [lookup_service_eq_find]

theorem tp_store_valid (net : net_model) (p : Nat) (tp : transponder) :
    (tp_store net p tp).current_tp = net.current_tp ∧
    (tp_store net p tp).transponders.length = net.transponders.length ∧
    (tp_store net p tp).scanned_transponders = net.scanned_transponders ∧
    (tp_store net p tp).new_transponders = net.new_transponders := by
  unfold tp_store
  exact ⟨rfl, by simp, rfl, rfl⟩

theorem parse_pat_entry_valid (cfg : config) (buf : List Nat) (off : Nat) (st : scan_state)
    (hcur : st.net.current_tp < st.net.transponders.length) :
    (parse_pat_entry cfg buf off st).net.current_tp = st.net.current_tp ∧
    (parse_pat_entry cfg buf off st).net.transponders.length = st.net.transponders.length := by
  rw [parse_pat_entry_eq cfg buf off st hcur]
  by_cases h0 : pat_sid buf off = 0
  · rw [if_pos h0]
    exact ⟨rfl, rfl⟩
  · rw [if_neg h0]
    exact ⟨(tp_store_valid _ _ _).1, (tp_store_valid _ _ _).2.1⟩

theorem parse_sdt_entry_valid (cfg : config) (buf : List Nat) (off : Nat) (net : net_model)
    (hcur : net.current_tp < net.transponders.length) :
    (parse_sdt_entry cfg buf off net).current_tp = net.current_tp ∧
    (parse_sdt_entry cfg buf off net).transponders.length = net.transponders.length := by
  rw [parse_sdt_entry_eq cfg buf off net hcur]
  exact ⟨(tp_store_valid _ _ _).1, (tp_store_valid _ _ _).2.1⟩

/-- The lookups after one PAT entry. -/
theorem current_service_parse_pat_entry (cfg : config) (buf : List Nat) (off : Nat)
    (st : scan_state) (j : Int)
    (hcur : st.net.current_tp < st.net.transponders.length) :
    current_service (parse_pat_entry cfg buf off st).net j =
      if pat_sid buf off ≠ 0 ∧ j = ((pat_sid buf off : Nat) : Int) then
        some (pat_update (pat_pid buf off) st.flt.filters.length
          ((current_service st.net ((pat_sid buf off : Nat) : Int)).getD
            (new_service ((pat_sid buf off : Nat) : Int))))
      else current_service st.net j := by
  rw [parse_pat_entry_eq cfg buf off st hcur]
  by_cases h0 : pat_sid buf off = 0
  · rw [if_pos h0, if_neg (fun h => h.1 h0)]
  · rw [if_neg h0]
    simp only
    rw [current_service_tp_store _ _ _ hcur, find_upsert_service _ _ _ _
      (fun x => (pat_update_keeps _ _ x).1), current_service_eq_find, current_service_eq_find]
    by_cases hj : j = ((pat_sid buf off : Nat) : Int)
    · rw [if_pos hj, if_pos ⟨h0, hj⟩]
    · rw [if_neg hj, if_neg (fun h => hj h.2)]

/-- The filters after one PAT entry. -/
theorem flt_parse_pat_entry (cfg : config) (buf : List Nat) (off : Nat) (st : scan_state)
    (hcur : st.net.current_tp < st.net.transponders.length) :
    (parse_pat_entry cfg buf off st).flt =
      if pat_sid buf off ≠ 0 ∧
          ((current_service st.net ((pat_sid buf off : Nat) : Int)).getD
            (new_service ((pat_sid buf off : Nat) : Int))).priv.isNone = true ∧
          pat_pid buf off ≠ 0 then
        add_filter
          { st.flt with
            filters := st.flt.filters ++ [[setup_filter cfg (pat_pid buf off) 0x02 true false 5]] }
          st.flt.filters.length
      else st.flt := by
  rw [parse_pat_entry_eq cfg buf off st hcur]
  by_cases h0 : pat_sid buf off = 0
  · rw [if_pos h0, if_neg (fun h => h.1 h0)]
  · rw [if_neg h0]
    simp only
    by_cases hc : (upsert_target (tp_at st.net st.net.current_tp)
        ((pat_sid buf off : Nat) : Int)).priv.isNone = true ∧ pat_pid buf off ≠ 0
    · rw [if_pos hc, if_pos ⟨h0, hc⟩]
    · rw [if_neg hc, if_neg (fun h => hc h.2)]

/-- The lookups after one SDT service entry. -/
theorem current_service_parse_sdt_entry (cfg : config) (buf : List Nat) (off : Nat)
    (net : net_model) (j : Int) (hcur : net.current_tp < net.transponders.length) :
    current_service (parse_sdt_entry cfg buf off net) j =
      if j = ((sdt_sid buf off : Nat) : Int) then
        some (sdt_update buf off
          ((current_service net ((sdt_sid buf off : Nat) : Int)).getD
            (new_service ((sdt_sid buf off : Nat) : Int))))
      else current_service net j := by
  rw [parse_sdt_entry_eq cfg buf off net hcur]
  rw [current_service_tp_store _ _ _ hcur, find_upsert_service _ _ _ _
    (fun x => (sdt_update_keeps _ _ x).1), current_service_eq_find, current_service_eq_find]

/-! ## C13: the services after parse_pat -/

theorem pat_last_pid_append (buf : List Nat) (L : List Nat) (o : Nat) (sid : Int) :
    pat_last_pid buf (L ++ [o]) sid =
      if ((pat_sid buf o : Nat) : Int) = sid then some (pat_pid buf o)
      else pat_last_pid buf L sid := by
  unfold pat_last_pid
  rw [List.foldl_append]
  rfl

theorem pat_foldl_valid (cfg : config) (buf : List Nat) (L : List Nat) :
    ∀ st : scan_state, st.net.current_tp < st.net.transponders.length →
      (L.foldl (fun st o => parse_pat_entry cfg buf o st) st).net.current_tp =
        st.net.current_tp ∧
      (L.foldl (fun st o => parse_pat_entry cfg buf o st) st).net.transponders.length =
        st.net.transponders.length := by
  induction L with
  | nil => intro st _; exact ⟨rfl, rfl⟩
  | cons o L ih =>
    intro st hcur
    have h1 := parse_pat_entry_valid cfg buf o st hcur
    have h2 := ih (parse_pat_entry cfg buf o st) (by rw [h1.1, h1.2]; exact hcur)
    rw [List.foldl_cons]
    exact ⟨h2.1.trans h1.1, h2.2.trans h1.2⟩

/-- The lookups after the PAT entries at the offsets `L`: a non-zero id with an
entry has a service with the pmt_pid of its last entry, every other id has the
service it had. -/
theorem pat_foldl_services (cfg : config) (buf : List Nat) (L : List Nat) (st : scan_state)
    (hcur : st.net.current_tp < st.net.transponders.length) (sid : Int) :
    (sid ≠ 0 → ∀ pid, pat_last_pid buf L sid = some pid →
      ∃ s, current_service (L.foldl (fun st o => parse_pat_entry cfg buf o st) st).net sid =
        some s ∧ s.pmt_pid = pid) ∧
    ((sid = 0 ∨ pat_last_pid buf L sid = none) →
      current_service (L.foldl (fun st o => parse_pat_entry cfg buf o st) st).net sid =
        current_service st.net sid) := by
  induction L using List.reverseRecOn with
  | nil =>
    constructor
    · intro _ pid h
      exact absurd h (by simp [pat_last_pid])
    · intro _
      rfl
  | append_singleton L o ih =>
    have hv := pat_foldl_valid cfg buf L st hcur
    have hcur2 : (L.foldl (fun st o => parse_pat_entry cfg buf o st) st).net.current_tp <
        (L.foldl (fun st o => parse_pat_entry cfg buf o st) st).net.transponders.length := by
      rw [hv.1, hv.2]; exact hcur
    rw [List.foldl_append, List.foldl_cons, List.foldl_nil,
      current_service_parse_pat_entry cfg buf o _ sid hcur2, pat_last_pid_append]
    by_cases ho : ((pat_sid buf o : Nat) : Int) = sid
    · rw [if_pos ho]
      constructor
      · intro hsid pid hp
        have hne : pat_sid buf o ≠ 0 := by
          intro h0
          rw [h0] at ho
          exact hsid ho.symm
        rw [if_pos ⟨hne, ho.symm⟩]
        refine ⟨_, rfl, ?_⟩
        rw [(pat_update_keeps _ _ _).2]
        exact Option.some.inj hp
      · intro h
        cases h with
        | inl h0 =>
          rw [if_neg (fun h => h.1 (by
            have := ho.trans h0
            exact_mod_cast this))]
          exact ih.2 (Or.inl h0)
        | inr hn => exact absurd hn (by simp)
    · rw [if_neg ho, if_neg (fun h => ho h.2.symm)]
      exact ih

theorem services_parse_pat_entry (cfg : config) (buf : List Nat) (off : Nat) (st : scan_state)
    (hcur : st.net.current_tp < st.net.transponders.length) :
    (tp_at (parse_pat_entry cfg buf off st).net st.net.current_tp).services =
      if pat_sid buf off = 0 then (tp_at st.net st.net.current_tp).services
      else upsert_service (tp_at st.net st.net.current_tp).services
        ((pat_sid buf off : Nat) : Int) (pat_update (pat_pid buf off) st.flt.filters.length) := by
  rw [parse_pat_entry_eq cfg buf off st hcur]
  by_cases h0 : pat_sid buf off = 0
  · rw [if_pos h0, if_pos h0]
  · rw [if_neg h0, if_neg h0]
    simp only
    rw [tp_at_tp_store _ _ _ hcur]

theorem pat_foldl_nodup (cfg : config) (buf : List Nat) (L : List Nat) :
    ∀ st : scan_state, st.net.current_tp < st.net.transponders.length →
      ((tp_at st.net st.net.current_tp).services.map (fun s => s.service_id)).Nodup →
      ((tp_at (L.foldl (fun st o => parse_pat_entry cfg buf o st) st).net
        st.net.current_tp).services.map (fun s => s.service_id)).Nodup := by
  induction L with
  | nil => intro st _ h; exact h
  | cons o L ih =>
    intro st hcur h
    have h1 := parse_pat_entry_valid cfg buf o st hcur
    rw [List.foldl_cons, ← h1.1]
    apply ih _ (by rw [h1.1, h1.2]; exact hcur)
    rw [h1.1, services_parse_pat_entry cfg buf o st hcur]
    by_cases h0 : pat_sid buf o = 0
    · rw [if_pos h0]; exact h
    · rw [if_neg h0]
      exact nodup_upsert_service _ _ _ (fun x => (pat_update_keeps _ _ x).1) h

theorem lookup_service_some (tp : transponder) (sid : Int) (s : service)
    (h : lookup_service tp sid = some s) :
    s.service_id = sid ∧ s ∈ tp.services := by
  rw [lookup_service_eq_find] at h
  have h1 := List.find?_some h
  exact ⟨by simpa using h1, List.mem_of_find?_eq_some h⟩

/-- C13: after parse_pat, for every non-zero service_id with an entry in the
payload the current transponder holds exactly one service with that id, and
its pmt_pid is the 13-bit value of the last entry for the id; for the id 0 and
for every id without an entry the lookup gives what it gave before, so the
entries with service_id 0 create no service and the other services are
unchanged; and the ids of the list stay distinct.  The current transponder is a
valid pointer and its service ids are distinct, as in every reachable state. -/
theorem parse_pat_services (cfg : config) (buf : List Nat) (off : Nat) (section_length : Int)
    (transport_stream_id : Int) (st : scan_state)
    (hcur : st.net.current_tp < st.net.transponders.length)
    (huniq : ((tp_at st.net st.net.current_tp).services.map (fun s => s.service_id)).Nodup) :
    (∀ (sid : Int) (pid : Nat), sid ≠ 0 →
      pat_last_pid buf (pat_offsets section_length.toNat off section_length) sid = some pid →
      (∃ s, lookup_service (tp_at (parse_pat cfg buf off section_length transport_stream_id
          st).net st.net.current_tp) sid = some s ∧ s.pmt_pid = pid) ∧
      ((tp_at (parse_pat cfg buf off section_length transport_stream_id st).net
        st.net.current_tp).services.map (fun s => s.service_id)).count sid = 1) ∧
    (∀ sid : Int,
      sid = 0 ∨ pat_last_pid buf (pat_offsets section_length.toNat off section_length) sid = none →
      lookup_service (tp_at (parse_pat cfg buf off section_length transport_stream_id st).net
          st.net.current_tp) sid =
        lookup_service (tp_at st.net st.net.current_tp) sid) ∧
    ((tp_at (parse_pat cfg buf off section_length transport_stream_id st).net
      st.net.current_tp).services.map (fun s => s.service_id)).Nodup ∧
    (parse_pat cfg buf off section_length transport_stream_id st).net.current_tp =
      st.net.current_tp := by
  unfold parse_pat
  rw [parse_pat_loop_foldl]
  have hv := pat_foldl_valid cfg buf (pat_offsets section_length.toNat off section_length) st hcur
  have hn := pat_foldl_nodup cfg buf (pat_offsets section_length.toNat off section_length) st
    hcur huniq
  have hs := pat_foldl_services cfg buf (pat_offsets section_length.toNat off section_length) st
    hcur
  unfold current_service at hs
  rw [hv.1] at hs
  refine ⟨?_, fun sid h => (hs sid).2 h, hn, hv.1⟩
  intro sid pid hsid hp
  obtain ⟨s, h1, h2⟩ := (hs sid).1 hsid pid hp
  refine ⟨⟨s, h1, h2⟩, ?_⟩
  have hm := lookup_service_some _ _ _ h1
  apply List.count_eq_one_of_mem hn
  rw [List.mem_map]
  exact ⟨s, hm.2, hm.1⟩

/-! ## C15: service ids stay unique within a transponder -/

theorem tp_store_invalid (net : net_model) (p : Nat) (tp : transponder)
    (h : ¬ p < net.transponders.length) : tp_store net p tp = net := by
  unfold tp_store
  rw [List.set_eq_of_length_le (by omega)]

theorem tp_at_unique (net : net_model) (p : Nat) (h : unique_service_ids net) :
    ((tp_at net p).services.map (fun s => s.service_id)).Nodup := by
  by_cases hp : p < net.transponders.length
  · apply h
    unfold tp_at
    rw [List.getD_eq_getElem?_getD, List.getElem?_eq_getElem hp]
    exact List.getElem_mem hp
  · rw [tp_at_default _ _ hp]
    exact List.nodup_nil

theorem tp_store_unique (net : net_model) (p : Nat) (tp : transponder)
    (h : unique_service_ids net) (htp : (tp.services.map (fun s => s.service_id)).Nodup) :
    unique_service_ids (tp_store net p tp) := by
  intro t ht
  unfold tp_store at ht
  cases List.mem_or_eq_of_mem_set ht with
  | inl h1 => exact h t h1
  | inr h1 => rw [h1]; exact htp

theorem ids_set_same (S : List service) (i : Nat) (x : service)
    (hx : x.service_id = (S.getD i calloc_service).service_id) :
    (S.set i x).map (fun s => s.service_id) = S.map (fun s => s.service_id) := by
  induction S generalizing i with
  | nil => rfl
  | cons s S ih =>
    cases i with
    | zero =>
      rw [List.set_cons_zero, List.map_cons, List.map_cons, hx]
      rfl
    | succ i =>
      rw [List.set_cons_succ, List.map_cons, List.map_cons, ih i (by simpa using hx)]

theorem svc_store_unique (net : net_model) (p s : Nat) (sv : service)
    (h : unique_service_ids net) (hsv : sv.service_id = (svc_at net p s).service_id) :
    unique_service_ids (svc_store net p s sv) := by
  unfold svc_store
  apply tp_store_unique _ _ _ h
  unfold service_store
  simp only
  rw [ids_set_same _ _ _ hsv]
  exact tp_at_unique net p h

theorem parse_pat_entry_invalid (cfg : config) (buf : List Nat) (off : Nat) (st : scan_state)
    (hcur : ¬ st.net.current_tp < st.net.transponders.length) :
    (parse_pat_entry cfg buf off st).net = st.net := by
  unfold parse_pat_entry
  simp only
  split
  · rfl
  · split
    · simp only
      unfold svc_store
      rw [tp_store_invalid _ _ _ hcur, tp_store_invalid _ _ _ hcur]
    · simp only
      unfold svc_store
      rw [tp_store_invalid _ _ _ hcur, tp_store_invalid _ _ _ hcur]

theorem parse_sdt_entry_invalid (cfg : config) (buf : List Nat) (off : Nat) (net : net_model)
    (hcur : ¬ net.current_tp < net.transponders.length) :
    parse_sdt_entry cfg buf off net = net := by
  unfold parse_sdt_entry
  simp only [parse_descriptors_sdt]
  unfold svc_store
  rw [tp_store_invalid _ _ _ hcur, tp_store_invalid _ _ _ hcur]

theorem parse_pat_entry_unique (cfg : config) (buf : List Nat) (off : Nat) (st : scan_state)
    (h : unique_service_ids st.net) : unique_service_ids (parse_pat_entry cfg buf off st).net := by
  by_cases hcur : st.net.current_tp < st.net.transponders.length
  · rw [parse_pat_entry_eq cfg buf off st hcur]
    by_cases h0 : pat_sid buf off = 0
    · rw [if_pos h0]; exact h
    · rw [if_neg h0]
      exact tp_store_unique _ _ _ h
        (nodup_upsert_service _ _ _ (fun x => (pat_update_keeps _ _ x).1) (tp_at_unique _ _ h))
  · rw [parse_pat_entry_invalid cfg buf off st hcur]
    exact h

theorem parse_sdt_entry_unique (cfg : config) (buf : List Nat) (off : Nat) (net : net_model)
    (h : unique_service_ids net) : unique_service_ids (parse_sdt_entry cfg buf off net) := by
  by_cases hcur : net.current_tp < net.transponders.length
  · rw [parse_sdt_entry_eq cfg buf off net hcur]
    exact tp_store_unique _ _ _ h
      (nodup_upsert_service _ _ _ (fun x => (sdt_update_keeps _ _ x).1) (tp_at_unique _ _ h))
  · rw [parse_sdt_entry_invalid cfg buf off net hcur]
    exact h

theorem pmt_descriptors_id (buf : List Nat) (fuel : Nat) :
    ∀ (off : Nat) (len : Int) (x : service),
      (pmt_descriptors buf fuel off len x).service_id = x.service_id := by
  induction fuel with
  | zero => intro off len x; rfl
  | succ fuel ih =>
    intro off len x
    rw [pmt_descriptors]
    by_cases h1 : len > 0
    · rw [if_pos h1]
      simp only
      by_cases h2 : (rd buf (off + 1) + 2) % 256 = 0
      · rw [if_pos h2]
      · rw [if_neg h2, ih]
        by_cases t1 : rd buf off = 0x0a
        · rw [if_pos t1]
          unfold parse_iso639_language_descriptor
          simp only
          split
          · rfl
          · rfl
        · rw [if_neg t1]
    · rw [if_neg h1]

theorem pmt_stream_service_id (buf : List Nat) (off : Nat) (x : service) :
    (pmt_stream_service buf off x).service_id = x.service_id := by
  unfold pmt_stream_service
  simp only
  by_cases c1 : rd buf off = 0x01 ∨ rd buf off = 0x02
  · rw [if_pos c1]
    split
    · rfl
    · rfl
  · rw [if_neg c1]
    by_cases c2 : rd buf off = 0x03 ∨ rd buf off = 0x04
    · rw [if_pos c2]
      split
      · exact pmt_descriptors_id buf _ _ _ _
      · rfl
    · rw [if_neg c2]
      by_cases c3 : rd buf off = 0x06
      · rw [if_pos c3]
        split
        · rfl
        · split
          · rfl
          · split
            · rfl
            · rfl
      · rw [if_neg c3]

theorem pmt_loop_service_id (buf : List Nat) (fuel : Nat) :
    ∀ (off : Nat) (sl : Int) (x : service),
      (pmt_loop_service buf fuel off sl x).service_id = x.service_id := by
  induction fuel with
  | zero => intro off sl x; rfl
  | succ fuel ih =>
    intro off sl x
    rw [pmt_loop_service]
    by_cases h1 : sl > 0
    · rw [if_pos h1]
      simp only
      rw [ih, pmt_stream_service_id]
    · rw [if_neg h1]

theorem pmt_service_id (buf : List Nat) (off : Nat) (sl : Int) (x : service) :
    (pmt_service buf off sl x).service_id = x.service_id := by
  unfold pmt_service
  simp only
  split
  · exact pmt_loop_service_id buf _ _ _ _
  · exact pmt_loop_service_id buf _ _ _ _

theorem foldl_invariant {α β : Type} (P : α → Prop) (f : α → β → α)
    (hf : ∀ a b, P a → P (f a b)) (L : List β) : ∀ a, P a → P (L.foldl f a) := by
  induction L with
  | nil => intro a h; exact h
  | cons b L ih => intro a h; exact ih _ (hf a b h)

/-- C15: if no two services of a transponder share a service_id, in every
transponder, then the same holds after parse_pat, after parse_sdt and after
parse_pmt, whatever the section: a service is allocated only after find_service
returned NULL for its id in the same transponder, and no assignment changes a
service_id. -/
theorem service_ids_stay_unique (cfg : config) (st : scan_state) (buf : List Nat) (off : Nat)
    (section_length : Int) (id : Int) (h : unique_service_ids st.net) :
    unique_service_ids (parse_pat cfg buf off section_length id st).net ∧
    unique_service_ids (parse_sdt cfg buf off section_length id st.net) ∧
    unique_service_ids (parse_pmt cfg buf off section_length id st.net) := by
  refine ⟨?_, ?_, ?_⟩
  · unfold parse_pat
    rw [parse_pat_loop_foldl]
    exact foldl_invariant (fun st : scan_state => unique_service_ids st.net) _
      (fun a b ha => parse_pat_entry_unique cfg buf b a ha) _ st h
  · unfold parse_sdt
    rw [parse_sdt_loop_foldl]
    exact foldl_invariant unique_service_ids _
      (fun a b ha => parse_sdt_entry_unique cfg buf b a ha) _ st.net h
  · rw [parse_pmt_eq]
    cases find_service (tp_at st.net st.net.current_tp) id with
    | none => exact h
    | some s => exact svc_store_unique _ _ _ _ h (pmt_service_id _ _ _ _)

/-! ## C17: the services after parse_sdt -/

theorem sdt_last_offset_append (buf : List Nat) (L : List Nat) (o : Nat) (sid : Int) :
    sdt_last_offset buf (L ++ [o]) sid =
      if ((sdt_sid buf o : Nat) : Int) = sid then some o else sdt_last_offset buf L sid := by
  unfold sdt_last_offset
  rw [List.foldl_append]
  rfl

theorem sdt_last_offset_of_mem (buf : List Nat) (L : List Nat) (o : Nat) (h : o ∈ L) :
    ∃ o2, sdt_last_offset buf L ((sdt_sid buf o : Nat) : Int) = some o2 := by
  induction L using List.reverseRecOn with
  | nil => exact absurd h (List.not_mem_nil o)
  | append_singleton L a ih =>
    rw [sdt_last_offset_append]
    by_cases ha : ((sdt_sid buf a : Nat) : Int) = ((sdt_sid buf o : Nat) : Int)
    · rw [if_pos ha]
      exact ⟨a, rfl⟩
    · rw [if_neg ha]
      rw [List.mem_append, List.mem_singleton] at h
      cases h with
      | inl h1 => exact ih h1
      | inr h1 => rw [h1] at ha; exact absurd rfl ha

theorem sdt_foldl_valid (cfg : config) (buf : List Nat) (L : List Nat) :
    ∀ net : net_model, net.current_tp < net.transponders.length →
      (L.foldl (fun net o => parse_sdt_entry cfg buf o net) net).current_tp = net.current_tp ∧
      (L.foldl (fun net o => parse_sdt_entry cfg buf o net) net).transponders.length =
        net.transponders.length := by
  induction L with
  | nil => intro net _; exact ⟨rfl, rfl⟩
  | cons o L ih =>
    intro net hcur
    have h1 := parse_sdt_entry_valid cfg buf o net hcur
    have h2 := ih (parse_sdt_entry cfg buf o net) (by rw [h1.1, h1.2]; exact hcur)
    rw [List.foldl_cons]
    exact ⟨h2.1.trans h1.1, h2.2.trans h1.2⟩

/-- The lookups after the SDT entries at the offsets `L`: an id with an entry
has a service with the running status and the scrambled flag of its last entry,
every other id has the service it had. -/
theorem sdt_foldl_services (cfg : config) (buf : List Nat) (L : List Nat) (net : net_model)
    (hcur : net.current_tp < net.transponders.length) (sid : Int) :
    (∀ o, sdt_last_offset buf L sid = some o →
      ∃ s, current_service (L.foldl (fun net o => parse_sdt_entry cfg buf o net) net) sid =
        some s ∧ s.running = sdt_running buf o ∧ s.scrambled = sdt_scrambled buf o) ∧
    (sdt_last_offset buf L sid = none →
      current_service (L.foldl (fun net o => parse_sdt_entry cfg buf o net) net) sid =
        current_service net sid) := by
  induction L using List.reverseRecOn with
  | nil =>
    constructor
    · intro o h
      exact absurd h (by simp [sdt_last_offset])
    · intro _
      rfl
  | append_singleton L a ih =>
    have hv := sdt_foldl_valid cfg buf L net hcur
    have hcur2 : (L.foldl (fun net o => parse_sdt_entry cfg buf o net) net).current_tp <
        (L.foldl (fun net o => parse_sdt_entry cfg buf o net) net).transponders.length := by
      rw [hv.1, hv.2]; exact hcur
    rw [List.foldl_append, List.foldl_cons, List.foldl_nil,
      current_service_parse_sdt_entry cfg buf a _ sid hcur2, sdt_last_offset_append]
    by_cases ha : ((sdt_sid buf a : Nat) : Int) = sid
    · rw [if_pos ha, if_pos ha.symm]
      constructor
      · intro o ho
        have e : a = o := Option.some.inj ho
        rw [← e]
        exact ⟨_, rfl, (sdt_update_keeps _ _ _).2.2.2.1, (sdt_update_keeps _ _ _).2.2.2.2⟩
      · intro hn
        exact absurd hn (by simp)
    · rw [if_neg ha, if_neg (fun h => ha h.symm)]
      exact ih

/-- The amended C17: parse_sdt visits the service entries of the section up to
the first one whose descriptor loop is empty or longer than the remaining
section_length.  Afterwards every visited entry has a service with its
service_id in the current transponder; a service_id with visited entries has
the running status and the free_CA_mode bit of the last of them; and a
service_id without a visited entry has the service it had, or none. -/
theorem parse_sdt_services (cfg : config) (buf : List Nat) (off : Nat) (section_length : Int)
    (transport_stream_id : Int) (net : net_model)
    (hcur : net.current_tp < net.transponders.length) :
    (∀ o ∈ sdt_offsets buf section_length.toNat (off + 3) section_length,
      ∃ s, lookup_service (tp_at (parse_sdt cfg buf off section_length transport_stream_id net)
        net.current_tp) ((sdt_sid buf o : Nat) : Int) = some s) ∧
    (∀ (sid : Int) (o : Nat),
      sdt_last_offset buf (sdt_offsets buf section_length.toNat (off + 3) section_length) sid =
        some o →
      ∃ s, lookup_service (tp_at (parse_sdt cfg buf off section_length transport_stream_id net)
          net.current_tp) sid = some s ∧
        s.running = sdt_running buf o ∧ s.scrambled = sdt_scrambled buf o) ∧
    (∀ sid : Int,
      sdt_last_offset buf (sdt_offsets buf section_length.toNat (off + 3) section_length) sid =
        none →
      lookup_service (tp_at (parse_sdt cfg buf off section_length transport_stream_id net)
          net.current_tp) sid = lookup_service (tp_at net net.current_tp) sid) := by
  unfold parse_sdt
  rw [parse_sdt_loop_foldl]
  have hv := sdt_foldl_valid cfg buf
    (sdt_offsets buf section_length.toNat (off + 3) section_length) net hcur
  have hs := sdt_foldl_services cfg buf
    (sdt_offsets buf section_length.toNat (off + 3) section_length) net hcur
  unfold current_service at hs
  rw [hv.1] at hs
  refine ⟨?_, fun sid o h => (hs sid).1 o h, fun sid h => (hs sid).2 h⟩
  intro o ho
  obtain ⟨o2, h2⟩ := sdt_last_offset_of_mem buf _ o ho
  obtain ⟨s, h3, _⟩ := (hs _).1 o2 h2
  exact ⟨s, h3⟩

/-! ## C16: parse_pat and parse_sdt commute -/

theorem foldl_rel {σ α : Type} (V : σ → Prop) (R : σ → σ → Prop) (f : σ → α → σ)
    (hV : ∀ s a, V s → V (f s a))
    (hf : ∀ s t a, V s → V t → R s t → R (f s a) (f t a)) (A : List α) :
    ∀ s t, V s → V t → R s t → R (A.foldl f s) (A.foldl f t) := by
  induction A with
  | nil => intro s t _ _ h; exact h
  | cons a A ih =>
    intro s t hs ht h
    exact ih _ _ (hV s a hs) (hV t a ht) (hf s t a hs ht h)

/-- Two folds commute up to a relation when their steps do. -/
theorem foldl_comm {σ α β : Type} (V : σ → Prop) (R : σ → σ → Prop) (f : σ → α → σ)
    (g : σ → β → σ) (hrefl : ∀ s, R s s) (htrans : ∀ a b c, R a b → R b c → R a c)
    (hVf : ∀ s a, V s → V (f s a)) (hVg : ∀ s b, V s → V (g s b))
    (hf : ∀ s t a, V s → V t → R s t → R (f s a) (f t a))
    (hg : ∀ s t b, V s → V t → R s t → R (g s b) (g t b))
    (hfg : ∀ s a b, V s → R (f (g s b) a) (g (f s a) b)) (A : List α) (B : List β) :
    ∀ s, V s → R (A.foldl f (B.foldl g s)) (B.foldl g (A.foldl f s)) := by
  have one : ∀ (a : α) (B : List β) (s : σ), V s → R (f (B.foldl g s) a) (B.foldl g (f s a)) := by
    intro a B
    induction B with
    | nil => intro s _; exact hrefl _
    | cons b B ih =>
      intro s hs
      rw [List.foldl_cons, List.foldl_cons]
      exact htrans _ _ _ (ih (g s b) (hVg s b hs))
        (foldl_rel V R g hVg hg B _ _ (hVf _ a (hVg s b hs)) (hVg _ b (hVf s a hs))
          (hfg s a b hs))
  induction A with
  | nil => intro s _; exact hrefl _
  | cons a A ih =>
    intro s hs
    rw [List.foldl_cons, List.foldl_cons]
    exact htrans _ _ _
      (foldl_rel V R f hVf hf A _ _
        (hVf _ a (foldl_invariant V g (fun x b hx => hVg x b hx) B s hs))
        (foldl_invariant V g (fun x b hx => hVg x b hx) B _ (hVf s a hs))
        (one a B s hs))
      (ih (f s a) (hVf s a hs))

theorem same_services_refl (a : scan_state) : same_services a a := ⟨rfl, fun _ => rfl⟩

theorem same_services_trans (a b c : scan_state) (h1 : same_services a b)
    (h2 : same_services b c) : same_services a c :=
  ⟨h1.1.trans h2.1, fun j => (h1.2 j).trans (h2.2 j)⟩

theorem parse_pat_entry_same (cfg : config) (buf : List Nat) (off : Nat) (a b : scan_state)
    (ha : a.net.current_tp < a.net.transponders.length)
    (hb : b.net.current_tp < b.net.transponders.length) (h : same_services a b) :
    same_services (parse_pat_entry cfg buf off a) (parse_pat_entry cfg buf off b) := by
  constructor
  · rw [flt_parse_pat_entry cfg buf off a ha, flt_parse_pat_entry cfg buf off b hb, h.1, h.2]
  · intro j
    rw [current_service_parse_pat_entry cfg buf off a j ha,
      current_service_parse_pat_entry cfg buf off b j hb, h.1, h.2, h.2]

theorem sdt_entry_on_same (cfg : config) (buf : List Nat) (off : Nat) (a b : scan_state)
    (ha : a.net.current_tp < a.net.transponders.length)
    (hb : b.net.current_tp < b.net.transponders.length) (h : same_services a b) :
    same_services (sdt_entry_on cfg buf off a) (sdt_entry_on cfg buf off b) := by
  constructor
  · exact h.1
  · intro j
    unfold sdt_entry_on
    simp only
    rw [current_service_parse_sdt_entry cfg buf off a.net j ha,
      current_service_parse_sdt_entry cfg buf off b.net j hb, h.2, h.2]

theorem valid_parse_pat_entry (cfg : config) (buf : List Nat) (off : Nat) (st : scan_state)
    (h : st.net.current_tp < st.net.transponders.length) :
    (parse_pat_entry cfg buf off st).net.current_tp <
      (parse_pat_entry cfg buf off st).net.transponders.length := by
  have h1 := parse_pat_entry_valid cfg buf off st h
  rw [h1.1, h1.2]
  exact h

theorem valid_sdt_entry_on (cfg : config) (buf : List Nat) (off : Nat) (st : scan_state)
    (h : st.net.current_tp < st.net.transponders.length) :
    (sdt_entry_on cfg buf off st).net.current_tp <
      (sdt_entry_on cfg buf off st).net.transponders.length := by
  have h1 := parse_sdt_entry_valid cfg buf off st.net h
  unfold sdt_entry_on
  simp only
  rw [h1.1, h1.2]
  exact h

/-- One PAT entry and one SDT service entry commute. -/
theorem pat_entry_sdt_entry (cfg : config) (bufP bufS : List Nat) (oP oS : Nat)
    (st : scan_state) (h : st.net.current_tp < st.net.transponders.length) :
    same_services (parse_pat_entry cfg bufP oP (sdt_entry_on cfg bufS oS st))
      (sdt_entry_on cfg bufS oS (parse_pat_entry cfg bufP oP st)) := by
  have hD := valid_sdt_entry_on cfg bufS oS st h
  have hP := valid_parse_pat_entry cfg bufP oP st h
  have eD : ∀ j, current_service (sdt_entry_on cfg bufS oS st).net j =
      if j = ((sdt_sid bufS oS : Nat) : Int) then
        some (sdt_update bufS oS ((current_service st.net ((sdt_sid bufS oS : Nat) : Int)).getD
          (new_service ((sdt_sid bufS oS : Nat) : Int))))
      else current_service st.net j :=
    fun j => current_service_parse_sdt_entry cfg bufS oS st.net j h
  have eDP : ∀ j, current_service (sdt_entry_on cfg bufS oS (parse_pat_entry cfg bufP oP st)).net j =
      if j = ((sdt_sid bufS oS : Nat) : Int) then
        some (sdt_update bufS oS
          ((current_service (parse_pat_entry cfg bufP oP st).net
            ((sdt_sid bufS oS : Nat) : Int)).getD (new_service ((sdt_sid bufS oS : Nat) : Int))))
      else current_service (parse_pat_entry cfg bufP oP st).net j :=
    fun j => current_service_parse_sdt_entry cfg bufS oS _ j hP
  have fD : (sdt_entry_on cfg bufS oS st).flt = st.flt := rfl
  have fDP : (sdt_entry_on cfg bufS oS (parse_pat_entry cfg bufP oP st)).flt =
      (parse_pat_entry cfg bufP oP st).flt := rfl
  -- the target of the PAT entry has the same `priv` with or without the SDT entry
  have hpriv : ((current_service (sdt_entry_on cfg bufS oS st).net
        ((pat_sid bufP oP : Nat) : Int)).getD (new_service ((pat_sid bufP oP : Nat) : Int))).priv =
      ((current_service st.net ((pat_sid bufP oP : Nat) : Int)).getD
        (new_service ((pat_sid bufP oP : Nat) : Int))).priv := by
    rw [eD]
    by_cases e : ((pat_sid bufP oP : Nat) : Int) = ((sdt_sid bufS oS : Nat) : Int)
    · rw [if_pos e, ← e]
      exact (sdt_update_keeps _ _ _).2.1
    · rw [if_neg e]
  constructor
  · rw [flt_parse_pat_entry cfg bufP oP _ hD, fDP, flt_parse_pat_entry cfg bufP oP st h, hpriv, fD]
  · intro j
    rw [current_service_parse_pat_entry cfg bufP oP _ j hD, eDP,
      current_service_parse_pat_entry cfg bufP oP st j h,
      current_service_parse_pat_entry cfg bufP oP st _ h, fD, eD, eD]
    generalize current_service st.net = cs
    generalize ((pat_sid bufP oP : Nat) : Int) = kP at *
    generalize ((sdt_sid bufS oS : Nat) : Int) = kD at *
    generalize st.flt.filters.length = n
    by_cases e : kP = kD
    · subst e
      by_cases hj : j = kP
      · subst hj
        by_cases h0 : pat_sid bufP oP = 0
        · simp only [h0, ne_eq, not_true_eq_false, false_and, if_false, if_true]
        · simp only [h0, ne_eq, not_false_eq_true, true_and, if_true, Option.getD_some]
          rw [pat_update_sdt_update]
      · simp only [hj, and_false, if_false]
    · by_cases hj : j = kP
      · subst hj
        by_cases h0 : pat_sid bufP oP = 0
        · simp only [h0, ne_eq, not_true_eq_false, false_and, if_false, e]
        · simp only [h0, ne_eq, not_false_eq_true, true_and, if_true, e, if_false]
      · by_cases hjD : j = kD
        · subst hjD
          simp only [hj, and_false, if_false, if_true, Ne.symm e]
        · simp only [hj, hjD, and_false, if_false]

theorem find_id_of_mem (S : List service) (s : service) (hs : s ∈ S)
    (hn : (S.map (fun s => s.service_id)).Nodup) :
    S.find? (fun x => decide (x.service_id = s.service_id)) = some s := by
  induction S with
  | nil => exact absurd hs (List.not_mem_nil s)
  | cons a S ih =>
    rw [List.map_cons, List.nodup_cons] at hn
    rw [List.mem_cons] at hs
    cases hs with
    | inl h => rw [h]; exact find_id_cons_pos _ _ _ rfl
    | inr h =>
      have hne : a.service_id ≠ s.service_id := by
        intro e
        apply hn.1
        rw [e, List.mem_map]
        exact ⟨s, h, rfl⟩
      rw [find_id_cons_neg _ _ _ hne]
      exact ih h hn.2

/-- Two service lists with distinct ids and the same service for every id hold
the same services. -/
theorem perm_of_find_eq (S T : List service)
    (hS : (S.map (fun s => s.service_id)).Nodup) (hT : (T.map (fun s => s.service_id)).Nodup)
    (h : ∀ j : Int, S.find? (fun x => decide (x.service_id = j)) =
      T.find? (fun x => decide (x.service_id = j))) : S.Perm T := by
  rw [List.perm_ext_iff_of_nodup (List.Nodup.of_map _ hS) (List.Nodup.of_map _ hT)]
  intro s
  constructor
  · intro hs
    have := find_id_of_mem S s hs hS
    rw [h] at this
    exact List.mem_of_find?_eq_some this
  · intro hs
    have := find_id_of_mem T s hs hT
    rw [← h] at this
    exact List.mem_of_find?_eq_some this

theorem sdt_foldl_nodup (cfg : config) (buf : List Nat) (L : List Nat) :
    ∀ net : net_model, net.current_tp < net.transponders.length →
      ((tp_at net net.current_tp).services.map (fun s => s.service_id)).Nodup →
      ((tp_at (L.foldl (fun net o => parse_sdt_entry cfg buf o net) net)
        net.current_tp).services.map (fun s => s.service_id)).Nodup := by
  induction L with
  | nil => intro net _ h; exact h
  | cons o L ih =>
    intro net hcur h
    have h1 := parse_sdt_entry_valid cfg buf o net hcur
    rw [List.foldl_cons, ← h1.1]
    apply ih _ (by rw [h1.1, h1.2]; exact hcur)
    rw [h1.1, parse_sdt_entry_eq cfg buf o net hcur, tp_at_tp_store _ _ _ hcur]
    exact nodup_upsert_service _ _ _ (fun x => (sdt_update_keeps _ _ x).1) h

/-- C16: parse_sdt followed by parse_pat and parse_pat followed by parse_sdt
leave the same filters and, for every service_id, the same service in the
current transponder (the whole record, so pmt_pid, running, scrambled, type,
provider_name and service_name agree), or no service in both.  When the service
ids of the current transponder are distinct, the two service lists hold the same
services, in a possibly different order. -/
theorem pat_sdt_order_free (cfg : config) (bufP : List Nat) (offP : Nat) (slP : Int)
    (tsP : Int) (bufS : List Nat) (offS : Nat) (slS : Int) (tsS : Int) (st : scan_state)
    (hcur : st.net.current_tp < st.net.transponders.length) :
    (parse_pat cfg bufP offP slP tsP
        { st with net := parse_sdt cfg bufS offS slS tsS st.net }).flt =
      (parse_pat cfg bufP offP slP tsP st).flt ∧
    (∀ sid : Int,
      lookup_service (tp_at (parse_pat cfg bufP offP slP tsP
          { st with net := parse_sdt cfg bufS offS slS tsS st.net }).net st.net.current_tp) sid =
        lookup_service (tp_at (parse_sdt cfg bufS offS slS tsS
          (parse_pat cfg bufP offP slP tsP st).net) st.net.current_tp) sid) ∧
    (((tp_at st.net st.net.current_tp).services.map (fun s => s.service_id)).Nodup →
      (tp_at (parse_pat cfg bufP offP slP tsP
          { st with net := parse_sdt cfg bufS offS slS tsS st.net }).net
        st.net.current_tp).services.Perm
      (tp_at (parse_sdt cfg bufS offS slS tsS
        (parse_pat cfg bufP offP slP tsP st).net) st.net.current_tp).services) := by
  have hP : ∀ x : scan_state, parse_pat cfg bufP offP slP tsP x =
      (pat_offsets slP.toNat offP slP).foldl (fun st o => parse_pat_entry cfg bufP o st) x := by
    intro x
    unfold parse_pat
    rw [parse_pat_loop_foldl]
  have hS : ∀ x : net_model, parse_sdt cfg bufS offS slS tsS x =
      (sdt_offsets bufS slS.toNat (offS + 3) slS).foldl
        (fun net o => parse_sdt_entry cfg bufS o net) x := by
    intro x
    unfold parse_sdt
    rw [parse_sdt_loop_foldl]
  have hS2 : ∀ x : scan_state, ({ x with net := parse_sdt cfg bufS offS slS tsS x.net } :
      scan_state) =
      (sdt_offsets bufS slS.toNat (offS + 3) slS).foldl
        (fun st o => sdt_entry_on cfg bufS o st) x := by
    intro x
    rw [hS, sdt_foldl_on]
  have key := foldl_comm (fun s : scan_state => s.net.current_tp < s.net.transponders.length)
    same_services (fun st o => parse_pat_entry cfg bufP o st)
    (fun st o => sdt_entry_on cfg bufS o st) same_services_refl same_services_trans
    (fun s a hs => valid_parse_pat_entry cfg bufP a s hs)
    (fun s b hs => valid_sdt_entry_on cfg bufS b s hs)
    (fun s t a hs ht h => parse_pat_entry_same cfg bufP a s t hs ht h)
    (fun s t b hs ht h => sdt_entry_on_same cfg bufS b s t hs ht h)
    (fun s a b hs => pat_entry_sdt_entry cfg bufP bufS a b s hs)
    (pat_offsets slP.toNat offP slP) (sdt_offsets bufS slS.toNat (offS + 3) slS) st hcur
  rw [(hS2 st).symm, (hP st).symm, (hS2 (parse_pat cfg bufP offP slP tsP st)).symm,
    ← hP] at key
  -- the current transponder is the same everywhere
  have c1 : (parse_sdt cfg bufS offS slS tsS st.net).current_tp = st.net.current_tp ∧
      (parse_sdt cfg bufS offS slS tsS st.net).transponders.length =
        st.net.transponders.length := by
    rw [hS]; exact sdt_foldl_valid cfg bufS _ st.net hcur
  have c2 : (parse_pat cfg bufP offP slP tsP st).net.current_tp = st.net.current_tp ∧
      (parse_pat cfg bufP offP slP tsP st).net.transponders.length =
        st.net.transponders.length := by
    rw [hP]; exact pat_foldl_valid cfg bufP _ st hcur
  have c3 : (parse_pat cfg bufP offP slP tsP
      { st with net := parse_sdt cfg bufS offS slS tsS st.net }).net.current_tp =
      st.net.current_tp := by
    rw [hP]
    exact (pat_foldl_valid cfg bufP _ _ (by rw [c1.1, c1.2]; exact hcur)).1.trans c1.1
  have c4 : (parse_sdt cfg bufS offS slS tsS
      (parse_pat cfg bufP offP slP tsP st).net).current_tp = st.net.current_tp := by
    rw [hS]
    exact (sdt_foldl_valid cfg bufS _ _ (by rw [c2.1, c2.2]; exact hcur)).1.trans c2.1
  have hl : ∀ sid : Int,
      lookup_service (tp_at (parse_pat cfg bufP offP slP tsP
          { st with net := parse_sdt cfg bufS offS slS tsS st.net }).net st.net.current_tp) sid =
        lookup_service (tp_at (parse_sdt cfg bufS offS slS tsS
          (parse_pat cfg bufP offP slP tsP st).net) st.net.current_tp) sid := by
    intro sid
    have := key.2 sid
    unfold current_service at this
    rw [c3] at this
    rw [this]
    show lookup_service (tp_at (parse_sdt cfg bufS offS slS tsS
        (parse_pat cfg bufP offP slP tsP st).net)
      (parse_sdt cfg bufS offS slS tsS (parse_pat cfg bufP offP slP tsP st).net).current_tp)
      sid = _
    rw [c4]
  refine ⟨key.1, hl, ?_⟩
  intro hn
  apply perm_of_find_eq
  · have n1 := sdt_foldl_nodup cfg bufS (sdt_offsets bufS slS.toNat (offS + 3) slS) st.net hcur hn
    rw [← hS] at n1
    have n2 := pat_foldl_nodup cfg bufP (pat_offsets slP.toNat offP slP)
      { st with net := parse_sdt cfg bufS offS slS tsS st.net }
      (by rw [c1.1, c1.2]; exact hcur) (by rw [c1.1]; exact n1)
    rw [← hP] at n2
    simp only at n2
    rw [c1.1] at n2
    exact n2
  · have n1 := pat_foldl_nodup cfg bufP (pat_offsets slP.toNat offP slP) st hcur hn
    rw [← hP] at n1
    have n2 := sdt_foldl_nodup cfg bufS (sdt_offsets bufS slS.toNat (offS + 3) slS)
      (parse_pat cfg bufP offP slP tsP st).net (by rw [c2.1, c2.2]; exact hcur)
      (by rw [c2.1]; exact n1)
    rw [← hS, c2.1] at n2
    exact n2
  · intro j
    rw [← lookup_service_eq_find, ← lookup_service_eq_find]
    exact hl j

/-! ## C14: one PMT filter per service -/

theorem owners_upsert_keep (S : List service) (sid : Int) (f : service → service)
    (hk : (f ((S.find? (fun s => decide (s.service_id = sid))).getD (new_service sid))).priv =
      ((S.find? (fun s => decide (s.service_id = sid))).getD (new_service sid)).priv) :
    (upsert_service S sid f).filterMap (fun s => s.priv) = S.filterMap (fun s => s.priv) := by
  induction S with
  | nil =>
    rw [upsert_service_nil]
    have h : (f (new_service sid)).priv = none := hk
    rw [List.filterMap_cons, h]
  | cons s S ih =>
    rw [upsert_service_cons]
    by_cases hs : s.service_id = sid
    · rw [if_pos hs]
      rw [find_id_cons_pos _ _ _ hs] at hk
      rw [List.filterMap_cons, List.filterMap_cons]
      have h : (f s).priv = s.priv := hk
      rw [h]
    · rw [if_neg hs]
      rw [find_id_cons_neg _ _ _ hs] at hk
      rw [List.filterMap_cons, List.filterMap_cons, ih hk]

theorem owners_upsert_set (S : List service) (sid : Int) (f : service → service) (n : Nat)
    (h1 : ((S.find? (fun s => decide (s.service_id = sid))).getD (new_service sid)).priv = none)
    (h2 : (f ((S.find? (fun s => decide (s.service_id = sid))).getD (new_service sid))).priv =
      some n) :
    ((upsert_service S sid f).filterMap (fun s => s.priv)).Perm
      (S.filterMap (fun s => s.priv) ++ [n]) := by
  induction S with
  | nil =>
    rw [upsert_service_nil]
    have h : (f (new_service sid)).priv = some n := h2
    rw [List.filterMap_cons, h]
    exact List.Perm.refl _
  | cons s S ih =>
    rw [upsert_service_cons]
    by_cases hs : s.service_id = sid
    · rw [if_pos hs]
      rw [find_id_cons_pos _ _ _ hs] at h1 h2
      have e1 : s.priv = none := h1
      have e2 : (f s).priv = some n := h2
      rw [List.filterMap_cons, List.filterMap_cons, e1, e2]
      exact List.perm_append_singleton n _ |>.symm
    · rw [if_neg hs]
      rw [find_id_cons_neg _ _ _ hs] at h1 h2
      have := ih h1 h2
      rw [List.filterMap_cons, List.filterMap_cons]
      cases s.priv with
      | none => exact this
      | some q => exact List.Perm.cons q this

theorem start_filter_lists (flt : filter_sched) (s : Nat)
    (hr : s ∉ flt.running_filters) (hw : s ∉ flt.waiting_filters) :
    ((start_filter flt s).1 = 0 ∧
      (start_filter flt s).2.running_filters = s :: flt.running_filters ∧
      (start_filter flt s).2.waiting_filters = flt.waiting_filters) ∨
    ((start_filter flt s).1 ≠ 0 ∧
      (start_filter flt s).2.running_filters = flt.running_filters ∧
      (start_filter flt s).2.waiting_filters = flt.waiting_filters) := by
  unfold start_filter
  split
  · exact Or.inr ⟨(by decide : (-1 : Int) ≠ 0), rfl, rfl⟩
  · simp only
    split
    · exact Or.inr ⟨(by decide : (-1 : Int) ≠ 0), rfl, rfl⟩
    · split
      · exact Or.inr ⟨(by decide : (-1 : Int) ≠ 0), rfl, rfl⟩
      · refine Or.inl ⟨rfl, ?_, ?_⟩
        · show s :: flt.running_filters.erase s = _
          rw [List.erase_of_not_mem hr]
        · show flt.waiting_filters.erase s = _
          rw [List.erase_of_not_mem hw]

theorem add_filter_lists (flt : filter_sched) (s : Nat)
    (hr : s ∉ flt.running_filters) (hw : s ∉ flt.waiting_filters) :
    ((add_filter flt s).running_filters ++ (add_filter flt s).waiting_filters).Perm
      (flt.running_filters ++ flt.waiting_filters ++ [s]) := by
  unfold add_filter
  simp only
  cases start_filter_lists flt s hr hw with
  | inl h =>
    rw [if_neg (by rw [h.1]; decide), h.2.1, h.2.2]
    exact (List.perm_append_singleton s _).symm
  | inr h =>
    rw [if_pos h.1]
    simp only
    rw [h.2.1, h.2.2, List.append_assoc]

theorem start_filter_own (flt : filter_sched) (s : Nat) :
    (seg_at (start_filter flt s).2 s 0).pid = (seg_at flt s 0).pid ∧
    (seg_at (start_filter flt s).2 s 0).table_id = (seg_at flt s 0).table_id := by
  have key : ∀ (g : section_buf → section_buf) (F : filter_sched),
      (∀ b, (g b).pid = b.pid ∧ (g b).table_id = b.table_id) →
      (seg_at (seg_update F s 0 g) s 0).pid = (seg_at F s 0).pid ∧
      (seg_at (seg_update F s 0 g) s 0).table_id = (seg_at F s 0).table_id := by
    intro g F hg
    rw [seg_at_seg_update]
    by_cases hl : 0 < (chain_at F s).length
    · rw [if_pos hl]
      exact hg _
    · rw [if_neg hl]
      have : chain_at F s = [] := by
        cases hc : chain_at F s with
        | nil => rfl
        | cons a l => rw [hc] at hl; simp at hl
      unfold seg_at
      rw [this]
      exact ⟨rfl, rfl⟩
  unfold start_filter
  split
  · exact ⟨rfl, rfl⟩
  · simp only
    have k1 := key (opened (flt.hw.headD { fd := -1, set_filter := -1, now := 0 }))
      { flt with hw := flt.hw.tail } (fun b => ⟨rfl, rfl⟩)
    split
    · exact k1
    · split
      · exact k1
      · have k2 := key (started (flt.hw.headD { fd := -1, set_filter := -1, now := 0 }))
          (seg_update { flt with hw := flt.hw.tail } s 0
            (opened (flt.hw.headD { fd := -1, set_filter := -1, now := 0 })))
          (fun b => ⟨rfl, rfl⟩)
        exact ⟨k2.1.trans k1.1, k2.2.trans k1.2⟩

theorem add_filter_own (flt : filter_sched) (s : Nat) :
    (seg_at (add_filter flt s) s 0).pid = (seg_at flt s 0).pid ∧
    (seg_at (add_filter flt s) s 0).table_id = (seg_at flt s 0).table_id := by
  unfold add_filter
  simp only
  split
  · exact start_filter_own flt s
  · exact start_filter_own flt s

theorem pat_filters_step_refl (a : scan_state) : pat_filters_step a a := by
  refine ⟨rfl, rfl, Nat.le_refl _, ?_, ?_, fun _ _ h => h, ?_, fun _ _ => rfl⟩
  · rw [Nat.sub_self, List.range'_zero, List.append_nil]
  · rw [Nat.sub_self, List.range'_zero, List.append_nil]
  · intro p h1 h2
    omega

theorem pat_filters_step_trans (a b c : scan_state) (h1 : pat_filters_step a b)
    (h2 : pat_filters_step b c) : pat_filters_step a c := by
  obtain ⟨a1, a2, a3, a4, a5, a6, a7, a8⟩ := h1
  obtain ⟨b1, b2, b3, b4, b5, b6, b7, b8⟩ := h2
  have hr : List.range' a.flt.filters.length (b.flt.filters.length - a.flt.filters.length) ++
      List.range' b.flt.filters.length (c.flt.filters.length - b.flt.filters.length) =
      List.range' a.flt.filters.length (c.flt.filters.length - a.flt.filters.length) := by
    have := List.range'_append_1 a.flt.filters.length
      (b.flt.filters.length - a.flt.filters.length) (c.flt.filters.length - b.flt.filters.length)
    rw [show a.flt.filters.length + (b.flt.filters.length - a.flt.filters.length) =
      b.flt.filters.length by omega] at this
    rw [this]
    congr 1
    omega
  refine ⟨b1.trans a1, b2.trans a2, Nat.le_trans a3 b3, ?_, ?_, fun sid q h => b6 sid q (a6 sid q h),
    ?_, ?_⟩
  · refine b4.trans ?_
    rw [← hr, ← List.append_assoc]
    exact List.Perm.append_right _ a4
  · refine b5.trans ?_
    rw [← hr, ← List.append_assoc]
    exact List.Perm.append_right _ a5
  · intro p hp1 hp2
    by_cases hp : p < b.flt.filters.length
    · have := a7 p hp1 hp
      unfold seg_at at this ⊢
      rw [b8 p hp]
      exact this
    · exact b7 p (by omega) hp2
  · intro p hp
    rw [b8 p (by omega), a8 p hp]

theorem pat_filters_wf_step (a b : scan_state) (h : pat_filters_wf a)
    (hs : pat_filters_step a b) : pat_filters_wf b := by
  obtain ⟨a1, a2, a3, a4, a5, a6, a7, a8⟩ := hs
  refine ⟨by rw [a1, a2]; exact h.1, ?_, ?_⟩
  · intro p hp
    have := a5.mem_iff.1 hp
    rw [List.mem_append] at this
    cases this with
    | inl h1 => exact Nat.lt_of_lt_of_le (h.2.1 p h1) a3
    | inr h1 =>
      rw [List.mem_range'_1] at h1
      omega
  · intro q hq
    have := a4.mem_iff.1 hq
    rw [List.mem_append] at this
    cases this with
    | inl h1 => exact Nat.lt_of_lt_of_le (h.2.2 q h1) a3
    | inr h1 =>
      rw [List.mem_range'_1] at h1
      omega

theorem filter_owners_tp_store (net : net_model) (tp : transponder)
    (hcur : net.current_tp < net.transponders.length) :
    filter_owners (tp_at (tp_store net net.current_tp tp) (tp_store net net.current_tp tp).current_tp)
      = tp.services.filterMap (fun s => s.priv) := by
  rw [show (tp_store net net.current_tp tp).current_tp = net.current_tp from rfl,
    tp_at_tp_store _ _ _ hcur]
  rfl

theorem seg_at_new_filter (flt : filter_sched) (x : section_buf) :
    seg_at { flt with filters := flt.filters ++ [[x]] } flt.filters.length 0 = x := by
  unfold seg_at chain_at
  simp only
  rw [list_getD_length_append]
  rfl

/-- One PAT entry requests at most one filter, and only for a service that has
none. -/
theorem parse_pat_entry_step (cfg : config) (buf : List Nat) (off : Nat) (st : scan_state)
    (h : pat_filters_wf st) : pat_filters_step st (parse_pat_entry cfg buf off st) := by
  obtain ⟨hcur, hl, ho⟩ := h
  have hfr := parse_pat_entry_frame cfg buf off st
  have hv := parse_pat_entry_valid cfg buf off st hcur
  have hcs := fun j => current_service_parse_pat_entry cfg buf off st j hcur
  have hflt := flt_parse_pat_entry cfg buf off st hcur
  have hnet := parse_pat_entry_eq cfg buf off st hcur
  by_cases h0 : pat_sid buf off = 0
  · rw [if_pos h0] at hnet
    rw [hnet]
    exact pat_filters_step_refl st
  · rw [if_neg h0] at hnet
    have hown : filter_owners (tp_at (parse_pat_entry cfg buf off st).net
        (parse_pat_entry cfg buf off st).net.current_tp) =
        (upsert_service (tp_at st.net st.net.current_tp).services
          ((pat_sid buf off : Nat) : Int)
          (pat_update (pat_pid buf off) st.flt.filters.length)).filterMap (fun s => s.priv) := by
      rw [hnet]
      exact filter_owners_tp_store _ _ hcur
    have htarget : (current_service st.net ((pat_sid buf off : Nat) : Int)).getD
        (new_service ((pat_sid buf off : Nat) : Int)) =
        ((tp_at st.net st.net.current_tp).services.find?
          (fun s => decide (s.service_id = ((pat_sid buf off : Nat) : Int)))).getD
          (new_service ((pat_sid buf off : Nat) : Int)) := by
      rw [current_service_eq_find]
    by_cases hc : ((current_service st.net ((pat_sid buf off : Nat) : Int)).getD
        (new_service ((pat_sid buf off : Nat) : Int))).priv.isNone = true ∧ pat_pid buf off ≠ 0
    · -- a filter is requested
      rw [if_pos ⟨h0, hc⟩] at hflt
      have hlen : (parse_pat_entry cfg buf off st).flt.filters.length =
          st.flt.filters.length + 1 := by
        rw [hflt, (add_filter_frame _ _).1]
        simp
      have hnr : st.flt.filters.length ∉ st.flt.running_filters := fun hm =>
        Nat.lt_irrefl _ (hl _ (List.mem_append_left _ hm))
      have hnw : st.flt.filters.length ∉ st.flt.waiting_filters := fun hm =>
        Nat.lt_irrefl _ (hl _ (List.mem_append_right _ hm))
      have hrange : List.range' st.flt.filters.length
          ((parse_pat_entry cfg buf off st).flt.filters.length - st.flt.filters.length) =
          [st.flt.filters.length] := by
        rw [hlen, Nat.add_sub_cancel_left]
        rfl
      refine ⟨hv.1, hv.2, hfr.1, ?_, ?_, ?_, ?_, hfr.2⟩
      · rw [hown, hrange]
        apply owners_upsert_set
        · rw [← htarget]
          exact Option.isNone_iff_eq_none.1 hc.1
        · rw [← htarget, pat_update_pos _ _ _ hc]
      · rw [hrange, hflt]
        exact add_filter_lists _ _ hnr hnw
      · intro sid q hq
        rw [hcs]
        by_cases hj : sid = ((pat_sid buf off : Nat) : Int)
        · exfalso
          rw [hj] at hq
          have hn := Option.isNone_iff_eq_none.1 hc.1
          cases hcur_s : current_service st.net ((pat_sid buf off : Nat) : Int) with
          | none => rw [hcur_s] at hq; exact Option.noConfusion hq
          | some s =>
            rw [hcur_s] at hq hn
            have e1 : s.priv = some q := hq
            have e2 : s.priv = none := hn
            rw [e1] at e2
            exact Option.noConfusion e2
        · rw [if_neg (fun c => hj c.2)]
          exact hq
      · intro p hp1 hp2
        have hp : p = st.flt.filters.length := by omega
        rw [hp, hflt]
        have ho := add_filter_own
          { st.flt with
            filters := st.flt.filters ++ [[setup_filter cfg (pat_pid buf off) 0x02 true false 5]] }
          st.flt.filters.length
        rw [seg_at_new_filter] at ho
        rw [ho.1, ho.2]
        refine ⟨rfl, ?_⟩
        show ((pat_pid buf off : Nat) : Int) ≠ 0
        exact_mod_cast hc.2
    · -- no filter is requested
      rw [if_neg (fun c => hc c.2)] at hflt
      have hrange : List.range' st.flt.filters.length
          ((parse_pat_entry cfg buf off st).flt.filters.length - st.flt.filters.length) = [] := by
        rw [hflt, Nat.sub_self]
        rfl
      have hkeep : (pat_update (pat_pid buf off) st.flt.filters.length
          ((current_service st.net ((pat_sid buf off : Nat) : Int)).getD
            (new_service ((pat_sid buf off : Nat) : Int)))).priv =
          ((current_service st.net ((pat_sid buf off : Nat) : Int)).getD
            (new_service ((pat_sid buf off : Nat) : Int))).priv := by
        rw [pat_update_neg _ _ _ hc]
      refine ⟨hv.1, hv.2, hfr.1, ?_, ?_, ?_, ?_, hfr.2⟩
      · rw [hown, hrange, List.append_nil]
        rw [owners_upsert_keep _ _ _ (by rw [← htarget]; exact hkeep)]
        rfl
      · rw [hrange, hflt, List.append_nil]
      · intro sid q hq
        rw [hcs]
        by_cases hj : sid = ((pat_sid buf off : Nat) : Int)
        · rw [if_pos ⟨h0, hj⟩]
          rw [hj] at hq
          show (pat_update (pat_pid buf off) st.flt.filters.length _).priv = some q
          rw [hkeep]
          cases hcur_s : current_service st.net ((pat_sid buf off : Nat) : Int) with
          | none => rw [hcur_s] at hq; exact Option.noConfusion hq
          | some s =>
            rw [hcur_s] at hq
            exact hq
        · rw [if_neg (fun c => hj c.2)]
          exact hq
      · intro p hp1 hp2
        rw [hflt] at hp2
        omega

theorem pat_foldl_step (cfg : config) (buf : List Nat) (L : List Nat) :
    ∀ st : scan_state, pat_filters_wf st →
      pat_filters_step st (L.foldl (fun st o => parse_pat_entry cfg buf o st) st) := by
  induction L with
  | nil => intro st _; exact pat_filters_step_refl st
  | cons o L ih =>
    intro st h
    have h1 := parse_pat_entry_step cfg buf o st h
    rw [List.foldl_cons]
    exact pat_filters_step_trans _ _ _ h1 (ih _ (pat_filters_wf_step _ _ h h1))

theorem parse_pat_step (cfg : config) (buf : List Nat) (off : Nat) (sl : Int) (ts : Int)
    (st : scan_state) (h : pat_filters_wf st) :
    pat_filters_step st (parse_pat cfg buf off sl ts st) := by
  unfold parse_pat
  rw [parse_pat_loop_foldl]
  exact pat_foldl_step cfg buf _ st h

theorem pat_feed_step (cfg : config) (secs : List (List Nat × Nat × Int)) :
    ∀ st : scan_state, pat_filters_wf st → pat_filters_step st (pat_feed cfg secs st) := by
  induction secs with
  | nil => intro st _; exact pat_filters_step_refl st
  | cons sec secs ih =>
    intro st h
    have h1 := parse_pat_step cfg sec.1 sec.2.1 sec.2.2 0 st h
    rw [pat_feed]
    exact pat_filters_step_trans _ _ _ h1 (ih _ (pat_filters_wf_step _ _ h h1))

theorem nodup_append_range (l : List Nat) (n k : Nat) (hl : l.Nodup) (hb : ∀ p ∈ l, p < n) :
    (l ++ List.range' n k).Nodup := by
  apply List.Nodup.append hl (List.nodup_range' n k)
  intro p h1 h2
  rw [List.mem_range'_1] at h2
  have := hb p h1
  omega

/-- C14: over every sequence of PAT sections handed to parse_pat, starting from
a state whose filter pointers are valid, the filters allocated are the pointers
from the old number of filters up to the new one; each of them is the `priv` of
exactly one service of the current transponder and is listed exactly once in
the running and waiting lists; a service that has a filter keeps it, so none is
given a second one; and each new filter is a PMT filter (table_id 0x02) with a
non-zero pid.  Filter pointers that were distinct stay distinct. -/
theorem parse_pat_one_filter_per_service (cfg : config) (secs : List (List Nat × Nat × Int))
    (st : scan_state)
    (hcur : st.net.current_tp < st.net.transponders.length)
    (hlists : ∀ p ∈ st.flt.running_filters ++ st.flt.waiting_filters,
      p < st.flt.filters.length)
    (hpriv : ∀ q ∈ filter_owners (tp_at st.net st.net.current_tp), q < st.flt.filters.length)
    (hnd1 : (st.flt.running_filters ++ st.flt.waiting_filters).Nodup)
    (hnd2 : (filter_owners (tp_at st.net st.net.current_tp)).Nodup) :
    st.flt.filters.length ≤ (pat_feed cfg secs st).flt.filters.length ∧
    (filter_owners (tp_at (pat_feed cfg secs st).net st.net.current_tp)).Perm
      (filter_owners (tp_at st.net st.net.current_tp) ++
        List.range' st.flt.filters.length
          ((pat_feed cfg secs st).flt.filters.length - st.flt.filters.length)) ∧
    ((pat_feed cfg secs st).flt.running_filters ++
        (pat_feed cfg secs st).flt.waiting_filters).Perm
      (st.flt.running_filters ++ st.flt.waiting_filters ++
        List.range' st.flt.filters.length
          ((pat_feed cfg secs st).flt.filters.length - st.flt.filters.length)) ∧
    (filter_owners (tp_at (pat_feed cfg secs st).net st.net.current_tp)).Nodup ∧
    ((pat_feed cfg secs st).flt.running_filters ++
      (pat_feed cfg secs st).flt.waiting_filters).Nodup ∧
    (∀ (sid : Int) (q : Nat),
      (lookup_service (tp_at st.net st.net.current_tp) sid).bind (fun s => s.priv) = some q →
      (lookup_service (tp_at (pat_feed cfg secs st).net st.net.current_tp) sid).bind
        (fun s => s.priv) = some q) ∧
    (∀ p, st.flt.filters.length ≤ p → p < (pat_feed cfg secs st).flt.filters.length →
      (seg_at (pat_feed cfg secs st).flt p 0).table_id = 0x02 ∧
      (seg_at (pat_feed cfg secs st).flt p 0).pid ≠ 0) := by
  obtain ⟨a1, a2, a3, a4, a5, a6, a7, _⟩ := pat_feed_step cfg secs st ⟨hcur, hlists, hpriv⟩
  rw [a1] at a4
  unfold current_service at a6
  rw [a1] at a6
  exact ⟨a3, a4, a5, (List.Perm.nodup_iff a4).2 (nodup_append_range _ _ _ hnd2 hpriv),
    (List.Perm.nodup_iff a5).2 (nodup_append_range _ _ _ hnd1 hlists), a6, a7⟩

/-! ## C19: a NIT entry for another delivery system -/

theorem without_channel_num_set (sid ch : Int) (t : transponder) :
    without_channel_num (set_channel_num sid ch t) = without_channel_num t := by
  unfold without_channel_num set_channel_num
  simp only
  rw [List.map_map]
  congr 1
  apply List.map_congr_left
  intro s _
  show ({ (if s.service_id = sid then { s with channel_num := ch } else s) with
    channel_num := 0 } : service) = { s with channel_num := 0 }
  split
  · rfl
  · rfl

theorem same_but_channel_num_store (a n : net_model) (p : Nat) (sid ch : Int)
    (h : same_but_channel_num a n) :
    same_but_channel_num a (tp_store n p (set_channel_num sid ch (tp_at n p))) := by
  obtain ⟨h1, h2, h3, h4, h5⟩ := h
  refine ⟨h1, h2, h3, ?_, ?_⟩
  · rw [(tp_store_valid _ _ _).2.1, h4]
  · unfold tp_store
    simp only
    rw [list_set_eq_of_map_eq without_channel_num _ _ _ calloc_transponder
      (without_channel_num_set sid ch (tp_at n p)), h5]

theorem uk_channel_record_same (a n : net_model) (sid ch : Int)
    (h : same_but_channel_num a n) : same_but_channel_num a (uk_channel_record n sid ch) := by
  unfold uk_channel_record
  exact foldl_invariant (same_but_channel_num a) _
    (fun x p hx => same_but_channel_num_store a x p sid ch hx) _ n h

theorem parse_terrestrial_uk_channel_number_same (buf : List Nat) (off : Nat)
    (a n : net_model) (h : same_but_channel_num a n) :
    same_but_channel_num a (parse_terrestrial_uk_channel_number buf off n) := by
  unfold parse_terrestrial_uk_channel_number
  simp only
  split
  · exact h
  · exact foldl_invariant (same_but_channel_num a) _
      (fun x i hx => uk_channel_record_same a x _ _ hx) _ n h

/-- In a NIT loop a descriptor changes the scratch transponder, or (tag 0x83
with vdr_dump_channum) the channel numbers of services, and nothing else. -/
theorem dispatch_descriptor_nit (cfg : config) (buf : List Nat) (off : Nat) (net : net_model)
    (tn : transponder) :
    ∃ tn2, dispatch_descriptor cfg .NIT buf off (net, .tp tn) =
      (if rd buf off = 0x83 ∧ cfg.vdr_dump_channum = true then
         parse_terrestrial_uk_channel_number buf off net
       else net, .tp tn2) := by
  unfold dispatch_descriptor
  generalize rd buf off = tag
  by_cases h0 : tag = 0x0a
  · rw [if_pos h0, if_neg (fun c => absurd (h0.symm.trans c.1) (by decide))]
    exact ⟨tn, rfl⟩
  rw [if_neg h0]
  by_cases h1 : tag = 0x40
  · rw [if_pos h1, if_neg (fun c => absurd (h1.symm.trans c.1) (by decide))]
    exact ⟨tn, rfl⟩
  rw [if_neg h1]
  by_cases h2 : tag = 0x43
  · rw [if_pos h2, if_neg (fun c => absurd (h2.symm.trans c.1) (by decide))]
    exact ⟨_, rfl⟩
  rw [if_neg h2]
  by_cases h3 : tag = 0x44
  · rw [if_pos h3, if_neg (fun c => absurd (h3.symm.trans c.1) (by decide))]
    exact ⟨_, rfl⟩
  rw [if_neg h3]
  by_cases h4 : tag = 0x48
  · rw [if_pos h4, if_neg (fun c => absurd (h4.symm.trans c.1) (by decide))]
    exact ⟨tn, rfl⟩
  rw [if_neg h4]
  by_cases h5 : tag = 0x53
  · rw [if_pos h5, if_neg (fun c => absurd (h5.symm.trans c.1) (by decide))]
    exact ⟨tn, rfl⟩
  rw [if_neg h5]
  by_cases h6 : tag = 0x5a
  · rw [if_pos h6, if_neg (fun c => absurd (h6.symm.trans c.1) (by decide))]
    exact ⟨_, rfl⟩
  rw [if_neg h6]
  by_cases h7 : tag = 0x62
  · rw [if_pos h7, if_neg (fun c => absurd (h7.symm.trans c.1) (by decide))]
    exact ⟨_, rfl⟩
  rw [if_neg h7]
  by_cases h8 : tag = 0x83
  · rw [if_pos h8]
    by_cases hv : cfg.vdr_dump_channum = true
    · rw [if_pos ⟨rfl, hv⟩, if_pos ⟨h8, hv⟩]
      exact ⟨tn, rfl⟩
    · rw [if_neg (fun c => hv c.2), if_neg (fun c => hv c.2)]
      exact ⟨tn, rfl⟩
  · rw [if_neg h8, if_neg (fun c => h8 c.1)]
    exact ⟨tn, rfl⟩

theorem same_but_channel_num_refl (a : net_model) : same_but_channel_num a a :=
  ⟨rfl, rfl, rfl, rfl, rfl⟩

/-- The descriptors of a NIT loop leave the model as it is but for the channel
numbers of services; with vdr_dump_channum off they leave it unchanged. -/
theorem parse_descriptors_nit (cfg : config) (buf : List Nat) (a : net_model) (fuel : Nat) :
    ∀ (off : Nat) (len : Int) (net : net_model) (tn : transponder),
      same_but_channel_num a net →
      same_but_channel_num a (parse_descriptors cfg .NIT buf fuel off len (net, .tp tn)).1 ∧
      (cfg.vdr_dump_channum = false →
        (parse_descriptors cfg .NIT buf fuel off len (net, .tp tn)).1 = net) := by
  induction fuel with
  | zero => intro off len net tn h; exact ⟨h, fun _ => rfl⟩
  | succ fuel ih =>
    intro off len net tn h
    rw [parse_descriptors]
    by_cases h1 : len > 0
    · rw [if_pos h1]
      simp only
      by_cases h2 : (rd buf (off + 1) + 2) % 256 = 0
      · rw [if_pos h2]
        exact ⟨h, fun _ => rfl⟩
      · rw [if_neg h2]
        obtain ⟨tn2, e⟩ := dispatch_descriptor_nit cfg buf off net tn
        rw [e]
        by_cases hc : rd buf off = 0x83 ∧ cfg.vdr_dump_channum = true
        · rw [if_pos hc]
          have := ih (off + (rd buf (off + 1) + 2) % 256)
            (len - ((rd buf (off + 1) + 2) % 256 : Nat))
            (parse_terrestrial_uk_channel_number buf off net) tn2
            (parse_terrestrial_uk_channel_number_same buf off a net h)
          refine ⟨this.1, fun hv => ?_⟩
          rw [hv] at hc
          exact absurd hc.2 (by decide)
        · rw [if_neg hc]
          exact ih _ _ net tn2 h
    · rw [if_neg h1]
      exact ⟨h, fun _ => rfl⟩

theorem parse_nit_entry_scratch (cfg : config) (buf : List Nat) (network_id : Int)
    (off : Nat) (net : net_model) :
    parse_nit_entry cfg buf network_id off net =
      if (nit_scratch cfg buf network_id off net).type = cfg.fe_type then
        store_transponder cfg
          (parse_descriptors cfg .NIT buf
            (((rd buf (off + 4) &&& 0x0f) <<< 8) ||| rd buf (off + 5)) (off + 6)
            ((((rd buf (off + 4) &&& 0x0f) <<< 8) ||| rd buf (off + 5) : Nat) : Int)
            (net, .tp { calloc_transponder with
              type := -1, network_id := network_id,
              transport_stream_id := (((rd buf off <<< 8) ||| rd buf (off + 1) : Nat) : Int) })).1
          (nit_scratch cfg buf network_id off net)
      else
        (parse_descriptors cfg .NIT buf
          (((rd buf (off + 4) &&& 0x0f) <<< 8) ||| rd buf (off + 5)) (off + 6)
          ((((rd buf (off + 4) &&& 0x0f) <<< 8) ||| rd buf (off + 5) : Nat) : Int)
          (net, .tp { calloc_transponder with
            type := -1, network_id := network_id,
            transport_stream_id := (((rd buf off <<< 8) ||| rd buf (off + 1) : Nat) : Int) })).1 :=
  rfl

/-- C19: when the scratch transponder of a NIT transport stream entry ends with
a delivery type other than that of the frontend (no delivery descriptor leaves
it at -1), parse_nit allocates no transponder and stores nothing: the scanned
and the new list, `current_tp`, the number of transponders and every field of
every transponder are as before.  The only thing the entry can have changed is
the channel_num of services, which a descriptor 0x83 sets when vdr_dump_channum
is on; with that option off the model is unchanged. -/
theorem parse_nit_entry_other_delivery_type (cfg : config) (buf : List Nat) (network_id : Int)
    (off : Nat) (net : net_model)
    (htype : (nit_scratch cfg buf network_id off net).type ≠ cfg.fe_type) :
    (parse_nit_entry cfg buf network_id off net).scanned_transponders =
      net.scanned_transponders ∧
    (parse_nit_entry cfg buf network_id off net).new_transponders = net.new_transponders ∧
    (parse_nit_entry cfg buf network_id off net).current_tp = net.current_tp ∧
    (parse_nit_entry cfg buf network_id off net).transponders.length =
      net.transponders.length ∧
    (parse_nit_entry cfg buf network_id off net).transponders.map without_channel_num =
      net.transponders.map without_channel_num ∧
    (cfg.vdr_dump_channum = false → parse_nit_entry cfg buf network_id off net = net) := by
  rw [parse_nit_entry_scratch, if_neg htype]
  have h := parse_descriptors_nit cfg buf net
    (((rd buf (off + 4) &&& 0x0f) <<< 8) ||| rd buf (off + 5)) (off + 6)
    ((((rd buf (off + 4) &&& 0x0f) <<< 8) ||| rd buf (off + 5) : Nat) : Int) net
    { calloc_transponder with
      type := -1, network_id := network_id,
      transport_stream_id := (((rd buf off <<< 8) ||| rd buf (off + 1) : Nat) : Int) }
    (same_but_channel_num_refl net)
  exact ⟨h.1.1, h.1.2.1, h.1.2.2.1, h.1.2.2.2.1, h.1.2.2.2.2, h.2⟩

/-! ## The service-list theorems on the example sections -/

theorem parse_pat_services_witness :
    ((tp_at (parse_pat ex_cfg ex_pat_repeat 8 14 1 ex_state).net 0).services.map
      (fun s => s.service_id)).count 100 = 1 ∧
    lookup_service (tp_at (parse_pat ex_cfg ex_pat_repeat 8 14 1 ex_state).net 0) 0 =
      lookup_service (tp_at ex_state.net 0) 0 ∧
    ((tp_at (parse_pat ex_cfg ex_pat_repeat 8 14 1 ex_state).net 0).services.map
      (fun s => s.service_id)).Nodup :=
  ⟨((parse_pat_services ex_cfg ex_pat_repeat 8 14 1 ex_state (by decide) (by decide)).1
      100 0x300 (by decide) (by decide)).2,
   (parse_pat_services ex_cfg ex_pat_repeat 8 14 1 ex_state (by decide) (by decide)).2.1
      0 (Or.inl rfl),
   (parse_pat_services ex_cfg ex_pat_repeat 8 14 1 ex_state (by decide) (by decide)).2.2.1⟩

theorem parse_pat_one_filter_per_service_witness :
    ex_state.flt.filters.length ≤
      (pat_feed ex_cfg [(ex_pat_repeat, 8, 14), (pat_section 100 0x200, 8, 2)]
        ex_state).flt.filters.length ∧
    (filter_owners (tp_at (pat_feed ex_cfg [(ex_pat_repeat, 8, 14), (pat_section 100 0x200, 8, 2)]
      ex_state).net 0)).Nodup ∧
    ((pat_feed ex_cfg [(ex_pat_repeat, 8, 14), (pat_section 100 0x200, 8, 2)]
        ex_state).flt.running_filters ++
      (pat_feed ex_cfg [(ex_pat_repeat, 8, 14), (pat_section 100 0x200, 8, 2)]
        ex_state).flt.waiting_filters).Nodup :=
  ⟨(parse_pat_one_filter_per_service ex_cfg
      [(ex_pat_repeat, 8, 14), (pat_section 100 0x200, 8, 2)] ex_state
      (by decide) (by decide) (by decide) (by decide) (by decide)).1,
   (parse_pat_one_filter_per_service ex_cfg
      [(ex_pat_repeat, 8, 14), (pat_section 100 0x200, 8, 2)] ex_state
      (by decide) (by decide) (by decide) (by decide) (by decide)).2.2.2.1,
   (parse_pat_one_filter_per_service ex_cfg
      [(ex_pat_repeat, 8, 14), (pat_section 100 0x200, 8, 2)] ex_state
      (by decide) (by decide) (by decide) (by decide) (by decide)).2.2.2.2.1⟩

set_option maxRecDepth 100000 in
/-- The scenario of C14 evaluated: a PAT that lists service 100 twice and
service 101 once, followed by a second PAT for service 100, allocates the two
filters 1 and 2, one for each service. -/
theorem pat_feed_example :
    (pat_feed ex_cfg [(ex_pat_repeat, 8, 14), (pat_section 100 0x200, 8, 2)]
      ex_state).flt.filters.length = 3 ∧
    (tp_at (pat_feed ex_cfg [(ex_pat_repeat, 8, 14), (pat_section 100 0x200, 8, 2)]
      ex_state).net 0).services.map (fun s => (s.service_id, s.pmt_pid, s.priv)) =
      [(100, 0x200, some 1), (101, 0x201, some 2)] := by
  decide

theorem service_ids_stay_unique_witness :
    unique_service_ids (parse_pat ex_cfg ex_pat_repeat 8 14 1 ex_after_pat).net ∧
    unique_service_ids
      (parse_sdt ex_cfg (sdt_section 101 4 0 ex_provider ex_service) 8 28 1 ex_after_pat.net) ∧
    unique_service_ids
      (parse_pmt ex_cfg (pmt_section 100 0x210 0x211 0x65 0x6e 0x67) 8 18 100
        ex_after_pat.net) :=
  ⟨(service_ids_stay_unique ex_cfg ex_after_pat ex_pat_repeat 8 14 1 (by decide)).1,
   (service_ids_stay_unique ex_cfg ex_after_pat (sdt_section 101 4 0 ex_provider ex_service)
      8 28 1 (by decide)).2.1,
   (service_ids_stay_unique ex_cfg ex_after_pat (pmt_section 100 0x210 0x211 0x65 0x6e 0x67)
      8 18 100 (by decide)).2.2⟩

theorem pat_sdt_order_free_witness :
    (parse_pat ex_cfg ex_pat_repeat 8 14 1
        { ex_state with
          net := parse_sdt ex_cfg (sdt_section 100 4 0 ex_provider ex_service) 8 28 1
            ex_state.net }).flt =
      (parse_pat ex_cfg ex_pat_repeat 8 14 1 ex_state).flt ∧
    (tp_at (parse_pat ex_cfg ex_pat_repeat 8 14 1
        { ex_state with
          net := parse_sdt ex_cfg (sdt_section 100 4 0 ex_provider ex_service) 8 28 1
            ex_state.net }).net ex_state.net.current_tp).services.Perm
      (tp_at (parse_sdt ex_cfg (sdt_section 100 4 0 ex_provider ex_service) 8 28 1
        (parse_pat ex_cfg ex_pat_repeat 8 14 1 ex_state).net)
        ex_state.net.current_tp).services :=
  ⟨(pat_sdt_order_free ex_cfg ex_pat_repeat 8 14 1
      (sdt_section 100 4 0 ex_provider ex_service) 8 28 1 ex_state (by decide)).1,
   (pat_sdt_order_free ex_cfg ex_pat_repeat 8 14 1
      (sdt_section 100 4 0 ex_provider ex_service) 8 28 1 ex_state (by decide)).2.2
      (by decide)⟩

theorem parse_sdt_services_witness :
    lookup_service (tp_at (parse_sdt ex_cfg (sdt_section 100 4 0 ex_provider ex_service) 8 28 1
        ex_after_pat.net) ex_after_pat.net.current_tp) 101 =
      lookup_service (tp_at ex_after_pat.net ex_after_pat.net.current_tp) 101 :=
  (parse_sdt_services ex_cfg (sdt_section 100 4 0 ex_provider ex_service) 8 28 1
    ex_after_pat.net (by decide)).2.2 101 (by decide)

/-- C17 as stated fails for a service entry with an empty descriptor loop: the
loop of parse_sdt ends at such an entry ("section too short") before it looks
up or creates the service.  The section has one entry, for service 100 with
running_status 4: in a transponder without services no service is created, and
in one that holds service 100 its running field stays 0. -/
theorem sdt_entry_without_descriptors_is_dropped :
    sdt_sid ex_sdt_empty_loop 11 = 100 ∧ sdt_running ex_sdt_empty_loop 11 = 4 ∧
    lookup_service (tp_at (parse_sdt ex_cfg ex_sdt_empty_loop 8 6 1 ex_net) 0) 100 = none ∧
    (lookup_service (tp_at (parse_sdt ex_cfg ex_sdt_empty_loop 8 6 1 ex_after_pat.net) 0)
      100).map (fun s => s.running) = some 0 := by
  decide

theorem parse_nit_entry_other_delivery_type_witness :
    parse_nit_entry ex_cfg_sat (nit_section 1 500 50000000 0x1f 0 0) 1 12 ex_net = ex_net :=
  (parse_nit_entry_other_delivery_type ex_cfg_sat (nit_section 1 500 50000000 0x1f 0 0) 1 12
    ex_net (by decide)).2.2.2.2.2 rfl

/-! ## C21, C22, C23: the filter scheduler -/

theorem start_filter_ok (flt : filter_sched) (s : Nat) (h : can_start flt) :
    (start_filter flt s).1 = 0 ∧
    (start_filter flt s).2.running_filters = s :: flt.running_filters.erase s ∧
    (start_filter flt s).2.waiting_filters = flt.waiting_filters.erase s ∧
    (start_filter flt s).2.n_running = flt.n_running + 1 ∧
    (start_filter flt s).2.hw = flt.hw.tail := by
  obtain ⟨h1, h2, h3⟩ := h
  unfold next_call at h2 h3
  unfold start_filter
  rw [if_neg (not_le.mpr h1)]
  simp only
  rw [if_neg (not_lt.mpr h2), if_neg h3]
  exact ⟨rfl, rfl, rfl, rfl, rfl⟩

theorem start_filter_fails (flt : filter_sched) (s : Nat) (h : ¬ can_start flt) :
    (start_filter flt s).1 = -1 ∧
    (start_filter flt s).2.running_filters = flt.running_filters ∧
    (start_filter flt s).2.waiting_filters = flt.waiting_filters ∧
    (start_filter flt s).2.n_running = flt.n_running := by
  unfold can_start next_call at h
  unfold start_filter
  by_cases h1 : flt.n_running ≥ MAX_RUNNING
  · rw [if_pos h1]
    exact ⟨rfl, rfl, rfl, rfl⟩
  · rw [if_neg h1]
    simp only
    by_cases h2 : (flt.hw.headD { fd := -1, set_filter := -1, now := 0 }).fd < 0
    · rw [if_pos h2]
      exact ⟨rfl, rfl, rfl, rfl⟩
    · rw [if_neg h2]
      by_cases h3 : (flt.hw.headD { fd := -1, set_filter := -1, now := 0 }).set_filter = -1
      · rw [if_pos h3]
        exact ⟨rfl, rfl, rfl, rfl⟩
      · exact absurd ⟨not_le.mp h1, not_lt.mp h2, h3⟩ h

theorem can_start_iff (flt : filter_sched) :
    can_start flt ↔
      flt.n_running < MAX_RUNNING ∧ ∃ c rest, flt.hw = c :: rest ∧ call_ok c = true := by
  unfold can_start next_call call_ok
  cases hhw : flt.hw with
  | nil =>
    simp
  | cons c rest =>
    simp

theorem n_started_zero (flt : filter_sched) (h : ¬ can_start flt) : n_started flt = 0 := by
  rw [can_start_iff] at h
  unfold n_started
  by_cases h1 : flt.n_running < MAX_RUNNING
  · cases hhw : flt.hw with
    | nil => simp
    | cons c rest =>
      have hc : call_ok c = false := by
        cases hok : call_ok c with
        | false => rfl
        | true => exact absurd ⟨h1, c, rest, hhw, hok⟩ h
      simp [List.takeWhile, hc]
  · have : (MAX_RUNNING - flt.n_running).toNat = 0 := by
      have := not_lt.mp h1
      omega
    rw [this]
    simp

theorem n_started_succ (flt : filter_sched) (s : Nat) (h : can_start flt)
    (hs : (start_filter flt s).2.waiting_filters.length + 1 =
      flt.waiting_filters.length) :
    n_started flt = n_started (start_filter flt s).2 + 1 := by
  obtain ⟨_, _, _, hn, hhw⟩ := start_filter_ok flt s h
  rw [can_start_iff] at h
  obtain ⟨h1, c, rest, hc, hok⟩ := h
  unfold n_started
  rw [hn, hhw, hc, ← hs]
  simp only [List.tail_cons, List.takeWhile, hok, List.length_cons]
  have : (MAX_RUNNING - flt.n_running).toNat = (MAX_RUNNING - (flt.n_running + 1)).toNat + 1 := by
    omega
  rw [this]
  omega

theorem start_filter_sched_ok (flt : filter_sched) (s : Nat) (h : sched_ok flt)
    (hs : s ∉ flt.running_filters) : sched_ok (start_filter flt s).2 := by
  obtain ⟨hn, hmax, hnd⟩ := h
  by_cases hc : can_start flt
  · obtain ⟨_, hr, hw, hn2, _⟩ := start_filter_ok flt s hc
    unfold sched_ok
    rw [hr, hw, hn2, List.erase_of_not_mem hs]
    refine ⟨by rw [hn]; simp, ?_, ?_⟩
    · have := hc.1
      omega
    · rw [List.nodup_append] at hnd
      obtain ⟨h1, h2, h3⟩ := hnd
      rw [List.cons_append, List.nodup_cons]
      refine ⟨?_, ?_⟩
      · rw [List.mem_append]
        rintro (hm | hm)
        · exact hs hm
        · exact (List.Nodup.mem_erase_iff h2).mp hm |>.1 rfl
      · rw [List.nodup_append]
        exact ⟨h1, h2.erase s, fun x hx hy => h3 hx (List.mem_of_mem_erase hy)⟩
  · obtain ⟨_, hr, hw, hn2⟩ := start_filter_fails flt s hc
    unfold sched_ok
    rw [hr, hw, hn2]
    exact ⟨hn, hmax, hnd⟩

theorem add_filter_sched_ok (flt : filter_sched) (s : Nat) (h : sched_ok flt)
    (hr : s ∉ flt.running_filters) (hw : s ∉ flt.waiting_filters) :
    sched_ok (add_filter flt s) := by
  unfold add_filter
  simp only
  by_cases hc : can_start flt
  · rw [if_neg (by rw [(start_filter_ok flt s hc).1]; decide)]
    exact start_filter_sched_ok flt s h hr
  · obtain ⟨h1, h2, h3, h4⟩ := start_filter_fails flt s hc
    rw [if_pos (by rw [h1]; decide)]
    obtain ⟨hn, hmax, hnd⟩ := h
    unfold sched_ok
    simp only
    rw [h2, h3, h4]
    refine ⟨hn, hmax, ?_⟩
    rw [← List.append_assoc]
    rw [List.nodup_append]
    refine ⟨hnd, List.nodup_singleton s, ?_⟩
    intro x hx hy
    rw [List.mem_singleton] at hy
    subst hy
    rw [List.mem_append] at hx
    exact hx.elim hr hw

theorem stop_filter_lists (flt : filter_sched) (s : Nat) (now : Int) :
    (stop_filter flt s now).running_filters = flt.running_filters.erase s ∧
    (stop_filter flt s now).waiting_filters = flt.waiting_filters.erase s ∧
    (stop_filter flt s now).n_running = flt.n_running - 1 ∧
    (stop_filter flt s now).hw = flt.hw :=
  ⟨rfl, rfl, rfl, rfl⟩

theorem stop_filter_sched_ok (flt : filter_sched) (s : Nat) (now : Int) (h : sched_ok flt)
    (hs : s ∈ flt.running_filters) : sched_ok (stop_filter flt s now) := by
  obtain ⟨hn, hmax, hnd⟩ := h
  obtain ⟨h1, h2, h3, _⟩ := stop_filter_lists flt s now
  unfold sched_ok
  rw [h1, h2, h3, List.length_erase_of_mem hs]
  have hpos : 0 < flt.running_filters.length := List.length_pos_of_mem hs
  refine ⟨by omega, by omega, ?_⟩
  rw [List.nodup_append] at hnd ⊢
  exact ⟨hnd.1.erase s, hnd.2.1.erase s,
    fun x hx hy => hnd.2.2 (List.mem_of_mem_erase hx) (List.mem_of_mem_erase hy)⟩

theorem remove_filter_loop_sched_ok (fuel : Nat) :
    ∀ flt : filter_sched, sched_ok flt → sched_ok (remove_filter_loop fuel flt) := by
  induction fuel with
  | zero => intro flt h; exact h
  | succ fuel ih =>
    intro flt h
    rw [remove_filter_loop]
    cases hw : flt.waiting_filters with
    | nil => exact h
    | cons next rest =>
      simp only
      have hnr : next ∉ flt.running_filters := by
        intro hm
        have hnd := h.2.2
        rw [List.nodup_append] at hnd
        exact hnd.2.2 hm (by rw [hw]; exact List.mem_cons_self _ _)
      have h2 := start_filter_sched_ok flt next h hnr
      split
      · exact h2
      · exact ih _ h2

theorem remove_filter_loop_step (fuel : Nat) (flt : filter_sched) (next : Nat) (rest : List Nat)
    (hw : flt.waiting_filters = next :: rest) :
    remove_filter_loop (fuel + 1) flt =
      if can_start flt then remove_filter_loop fuel (start_filter flt next).2
      else (start_filter flt next).2 := by
  rw [remove_filter_loop, hw]
  simp only
  by_cases hc : can_start flt
  · rw [if_pos hc, if_neg (by rw [(start_filter_ok flt next hc).1]; decide)]
  · rw [if_neg hc, if_pos (by rw [(start_filter_fails flt next hc).1]; decide)]

theorem remove_filter_loop_nil (fuel : Nat) (flt : filter_sched)
    (hw : flt.waiting_filters = []) : remove_filter_loop fuel flt = flt := by
  cases fuel with
  | zero => rfl
  | succ fuel => rw [remove_filter_loop, hw]

theorem remove_filter_loop_fuel (fuel1 : Nat) :
    ∀ (fuel2 : Nat) (flt : filter_sched), flt.waiting_filters.length ≤ fuel1 →
      flt.waiting_filters.length ≤ fuel2 →
      remove_filter_loop fuel1 flt = remove_filter_loop fuel2 flt := by
  induction fuel1 with
  | zero =>
    intro fuel2 flt h1 _
    have hw : flt.waiting_filters = [] := List.length_eq_zero.mp (Nat.le_zero.mp h1)
    rw [remove_filter_loop_nil _ _ hw, remove_filter_loop_nil _ _ hw]
  | succ fuel1 ih =>
    intro fuel2 flt h1 h2
    cases hw : flt.waiting_filters with
    | nil => rw [remove_filter_loop_nil _ _ hw, remove_filter_loop_nil _ _ hw]
    | cons next rest =>
      rw [hw, List.length_cons] at h1 h2
      obtain ⟨k, rfl⟩ := Nat.exists_eq_succ_of_ne_zero (by omega : fuel2 ≠ 0)
      rw [remove_filter_loop_step _ _ _ _ hw, remove_filter_loop_step _ _ _ _ hw]
      by_cases hc : can_start flt
      · rw [if_pos hc, if_pos hc]
        have hl : (start_filter flt next).2.waiting_filters = rest := by
          rw [(start_filter_ok flt next hc).2.2.1, hw, List.erase_cons_head]
        exact ih k _ (by rw [hl]; omega) (by rw [hl]; omega)
      · rw [if_neg hc, if_neg hc]

theorem remove_filter_loop_lists (fuel : Nat) :
    ∀ flt : filter_sched, (flt.running_filters ++ flt.waiting_filters).Nodup →
      flt.waiting_filters.length ≤ fuel →
      (remove_filter_loop fuel flt).running_filters =
        (flt.waiting_filters.take (n_started flt)).reverse ++ flt.running_filters ∧
      (remove_filter_loop fuel flt).waiting_filters =
        flt.waiting_filters.drop (n_started flt) ∧
      (remove_filter_loop fuel flt).n_running = flt.n_running + n_started flt := by
  induction fuel with
  | zero =>
    intro flt _ h1
    have hw : flt.waiting_filters = [] := List.length_eq_zero.mp (Nat.le_zero.mp h1)
    rw [remove_filter_loop_nil _ _ hw, hw]
    have : n_started flt = 0 := by
      unfold n_started
      rw [hw]
      simp
    rw [this]
    simp
  | succ fuel ih =>
    intro flt hnd h1
    cases hw : flt.waiting_filters with
    | nil =>
      rw [remove_filter_loop_nil _ _ hw]
      have : n_started flt = 0 := by
        unfold n_started
        rw [hw]
        simp
      rw [this, hw]
      simp
    | cons next rest =>
      rw [remove_filter_loop_step _ _ _ _ hw]
      have hnr : next ∉ flt.running_filters := by
        intro hm
        rw [List.nodup_append] at hnd
        exact hnd.2.2 hm (by rw [hw]; exact List.mem_cons_self _ _)
      by_cases hc : can_start flt
      · rw [if_pos hc]
        obtain ⟨_, hr, hwt, hn, _⟩ := start_filter_ok flt next hc
        rw [List.erase_of_not_mem hnr] at hr
        rw [hw, List.erase_cons_head] at hwt
        have hk := n_started_succ flt next hc (by rw [hwt, hw, List.length_cons])
        have hnd2 : ((start_filter flt next).2.running_filters ++
            (start_filter flt next).2.waiting_filters).Nodup := by
          rw [hr, hwt]
          rw [hw] at hnd
          have := List.perm_middle.nodup_iff.mp hnd
          exact this
        obtain ⟨i1, i2, i3⟩ := ih _ hnd2 (by rw [hwt]; rw [hw, List.length_cons] at h1; omega)
        rw [i1, i2, i3, hr, hwt, hn, hk]
        refine ⟨?_, ?_, ?_⟩
        · rw [List.take_succ_cons, List.reverse_cons, List.append_assoc]
          rfl
        · rw [List.drop_succ_cons]
        · push_cast
          ring
      · rw [if_neg hc, n_started_zero flt hc]
        obtain ⟨_, hr, hwt, hn⟩ := start_filter_fails flt next hc
        rw [hr, hwt, hn, hw]
        simp

theorem takeWhile_stops (p : dmx_call → Bool) (d : dmx_call) (hd : p d = false) :
    ∀ l : List dmx_call, p ((l.drop (l.takeWhile p).length).headD d) = false := by
  intro l
  induction l with
  | nil => simpa using hd
  | cons c rest ih =>
    cases hc : p c with
    | false => simp [List.takeWhile, hc]
    | true => simpa [List.takeWhile, hc] using ih

theorem add_filters_sched_ok (l : List Nat) :
    ∀ flt : filter_sched, sched_ok flt →
      (l ++ (flt.running_filters ++ flt.waiting_filters)).Nodup →
      sched_ok (l.foldl add_filter flt) := by
  induction l with
  | nil => intro flt h _; exact h
  | cons s rest ih =>
    intro flt h hnd
    rw [List.foldl_cons]
    rw [List.cons_append, List.nodup_cons, List.mem_append, List.mem_append] at hnd
    have hr : s ∉ flt.running_filters := fun hm => hnd.1 (Or.inr (Or.inl hm))
    have hw : s ∉ flt.waiting_filters := fun hm => hnd.1 (Or.inr (Or.inr hm))
    apply ih _ (add_filter_sched_ok flt s h hr hw)
    have hp := add_filter_lists flt s hr hw
    have hnd2 : (rest ++ (flt.running_filters ++ flt.waiting_filters ++ [s])).Nodup := by
      have : (rest ++ (flt.running_filters ++ flt.waiting_filters ++ [s])).Perm
          (s :: (rest ++ (flt.running_filters ++ flt.waiting_filters))) := by
        rw [← List.append_assoc]
        exact List.perm_append_singleton _ _
      rw [this.nodup_iff, List.nodup_cons]
      rw [List.mem_append, List.mem_append]
      exact hnd
    exact ((List.Perm.append_left rest hp).nodup_iff).mpr hnd2

/-- C21: `n_running` is the number of filters in `running_filters` and is at
most MAX_RUNNING = 32 (with no filter linked twice, the three facts that make
up `sched_ok`): this holds of the scheduler before any filter is added,
whatever the demux calls will return; and when it holds of a scheduler, it
holds after add_filter of a filter that is in neither list, after add_filter
of any number of such filters, and after remove_filter of a running filter at
any time. -/
theorem n_running_counts_running_filters (flt : filter_sched) (h : sched_ok flt) :
    (∀ hw, sched_ok (initial_sched hw)) ∧
    (∀ s, s ∉ flt.running_filters → s ∉ flt.waiting_filters → sched_ok (add_filter flt s)) ∧
    (∀ l : List Nat, (l ++ (flt.running_filters ++ flt.waiting_filters)).Nodup →
      sched_ok (l.foldl add_filter flt)) ∧
    (∀ s now, s ∈ flt.running_filters → sched_ok (remove_filter flt s now)) := by
  refine ⟨?_, ?_, ?_, ?_⟩
  · intro hw
    exact ⟨rfl, (by decide : (0 : Int) ≤ MAX_RUNNING), List.nodup_nil⟩
  · intro s hr hw
    exact add_filter_sched_ok flt s h hr hw
  · intro l hnd
    exact add_filters_sched_ok l flt h hnd
  · intro s now hs
    unfold remove_filter
    exact remove_filter_loop_sched_ok _ _ (stop_filter_sched_ok flt s now h hs)

theorem n_running_counts_running_filters_witness :
    sched_ok (ex_sched [ex_call_ok 5]) ∧
    sched_ok (add_filter (ex_sched [ex_call_ok 5]) 4) ∧
    sched_ok (remove_filter (ex_sched [ex_call_ok 5]) 0 200) :=
  ⟨by decide,
   (n_running_counts_running_filters (ex_sched [ex_call_ok 5]) (by decide)).2.1 4
     (by decide) (by decide),
   (n_running_counts_running_filters (ex_sched [ex_call_ok 5]) (by decide)).2.2.2 0 200
     (by decide)⟩

theorem n_moved_eq (flt : filter_sched) (s : Nat) (now : Int)
    (hs : s ∉ flt.waiting_filters) : n_started (stop_filter flt s now) = n_moved flt := by
  unfold n_started n_moved
  obtain ⟨_, h2, h3, h4⟩ := stop_filter_lists flt s now
  rw [h2, h3, h4, List.erase_of_not_mem hs]

theorem not_waiting_of_running (flt : filter_sched) (s : Nat) (h : sched_ok flt)
    (hs : s ∈ flt.running_filters) : s ∉ flt.waiting_filters := by
  intro hm
  have hnd := h.2.2
  rw [List.nodup_append] at hnd
  exact hnd.2.2 hs hm

theorem remove_filter_lists (flt : filter_sched) (s : Nat) (now : Int) (h : sched_ok flt)
    (hs : s ∈ flt.running_filters) :
    (remove_filter flt s now).running_filters =
      (flt.waiting_filters.take (n_moved flt)).reverse ++ flt.running_filters.erase s ∧
    (remove_filter flt s now).waiting_filters = flt.waiting_filters.drop (n_moved flt) ∧
    (remove_filter flt s now).n_running = flt.n_running - 1 + n_moved flt := by
  have hsw := not_waiting_of_running flt s h hs
  have hok := stop_filter_sched_ok flt s now h hs
  obtain ⟨h1, h2, h3, _⟩ := stop_filter_lists flt s now
  have key := remove_filter_loop_lists (stop_filter flt s now).waiting_filters.length
    (stop_filter flt s now) hok.2.2 (le_refl _)
  rw [n_moved_eq flt s now hsw, h1, h2, h3, List.erase_of_not_mem hsw] at key
  unfold remove_filter
  simp only
  rw [h2, List.erase_of_not_mem hsw]
  exact key

/-- The amended C22: after stop_filter has taken `s` out of `running_filters`,
remove_filter starts the filters of `waiting_filters` from its head for as long
as the starts succeed.  The filters moved are the first `n_moved` of the
waiting list, which is bounded by the free slots and by the demux calls that
succeed in a row; they are put in front of `running_filters`, the last started
first.  On return `waiting_filters` is empty, or the start of its head has
failed: MAX_RUNNING filters are running or the next demux call fails.  The loop
ends by itself: more fuel than the length of the waiting list changes nothing.
When MAX_RUNNING filters were running before the call, at most one filter
moves. -/
theorem remove_filter_starts_until_failure (flt : filter_sched) (s : Nat) (now : Int)
    (h : sched_ok flt) (hs : s ∈ flt.running_filters) :
    (remove_filter flt s now).running_filters =
      (flt.waiting_filters.take (n_moved flt)).reverse ++ flt.running_filters.erase s ∧
    (remove_filter flt s now).waiting_filters = flt.waiting_filters.drop (n_moved flt) ∧
    (remove_filter flt s now).n_running = flt.n_running - 1 + n_moved flt ∧
    ((remove_filter flt s now).waiting_filters = [] ∨
      (remove_filter flt s now).n_running = MAX_RUNNING ∨
      call_ok ((flt.hw.drop (n_moved flt)).headD { fd := -1, set_filter := -1, now := 0 })
        = false) ∧
    (∀ fuel, flt.waiting_filters.length ≤ fuel →
      remove_filter_loop fuel (stop_filter flt s now) = remove_filter flt s now) ∧
    (flt.n_running = MAX_RUNNING → n_moved flt ≤ 1) := by
  obtain ⟨h1, h2, h3⟩ := remove_filter_lists flt s now h hs
  have hsw := not_waiting_of_running flt s h hs
  have hpos : 0 < flt.running_filters.length := List.length_pos_of_mem hs
  have hn := h.1
  have hmax := h.2.1
  refine ⟨h1, h2, h3, ?_, ?_, ?_⟩
  · rw [h2, h3]
    by_cases hk1 : flt.waiting_filters.length ≤ n_moved flt
    · left
      exact List.drop_eq_nil_of_le hk1
    · right
      by_cases hk2 : (MAX_RUNNING - (flt.n_running - 1)).toNat ≤ n_moved flt
      · left
        have hle : n_moved flt ≤ (MAX_RUNNING - (flt.n_running - 1)).toNat := by
          unfold n_moved
          exact le_trans (min_le_left _ _) (min_le_right _ _)
        unfold MAX_RUNNING at hk2 hle hmax ⊢
        omega
      · right
        have hk3 : n_moved flt = (flt.hw.takeWhile call_ok).length := by
          unfold n_moved at hk1 hk2 ⊢
          omega
        rw [hk3]
        exact takeWhile_stops call_ok _ (by decide) flt.hw
  · intro fuel hf
    unfold remove_filter
    simp only
    have hl : (stop_filter flt s now).waiting_filters.length = flt.waiting_filters.length := by
      rw [(stop_filter_lists flt s now).2.1, List.erase_of_not_mem hsw]
    exact remove_filter_loop_fuel fuel _ _ (by rw [hl]; exact hf) (le_refl _)
  · intro hfull
    unfold n_moved
    have : (MAX_RUNNING - (flt.n_running - 1)).toNat = 1 := by
      rw [hfull]
      decide
    rw [this]
    exact le_trans (min_le_left _ _) (min_le_right _ _)

theorem remove_filter_starts_until_failure_witness :
    (remove_filter (ex_sched [ex_call_ok 5, ex_call_ok 6, ex_call_fails]) 0 200).running_filters =
      ([1, 2, 3].take 2).reverse ++ [0].erase 0 ∧
    (remove_filter (ex_sched [ex_call_ok 5, ex_call_ok 6, ex_call_fails]) 0 200).waiting_filters =
      [1, 2, 3].drop 2 :=
  ⟨(remove_filter_starts_until_failure (ex_sched [ex_call_ok 5, ex_call_ok 6, ex_call_fails])
      0 200 (by decide) (by decide)).1,
   (remove_filter_starts_until_failure (ex_sched [ex_call_ok 5, ex_call_ok 6, ex_call_fails])
      0 200 (by decide) (by decide)).2.1⟩

/-- C22 as stated fails in both directions.  With filter 0 running, the filters
1, 2, 3 waiting and demux calls that succeed twice and then fail,
remove_filter of filter 0 moves two filters to `running_filters` and leaves
filter 3 waiting: the loop goes on after a start that succeeds.  With a first
demux call that fails no filter moves and all three stay waiting: the loop
ends at the first start that fails. -/
theorem remove_filter_stops_at_first_failure :
    (remove_filter (ex_sched [ex_call_ok 5, ex_call_ok 6, ex_call_fails]) 0 200).running_filters
      = [2, 1] ∧
    (remove_filter (ex_sched [ex_call_ok 5, ex_call_ok 6, ex_call_fails]) 0 200).waiting_filters
      = [3] ∧
    (remove_filter (ex_sched [ex_call_fails, ex_call_ok 5]) 0 200).running_filters = [] ∧
    (remove_filter (ex_sched [ex_call_fails, ex_call_ok 5]) 0 200).waiting_filters
      = [1, 2, 3] := by
  decide

/-- C23: add_filter of a filter that is in neither list.  start_filter returns
0 exactly when fewer than MAX_RUNNING filters are running and the calls of
`open` and `ioctl(DMX_SET_FILTER)` succeed; then the filter is put at the head
of `running_filters` and `waiting_filters` is unchanged.  Otherwise
`running_filters` is unchanged and the filter is appended at the tail of
`waiting_filters`.  remove_filter, the only other caller of start_filter, takes
filters from the head of `waiting_filters` only: what it leaves waiting is the
old list without its first `k` filters, and these `k` have been started in
their order in the list. -/
theorem add_filter_fifo (flt : filter_sched) (s : Nat) (h : sched_ok flt)
    (hr : s ∉ flt.running_filters) (hw : s ∉ flt.waiting_filters) :
    ((start_filter flt s).1 = 0 ↔ can_start flt) ∧
    (can_start flt →
      (add_filter flt s).running_filters = s :: flt.running_filters ∧
      (add_filter flt s).waiting_filters = flt.waiting_filters) ∧
    (¬ can_start flt →
      (add_filter flt s).running_filters = flt.running_filters ∧
      (add_filter flt s).waiting_filters = flt.waiting_filters ++ [s]) ∧
    (∀ r now, r ∈ flt.running_filters → ∃ k,
      (remove_filter flt r now).waiting_filters = flt.waiting_filters.drop k ∧
      (remove_filter flt r now).running_filters =
        (flt.waiting_filters.take k).reverse ++ flt.running_filters.erase r) := by
  refine ⟨?_, ?_, ?_, ?_⟩
  · constructor
    · intro h0
      by_contra hc
      rw [(start_filter_fails flt s hc).1] at h0
      exact absurd h0 (by decide)
    · intro hc
      exact (start_filter_ok flt s hc).1
  · intro hc
    obtain ⟨h0, h1, h2, _⟩ := start_filter_ok flt s hc
    unfold add_filter
    simp only
    rw [if_neg (by rw [h0]; decide), h1, h2, List.erase_of_not_mem hr, List.erase_of_not_mem hw]
    exact ⟨rfl, rfl⟩
  · intro hc
    obtain ⟨h0, h1, h2, _⟩ := start_filter_fails flt s hc
    unfold add_filter
    simp only
    rw [if_pos (by rw [h0]; decide)]
    simp only
    rw [h1, h2]
    exact ⟨rfl, rfl⟩
  · intro r now hrun
    obtain ⟨h1, h2, _⟩ := remove_filter_lists flt r now h hrun
    exact ⟨n_moved flt, h2, h1⟩

theorem add_filter_fifo_witness :
    (add_filter (ex_sched [ex_call_fails]) 4).running_filters = [0] ∧
    (add_filter (ex_sched [ex_call_fails]) 4).waiting_filters = [1, 2, 3] ++ [4] :=
  (add_filter_fifo (ex_sched [ex_call_fails]) 4 (by decide) (by decide) (by decide)).2.2.1
    (by decide)

/-! ## C25: the video_pid of a service -/

theorem pmt_loop_service_foldl (buf : List Nat) (fuel : Nat) :
    ∀ (off : Nat) (sl : Int) (sv : service),
      pmt_loop_service buf fuel off sl sv =
        (pmt_offsets buf fuel off sl).foldl (fun sv o => pmt_stream_service buf o sv) sv := by
  induction fuel with
  | zero => intro off sl sv; rfl
  | succ fuel ih =>
    intro off sl sv
    rw [pmt_loop_service, pmt_offsets]
    by_cases h : sl > 0
    · rw [if_pos h, if_pos h]
      simp only
      rw [ih]
      rfl
    · rw [if_neg h, if_neg h]
      rfl

theorem pmt_stream_video (buf : List Nat) (off : Nat) (sv : service)
    (h : is_video buf off = true) :
    pmt_stream_service buf off sv =
      if sv.video_pid = 0 then { sv with video_pid := pmt_es_pid buf off } else sv := by
  unfold is_video at h
  have h' : rd buf off = 0x01 ∨ rd buf off = 0x02 := by simpa using h
  unfold pmt_stream_service
  simp only
  rw [if_pos h']
  rfl

theorem pmt_stream_audio (buf : List Nat) (off : Nat) (sv : service)
    (h : is_audio buf off = true) :
    pmt_stream_service buf off sv =
      if sv.audio_num < AUDIO_CHAN_MAX then add_audio_stream buf off sv else sv := by
  unfold is_audio at h
  have h' : rd buf off = 0x03 ∨ rd buf off = 0x04 := by simpa using h
  have hv : ¬ (rd buf off = 0x01 ∨ rd buf off = 0x02) := by omega
  unfold pmt_stream_service
  simp only
  rw [if_neg hv, if_pos h']
  rfl

theorem pmt_stream_private (buf : List Nat) (off : Nat) (sv : service)
    (h : rd buf off = 0x06) :
    pmt_stream_service buf off sv =
      if find_descriptor 0x56 buf (pmt_es_len buf off) (off + 5) (pmt_es_len buf off) ≠ 0 then
        { sv with teletext_pid := pmt_es_pid buf off }
      else if find_descriptor 0x59 buf (pmt_es_len buf off) (off + 5) (pmt_es_len buf off) ≠ 0
      then { sv with subtitling_pid := pmt_es_pid buf off }
      else if find_descriptor 0x6a buf (pmt_es_len buf off) (off + 5) (pmt_es_len buf off) ≠ 0
      then { sv with ac3_pid := pmt_es_pid buf off }
      else sv := by
  have hv : ¬ (rd buf off = 0x01 ∨ rd buf off = 0x02) := by omega
  have ha : ¬ (rd buf off = 0x03 ∨ rd buf off = 0x04) := by omega
  unfold pmt_stream_service
  simp only
  rw [if_neg hv, if_neg ha, if_pos h]
  rfl

theorem pmt_stream_other (buf : List Nat) (off : Nat) (sv : service)
    (hv : is_video buf off = false) (ha : is_audio buf off = false) (hp : rd buf off ≠ 0x06) :
    pmt_stream_service buf off sv = sv := by
  unfold is_video at hv
  unfold is_audio at ha
  have hv' : ¬ (rd buf off = 0x01 ∨ rd buf off = 0x02) := by simpa using hv
  have ha' : ¬ (rd buf off = 0x03 ∨ rd buf off = 0x04) := by simpa using ha
  unfold pmt_stream_service
  simp only
  rw [if_neg hv', if_neg ha', if_neg hp]

theorem iso639_frame (buf : List Nat) (off : Nat) (sv : service) :
    ∃ L, parse_iso639_language_descriptor buf off sv = { sv with audio_lang := L } := by
  unfold parse_iso639_language_descriptor
  simp only
  split
  · exact ⟨_, rfl⟩
  · exact ⟨sv.audio_lang, rfl⟩

theorem pmt_descriptors_frame (buf : List Nat) (fuel : Nat) :
    ∀ (off : Nat) (len : Int) (sv : service),
      ∃ L, pmt_descriptors buf fuel off len sv = { sv with audio_lang := L } := by
  induction fuel with
  | zero => intro off len sv; exact ⟨sv.audio_lang, rfl⟩
  | succ fuel ih =>
    intro off len sv
    rw [pmt_descriptors]
    by_cases h : len > 0
    · rw [if_pos h]
      simp only
      by_cases hd : (rd buf (off + 1) + 2) % 256 = 0
      · rw [if_pos hd]
        exact ⟨sv.audio_lang, rfl⟩
      · rw [if_neg hd]
        by_cases ht : rd buf off = 0x0a
        · rw [if_pos ht]
          obtain ⟨L1, e1⟩ := iso639_frame buf off sv
          rw [e1]
          obtain ⟨L2, e2⟩ := ih (off + (rd buf (off + 1) + 2) % 256)
            (len - ((rd buf (off + 1) + 2) % 256 : Nat)) { sv with audio_lang := L1 }
          exact ⟨L2, e2⟩
        · rw [if_neg ht]
          exact ih _ _ sv
    · rw [if_neg h]
      exact ⟨sv.audio_lang, rfl⟩

theorem add_audio_stream_frame (buf : List Nat) (off : Nat) (sv : service) :
    ∃ L, add_audio_stream buf off sv =
      { sv with audio_pid := sv.audio_pid.set sv.audio_num (pmt_es_pid buf off),
                audio_lang := L, audio_num := sv.audio_num + 1 } := by
  unfold add_audio_stream
  obtain ⟨L, e⟩ := pmt_descriptors_frame buf (pmt_es_len buf off) (off + 5) (pmt_es_len buf off)
    { sv with audio_pid := sv.audio_pid.set sv.audio_num (pmt_es_pid buf off) }
  simp only
  rw [e]
  exact ⟨L, rfl⟩

theorem pmt_stream_video_pid (buf : List Nat) (off : Nat) (sv : service)
    (h : is_video buf off = false) :
    (pmt_stream_service buf off sv).video_pid = sv.video_pid := by
  by_cases ha : is_audio buf off = true
  · rw [pmt_stream_audio buf off sv ha]
    split
    · obtain ⟨L, e⟩ := add_audio_stream_frame buf off sv
      rw [e]
    · rfl
  · by_cases hp : rd buf off = 0x06
    · rw [pmt_stream_private buf off sv hp]
      split
      · rfl
      · split
        · rfl
        · split <;> rfl
    · rw [pmt_stream_other buf off sv h (by simpa using ha) hp]

theorem pmt_foldl_video_pid (buf : List Nat) (offs : List Nat) :
    ∀ sv : service,
      (offs.foldl (fun sv o => pmt_stream_service buf o sv) sv).video_pid =
        if sv.video_pid = 0 then first_video_pid buf offs else sv.video_pid := by
  induction offs with
  | nil =>
    intro sv
    by_cases h : sv.video_pid = 0
    · rw [if_pos h]
      exact h
    · rw [if_neg h]
      rfl
  | cons o rest ih =>
    intro sv
    rw [List.foldl_cons, ih]
    cases hv : is_video buf o with
    | false =>
      rw [pmt_stream_video_pid buf o sv hv]
      have : first_video_pid buf (o :: rest) = first_video_pid buf rest := by
        unfold first_video_pid
        rw [List.filter_cons_of_neg (by rw [hv]; decide)]
      rw [this]
    | true =>
      rw [pmt_stream_video buf o sv hv]
      have hf : first_video_pid buf (o :: rest) =
          if pmt_es_pid buf o = 0 then first_video_pid buf rest else pmt_es_pid buf o := by
        unfold first_video_pid
        rw [List.filter_cons_of_pos hv, List.map_cons, List.find?_cons]
        by_cases hp : pmt_es_pid buf o = 0
        · rw [if_pos hp]
          simp [hp]
        · rw [if_neg hp]
          simp [hp]
      by_cases h0 : sv.video_pid = 0
      · rw [if_pos h0, if_pos h0, hf]
      · rw [if_neg h0, if_neg h0, if_neg h0]

theorem svc_at_parse_pmt (cfg : config) (buf : List Nat) (off : Nat) (sl : Int) (sid : Int)
    (net : net_model) (s : Nat)
    (hfind : find_service (tp_at net net.current_tp) sid = some s) :
    svc_at (parse_pmt cfg buf off sl sid net) net.current_tp s =
      pmt_service buf off sl (svc_at net net.current_tp s) := by
  have hs := (find_service_from_lt _ _ _ _ hfind).2
  rw [Nat.zero_add] at hs
  have htp : net.current_tp < net.transponders.length := by
    by_contra h
    rw [tp_at_default _ _ h] at hs
    simp [calloc_transponder] at hs
  rw [parse_pmt_eq, hfind]
  simp only
  rw [svc_at_svc_store _ _ _ _ htp hs]

theorem pmt_service_foldl (buf : List Nat) (off : Nat) (sl : Int) (sv : service) :
    pmt_service buf off sl sv =
      if ((pmt_streams buf off sl).foldl (fun x o => pmt_stream_service buf o x)
          { sv with pcr_pid := ((rd buf off &&& 0x1f) <<< 8) ||| rd buf (off + 1) }).audio_num
          > AUDIO_CHAN_MAX then
        { (pmt_streams buf off sl).foldl (fun x o => pmt_stream_service buf o x)
            { sv with pcr_pid := ((rd buf off &&& 0x1f) <<< 8) ||| rd buf (off + 1) } with
          audio_num := AUDIO_CHAN_MAX }
      else (pmt_streams buf off sl).foldl (fun x o => pmt_stream_service buf o x)
          { sv with pcr_pid := ((rd buf off &&& 0x1f) <<< 8) ||| rd buf (off + 1) } := by
  unfold pmt_service pmt_streams
  simp only
  rw [pmt_loop_service_foldl]

theorem pmt_service_video_pid (buf : List Nat) (off : Nat) (sl : Int) (sv : service) :
    (pmt_service buf off sl sv).video_pid =
      if sv.video_pid = 0 then first_video_pid buf (pmt_streams buf off sl) else sv.video_pid := by
  rw [pmt_service_foldl]
  have key := pmt_foldl_video_pid buf (pmt_streams buf off sl)
    { sv with pcr_pid := ((rd buf off &&& 0x1f) <<< 8) ||| rd buf (off + 1) }
  split
  · exact key
  · exact key

theorem first_video_pid_none (buf : List Nat) (offs : List Nat)
    (h : ∀ o ∈ offs, is_video buf o = true → pmt_es_pid buf o = 0) :
    first_video_pid buf offs = 0 := by
  induction offs with
  | nil => rfl
  | cons o rest ih =>
    have ih' := ih (fun x hx => h x (List.mem_cons_of_mem _ hx))
    unfold first_video_pid at ih' ⊢
    cases hv : is_video buf o with
    | false => rw [List.filter_cons_of_neg (by rw [hv]; decide)]; exact ih'
    | true =>
      rw [List.filter_cons_of_pos hv, List.map_cons, List.find?_cons]
      have := h o (List.mem_cons_self _ _) hv
      simp only [this, ne_eq, not_true_eq_false, decide_False]
      exact ih'

theorem first_video_pid_first (buf : List Nat) (pre : List Nat) (o : Nat) (post : List Nat)
    (hpre : ∀ x ∈ pre, is_video buf x = true → pmt_es_pid buf x = 0)
    (hv : is_video buf o = true) (hp : pmt_es_pid buf o ≠ 0) :
    first_video_pid buf (pre ++ o :: post) = pmt_es_pid buf o := by
  induction pre with
  | nil =>
    unfold first_video_pid
    rw [List.nil_append, List.filter_cons_of_pos hv, List.map_cons, List.find?_cons]
    simp [hp]
  | cons x rest ih =>
    have ih' := ih (fun y hy => hpre y (List.mem_cons_of_mem _ hy))
    unfold first_video_pid at ih' ⊢
    rw [List.cons_append]
    cases hx : is_video buf x with
    | false => rw [List.filter_cons_of_neg (by rw [hx]; decide)]; exact ih'
    | true =>
      rw [List.filter_cons_of_pos hx, List.map_cons, List.find?_cons]
      have := hpre x (List.mem_cons_self _ _) hx
      simp only [this, ne_eq, not_true_eq_false, decide_False]
      exact ih'

/-- The amended C25: parse_pmt on a service that find_service finds.  When the
service has no video_pid (it is 0), the video_pid afterwards is the pid of the
first video stream (type 0x01 or 0x02) of the payload whose pid is not 0: the
video streams before it, with pid 0, leave the field at 0, which stands for "no
video_pid", and the streams after it do not change it; it is 0 when every video
stream has pid 0.  A video_pid that is not 0 is not changed at all. -/
theorem parse_pmt_video_pid (cfg : config) (buf : List Nat) (off : Nat) (sl : Int) (sid : Int)
    (net : net_model) (s : Nat)
    (hfind : find_service (tp_at net net.current_tp) sid = some s) :
    ((svc_at net net.current_tp s).video_pid = 0 →
      ∀ pre o post, pmt_streams buf off sl = pre ++ o :: post →
        (∀ x ∈ pre, is_video buf x = true → pmt_es_pid buf x = 0) →
        is_video buf o = true → pmt_es_pid buf o ≠ 0 →
        (svc_at (parse_pmt cfg buf off sl sid net) net.current_tp s).video_pid =
          pmt_es_pid buf o) ∧
    ((svc_at net net.current_tp s).video_pid = 0 →
      (∀ x ∈ pmt_streams buf off sl, is_video buf x = true → pmt_es_pid buf x = 0) →
      (svc_at (parse_pmt cfg buf off sl sid net) net.current_tp s).video_pid = 0) ∧
    ((svc_at net net.current_tp s).video_pid ≠ 0 →
      (svc_at (parse_pmt cfg buf off sl sid net) net.current_tp s).video_pid =
        (svc_at net net.current_tp s).video_pid) := by
  rw [svc_at_parse_pmt cfg buf off sl sid net s hfind, pmt_service_video_pid]
  refine ⟨?_, ?_, ?_⟩
  · intro h0 pre o post hs hpre hv hp
    rw [if_pos h0, hs]
    exact first_video_pid_first buf pre o post hpre hv hp
  · intro h0 hall
    rw [if_pos h0]
    exact first_video_pid_none buf _ hall
  · intro h0
    rw [if_neg h0]

theorem parse_pmt_video_pid_witness :
    (svc_at (parse_pmt ex_cfg ex_pmt_video 8 12 100 ex_after_pat.net)
      ex_after_pat.net.current_tp 0).video_pid = pmt_es_pid ex_pmt_video 17 :=
  (parse_pmt_video_pid ex_cfg ex_pmt_video 8 12 100 ex_after_pat.net 0 (by decide)).1
    (by decide) [12] 17 [] (by decide) (by decide) (by decide) (by decide)

/-- C25 as stated fails when the first video stream carries the pid 0.  The
payload lists two video streams, at the offsets 12 and 17, with the pids 0 and
0x100; the service has no video_pid; after parse_pmt its video_pid is 0x100,
the pid of the second stream, and not the pid of the first. -/
theorem video_pid_zero_is_not_kept :
    pmt_streams ex_pmt_video 8 12 = [12, 17] ∧
    is_video ex_pmt_video 12 = true ∧ pmt_es_pid ex_pmt_video 12 = 0 ∧
    is_video ex_pmt_video 17 = true ∧ pmt_es_pid ex_pmt_video 17 = 0x100 ∧
    (svc_at ex_after_pat.net 0 0).service_id = 100 ∧
    (svc_at ex_after_pat.net 0 0).video_pid = 0 ∧
    (svc_at (parse_pmt ex_cfg ex_pmt_video 8 12 100 ex_after_pat.net) 0 0).video_pid
      = 0x100 := by
  decide

/-! ## C24: the bounded list of audio streams -/

theorem pmt_stream_not_audio (buf : List Nat) (off : Nat) (sv : service)
    (h : is_audio buf off = false) :
    same_audio (pmt_stream_service buf off sv) sv := by
  by_cases hv : is_video buf off = true
  · rw [pmt_stream_video buf off sv hv]
    split
    · exact ⟨rfl, rfl, rfl⟩
    · exact ⟨rfl, rfl, rfl⟩
  · by_cases hp : rd buf off = 0x06
    · rw [pmt_stream_private buf off sv hp]
      split
      · exact ⟨rfl, rfl, rfl⟩
      · split
        · exact ⟨rfl, rfl, rfl⟩
        · split
          · exact ⟨rfl, rfl, rfl⟩
          · exact ⟨rfl, rfl, rfl⟩
    · rw [pmt_stream_other buf off sv (by simpa using hv) h hp]
      exact ⟨rfl, rfl, rfl⟩

theorem iso639_lang (buf : List Nat) (off : Nat) (sv : service) :
    (parse_iso639_language_descriptor buf off sv).audio_lang =
      if rd buf (off + 1) ≥ 4 then
        sv.audio_lang.set sv.audio_num
          (rd_bytes buf (off + 2) 3 ++ (sv.audio_lang.getD sv.audio_num []).drop 3)
      else sv.audio_lang := by
  unfold parse_iso639_language_descriptor
  simp only
  split <;> rfl

theorem iso639_num (buf : List Nat) (off : Nat) (sv : service) :
    (parse_iso639_language_descriptor buf off sv).audio_num = sv.audio_num := by
  obtain ⟨L, e⟩ := iso639_frame buf off sv
  rw [e]

/-- What the descriptors of a PMT loop make of `audio_lang` depends on
`audio_lang` and `audio_num` only, entries other than `audio_num` are kept, and
so is the length. -/
theorem pmt_descriptors_lang (buf : List Nat) (fuel : Nat) :
    ∀ (off : Nat) (len : Int) (a b : service),
      a.audio_lang = b.audio_lang → a.audio_num = b.audio_num →
      (pmt_descriptors buf fuel off len a).audio_lang =
        (pmt_descriptors buf fuel off len b).audio_lang ∧
      (pmt_descriptors buf fuel off len a).audio_lang.length = a.audio_lang.length ∧
      ∀ j, j ≠ a.audio_num →
        (pmt_descriptors buf fuel off len a).audio_lang.getD j [] = a.audio_lang.getD j [] := by
  induction fuel with
  | zero => intro off len a b h1 _; exact ⟨h1, rfl, fun _ _ => rfl⟩
  | succ fuel ih =>
    intro off len a b h1 h2
    rw [pmt_descriptors, pmt_descriptors]
    by_cases h : len > 0
    · rw [if_pos h, if_pos h]
      simp only
      by_cases hd : (rd buf (off + 1) + 2) % 256 = 0
      · rw [if_pos hd, if_pos hd]
        exact ⟨h1, rfl, fun _ _ => rfl⟩
      · rw [if_neg hd, if_neg hd]
        by_cases ht : rd buf off = 0x0a
        · rw [if_pos ht, if_pos ht]
          have e1 : (parse_iso639_language_descriptor buf off a).audio_lang =
              (parse_iso639_language_descriptor buf off b).audio_lang := by
            rw [iso639_lang, iso639_lang, h1, h2]
          have e2 : (parse_iso639_language_descriptor buf off a).audio_num =
              (parse_iso639_language_descriptor buf off b).audio_num := by
            rw [iso639_num, iso639_num, h2]
          obtain ⟨i1, i2, i3⟩ := ih (off + (rd buf (off + 1) + 2) % 256)
            (len - ((rd buf (off + 1) + 2) % 256 : Nat)) _ _ e1 e2
          refine ⟨i1, ?_, ?_⟩
          · rw [i2, iso639_lang]
            split
            · rw [List.length_set]
            · rfl
          · intro j hj
            rw [i3 j (by rw [iso639_num]; exact hj), iso639_lang]
            split
            · rw [list_getD_set_other _ _ _ _ _ (Ne.symm hj)]
            · rfl
        · rw [if_neg ht, if_neg ht]
          exact ih _ _ a b h1 h2
    · rw [if_neg h, if_neg h]
      exact ⟨h1, rfl, fun _ _ => rfl⟩

theorem add_audio_stream_fields (buf : List Nat) (off : Nat) (sv : service) :
    (add_audio_stream buf off sv).audio_num = sv.audio_num + 1 ∧
    (add_audio_stream buf off sv).audio_pid =
      sv.audio_pid.set sv.audio_num (pmt_es_pid buf off) ∧
    (add_audio_stream buf off sv).audio_lang.length = sv.audio_lang.length ∧
    ∀ j, j ≠ sv.audio_num →
      (add_audio_stream buf off sv).audio_lang.getD j [] = sv.audio_lang.getD j [] := by
  obtain ⟨L, e⟩ := add_audio_stream_frame buf off sv
  refine ⟨by rw [e], by rw [e], ?_, ?_⟩
  · exact (pmt_descriptors_lang buf (pmt_es_len buf off) (off + 5) (pmt_es_len buf off)
      { sv with audio_pid := sv.audio_pid.set sv.audio_num (pmt_es_pid buf off) } sv rfl rfl).2.1
  · exact (pmt_descriptors_lang buf (pmt_es_len buf off) (off + 5) (pmt_es_len buf off)
      { sv with audio_pid := sv.audio_pid.set sv.audio_num (pmt_es_pid buf off) } sv rfl rfl).2.2

theorem add_audio_stream_congr (buf : List Nat) (off : Nat) (a b : service)
    (h : same_audio a b) :
    same_audio (add_audio_stream buf off a) (add_audio_stream buf off b) := by
  obtain ⟨h1, h2, h3⟩ := h
  obtain ⟨a1, a2, _, _⟩ := add_audio_stream_fields buf off a
  obtain ⟨b1, b2, _, _⟩ := add_audio_stream_fields buf off b
  refine ⟨by rw [a2, b2, h1, h3], ?_, by rw [a1, b1, h3]⟩
  exact (pmt_descriptors_lang buf (pmt_es_len buf off) (off + 5) (pmt_es_len buf off)
    { a with audio_pid := a.audio_pid.set a.audio_num (pmt_es_pid buf off) }
    { b with audio_pid := b.audio_pid.set b.audio_num (pmt_es_pid buf off) } h2 h3).1

theorem pmt_foldl_audio (buf : List Nat) (offs : List Nat) :
    ∀ a b : service, same_audio a b → a.audio_num ≤ AUDIO_CHAN_MAX →
      same_audio (offs.foldl (fun x o => pmt_stream_service buf o x) a)
        (((offs.filter (is_audio buf)).take (AUDIO_CHAN_MAX - a.audio_num)).foldl
          (fun x o => add_audio_stream buf o x) b) := by
  induction offs with
  | nil =>
    intro a b h _
    rw [List.filter_nil, List.take_nil]
    exact h
  | cons o rest ih =>
    intro a b h hn
    rw [List.foldl_cons]
    cases ha : is_audio buf o with
    | false =>
      rw [List.filter_cons_of_neg (by rw [ha]; decide)]
      have hs := pmt_stream_not_audio buf o a ha
      have := ih (pmt_stream_service buf o a) b ⟨hs.1.trans h.1, hs.2.1.trans h.2.1,
        hs.2.2.trans h.2.2⟩ (by rw [hs.2.2]; exact hn)
      rw [hs.2.2] at this
      exact this
    | true =>
      rw [List.filter_cons_of_pos ha, pmt_stream_audio buf o a ha]
      by_cases hlt : a.audio_num < AUDIO_CHAN_MAX
      · rw [if_pos hlt]
        obtain ⟨k, hk⟩ : ∃ k, AUDIO_CHAN_MAX - a.audio_num = k + 1 :=
          ⟨AUDIO_CHAN_MAX - a.audio_num - 1, by omega⟩
        rw [hk, List.take_succ_cons, List.foldl_cons]
        have hnum := (add_audio_stream_fields buf o a).1
        have := ih (add_audio_stream buf o a) (add_audio_stream buf o b)
          (add_audio_stream_congr buf o a b h) (by rw [hnum]; omega)
        have hk2 : AUDIO_CHAN_MAX - (add_audio_stream buf o a).audio_num = k := by
          rw [hnum]; omega
        rw [hk2] at this
        exact this
      · rw [if_neg hlt]
        have h0 : AUDIO_CHAN_MAX - a.audio_num = 0 := by omega
        have := ih a b h hn
        rw [h0] at this ⊢
        rw [List.take_zero] at this ⊢
        exact this

theorem add_audio_foldl (buf : List Nat) (sel : List Nat) :
    ∀ sv : service,
      (sel.foldl (fun x o => add_audio_stream buf o x) sv).audio_num =
        sv.audio_num + sel.length ∧
      (sel.foldl (fun x o => add_audio_stream buf o x) sv).audio_pid.length =
        sv.audio_pid.length ∧
      (∀ i, i < sel.length → sv.audio_num + i < sv.audio_pid.length →
        (sel.foldl (fun x o => add_audio_stream buf o x) sv).audio_pid.getD (sv.audio_num + i) 0
          = pmt_es_pid buf (sel.getD i 0)) ∧
      (∀ j, j < sv.audio_num ∨ sv.audio_num + sel.length ≤ j →
        (sel.foldl (fun x o => add_audio_stream buf o x) sv).audio_pid.getD j 0 =
          sv.audio_pid.getD j 0 ∧
        (sel.foldl (fun x o => add_audio_stream buf o x) sv).audio_lang.getD j [] =
          sv.audio_lang.getD j []) := by
  induction sel with
  | nil =>
    intro sv
    exact ⟨rfl, rfl, fun i hi => absurd hi (Nat.not_lt_zero i), fun _ _ => ⟨rfl, rfl⟩⟩
  | cons o rest ih =>
    intro sv
    rw [List.foldl_cons]
    obtain ⟨f1, f2, _, f4⟩ := add_audio_stream_fields buf o sv
    obtain ⟨i1, i2, i3, i4⟩ := ih (add_audio_stream buf o sv)
    rw [f1] at i1 i3 i4
    rw [f2, List.length_set] at i2 i3
    refine ⟨by rw [i1, List.length_cons]; omega, i2, ?_, ?_⟩
    · intro i hi hlt
      cases i with
      | zero =>
        rw [Nat.add_zero] at hlt ⊢
        rw [(i4 sv.audio_num (Or.inl (by omega))).1, f2, list_getD_set_same, if_pos hlt]
        rfl
      | succ i =>
        rw [List.length_cons] at hi
        have := i3 i (by omega) (by omega)
        rw [show sv.audio_num + (i + 1) = sv.audio_num + 1 + i by omega, this]
        rfl
    · intro j hj
      rw [List.length_cons] at hj
      have hne : j ≠ sv.audio_num := by omega
      obtain ⟨k1, k2⟩ := i4 j (by omega)
      rw [k1, k2, f2, f4 j hne]
      exact ⟨list_getD_set_other _ _ _ _ _ (Ne.symm hne), rfl⟩

theorem list_getD_take {α : Type} (l : List α) (k i : Nat) (d : α) (h : i < k) :
    (l.take k).getD i d = l.getD i d := by
  induction l generalizing k i with
  | nil => simp
  | cons a l ih =>
    cases k with
    | zero => exact absurd h (Nat.not_lt_zero i)
    | succ k =>
      cases i with
      | zero => simp
      | succ i =>
        rw [List.take_succ_cons, List.getD_cons_succ, List.getD_cons_succ]
        exact ih k i (by omega)

/-- C24: parse_pmt on a service that find_service finds, whose `audio_num`
is `n ≤ AUDIO_CHAN_MAX` (its `audio_pid` array has AUDIO_CHAN_MAX entries), for
a payload with `a` audio streams (type 0x03 or 0x04).  Afterwards `audio_num`
is `min(32, n + a)`; the pid of the `i`-th audio stream is at index `n + i`
for every `n + i < 32`; the entries of `audio_pid` and `audio_lang` below `n`
and from `n + a` on are untouched; and `audio_pid`, `audio_lang` and
`audio_num` are what the first `32 - n` audio streams alone produce, each
stored by the block of parse_pmt for an audio stream that fits, so the streams
beyond the bound change none of them. -/
theorem parse_pmt_audio_bound (cfg : config) (buf : List Nat) (off : Nat) (sl : Int)
    (sid : Int) (net : net_model) (s : Nat)
    (hfind : find_service (tp_at net net.current_tp) sid = some s)
    (hn : (svc_at net net.current_tp s).audio_num ≤ AUDIO_CHAN_MAX)
    (hlen : (svc_at net net.current_tp s).audio_pid.length = AUDIO_CHAN_MAX) :
    (svc_at (parse_pmt cfg buf off sl sid net) net.current_tp s).audio_num =
      min AUDIO_CHAN_MAX ((svc_at net net.current_tp s).audio_num +
        (pmt_audio_streams buf off sl).length) ∧
    (∀ i, i < (pmt_audio_streams buf off sl).length →
      (svc_at net net.current_tp s).audio_num + i < AUDIO_CHAN_MAX →
      (svc_at (parse_pmt cfg buf off sl sid net) net.current_tp s).audio_pid.getD
        ((svc_at net net.current_tp s).audio_num + i) 0 =
        pmt_es_pid buf ((pmt_audio_streams buf off sl).getD i 0)) ∧
    (∀ j, j < (svc_at net net.current_tp s).audio_num ∨
        (svc_at net net.current_tp s).audio_num + (pmt_audio_streams buf off sl).length ≤ j →
      (svc_at (parse_pmt cfg buf off sl sid net) net.current_tp s).audio_pid.getD j 0 =
        (svc_at net net.current_tp s).audio_pid.getD j 0 ∧
      (svc_at (parse_pmt cfg buf off sl sid net) net.current_tp s).audio_lang.getD j [] =
        (svc_at net net.current_tp s).audio_lang.getD j []) ∧
    same_audio (svc_at (parse_pmt cfg buf off sl sid net) net.current_tp s)
      (((pmt_audio_streams buf off sl).take
          (AUDIO_CHAN_MAX - (svc_at net net.current_tp s).audio_num)).foldl
        (fun x o => add_audio_stream buf o x) (svc_at net net.current_tp s)) := by
  rw [svc_at_parse_pmt cfg buf off sl sid net s hfind]
  generalize svc_at net net.current_tp s = sv at hn hlen
  have hsame := pmt_foldl_audio buf (pmt_streams buf off sl)
    { sv with pcr_pid := ((rd buf off &&& 0x1f) <<< 8) ||| rd buf (off + 1) } sv
    ⟨rfl, rfl, rfl⟩ hn
  obtain ⟨t1, _, t3, t4⟩ := add_audio_foldl buf
    ((pmt_audio_streams buf off sl).take (AUDIO_CHAN_MAX - sv.audio_num)) sv
  have hlen_sel : ((pmt_audio_streams buf off sl).take (AUDIO_CHAN_MAX - sv.audio_num)).length =
      min (AUDIO_CHAN_MAX - sv.audio_num) (pmt_audio_streams buf off sl).length :=
    List.length_take _ _
  have hle : ((pmt_streams buf off sl).foldl (fun x o => pmt_stream_service buf o x)
      { sv with pcr_pid := ((rd buf off &&& 0x1f) <<< 8) ||| rd buf (off + 1) }).audio_num
      ≤ AUDIO_CHAN_MAX := by
    rw [hsame.2.2]
    show (List.foldl _ sv ((pmt_audio_streams buf off sl).take _)).audio_num ≤ _
    rw [t1, hlen_sel]
    omega
  rw [pmt_service_foldl, if_neg (by omega)]
  have hsame2 : same_audio
      ((pmt_streams buf off sl).foldl (fun x o => pmt_stream_service buf o x)
        { sv with pcr_pid := ((rd buf off &&& 0x1f) <<< 8) ||| rd buf (off + 1) })
      (((pmt_audio_streams buf off sl).take (AUDIO_CHAN_MAX - sv.audio_num)).foldl
        (fun x o => add_audio_stream buf o x) sv) := hsame
  obtain ⟨s1, s2, s3⟩ := hsame2
  refine ⟨?_, ?_, ?_, ⟨s1, s2, s3⟩⟩
  · rw [s3, t1, hlen_sel]
    omega
  · intro i hi hlt
    rw [s1, t3 i (by rw [hlen_sel]; omega) (by rw [hlen]; exact hlt),
      list_getD_take _ _ _ _ (by omega)]
  · intro j hj
    rw [s1, s2]
    exact t4 j (by rw [hlen_sel]; omega)

theorem parse_pmt_audio_bound_witness :
    (svc_at (parse_pmt ex_cfg ex_pmt_audio 8 23 100 ex_net_audio) 0 0).audio_num =
      min AUDIO_CHAN_MAX (30 + 3) ∧
    (svc_at (parse_pmt ex_cfg ex_pmt_audio 8 23 100 ex_net_audio) 0 0).audio_pid.getD
      (30 + 1) 0 = pmt_es_pid ex_pmt_audio 17 :=
  ⟨(parse_pmt_audio_bound ex_cfg ex_pmt_audio 8 23 100 ex_net_audio 0 (by decide) (by decide)
      (by decide)).1,
   (parse_pmt_audio_bound ex_cfg ex_pmt_audio 8 23 100 ex_net_audio 0 (by decide) (by decide)
      (by decide)).2.1 1 (by decide) (by decide)⟩

/-- The example of C24 evaluated: with 30 audio channels recorded, a PMT with
three audio streams stores the pids of the first two at the indices 30 and 31
and the language of the second at index 31, and drops the third. -/
theorem pmt_audio_example :
    pmt_audio_streams ex_pmt_audio 8 23 = [12, 17, 28] ∧
    (svc_at (parse_pmt ex_cfg ex_pmt_audio 8 23 100 ex_net_audio) 0 0).audio_num = 32 ∧
    (svc_at (parse_pmt ex_cfg ex_pmt_audio 8 23 100 ex_net_audio) 0 0).audio_pid.drop 29 =
      [0, 0x211, 0x212] ∧
    (svc_at (parse_pmt ex_cfg ex_pmt_audio 8 23 100 ex_net_audio) 0 0).audio_lang.drop 29 =
      [[0, 0, 0, 0], [0, 0, 0, 0], [0x64, 0x65, 0x75, 0]] := by
  decide

/-! ## C26: private streams -/

theorem find_descriptor_iff (tag : Nat) (buf : List Nat) (fuel : Nat) :
    ∀ (off : Nat) (len : Int),
      find_descriptor tag buf fuel off len ≠ 0 ↔ tag ∈ desc_tags buf fuel off len := by
  induction fuel with
  | zero =>
    intro off len
    rw [find_descriptor, desc_tags]
    simp
  | succ fuel ih =>
    intro off len
    rw [find_descriptor, desc_tags]
    by_cases h : len > 0
    · rw [if_pos h, if_pos h]
      simp only
      by_cases hd : (rd buf (off + 1) + 2) % 256 = 0
      · rw [if_pos hd, if_pos hd]
        simp
      · rw [if_neg hd, if_neg hd, List.mem_cons]
        by_cases ht : tag = rd buf off
        · rw [if_pos ht]
          exact ⟨fun _ => Or.inl ht, fun _ => by decide⟩
        · rw [if_neg ht, ih]
          exact ⟨fun hm => Or.inr hm, fun hm => hm.resolve_left ht⟩
    · rw [if_neg h, if_neg h]
      simp

theorem parse_pmt_loop_foldl (cfg : config) (buf : List Nat) (tp s : Nat) (fuel : Nat) :
    ∀ (off : Nat) (sl : Int) (net : net_model),
      parse_pmt_loop cfg buf tp s fuel off sl net =
        (pmt_offsets buf fuel off sl).foldl (fun n o => parse_pmt_stream cfg buf o tp s n) net := by
  induction fuel with
  | zero => intro off sl net; rfl
  | succ fuel ih =>
    intro off sl net
    rw [parse_pmt_loop, pmt_offsets]
    by_cases h : sl > 0
    · rw [if_pos h, if_pos h]
      simp only
      rw [ih]
      rfl
    · rw [if_neg h, if_neg h]
      rfl

/-- The elementary stream entry at `off` of type 0x06 with pid `p`, for the
service behind the pointer `(tp, s)`, in terms of the walk of find_descriptor
over the descriptor loop of the entry (`desc_tags`): the walk finds a tag when
it comes to a descriptor with that tag.  If it finds 0x56, parse_pmt stores `p` in
teletext_pid and nothing else; otherwise, if it finds 0x59, `p` in
subtitling_pid and nothing else; otherwise, if it finds 0x6a, `p` in
ac3_pid and nothing else; otherwise the entry changes nothing.  The loop of
parse_pmt applies this to every entry it visits, in their order. -/
theorem pmt_private_stream (cfg : config) (buf : List Nat) (off tp s : Nat) (net : net_model)
    (hty : rd buf off = 0x06) :
    (0x56 ∈ desc_tags buf (pmt_es_len buf off) (off + 5) (pmt_es_len buf off) →
      parse_pmt_stream cfg buf off tp s net =
        svc_store net tp s { svc_at net tp s with teletext_pid := pmt_es_pid buf off }) ∧
    (0x56 ∉ desc_tags buf (pmt_es_len buf off) (off + 5) (pmt_es_len buf off) →
      0x59 ∈ desc_tags buf (pmt_es_len buf off) (off + 5) (pmt_es_len buf off) →
      parse_pmt_stream cfg buf off tp s net =
        svc_store net tp s { svc_at net tp s with subtitling_pid := pmt_es_pid buf off }) ∧
    (0x56 ∉ desc_tags buf (pmt_es_len buf off) (off + 5) (pmt_es_len buf off) →
      0x59 ∉ desc_tags buf (pmt_es_len buf off) (off + 5) (pmt_es_len buf off) →
      0x6a ∈ desc_tags buf (pmt_es_len buf off) (off + 5) (pmt_es_len buf off) →
      parse_pmt_stream cfg buf off tp s net =
        svc_store net tp s { svc_at net tp s with ac3_pid := pmt_es_pid buf off }) ∧
    (0x56 ∉ desc_tags buf (pmt_es_len buf off) (off + 5) (pmt_es_len buf off) →
      0x59 ∉ desc_tags buf (pmt_es_len buf off) (off + 5) (pmt_es_len buf off) →
      0x6a ∉ desc_tags buf (pmt_es_len buf off) (off + 5) (pmt_es_len buf off) →
      parse_pmt_stream cfg buf off tp s net = net) ∧
    (∀ fuel o sl n, parse_pmt_loop cfg buf tp s fuel o sl n =
      (pmt_offsets buf fuel o sl).foldl (fun n o => parse_pmt_stream cfg buf o tp s n) n) := by
  have key := pmt_stream_private buf off (svc_at net tp s) hty
  rw [parse_pmt_stream_service, key]
  simp only [find_descriptor_iff]
  refine ⟨?_, ?_, ?_, ?_, ?_⟩
  · intro h1
    rw [if_pos h1]
  · intro h1 h2
    rw [if_neg h1, if_pos h2]
  · intro h1 h2 h3
    rw [if_neg h1, if_neg h2, if_pos h3]
  · intro h1 h2 h3
    rw [if_neg h1, if_neg h2, if_neg h3]
    exact svc_store_svc_at net tp s
  · intro fuel o sl n
    exact parse_pmt_loop_foldl cfg buf tp s fuel o sl n

theorem pmt_private_stream_witness :
    parse_pmt_stream ex_cfg ex_pmt_private 12 0 0 ex_after_pat.net =
      svc_store ex_after_pat.net 0 0
        { svc_at ex_after_pat.net 0 0 with teletext_pid := pmt_es_pid ex_pmt_private 12 } :=
  (pmt_private_stream ex_cfg ex_pmt_private 12 0 0 ex_after_pat.net (by decide)).1 (by decide)

/-- An example of private streams evaluated: of the three private streams the first, with
a teletext descriptor behind a subtitling descriptor, sets teletext_pid, the
second sets ac3_pid and the third, without any of the three tags, nothing. -/
theorem pmt_private_example :
    pmt_streams ex_pmt_private 8 26 = [12, 21, 28] ∧
    desc_tags ex_pmt_private 4 17 4 = [0x59, 0x56] ∧
    (svc_at (parse_pmt ex_cfg ex_pmt_private 8 26 100 ex_after_pat.net) 0 0).teletext_pid
      = 0x301 ∧
    (svc_at (parse_pmt ex_cfg ex_pmt_private 8 26 100 ex_after_pat.net) 0 0).subtitling_pid
      = 0 ∧
    (svc_at (parse_pmt ex_cfg ex_pmt_private 8 26 100 ex_after_pat.net) 0 0).ac3_pid
      = 0x302 := by
  decide

theorem getD_of_drop_eq (buf l : List Nat) (o i : Nat) (h : buf.drop o = l) :
    buf.getD (o + i) 0 = l.getD i 0 := by
  rw [← h, List.getD_eq_getElem?_getD, List.getD_eq_getElem?_getD, List.getElem?_drop]

theorem spec_loop_bytes_length (ds : List spec_descriptor) :
    ds.length ≤ (spec_loop_bytes ds).length := by
  induction ds with
  | nil => exact Nat.le_refl _
  | cons d ds ih =>
    rw [spec_loop_bytes]
    simp only [List.length_cons, List.length_append]
    omega

/-- The walk of find_descriptor and parse_descriptors over a loop that holds
the descriptors `ds`, none with more than 253 payload bytes, visits exactly
the descriptors of the loop. -/
theorem desc_tags_spec (buf : List Nat) :
    ∀ (ds : List spec_descriptor) (fuel o : Nat) (rest : List Nat),
      buf.drop o = spec_loop_bytes ds ++ rest →
      (∀ d ∈ ds, d.tag < 256) → (∀ d ∈ ds, d.payload.length ≤ 253) → ds.length ≤ fuel →
      desc_tags buf fuel o (((spec_loop_bytes ds).length : Nat) : Int) = spec_loop_tags ds := by
  intro ds
  induction ds with
  | nil =>
    intro fuel o rest _ _ _ _
    cases fuel with
    | zero => rfl
    | succ fuel =>
      rw [desc_tags, if_neg (by simp [spec_loop_bytes])]
      rfl
  | cons d ds ih =>
    intro fuel o rest hbuf htag hshort hfuel
    obtain ⟨f, rfl⟩ := Nat.exists_eq_succ_of_ne_zero (by
      simp only [List.length_cons] at hfuel; omega : fuel ≠ 0)
    have hd := htag d (List.mem_cons_self _ _)
    have hs := hshort d (List.mem_cons_self _ _)
    have hb : buf.drop o =
        d.tag :: d.payload.length :: (d.payload ++ (spec_loop_bytes ds ++ rest)) := by
      rw [hbuf, spec_loop_bytes]
      simp
    have r0 : rd buf o = d.tag := by
      unfold rd
      have := getD_of_drop_eq buf _ o 0 hb
      rw [Nat.add_zero] at this
      rw [this, List.getD_cons_zero]
      exact Nat.mod_eq_of_lt hd
    have r1 : rd buf (o + 1) = d.payload.length := by
      unfold rd
      rw [getD_of_drop_eq buf _ o 1 hb, List.getD_cons_succ, List.getD_cons_zero]
      exact Nat.mod_eq_of_lt (by omega)
    have hlen : (spec_loop_bytes (d :: ds)).length =
        d.payload.length + 2 + (spec_loop_bytes ds).length := by
      rw [spec_loop_bytes]
      simp only [List.length_cons, List.length_append]
      omega
    have hnext : buf.drop (o + (d.payload.length + 2)) = spec_loop_bytes ds ++ rest := by
      rw [← List.drop_drop, hb]
      have e : d.tag :: d.payload.length :: (d.payload ++ (spec_loop_bytes ds ++ rest)) =
          (d.tag :: d.payload.length :: d.payload) ++ (spec_loop_bytes ds ++ rest) := by simp
      rw [e, List.drop_left' (by simp)]
    rw [desc_tags, if_pos (by rw [hlen]; push_cast; omega)]
    simp only
    rw [r1, r0, Nat.mod_eq_of_lt (by omega : d.payload.length + 2 < 256),
      if_neg (by omega)]
    have e : (((spec_loop_bytes (d :: ds)).length : Nat) : Int) -
        ((d.payload.length + 2 : Nat) : Int) = (((spec_loop_bytes ds).length : Nat) : Int) := by
      rw [hlen]; push_cast; ring
    rw [e, ih f _ rest hnext (fun x hx => htag x (List.mem_cons_of_mem _ hx))
      (fun x hx => hshort x (List.mem_cons_of_mem _ hx))
      (by simp only [List.length_cons] at hfuel; omega)]
    rfl

/-- The private stream at `off` whose descriptor loop holds the descriptors
`ds`, none with more than 253 payload bytes: parse_pmt stores its pid in
teletext_pid when the loop contains tag 0x56, else in subtitling_pid when it
contains 0x59, else in ac3_pid when it contains 0x6a, and changes nothing
else. -/
theorem private_stream_by_descriptors (cfg : config) (buf : List Nat) (off tp s : Nat)
    (net : net_model) (ds : List spec_descriptor) (rest : List Nat)
    (hty : rd buf off = 0x06)
    (hbuf : buf.drop (off + 5) = spec_loop_bytes ds ++ rest)
    (hlen : pmt_es_len buf off = (spec_loop_bytes ds).length)
    (htag : ∀ d ∈ ds, d.tag < 256)
    (hshort : ∀ d ∈ ds, d.payload.length ≤ 253) :
    parse_pmt_stream cfg buf off tp s net =
      if 0x56 ∈ spec_loop_tags ds then
        svc_store net tp s { svc_at net tp s with teletext_pid := pmt_es_pid buf off }
      else if 0x59 ∈ spec_loop_tags ds then
        svc_store net tp s { svc_at net tp s with subtitling_pid := pmt_es_pid buf off }
      else if 0x6a ∈ spec_loop_tags ds then
        svc_store net tp s { svc_at net tp s with ac3_pid := pmt_es_pid buf off }
      else net := by
  have hw : desc_tags buf (pmt_es_len buf off) (off + 5) ((pmt_es_len buf off : Nat) : Int) =
      spec_loop_tags ds := by
    rw [hlen]
    exact desc_tags_spec buf ds _ (off + 5) rest hbuf htag hshort (spec_loop_bytes_length ds)
  have key := pmt_stream_private buf off (svc_at net tp s) hty
  rw [parse_pmt_stream_service, key]
  simp only [find_descriptor_iff, hw]
  by_cases h1 : 0x56 ∈ spec_loop_tags ds
  · rw [if_pos h1, if_pos h1]
  · rw [if_neg h1, if_neg h1]
    by_cases h2 : 0x59 ∈ spec_loop_tags ds
    · rw [if_pos h2, if_pos h2]
    · rw [if_neg h2, if_neg h2]
      by_cases h3 : 0x6a ∈ spec_loop_tags ds
      · rw [if_pos h3, if_pos h3]
      · rw [if_neg h3, if_neg h3]
        exact svc_store_svc_at net tp s

set_option maxRecDepth 1000000 in
/-- C26 does not hold of the code.  A descriptor loop contains a tag when one
of the descriptors it holds, laid out one after the other as tag, length byte
and payload, has that tag.  For a loop that holds descriptors of at most 253
payload bytes the code does what the claim says: the pid of a stream of type
0x06 goes to teletext_pid when the loop contains 0x56, otherwise to
subtitling_pid when it contains 0x59, otherwise to ac3_pid when it contains
0x6a, and nothing else changes.  But find_descriptor keeps the size of a
descriptor in an 8-bit variable: behind a descriptor of 254 payload bytes,
whose size 256 wraps to 0, it stops and reports nothing.  In the example the
loop of the private stream with pid 0x301 holds a registration descriptor of
254 bytes and then a teletext descriptor, so it contains tag 0x56; the walk of
the code visits no descriptor, parse_pmt leaves the entry without effect and
teletext_pid stays 0. -/
theorem private_stream_misses_tag_behind_long_descriptor :
    (∀ (cfg : config) (buf : List Nat) (off tp s : Nat) (net : net_model)
      (ds : List spec_descriptor) (rest : List Nat),
      rd buf off = 0x06 →
      buf.drop (off + 5) = spec_loop_bytes ds ++ rest →
      pmt_es_len buf off = (spec_loop_bytes ds).length →
      (∀ d ∈ ds, d.tag < 256) → (∀ d ∈ ds, d.payload.length ≤ 253) →
      parse_pmt_stream cfg buf off tp s net =
        if 0x56 ∈ spec_loop_tags ds then
          svc_store net tp s { svc_at net tp s with teletext_pid := pmt_es_pid buf off }
        else if 0x59 ∈ spec_loop_tags ds then
          svc_store net tp s { svc_at net tp s with subtitling_pid := pmt_es_pid buf off }
        else if 0x6a ∈ spec_loop_tags ds then
          svc_store net tp s { svc_at net tp s with ac3_pid := pmt_es_pid buf off }
        else net) ∧
    rd ex_pmt_long_descriptor 12 = 0x06 ∧
    pmt_es_pid ex_pmt_long_descriptor 12 = 0x301 ∧
    ex_pmt_long_descriptor.drop (12 + 5) =
      spec_loop_bytes ex_private_descriptors ++ [0x12, 0x34, 0x56, 0x78] ∧
    pmt_es_len ex_pmt_long_descriptor 12 = (spec_loop_bytes ex_private_descriptors).length ∧
    (∀ d ∈ ex_private_descriptors, d.tag < 256 ∧ d.payload.length < 256) ∧
    0x56 ∈ spec_loop_tags ex_private_descriptors ∧
    desc_tags ex_pmt_long_descriptor 263 17 263 = [] ∧
    find_descriptor 0x56 ex_pmt_long_descriptor 263 17 263 = 0 ∧
    parse_pmt_stream ex_cfg ex_pmt_long_descriptor 12 0 0 ex_after_pat.net = ex_after_pat.net ∧
    pmt_streams ex_pmt_long_descriptor 8 270 = [12] ∧
    (svc_at ex_after_pat.net 0 0).service_id = 100 ∧
    (svc_at (parse_pmt ex_cfg ex_pmt_long_descriptor 8 270 100 ex_after_pat.net) 0 0).teletext_pid
      = 0 := by
  refine ⟨private_stream_by_descriptors, by decide, by decide, by decide, by decide, by decide,
    by decide, by decide, by decide, by decide, by decide, by decide, by decide⟩

/-! ## C27: BCD frequencies -/

theorem bcd32_to_cpu_eq (b0 b1 b2 b3 : Nat) :
    bcd32_to_cpu b0 b1 b2 b3 =
      (b0 / 16 % 16) * 10000000 + (b0 % 16) * 1000000 + (b1 / 16 % 16) * 100000 +
      (b1 % 16) * 10000 + (b2 / 16 % 16) * 1000 + (b2 % 16) * 100 + (b3 / 16 % 16) * 10 +
      b3 % 16 := by
  unfold bcd32_to_cpu
  simp only [and_0f, Nat.shiftRight_eq_div_pow]

/-- The `i`-th decimal digit of the number written with the digits `L`, the
least significant first. -/
theorem ofDigits_digit (L : List Nat) (h : ∀ d ∈ L, d ≤ 9) :
    ∀ i, Nat.ofDigits 10 L / 10 ^ i % 10 = L.getD i 0 := by
  induction L with
  | nil => intro i; simp
  | cons d rest ih =>
    intro i
    have hd : d ≤ 9 := h d (List.mem_cons_self _ _)
    have ih' := ih (fun x hx => h x (List.mem_cons_of_mem _ hx))
    rw [Nat.ofDigits_cons]
    cases i with
    | zero =>
      rw [pow_zero, Nat.div_one, List.getD_cons_zero]
      omega
    | succ i =>
      rw [List.getD_cons_succ, ← ih' i, pow_succ, Nat.mul_comm (10 ^ i) 10,
        ← Nat.div_div_eq_div_mul]
      congr 2
      omega

/-- C27: for bytes `b0 .. b3` whose nibbles are decimal digits,
bcd32_to_cpu returns the number with these eight digits, the high nibble of
`b0` being the most significant: it is the sum of the digits weighted by the
powers of ten, and its `i`-th decimal digit is the `i`-th nibble.  With these
bytes at the offsets 2 to 5 of a descriptor, the satellite delivery system
descriptor stores ten times that number as frequency and the cable delivery
system descriptor stores a hundred times that number modulo 2^32. -/
theorem bcd_frequency (b0 b1 b2 b3 : Nat)
    (hd : ∀ d ∈ bcd_digits b0 b1 b2 b3, d ≤ 9) :
    bcd32_to_cpu b0 b1 b2 b3 = Nat.ofDigits 10 (bcd_digits b0 b1 b2 b3) ∧
    (∀ i, i < 8 →
      bcd32_to_cpu b0 b1 b2 b3 / 10 ^ i % 10 = (bcd_digits b0 b1 b2 b3).getD i 0) ∧
    (∀ (cfg : config) (buf : List Nat) (off : Nat) (t : transponder),
      rd buf (off + 2) = b0 → rd buf (off + 3) = b1 → rd buf (off + 4) = b2 →
      rd buf (off + 5) = b3 →
      (parse_satellite_delivery_system_descriptor cfg buf off t).param.frequency =
        10 * bcd32_to_cpu b0 b1 b2 b3 ∧
      (parse_cable_delivery_system_descriptor cfg buf off t).param.frequency =
        (100 * bcd32_to_cpu b0 b1 b2 b3) % 4294967296) := by
  have h2 := hd (b3 / 16) (by simp [bcd_digits])
  have h4 := hd (b2 / 16) (by simp [bcd_digits])
  have h6 := hd (b1 / 16) (by simp [bcd_digits])
  have h8 := hd (b0 / 16) (by simp [bcd_digits])
  have e := bcd32_to_cpu_eq b0 b1 b2 b3
  rw [Nat.mod_eq_of_lt (by omega : b0 / 16 < 16), Nat.mod_eq_of_lt (by omega : b1 / 16 < 16),
    Nat.mod_eq_of_lt (by omega : b2 / 16 < 16), Nat.mod_eq_of_lt (by omega : b3 / 16 < 16)] at e
  have hN : bcd32_to_cpu b0 b1 b2 b3 = Nat.ofDigits 10 (bcd_digits b0 b1 b2 b3) := by
    rw [e]
    unfold bcd_digits
    simp only [Nat.ofDigits_cons, Nat.ofDigits_nil]
    ring
  refine ⟨hN, ?_, ?_⟩
  · intro i _
    rw [hN]
    exact ofDigits_digit _ hd i
  · intro cfg buf off t r0 r1 r2 r3
    have hlt : bcd32_to_cpu b0 b1 b2 b3 < 4294967296 / 10 := by
      rw [e]
      have a1 : b0 % 16 < 16 := Nat.mod_lt _ (by decide)
      have a2 : b1 % 16 < 16 := Nat.mod_lt _ (by decide)
      have a3 : b2 % 16 < 16 := Nat.mod_lt _ (by decide)
      have a4 : b3 % 16 < 16 := Nat.mod_lt _ (by decide)
      omega
    unfold parse_satellite_delivery_system_descriptor parse_cable_delivery_system_descriptor u32
    simp only
    rw [r0, r1, r2, r3]
    refine ⟨?_, ?_⟩
    · exact Nat.mod_eq_of_lt (by omega)
    · rw [Nat.mod_eq_of_lt (by omega : bcd32_to_cpu b0 b1 b2 b3 < 4294967296), Nat.mul_comm]

theorem bcd_frequency_witness :
    bcd32_to_cpu 0x01 0x17 0x62 0x50 = Nat.ofDigits 10 (bcd_digits 0x01 0x17 0x62 0x50) ∧
    (parse_satellite_delivery_system_descriptor ex_cfg ex_delivery 0
      calloc_transponder).param.frequency = 10 * bcd32_to_cpu 0x01 0x17 0x62 0x50 ∧
    (parse_cable_delivery_system_descriptor ex_cfg ex_delivery 0
      calloc_transponder).param.frequency = (100 * bcd32_to_cpu 0x01 0x17 0x62 0x50) % 4294967296 :=
  ⟨(bcd_frequency 0x01 0x17 0x62 0x50 (by decide)).1,
   (bcd_frequency 0x01 0x17 0x62 0x50 (by decide)).2.2 ex_cfg ex_delivery 0 calloc_transponder
     (by decide) (by decide) (by decide) (by decide)⟩

/-- The example of C27 evaluated: the bytes 01 17 62 50 are the number
1 176 250; the satellite descriptor stores 11 762 500 (kHz) and the cable
descriptor 117 625 000 (Hz). -/
theorem bcd_frequency_example :
    bcd32_to_cpu 0x01 0x17 0x62 0x50 = 1176250 ∧
    (parse_satellite_delivery_system_descriptor ex_cfg ex_delivery 0
      calloc_transponder).param.frequency = 11762500 ∧
    (parse_cable_delivery_system_descriptor ex_cfg ex_delivery 0
      calloc_transponder).param.frequency = 117625000 ∧
    (parse_cable_delivery_system_descriptor ex_cfg
      [0x44, 0x0b, 0x99, 0x99, 0x99, 0x99] 0 calloc_transponder).param.frequency =
      9999999900 % 4294967296 := by
  decide

/-! ## C28: names without control characters -/

theorem take_set_succ (l : List Nat) (i x : Nat) (h : i < l.length) :
    (l.set i x).take (i + 1) = l.take i ++ [x] := by
  induction l generalizing i with
  | nil => exact absurd h (Nat.not_lt_zero i)
  | cons a l ih =>
    cases i with
    | zero => simp
    | succ i =>
      rw [List.set_cons_succ, List.take_succ_cons, List.take_succ_cons, List.cons_append,
        ih i (by simpa using h)]

theorem drop_eq_cons (l : List Nat) (i : Nat) (h : i < l.length) :
    l.drop i = l.getD i 0 :: l.drop (i + 1) := by
  induction l generalizing i with
  | nil => exact absurd h (Nat.not_lt_zero i)
  | cons a l ih =>
    cases i with
    | zero => simp
    | succ i =>
      rw [List.drop_succ_cons, List.drop_succ_cons, List.getD_cons_succ]
      exact ih i (by simpa using h)

theorem drop_set_lt (l : List Nat) (i j x : Nat) (h : i < j) :
    (l.set i x).drop j = l.drop j := by
  induction l generalizing i j with
  | nil => simp
  | cons a l ih =>
    cases j with
    | zero => exact absurd h (Nat.not_lt_zero i)
    | succ j =>
      cases i with
      | zero => simp
      | succ i =>
        rw [List.set_cons_succ, List.drop_succ_cons, List.drop_succ_cons]
        exact ih i j (by omega)

/-- The invariant of the loop of the name clean-up: when a NUL byte lies at or
behind `src`, the loop ends before the end of the buffer, and the bytes below
the final `dest` are those below the initial `dest` followed by the bytes kept
of the string at `src`. -/
theorem remove_control_loop_spec (fuel : Nat) :
    ∀ (p : List Nat) (src dest : Nat), dest ≤ src →
      (∃ j, src ≤ j ∧ j < p.length ∧ p.getD j 0 = 0) → p.length ≤ fuel + src →
      (remove_control_loop fuel p src dest).1.length = p.length ∧
      (remove_control_loop fuel p src dest).2 < p.length ∧
      (remove_control_loop fuel p src dest).1.take (remove_control_loop fuel p src dest).2 =
        p.take dest ++ ((p.drop src).takeWhile (fun c => c ≠ 0)).filter
          (fun c => decide (c ≥ 0x20) && (decide (c < 0x80) || decide (c > 0x9f))) := by
  induction fuel with
  | zero =>
    intro p src dest _ hj hf
    obtain ⟨j, h1, h2, _⟩ := hj
    omega
  | succ fuel ih =>
    intro p src dest hds hj hf
    obtain ⟨j, h1, h2, h3⟩ := hj
    have hsrc : src < p.length := by omega
    rw [remove_control_loop]
    rw [drop_eq_cons p src hsrc]
    by_cases hc : p.getD src 0 = 0
    · rw [if_neg (not_not.mpr hc), hc]
      refine ⟨rfl, by omega, ?_⟩
      simp
    · rw [if_pos hc]
      have hjs : src + 1 ≤ j := by
        rcases Nat.lt_or_ge src j with h | h
        · exact h
        · have : j = src := by omega
          rw [this] at h3
          exact absurd h3 hc
      have htw : List.takeWhile (fun c => decide (c ≠ 0)) (p.getD src 0 :: p.drop (src + 1)) =
          p.getD src 0 :: List.takeWhile (fun c => decide (c ≠ 0)) (p.drop (src + 1)) := by
        rw [List.takeWhile_cons_of_pos (by simpa using hc)]
      rw [htw]
      by_cases hk : p.getD src 0 ≥ 0x20 ∧ (p.getD src 0 < 0x80 ∨ p.getD src 0 > 0x9f)
      · rw [if_pos hk]
        obtain ⟨i1, i2, i3⟩ := ih (p.set dest (p.getD src 0)) (src + 1) (dest + 1) (by omega)
          ⟨j, hjs, by rw [List.length_set]; exact h2, by
            rw [list_getD_set_other _ _ _ _ _ (by omega : dest ≠ j)]; exact h3⟩
          (by rw [List.length_set]; omega)
        rw [List.length_set] at i1 i2
        refine ⟨i1, i2, ?_⟩
        rw [i3, take_set_succ _ _ _ (by omega), drop_set_lt _ _ _ _ (by omega),
          List.filter_cons_of_pos (by simpa using hk), List.append_assoc]
        rfl
      · rw [if_neg hk]
        obtain ⟨i1, i2, i3⟩ := ih p (src + 1) dest (by omega) ⟨j, hjs, h2, h3⟩ (by omega)
        refine ⟨i1, i2, ?_⟩
        rw [i3, List.filter_cons_of_neg (by simpa using hk)]

theorem takeWhile_append_nul (raw : List Nat) :
    (raw ++ [0]).takeWhile (fun c => decide (c ≠ 0)) = raw.takeWhile (fun c => decide (c ≠ 0)) := by
  induction raw with
  | nil => simp
  | cons a l ih =>
    by_cases h : a = 0
    · rw [List.cons_append, List.takeWhile_cons_of_neg (by simpa using h),
        List.takeWhile_cons_of_neg (by simpa using h)]
    · rw [List.cons_append, List.takeWhile_cons_of_pos (by simpa using h),
        List.takeWhile_cons_of_pos (by simpa using h), ih]

theorem takeWhile_set_nul (l : List Nat) :
    ∀ k, k < l.length → (∀ x ∈ l.take k, x ≠ 0) →
      (l.set k 0).takeWhile (fun c => decide (c ≠ 0)) = l.take k := by
  induction l with
  | nil => intro k hk; exact absurd hk (Nat.not_lt_zero k)
  | cons a l ih =>
    intro k hk hall
    cases k with
    | zero => simp
    | succ k =>
      have ha : a ≠ 0 := hall a (by simp)
      rw [List.set_cons_succ, List.takeWhile_cons_of_pos (by simpa using ha), List.take_succ_cons,
        ih k (by simpa using hk) (fun x hx => hall x (by
          rw [List.take_succ_cons]; exact List.mem_cons_of_mem _ hx))]

theorem clean_name_eq (raw : List Nat) : clean_name raw = strip_name raw := by
  obtain ⟨h1, h2, h3⟩ := remove_control_loop_spec (raw.length + 1) (raw ++ [0]) 0 0 (le_refl 0)
    ⟨raw.length, Nat.zero_le _, by simp, by simp⟩ (by simp)
  rw [List.take_zero, List.nil_append, List.drop_zero, takeWhile_append_nul] at h3
  have hnz : ∀ x ∈ (remove_control_loop (raw.length + 1) (raw ++ [0]) 0 0).1.take
      (remove_control_loop (raw.length + 1) (raw ++ [0]) 0 0).2, x ≠ 0 := by
    intro x hx
    rw [h3, List.mem_filter] at hx
    have := hx.2
    simp only [ge_iff_le, gt_iff_lt, Bool.and_eq_true, decide_eq_true_eq] at this
    omega
  have hc := takeWhile_set_nul _ _ (by rw [h1]; exact h2) hnz
  unfold clean_name strip_name
  simp only
  rw [hc, h3]
  by_cases hk : (remove_control_loop (raw.length + 1) (raw ++ [0]) 0 0).2 = 0
  · have he : List.filter (fun c => decide (c ≥ 0x20) && (decide (c < 0x80) || decide (c > 0x9f)))
        (List.takeWhile (fun c => decide (c ≠ 0)) raw) = [] := by
      rw [← h3, hk, List.take_zero]
    rw [if_pos he, hk, if_pos (by
      rw [list_getD_set_same, if_pos (by rw [h1]; simp)])]
  · have he : List.filter (fun c => decide (c ≥ 0x20) && (decide (c < 0x80) || decide (c > 0x9f)))
        (List.takeWhile (fun c => decide (c ≠ 0)) raw) ≠ [] := by
      rw [← h3]
      intro h
      have := congrArg List.length h
      rw [List.length_take, h1] at this
      simp only [List.length_append, List.length_singleton, List.length_nil] at this h2
      omega
    rw [if_neg he, if_neg]
    rw [list_getD_set_other _ _ _ _ _ hk]
    apply hnz
    rw [List.mem_iff_getElem]
    have hpos : 0 < (remove_control_loop (raw.length + 1) (raw ++ [0]) 0 0).2 := by omega
    have hlen : 0 < (List.take (remove_control_loop (raw.length + 1) (raw ++ [0]) 0 0).2
        (remove_control_loop (raw.length + 1) (raw ++ [0]) 0 0).1).length := by
      rw [List.length_take, h1]
      simp only [List.length_append, List.length_singleton] at h2 ⊢
      omega
    refine ⟨0, hlen, ?_⟩
    rw [List.getElem_take, List.getD_eq_getElem _ _ (by rw [h1]; simp)]

theorem strip_name_eq (raw : List Nat) : strip_name raw = without_control (upto_nul raw) := by
  unfold strip_name without_control upto_nul
  have : (fun c => decide (c ≥ 0x20) && (decide (c < 0x80) || decide (c > 0x9f))) =
      (fun c => !is_control c) := by
    funext c
    unfold is_control
    rw [Bool.eq_iff_iff]
    simp only [Bool.and_eq_true, Bool.or_eq_true, Bool.not_eq_true', decide_eq_true_eq,
      Bool.or_eq_false_iff, Bool.and_eq_false_imp, decide_eq_false_iff_not, ge_iff_le, gt_iff_lt]
    omega
  simp only
  rw [this]

theorem upto_nul_all (raw : List Nat) (h : 0 ∉ raw) : upto_nul raw = raw := by
  unfold upto_nul
  rw [List.takeWhile_eq_self_iff]
  intro x hx
  have : x ≠ 0 := fun e => h (e ▸ hx)
  simpa using this

/-- The amended C28: the provider_name and the service_name stored by
parse_service_descriptor are the raw name field, cut at its first zero byte,
with exactly the control characters removed (the bytes below 0x20 and those in
0x80..0x9f) and all other bytes kept in order; a name with nothing left is
stored as NULL.  This is what the clean-up of the code computes by moving the
bytes kept to the front of the copy of the name.  A field without a zero byte
is not cut. -/
theorem service_names_without_control (buf : List Nat) (off : Nat) (s : service) :
    (parse_service_descriptor buf off s).provider_name =
      without_control (upto_nul (rd_bytes buf (off + 4) (rd buf (off + 3)))) ∧
    (parse_service_descriptor buf off s).service_name =
      without_control (upto_nul (rd_bytes buf (off + 4 + rd buf (off + 3) + 1)
        (rd buf (off + 4 + rd buf (off + 3))))) ∧
    (∀ raw, clean_name raw = without_control (upto_nul raw)) ∧
    (∀ raw, 0 ∉ raw → upto_nul raw = raw) := by
  refine ⟨?_, ?_, ?_, upto_nul_all⟩
  · rw [← strip_name_eq]
    rfl
  · rw [← strip_name_eq]
    rfl
  · intro raw
    rw [clean_name_eq, strip_name_eq]

theorem service_names_without_control_witness :
    clean_name [0x43, 0x86, 0x44] = without_control (upto_nul [0x43, 0x86, 0x44]) ∧
    upto_nul [0x43, 0x86, 0x44] = [0x43, 0x86, 0x44] :=
  ⟨(service_names_without_control ex_service_descriptor 0 calloc_service).2.2.1
      [0x43, 0x86, 0x44],
   (service_names_without_control ex_service_descriptor 0 calloc_service).2.2.2
      [0x43, 0x86, 0x44] (by decide)⟩

/-- C28 as stated fails for a name field that holds a zero byte.  The provider
name field of the descriptor is "A", a zero byte, "B": without its control
characters it is "AB", but the name stored is "A", because the clean-up treats
the copy as a C string and ends at the zero byte.  The service name "C", 0x86,
"D" without a zero byte is stored as "CD". -/
theorem name_is_cut_at_zero_byte :
    rd_bytes ex_service_descriptor 4 (rd ex_service_descriptor 3) = [0x41, 0x00, 0x42] ∧
    without_control [0x41, 0x00, 0x42] = some [0x41, 0x42] ∧
    clean_name [0x41, 0x00, 0x42] = some [0x41] ∧
    (parse_service_descriptor ex_service_descriptor 0 calloc_service).provider_name =
      some [0x41] ∧
    (parse_service_descriptor ex_service_descriptor 0 calloc_service).service_name =
      some [0x43, 0x44] := by
  decide

/-! ## C29: the CA identifier descriptor -/

theorem getD_rd_bytes (buf : List Nat) (off n i : Nat) (h : i < n) :
    (rd_bytes buf off n).getD i 0 = rd buf (off + i) := by
  unfold rd_bytes
  rw [List.getD_eq_getElem?_getD, List.getElem?_map, List.getElem?_range h]
  rfl

theorem ca_id_memcpy (buf : List Nat) (off : Nat) (s : service) :
    (parse_ca_identifier_descriptor buf off s).ca_id =
      rd_bytes buf (off + 2) (min (rd buf (off + 1)) 32) ++
        s.ca_id.drop (min (rd buf (off + 1)) 32) := by
  unfold parse_ca_identifier_descriptor
  simp only
  by_cases h : rd buf (off + 1) > 32
  · rw [if_pos h, Nat.min_eq_right (by omega)]
  · rw [if_neg h, Nat.min_eq_left (by omega)]

/-- C29: for a CA identifier descriptor of declared length `len`,
parse_ca_identifier_descriptor copies the first `min(len, 32)` bytes of the
descriptor body to the start of the `ca_id` array, which holds
CA_SYSTEM_ID_MAX = 16 ids of two bytes: these are at most 16 ids, the bytes of
the array behind them are as before, the array keeps its 32 bytes, and no
other field of the service is written. -/
theorem ca_identifier_copy_bounded (buf : List Nat) (off : Nat) (s : service)
    (hlen : s.ca_id.length = 2 * CA_SYSTEM_ID_MAX) :
    (parse_ca_identifier_descriptor buf off s).ca_id.length = 2 * CA_SYSTEM_ID_MAX ∧
    (∀ i, i < min (rd buf (off + 1)) 32 →
      (parse_ca_identifier_descriptor buf off s).ca_id.getD i 0 = rd buf (off + 2 + i)) ∧
    (∀ i, min (rd buf (off + 1)) 32 ≤ i →
      (parse_ca_identifier_descriptor buf off s).ca_id.getD i 0 = s.ca_id.getD i 0) ∧
    min (rd buf (off + 1)) 32 / 2 ≤ CA_SYSTEM_ID_MAX ∧
    { parse_ca_identifier_descriptor buf off s with ca_id := s.ca_id } = s := by
  have hn : min (rd buf (off + 1)) 32 ≤ 32 := Nat.min_le_right _ _
  unfold CA_SYSTEM_ID_MAX at hlen ⊢
  refine ⟨?_, ?_, ?_, by omega, rfl⟩
  · rw [ca_id_memcpy, List.length_append, rd_bytes_length, List.length_drop, hlen]
    omega
  · intro i hi
    rw [ca_id_memcpy, List.getD_append _ _ _ _ (by rw [rd_bytes_length]; exact hi),
      getD_rd_bytes _ _ _ _ hi]
  · intro i hi
    rw [ca_id_memcpy, List.getD_append_right _ _ _ _ (by rw [rd_bytes_length]; exact hi),
      rd_bytes_length, List.getD_eq_getElem?_getD, List.getD_eq_getElem?_getD,
      List.getElem?_drop]
    congr 2
    omega

theorem ca_identifier_copy_bounded_witness :
    (parse_ca_identifier_descriptor ex_ca_descriptor 0 calloc_service).ca_id.length =
      2 * CA_SYSTEM_ID_MAX ∧
    (parse_ca_identifier_descriptor ex_ca_descriptor 0 calloc_service).ca_id.getD 31 0 =
      rd ex_ca_descriptor (0 + 2 + 31) :=
  ⟨(ca_identifier_copy_bounded ex_ca_descriptor 0 calloc_service (by decide)).1,
   (ca_identifier_copy_bounded ex_ca_descriptor 0 calloc_service (by decide)).2.1 31
     (by decide)⟩

/-- The example of C29 evaluated: of the eighteen ids of the descriptor the
first sixteen fill the array and the last two are dropped. -/
theorem ca_identifier_example :
    rd ex_ca_descriptor 1 = 36 ∧
    (parse_ca_identifier_descriptor ex_ca_descriptor 0 calloc_service).ca_id =
      (List.range 16).flatMap (fun i => [i + 1, i + 1]) := by
  decide

/-! ## C30: the alternative frequencies of a transponder -/

theorem tp_at_tp_store_ne (net : net_model) (p q : Nat) (x : transponder) (h : q ≠ p) :
    tp_at (tp_store net p x) q = tp_at net q := by
  unfold tp_at tp_store
  exact list_getD_set_other _ _ _ _ _ (Ne.symm h)

theorem same_tuning_refl (x : transponder) : same_tuning x x := ⟨rfl, rfl, rfl, rfl, rfl⟩

theorem same_tuning_trans (x y z : transponder) (h1 : same_tuning x y) (h2 : same_tuning y z) :
    same_tuning x z :=
  ⟨h1.1.trans h2.1, h1.2.1.trans h2.2.1, h1.2.2.1.trans h2.2.2.1, h1.2.2.2.1.trans h2.2.2.2.1,
    h1.2.2.2.2.trans h2.2.2.2.2⟩

/-- A store through `t` of a record that agrees with the one stored there on
the tuning data leaves the tuning data of `t` as they are, whether the pointer
is valid or not. -/
theorem same_tuning_store (net : net_model) (t : Nat) (x : transponder)
    (h : same_tuning x (tp_at net t)) : same_tuning (tp_at (tp_store net t x) t) (tp_at net t) := by
  by_cases hv : t < net.transponders.length
  · rw [tp_at_tp_store _ _ _ hv]
    exact h
  · rw [tp_store_invalid _ _ _ hv]
    exact same_tuning_refl _

theorem tune_keeps_refl (t : Nat) (a : tuner) : tune_keeps t a a :=
  ⟨rfl, fun _ _ => rfl, same_tuning_refl _, rfl⟩

theorem tune_keeps_trans (t : Nat) (a b c : tuner) (h1 : tune_keeps t a b)
    (h2 : tune_keeps t b c) : tune_keeps t a c :=
  ⟨h2.1.trans h1.1, fun p hp => (h2.2.1 p hp).trans (h1.2.1 p hp),
    same_tuning_trans _ _ _ h2.2.2.1 h1.2.2.1, h2.2.2.2.trans h1.2.2.2⟩

/-- A store through `t` that keeps the tuning data is kept by tune_keeps. -/
theorem tune_keeps_store (t : Nat) (a : tuner) (net : net_model) (x : transponder) (fe : List fe_call)
    (hnet : net.transponders = a.net.transponders)
    (h : same_tuning x (tp_at a.net t)) :
    tune_keeps t a { net := tp_store net t x, fe := fe, retrying := a.retrying } := by
  have e : ∀ p, tp_at net p = tp_at a.net p := fun p => by unfold tp_at; rw [hnet]
  refine ⟨?_, ?_, ?_, rfl⟩
  · show (tp_store net t x).transponders.length = _
    rw [(tp_store_valid net t x).2.1, hnet]
  · intro p hp
    show tp_at (tp_store net t x) p = _
    rw [tp_at_tp_store_ne _ _ _ _ hp, e]
  · show same_tuning (tp_at (tp_store net t x) t) _
    rw [← e t] at h ⊢
    exact same_tuning_store net t x h

theorem never_locks_tail (fe : List fe_call) (h : never_locks fe) : never_locks fe.tail :=
  fun c hc => h c (List.mem_of_mem_tail hc)

theorem tune_once_fails (t : Nat) (st : tuner) (h : never_locks st.fe) :
    (__tune_to_transponder t st).1 = -1 ∧
    never_locks (__tune_to_transponder t st).2.fe ∧
    tune_keeps t st (__tune_to_transponder t st).2 := by
  unfold __tune_to_transponder
  simp only
  by_cases hz : (tp_at { st.net with current_tp := t } t).param = zero_param
  · rw [if_pos hz]
    exact ⟨rfl, h, ⟨rfl, fun _ _ => rfl, same_tuning_refl _, rfl⟩⟩
  · rw [if_neg hz]
    by_cases hs : (st.fe.headD { set_frontend := -1, status := [] }).set_frontend = -1
    · rw [if_pos hs]
      exact ⟨rfl, never_locks_tail _ h, ⟨rfl, fun _ _ => rfl, same_tuning_refl _, rfl⟩⟩
    · rw [if_neg hs]
      have hne : wait_for_lock 10 (st.fe.headD { set_frontend := -1, status := [] }).status
          ≠ some 0 := by
        cases hfe : st.fe with
        | nil => rw [hfe] at hs; exact absurd rfl hs
        | cons c rest =>
          rw [hfe] at hs
          have hc := h c (by rw [hfe]; exact List.mem_cons_self _ _)
          unfold fe_fails at hc
          simp only [List.headD_cons] at hs ⊢
          simpa [hs] using hc
      cases hw : wait_for_lock 10 (st.fe.headD { set_frontend := -1, status := [] }).status with
      | none =>
        refine ⟨rfl, never_locks_tail _ h, ?_⟩
        exact tune_keeps_store t st { st.net with current_tp := t } _ st.fe.tail rfl
          ⟨rfl, rfl, rfl, rfl, rfl⟩
      | some r =>
        have hr : r ≠ 0 := fun e => hne (by rw [hw, e])
        simp only
        rw [if_neg hr]
        exact ⟨rfl, never_locks_tail _ h, ⟨rfl, fun _ _ => rfl, same_tuning_refl _, rfl⟩⟩

theorem mark_scanned_keeps (t : Nat) (st : tuner) :
    tune_keeps t st { st with net := mark_scanned t st.net } := by
  unfold mark_scanned
  exact tune_keeps_store t st _ _ st.fe rfl ⟨rfl, rfl, rfl, rfl, rfl⟩

theorem tune_to_transponder_fails (cfg : config) (t : Nat) (st : tuner)
    (h : never_locks st.fe) :
    (tune_to_transponder cfg t st).1 = -1 ∧
    never_locks (tune_to_transponder cfg t st).2.fe ∧
    tune_keeps t st (tune_to_transponder cfg t st).2 := by
  have k1 := mark_scanned_keeps t st
  unfold tune_to_transponder
  simp only
  split
  · refine ⟨rfl, h, ?_⟩
    apply tune_keeps_trans t st _ _ k1
    exact tune_keeps_store t _ _ _ st.fe rfl ⟨rfl, rfl, rfl, rfl, rfl⟩
  · obtain ⟨a1, a2, a3⟩ := tune_once_fails t { st with net := mark_scanned t st.net } h
    rw [if_neg (by rw [a1]; decide)]
    obtain ⟨b1, b2, b3⟩ := tune_once_fails t _ a2
    exact ⟨b1, b2, tune_keeps_trans t _ _ _ (tune_keeps_trans t _ _ _ k1 a3) b3⟩

theorem retune_keeps (t f : Nat) (st : tuner) (p : Nat) (hp : p ≠ t) :
    tp_at (retune t f st).net p = tp_at st.net p ∧
    (retune t f st).net.transponders.length = st.net.transponders.length ∧
    (retune t f st).fe = st.fe := by
  unfold retune
  exact ⟨tp_at_tp_store_ne _ _ _ _ hp, (tp_store_valid _ _ _).2.1, rfl⟩

theorem retune_at (t f : Nat) (st : tuner) (h : t < st.net.transponders.length) :
    tp_at (retune t f st).net t =
      { tp_at st.net t with
        param := { (tp_at st.net t).param with frequency := f },
        n_other_f := (tp_at st.net t).n_other_f - 1 } := by
  unfold retune
  exact tp_at_tp_store _ _ _ h

theorem next_other_f_eq (t : Nat) (st : tuner) (l : List Nat)
    (h : (tp_at st.net t).other_f = some l) :
    next_other_f t st = retune t (l.getD ((tp_at st.net t).n_other_f - 1) 0) st := by
  unfold next_other_f retune
  simp only
  rw [h]
  rfl

/-- The retries of one transponder when the frontend never locks: from a state
in which `t` has the alternatives `l` of which `k` are left, the body of the
loop of tune_to_next_transponder ends with -1 after the attempt at the present
frequency and one attempt at each of the `k` alternatives left, the last
first. -/
theorem tune_retry_fails (cfg : config) (t : Nat) (l : List Nat) (k : Nat) :
    ∀ (fuel : Nat) (st : tuner), never_locks st.fe → t < st.net.transponders.length →
      (tp_at st.net t).other_frequency_flag ≠ 0 → (tp_at st.net t).other_f = some l →
      (tp_at st.net t).n_other_f = k → k ≤ l.length → k < fuel →
      tune_retry cfg t fuel st = some (-1,
        (l.take k).reverse.foldl (fun s f => (tune_to_transponder cfg t (retune t f s)).2)
          (tune_to_transponder cfg t st).2) := by
  induction k with
  | zero =>
    intro fuel st hf _ _ _ hn _ hfuel
    obtain ⟨fuel, rfl⟩ := Nat.exists_eq_succ_of_ne_zero (by omega : fuel ≠ 0)
    obtain ⟨a1, _, a3⟩ := tune_to_transponder_fails cfg t st hf
    rw [tune_retry]
    simp only
    rw [if_neg (by rw [a1]; decide), if_neg (by
      rw [a3.2.2.1.2.2.2.2, hn]
      simp)]
    rfl
  | succ k ih =>
    intro fuel st hf hv hflag hl hn hk hfuel
    obtain ⟨fuel, rfl⟩ := Nat.exists_eq_succ_of_ne_zero (by omega : fuel ≠ 0)
    obtain ⟨a1, a2, a3⟩ := tune_to_transponder_fails cfg t st hf
    obtain ⟨k1, k2, ⟨_, _, k3, k4, k5⟩, _⟩ := a3
    rw [tune_retry]
    simp only
    rw [if_neg (by rw [a1]; decide), if_pos ⟨by rw [k3]; exact hflag, by rw [k4, hl]; rfl,
      by rw [k5, hn]; omega⟩]
    rw [next_other_f_eq t _ l (by rw [k4, hl]), k5, hn, Nat.add_sub_cancel]
    have hv2 : t < (tune_to_transponder cfg t st).2.net.transponders.length := by
      rw [k1]; exact hv
    have hat := retune_at t (l.getD k 0) (tune_to_transponder cfg t st).2 hv2
    rw [ih fuel (retune t (l.getD k 0) (tune_to_transponder cfg t st).2)
      (by rw [(retune_keeps t _ _ (t + 1) (by omega)).2.2]; exact a2)
      (by rw [(retune_keeps t _ _ (t + 1) (by omega)).2.1]; exact hv2)
      (by rw [hat]; show (tp_at _ t).other_frequency_flag ≠ 0; rw [k3]; exact hflag)
      (by rw [hat]; show (tp_at _ t).other_f = _; rw [k4, hl])
      (by rw [hat]; show (tp_at _ t).n_other_f - 1 = k; rw [k5, hn]; omega)
      (by omega) (by omega)]
    have ht : l.take (k + 1) = l.take k ++ [l.getD k 0] := by
      rw [List.take_succ, List.getD_eq_getElem?_getD]
      have : k < l.length := by omega
      rw [List.getElem?_eq_getElem this]
      rfl
    rw [ht, List.reverse_append, List.reverse_singleton, List.singleton_append, List.foldl_cons]

theorem next_other_f_keeps (t : Nat) (st : tuner) (p : Nat) (hp : p ≠ t) :
    tp_at (next_other_f t st).net p = tp_at st.net p ∧
    (next_other_f t st).net.transponders.length = st.net.transponders.length ∧
    (next_other_f t st).fe = st.fe := by
  unfold next_other_f
  exact ⟨tp_at_tp_store_ne _ _ _ _ hp, (tp_store_valid _ _ _).2.1, rfl⟩

theorem next_other_f_count (t : Nat) (st : tuner) (h : t < st.net.transponders.length) :
    (tp_at (next_other_f t st).net t).n_other_f = (tp_at st.net t).n_other_f - 1 := by
  unfold next_other_f
  simp only
  rw [tp_at_tp_store _ _ _ h]

/-- The retries of any transponder end when the frontend never locks: each
retry decrements `n_other_f`, so a fuel above it is never used up; the other
transponders are not touched. -/
theorem tune_retry_ends (cfg : config) (p : Nat) (k : Nat) :
    ∀ (fuel : Nat) (st : tuner), never_locks st.fe → (tp_at st.net p).n_other_f = k →
      k < fuel →
      ∃ s, tune_retry cfg p fuel st = some (-1, s) ∧ never_locks s.fe ∧
        s.net.transponders.length = st.net.transponders.length ∧
        ∀ q, q ≠ p → tp_at s.net q = tp_at st.net q := by
  induction k with
  | zero =>
    intro fuel st hf hn hfuel
    obtain ⟨fuel, rfl⟩ := Nat.exists_eq_succ_of_ne_zero (by omega : fuel ≠ 0)
    obtain ⟨a1, a2, a3⟩ := tune_to_transponder_fails cfg p st hf
    rw [tune_retry]
    simp only
    rw [if_neg (by rw [a1]; decide), if_neg (by
      rw [a3.2.2.1.2.2.2.2, hn]
      simp)]
    exact ⟨_, rfl, a2, a3.1, a3.2.1⟩
  | succ k ih =>
    intro fuel st hf hn hfuel
    obtain ⟨fuel, rfl⟩ := Nat.exists_eq_succ_of_ne_zero (by omega : fuel ≠ 0)
    obtain ⟨a1, a2, a3⟩ := tune_to_transponder_fails cfg p st hf
    rw [tune_retry]
    simp only
    rw [if_neg (by rw [a1]; decide)]
    split
    · rename_i hc
      have hv : p < (tune_to_transponder cfg p st).2.net.transponders.length := by
        by_contra hv
        rw [tp_at_default _ _ hv] at hc
        exact hc.1 rfl
      obtain ⟨s, e1, e2, e3, e4⟩ := ih fuel (next_other_f p (tune_to_transponder cfg p st).2)
        (by rw [(next_other_f_keeps p _ (p + 1) (by omega)).2.2]; exact a2)
        (by rw [next_other_f_count p _ hv, a3.2.2.1.2.2.2.2, hn]; rfl)
        (by omega)
      refine ⟨s, e1, e2, ?_, ?_⟩
      · rw [e3, (next_other_f_keeps p _ (p + 1) (by omega)).2.1, a3.1]
      · intro q hq
        rw [e4 q hq, (next_other_f_keeps p _ q hq).1, a3.2.1 q hq]
    · exact ⟨_, rfl, a2, a3.1, a3.2.1⟩

theorem tune_to_next_loop_fails (cfg : config) (l : List Nat) :
    ∀ st : tuner, never_locks st.fe →
      ∃ s, tune_to_next_loop cfg l st = some (-1, s) ∧ never_locks s.fe ∧
        s.net.transponders.length = st.net.transponders.length ∧
        ∀ q, q ∉ l → tp_at s.net q = tp_at st.net q := by
  induction l with
  | nil => intro st hf; exact ⟨st, rfl, hf, rfl, fun _ _ => rfl⟩
  | cons p rest ih =>
    intro st hf
    obtain ⟨s1, e1, e2, e3, e4⟩ := tune_retry_ends cfg p _ ((tp_at st.net p).n_other_f + 1) st hf
      rfl (by omega)
    obtain ⟨s2, f1, f2, f3, f4⟩ := ih s1 e2
    rw [tune_to_next_loop, e1]
    simp only
    rw [if_neg (by decide)]
    refine ⟨s2, f1, f2, by rw [f3, e3], ?_⟩
    intro q hq
    rw [List.mem_cons, not_or] at hq
    rw [f4 q hq.2, e4 q hq.1]

theorem tune_to_next_loop_append (cfg : config) (pre rest : List Nat) :
    ∀ (st s1 : tuner), tune_to_next_loop cfg pre st = some (-1, s1) →
      tune_to_next_loop cfg (pre ++ rest) st = tune_to_next_loop cfg rest s1 := by
  induction pre with
  | nil =>
    intro st s1 h
    rw [tune_to_next_loop] at h
    injection h with h
    injection h with _ h
    rw [List.nil_append, h]
  | cons p pre ih =>
    intro st s1 h
    rw [List.cons_append, tune_to_next_loop]
    rw [tune_to_next_loop] at h
    cases hr : tune_retry cfg p ((tp_at st.net p).n_other_f + 1) st with
    | none => rw [hr] at h; exact absurd h (by simp)
    | some r =>
      rw [hr] at h
      simp only at h ⊢
      by_cases h0 : r.1 = 0
      · rw [if_pos h0] at h
        injection h with h
        injection h with h _
        exact absurd h (by decide)
      · rw [if_neg h0] at h
        rw [if_neg h0]
        exact ih _ _ h

/-- The attempts at the alternative frequencies `fs`, one after the other, from
a state in which `t` is a valid pointer: the frequencies are reported in this
order, `n_other_f` is decremented once for each, and the frequency of `t` ends
as the last of them. -/
theorem retries_foldl (cfg : config) (t : Nat) (fs : List Nat) :
    ∀ s : tuner, never_locks s.fe → t < s.net.transponders.length →
      (fs.foldl (fun s f => (tune_to_transponder cfg t (retune t f s)).2) s).retrying =
        s.retrying ++ fs ∧
      (tp_at (fs.foldl (fun s f => (tune_to_transponder cfg t (retune t f s)).2) s).net
        t).n_other_f = (tp_at s.net t).n_other_f - fs.length ∧
      (tp_at (fs.foldl (fun s f => (tune_to_transponder cfg t (retune t f s)).2) s).net
        t).param.frequency = fs.getLastD (tp_at s.net t).param.frequency := by
  induction fs with
  | nil => intro s _ _; exact ⟨(List.append_nil _).symm, rfl, rfl⟩
  | cons f rest ih =>
    intro s hf hv
    rw [List.foldl_cons]
    have hfe : never_locks (retune t f s).fe := by
      rw [(retune_keeps t f s (t + 1) (by omega)).2.2]; exact hf
    obtain ⟨_, a2, a3⟩ := tune_to_transponder_fails cfg t (retune t f s) hfe
    have hlen : (tune_to_transponder cfg t (retune t f s)).2.net.transponders.length =
        s.net.transponders.length := by
      rw [a3.1, (retune_keeps t f s (t + 1) (by omega)).2.1]
    obtain ⟨i1, i2, i3⟩ := ih (tune_to_transponder cfg t (retune t f s)).2 a2
      (by rw [hlen]; exact hv)
    have hat := retune_at t f s hv
    refine ⟨?_, ?_, ?_⟩
    · rw [i1, a3.2.2.2]
      show s.retrying ++ [f] ++ rest = _
      rw [List.append_assoc]
      rfl
    · rw [i2, a3.2.2.1.2.2.2.2, hat, List.length_cons]
      show (tp_at s.net t).n_other_f - 1 - rest.length = _
      omega
    · rw [i3, a3.2.2.1.2.1, hat]
      show rest.getLastD f = _
      cases rest with
      | nil => rfl
      | cons x r => rfl

/-- C30: `t` is a transponder of `new_transponders` (a valid pointer, linked
once) with the other_frequency flag set and the alternatives `a`, all of them
left, and the frontend never locks.  Then tune_to_next_transponder, having
failed on the transponders before `t`, calls tune_to_transponder for `t` at its
original frequency and then once for each alternative, from the last of `a`
to the first: the state `s2` after the retries is the result of these calls in
this order, the frequencies are reported in this order, `n_other_f` has been
decremented to 0 and the frequency of `t` is the first alternative (the
original one when there is none).  The retries end for every fuel above the
number of alternatives, the loop goes on with the transponders behind `t`, and
the function returns -1. -/
theorem tune_retries_other_frequencies (cfg : config) (st : tuner) (pre : List Nat) (t : Nat)
    (post : List Nat) (a : List Nat)
    (hnew : st.net.new_transponders = pre ++ t :: post)
    (hnd : st.net.new_transponders.Nodup)
    (hvalid : t < st.net.transponders.length)
    (hflag : (tp_at st.net t).other_frequency_flag ≠ 0)
    (hother : (tp_at st.net t).other_f = some a)
    (hn : (tp_at st.net t).n_other_f = a.length)
    (hfail : never_locks st.fe) :
    ∃ s1 s2 s3,
      tune_to_next_loop cfg pre st = some (-1, s1) ∧
      tp_at s1.net t = tp_at st.net t ∧
      (∀ fuel, a.length < fuel → tune_retry cfg t fuel s1 = some (-1, s2)) ∧
      s2 = a.reverse.foldl (fun s f => (tune_to_transponder cfg t (retune t f s)).2)
        (tune_to_transponder cfg t s1).2 ∧
      s2.retrying = s1.retrying ++ a.reverse ∧
      (tp_at s2.net t).n_other_f = 0 ∧
      (tp_at s2.net t).param.frequency = a.headD (tp_at st.net t).param.frequency ∧
      tune_to_next_transponder cfg st = tune_to_next_loop cfg post s2 ∧
      tune_to_next_transponder cfg st = some (-1, s3) := by
  have htpre : t ∉ pre := by
    rw [hnew] at hnd
    intro hm
    have := (List.nodup_append.mp hnd).2.2 hm (List.mem_cons_self _ _)
    exact this
  obtain ⟨s1, e1, e2, e3, e4⟩ := tune_to_next_loop_fails cfg pre st hfail
  have hat : tp_at s1.net t = tp_at st.net t := e4 t htpre
  have hv1 : t < s1.net.transponders.length := by rw [e3]; exact hvalid
  have hretry : ∀ fuel, a.length < fuel → tune_retry cfg t fuel s1 = some (-1,
      a.reverse.foldl (fun s f => (tune_to_transponder cfg t (retune t f s)).2)
        (tune_to_transponder cfg t s1).2) := by
    intro fuel hfuel
    have := tune_retry_fails cfg t a a.length fuel s1 e2 hv1 (by rw [hat]; exact hflag)
      (by rw [hat]; exact hother) (by rw [hat]; exact hn) (le_refl _) hfuel
    rw [List.take_length] at this
    exact this
  obtain ⟨b1, b2, b3⟩ := tune_to_transponder_fails cfg t s1 e2
  obtain ⟨r1, r2, r3⟩ := retries_foldl cfg t a.reverse (tune_to_transponder cfg t s1).2 b2
    (by rw [b3.1]; exact hv1)
  obtain ⟨s2', g1, g2, _, _⟩ := tune_retry_ends cfg t a.length (a.length + 1) s1 e2
    (by rw [hat]; exact hn) (by omega)
  have hs2 : s2' = a.reverse.foldl (fun s f => (tune_to_transponder cfg t (retune t f s)).2)
      (tune_to_transponder cfg t s1).2 := by
    have := hretry (a.length + 1) (by omega)
    rw [g1] at this
    injection this with this
    injection this
  have hstep : tune_to_next_loop cfg (t :: post) s1 =
      tune_to_next_loop cfg post (a.reverse.foldl
        (fun s f => (tune_to_transponder cfg t (retune t f s)).2)
        (tune_to_transponder cfg t s1).2) := by
    rw [tune_to_next_loop, hat, hn, hretry (a.length + 1) (by omega)]
    simp only
    rw [if_neg (by decide)]
  have hwhole : tune_to_next_transponder cfg st =
      tune_to_next_loop cfg post (a.reverse.foldl
        (fun s f => (tune_to_transponder cfg t (retune t f s)).2)
        (tune_to_transponder cfg t s1).2) := by
    unfold tune_to_next_transponder
    rw [hnew, tune_to_next_loop_append cfg pre (t :: post) st s1 e1, hstep]
  obtain ⟨s3, k1, _⟩ := tune_to_next_loop_fails cfg post _ (hs2 ▸ g2)
  refine ⟨s1, _, s3, e1, hat, hretry, rfl, ?_, ?_, ?_, hwhole, hwhole.trans k1⟩
  · rw [r1, b3.2.2.2]
  · rw [r2, b3.2.2.1.2.2.2.2, hat, hn, List.length_reverse]
    omega
  · rw [r3, b3.2.2.1.2.1, hat]
    cases a with
    | nil => rfl
    | cons x r =>
      rw [List.getLastD_eq_getLast?, List.getLast?_reverse]
      rfl

set_option maxRecDepth 100000 in
theorem tune_retries_other_frequencies_witness :
    ∃ s1 s2 s3,
      tune_to_next_loop ex_cfg [1] ex_tuner = some (-1, s1) ∧
      tp_at s1.net 2 = tp_at ex_tuner.net 2 ∧
      (∀ fuel, [514000000, 522000000, 530000000].length < fuel →
        tune_retry ex_cfg 2 fuel s1 = some (-1, s2)) ∧
      s2 = [514000000, 522000000, 530000000].reverse.foldl
        (fun s f => (tune_to_transponder ex_cfg 2 (retune 2 f s)).2)
        (tune_to_transponder ex_cfg 2 s1).2 ∧
      s2.retrying = s1.retrying ++ [514000000, 522000000, 530000000].reverse ∧
      (tp_at s2.net 2).n_other_f = 0 ∧
      (tp_at s2.net 2).param.frequency =
        [514000000, 522000000, 530000000].headD (tp_at ex_tuner.net 2).param.frequency ∧
      tune_to_next_transponder ex_cfg ex_tuner = tune_to_next_loop ex_cfg [] s2 ∧
      tune_to_next_transponder ex_cfg ex_tuner = some (-1, s3) :=
  tune_retries_other_frequencies ex_cfg ex_tuner [1] 2 [] [514000000, 522000000, 530000000]
    (by decide) (by decide) (by decide) (by decide) (by decide) (by decide) (by decide)

set_option maxRecDepth 100000 in
/-- The example of C30 evaluated: with the transponders 1 (618 MHz, no
alternatives) and 2 (506 MHz with the alternatives 514, 522 and 530 MHz) new
and a frontend that never locks, tune_to_next_transponder returns -1, has
reported the retries at 530, 522 and 514 MHz in this order, has moved both
transponders to the scanned list, and leaves transponder 2 at 514 MHz with no
alternative left. -/
theorem tune_to_next_example :
    (tune_to_next_transponder ex_cfg ex_tuner).map (fun r => r.1) = some (-1) ∧
    (tune_to_next_transponder ex_cfg ex_tuner).map (fun r => r.2.retrying) =
      some [530000000, 522000000, 514000000] ∧
    (tune_to_next_transponder ex_cfg ex_tuner).map (fun r => r.2.net.new_transponders) =
      some [] ∧
    (tune_to_next_transponder ex_cfg ex_tuner).map (fun r => r.2.net.scanned_transponders) =
      some [0, 1, 2] ∧
    (tune_to_next_transponder ex_cfg ex_tuner).map
      (fun r => ((tp_at r.2.net 2).param.frequency, (tp_at r.2.net 2).n_other_f,
        (tp_at r.2.net 2).scan_done)) = some (514000000, 0, 1) := by
  decide

/-! ## C31: a new version resets the reassembly state -/

/-- A bitmap with the single bit `n` set has all of `0..last` set only for
`n = 0` and `last = 0`. -/
theorem all_sections_seen_single (n last : Nat) (hn : n < 256) :
    all_sections_seen (set_bit (List.replicate 32 0) n) last = true ↔ n = 0 ∧ last = 0 := by
  rw [all_sections_seen_iff]
  constructor
  · intro h
    have h0 : n = 0 := by
      by_contra hne
      have := h 0 (Nat.zero_le _)
      rw [get_bit_set_bit_other _ _ _ (fun e => hne e.symm), get_bit_zero] at this
      exact this rfl
    refine ⟨h0, ?_⟩
    by_contra hl
    have := h 1 (by omega)
    rw [get_bit_set_bit_other _ _ _ (by omega), get_bit_zero] at this
    exact this rfl
  · rintro ⟨rfl, rfl⟩ i hi
    have : i = 0 := by omega
    subst this
    rw [get_bit_set_bit_same _ _ (by simp)]
    norm_num

/-- The state after version_check found a difference and the section was
recorded. -/
theorem update_state_reset (s : section_buf) (ext ver : Int) (n last : Nat)
    (hchg : s.section_version_number ≠ ver ∨ s.table_id_ext ≠ ext) (hn : n < 256) :
    (∀ i, get_bit (version_check s ext ver).section_done i = 0) ∧
    (version_check s ext ver).sectionfilter_done = 0 ∧
    (update_state s ext ver n last).section_version_number = ver ∧
    (update_state s ext ver n last).table_id_ext = ext ∧
    (∀ i, get_bit (update_state s ext ver n last).section_done i = if i = n then 1 else 0) ∧
    (update_state s ext ver n last).sectionfilter_done = (if n = 0 ∧ last = 0 then 1 else 0) := by
  have hu := update_state_fields s ext ver n last
  refine ⟨?_, ?_, hu.2.1, hu.1, ?_, ?_⟩
  · intro i
    unfold version_check
    rw [if_pos hchg]
    exact get_bit_zero i
  · unfold version_check
    rw [if_pos hchg]
  · intro i
    unfold update_state record_state version_check
    rw [if_pos hchg]
    simp only
    rw [if_pos (get_bit_zero n)]
    have hbit : get_bit (set_bit (List.replicate 32 0) n) i = if i = n then 1 else 0 := by
      by_cases hi : i = n
      · rw [if_pos hi, hi, get_bit_set_bit_same _ _ (by simp; omega)]
      · rw [if_neg hi, get_bit_set_bit_other _ _ _ hi, get_bit_zero]
    split
    · exact hbit
    · exact hbit
  · unfold update_state record_state version_check
    rw [if_pos hchg]
    simp only
    rw [if_pos (get_bit_zero n)]
    by_cases hz : n = 0 ∧ last = 0
    · rw [if_pos hz]
      have : all_sections_seen (mark_section n
          { s with table_id_ext := ext, section_version_number := ver, sectionfilter_done := 0,
                   section_done := List.replicate 32 0 }).section_done last = true :=
        (all_sections_seen_single n last hn).mpr hz
      rw [if_pos this]
      rfl
    · rw [if_neg hz]
      have : ¬ all_sections_seen (mark_section n
          { s with table_id_ext := ext, section_version_number := ver, sectionfilter_done := 0,
                   section_done := List.replicate 32 0 }).section_done last = true :=
        fun h => hz ((all_sections_seen_single n last hn).mp h)
      rw [if_neg this]
      rfl

/-- C31: the filter at `sp` holds in its buffer a section of its table, and
the state parse_section selects for it (the filter itself unless the filter is
segmented and has seen another table_id_ext) stores another version number or
another table_id_ext than the section.  Then parse_section first clears the
whole bitmap and the done flag (version_check) and then records the section:
afterwards the state stores the version and the table_id_ext of the section,
bit `i` of its bitmap is set exactly for `i = section_number`, and its done
flag is 1 if `section_number = 0` and `last_section_number = 0` and 0
otherwise.  On a filter that is not segmented the selected state is the filter
itself, whichever of the two fields differs. -/
theorem version_change_resets_state (cfg : config) (sp : Nat) (st : scan_state)
    (hne : chain_at st.flt sp ≠ [])
    (htid : (seg_at st.flt sp 0).table_id = hdr_tid (seg_at st.flt sp 0).buf)
    (hchg : (selected_state st sp).section_version_number ≠ hdr_ver (seg_at st.flt sp 0).buf ∨
      (selected_state st sp).table_id_ext ≠ hdr_ext (seg_at st.flt sp 0).buf) :
    seg_at (parse_section cfg sp st).2.flt sp (selected_pos st sp) =
      record_state
        (version_check (selected_state st sp) (hdr_ext (seg_at st.flt sp 0).buf)
          (hdr_ver (seg_at st.flt sp 0).buf))
        (rd (seg_at st.flt sp 0).buf 6) (rd (seg_at st.flt sp 0).buf 7) ∧
    (∀ i, get_bit (version_check (selected_state st sp) (hdr_ext (seg_at st.flt sp 0).buf)
      (hdr_ver (seg_at st.flt sp 0).buf)).section_done i = 0) ∧
    (version_check (selected_state st sp) (hdr_ext (seg_at st.flt sp 0).buf)
      (hdr_ver (seg_at st.flt sp 0).buf)).sectionfilter_done = 0 ∧
    (seg_at (parse_section cfg sp st).2.flt sp (selected_pos st sp)).section_version_number =
      hdr_ver (seg_at st.flt sp 0).buf ∧
    (seg_at (parse_section cfg sp st).2.flt sp (selected_pos st sp)).table_id_ext =
      hdr_ext (seg_at st.flt sp 0).buf ∧
    (∀ i, get_bit (seg_at (parse_section cfg sp st).2.flt sp (selected_pos st sp)).section_done i =
      if i = rd (seg_at st.flt sp 0).buf 6 then 1 else 0) ∧
    (seg_at (parse_section cfg sp st).2.flt sp (selected_pos st sp)).sectionfilter_done =
      (if rd (seg_at st.flt sp 0).buf 6 = 0 ∧ rd (seg_at st.flt sp 0).buf 7 = 0 then 1 else 0) ∧
    ((seg_at st.flt sp 0).segmented = false →
      selected_pos st sp = 0 ∧ selected_state st sp = seg_at st.flt sp 0) := by
  have hsp := lt_length_of_chain_ne_nil _ _ hne
  have hpc := (parse_section_chain cfg sp st hsp).2.1
  have hre := reassemble_eq (chain_at st.flt sp) (seg_at st.flt sp 0).buf hne rfl htid
  rw [hre] at hpc
  have hb := chain_enter_bound (chain_at st.flt sp) (hdr_tid (seg_at st.flt sp 0).buf)
    (hdr_ext (seg_at st.flt sp 0).buf) (hdr_ver (seg_at st.flt sp 0).buf) hne
  have hk : seg_at (parse_section cfg sp st).2.flt sp (selected_pos st sp) =
      update_state (selected_state st sp) (hdr_ext (seg_at st.flt sp 0).buf)
        (hdr_ver (seg_at st.flt sp 0).buf) (rd (seg_at st.flt sp 0).buf 6)
        (rd (seg_at st.flt sp 0).buf 7) := by
    simp only at hpc
    have e : seg_at (parse_section cfg sp st).2.flt sp (selected_pos st sp) =
        (chain_at (parse_section cfg sp st).2.flt sp).getD (selected_pos st sp)
          calloc_section_buf := rfl
    rw [e, hpc]
    exact (list_getD_set_same _ _ _ _).trans (if_pos hb)
  have hr := update_state_reset (selected_state st sp) (hdr_ext (seg_at st.flt sp 0).buf)
    (hdr_ver (seg_at st.flt sp 0).buf) (rd (seg_at st.flt sp 0).buf 6)
    (rd (seg_at st.flt sp 0).buf 7) hchg (rd_lt _ _)
  rw [hk]
  refine ⟨rfl, hr.1, hr.2.1, hr.2.2.1, hr.2.2.2.1, hr.2.2.2.2.1, hr.2.2.2.2.2, ?_⟩
  intro hseg
  unfold selected_state selected_pos
  have hsel : select_segment (chain_at st.flt sp) (hdr_tid (seg_at st.flt sp 0).buf)
      (hdr_ext (seg_at st.flt sp 0).buf) (hdr_ver (seg_at st.flt sp 0).buf) =
      (chain_at st.flt sp, 0) := by
    unfold seg_at at hseg
    unfold select_segment
    simp only
    rw [if_neg (by rw [hseg]; simp)]
  rw [hsel]
  exact ⟨rfl, rfl⟩

set_option maxRecDepth 100000 in
theorem version_change_resets_state_witness :
    (∀ i, get_bit (seg_at (parse_section ex_cfg 0 ex_pat_reversioned).2.flt 0
      (selected_pos ex_pat_reversioned 0)).section_done i =
      if i = rd (seg_at ex_pat_reversioned.flt 0 0).buf 6 then 1 else 0) ∧
    (seg_at (parse_section ex_cfg 0 ex_pat_reversioned).2.flt 0
      (selected_pos ex_pat_reversioned 0)).sectionfilter_done =
      (if rd (seg_at ex_pat_reversioned.flt 0 0).buf 6 = 0 ∧
        rd (seg_at ex_pat_reversioned.flt 0 0).buf 7 = 0 then 1 else 0) :=
  ⟨(version_change_resets_state ex_cfg 0 ex_pat_reversioned (by decide) (by decide)
      (by decide)).2.2.2.2.2.1,
   (version_change_resets_state ex_cfg 0 ex_pat_reversioned (by decide) (by decide)
      (by decide)).2.2.2.2.2.2.1⟩

set_option maxRecDepth 100000 in
/-- The example: section 0 of version 0 sets bit 0; after section 1 of version
1 only bit 1 is set and the stored version is 1. -/
theorem version_change_example :
    (seg_at ex_pat_reversioned.flt 0 0).section_version_number = 0 ∧
    get_bit (seg_at ex_pat_reversioned.flt 0 0).section_done 0 = 1 ∧
    (seg_at (parse_section ex_cfg 0 ex_pat_reversioned).2.flt 0 0).section_version_number = 1 ∧
    get_bit (seg_at (parse_section ex_cfg 0 ex_pat_reversioned).2.flt 0 0).section_done 0 = 0 ∧
    get_bit (seg_at (parse_section ex_cfg 0 ex_pat_reversioned).2.flt 0 0).section_done 1 = 1 := by
  decide

/-! ## C32: a NIT with an inconsistent descriptor loop -/

theorem parse_nit_loop_foldl (cfg : config) (buf : List Nat) (nid : Int) (fuel : Nat) :
    ∀ (off : Nat) (sl : Int) (net : net_model),
      parse_nit_loop cfg buf nid fuel off sl net =
        (nit_offsets buf fuel off sl).foldl (fun net o => parse_nit_entry cfg buf nid o net) net := by
  induction fuel with
  | zero => intro off sl net; rfl
  | succ fuel ih =>
    intro off sl net
    rw [parse_nit_loop, nit_offsets]
    by_cases h : sl > 6
    · rw [if_pos h, if_pos h]
      simp only
      by_cases h2 : sl < ((((rd buf (off + 4) &&& 0x0f) <<< 8) ||| rd buf (off + 5) : Nat) : Int) + 4
      · rw [if_pos h2, if_pos h2]
        rfl
      · rw [if_neg h2, if_neg h2, List.foldl_cons]
        exact ih _ _ _
    · rw [if_neg h, if_neg h]
      rfl

theorem dispatch_descriptor_nit_null (cfg : config) (buf : List Nat) (off : Nat)
    (net : net_model) :
    dispatch_descriptor cfg .NIT buf off (net, .NULL) =
      (if rd buf off = 0x83 ∧ cfg.vdr_dump_channum = true then
         parse_terrestrial_uk_channel_number buf off net
       else net, .NULL) := by
  unfold dispatch_descriptor
  generalize rd buf off = tag
  by_cases h0 : tag = 0x0a
  · rw [if_pos h0, if_neg (fun c => absurd (h0.symm.trans c.1) (by decide))]
  rw [if_neg h0]
  by_cases h1 : tag = 0x40
  · rw [if_pos h1, if_neg (fun c => absurd (h1.symm.trans c.1) (by decide))]
  rw [if_neg h1]
  by_cases h2 : tag = 0x43
  · rw [if_pos h2, if_neg (fun c => absurd (h2.symm.trans c.1) (by decide))]
  rw [if_neg h2]
  by_cases h3 : tag = 0x44
  · rw [if_pos h3, if_neg (fun c => absurd (h3.symm.trans c.1) (by decide))]
  rw [if_neg h3]
  by_cases h4 : tag = 0x48
  · rw [if_pos h4, if_neg (fun c => absurd (h4.symm.trans c.1) (by decide))]
  rw [if_neg h4]
  by_cases h5 : tag = 0x53
  · rw [if_pos h5, if_neg (fun c => absurd (h5.symm.trans c.1) (by decide))]
  rw [if_neg h5]
  by_cases h6 : tag = 0x5a
  · rw [if_pos h6, if_neg (fun c => absurd (h6.symm.trans c.1) (by decide))]
  rw [if_neg h6]
  by_cases h7 : tag = 0x62
  · rw [if_pos h7, if_neg (fun c => absurd (h7.symm.trans c.1) (by decide))]
  rw [if_neg h7]
  by_cases h8 : tag = 0x83
  · rw [if_pos h8]
    by_cases hv : cfg.vdr_dump_channum = true
    · rw [if_pos ⟨rfl, hv⟩, if_pos ⟨h8, hv⟩]
    · rw [if_neg (fun c => hv c.2), if_neg (fun c => hv c.2)]
  · rw [if_neg h8, if_neg (fun c => h8 c.1)]

/-- The descriptors of the network loop of a NIT, parsed without a scratch
transponder, leave the model as it is but for the channel numbers of services;
with vdr_dump_channum off they leave it unchanged. -/
theorem parse_descriptors_nit_null (cfg : config) (buf : List Nat) (a : net_model) (fuel : Nat) :
    ∀ (off : Nat) (len : Int) (net : net_model),
      same_but_channel_num a net →
      same_but_channel_num a (parse_descriptors cfg .NIT buf fuel off len (net, .NULL)).1 ∧
      (cfg.vdr_dump_channum = false →
        (parse_descriptors cfg .NIT buf fuel off len (net, .NULL)).1 = net) := by
  induction fuel with
  | zero => intro off len net h; exact ⟨h, fun _ => rfl⟩
  | succ fuel ih =>
    intro off len net h
    rw [parse_descriptors]
    by_cases h1 : len > 0
    · rw [if_pos h1]
      simp only
      by_cases h2 : (rd buf (off + 1) + 2) % 256 = 0
      · rw [if_pos h2]
        exact ⟨h, fun _ => rfl⟩
      · rw [if_neg h2, dispatch_descriptor_nit_null]
        by_cases hc : rd buf off = 0x83 ∧ cfg.vdr_dump_channum = true
        · rw [if_pos hc]
          have := ih (off + (rd buf (off + 1) + 2) % 256)
            (len - ((rd buf (off + 1) + 2) % 256 : Nat))
            (parse_terrestrial_uk_channel_number buf off net)
            (parse_terrestrial_uk_channel_number_same buf off a net h)
          refine ⟨this.1, fun hv => ?_⟩
          rw [hv] at hc
          exact absurd hc.2 (by decide)
        · rw [if_neg hc]
          exact ih _ _ net h
    · rw [if_neg h1]
      exact ⟨h, fun _ => rfl⟩

set_option maxRecDepth 100000 in
/-- C32, counterexample: the second transport stream entry of the section
declares 20 descriptor bytes although only four follow, so the loop of
parse_nit stops there with the remaining length 8 < 20 + 4; yet the first
entry has been
processed: a transponder at 500 MHz has been allocated and linked into
`new_transponders`. -/
theorem nit_entry_before_inconsistent_one_is_stored :
    nit_offsets ex_nit_truncated 27 12 27 = [12] ∧
    ((8 : Int) < (((((rd ex_nit_truncated 35 &&& 0x0f) <<< 8) ||| rd ex_nit_truncated 36 : Nat) : Int)) + 4) ∧
    ex_net.transponders.length = 1 ∧
    (parse_nit ex_cfg ex_nit_truncated 8 31 1 ex_net).transponders.length = 2 ∧
    (parse_nit ex_cfg ex_nit_truncated 8 31 1 ex_net).new_transponders = [1] ∧
    (tp_at (parse_nit ex_cfg ex_nit_truncated 8 31 1 ex_net) 1).param.frequency = 500000000 ∧
    (tp_at (parse_nit ex_cfg ex_nit_truncated 8 31 1 ex_net) 1).transport_stream_id = 1 := by
  decide

/-- C32, amended: parse_nit returns with the model unchanged when the network
descriptor loop does not fit (`section_length < descriptors_loop_len + 4`).
Otherwise it parses the network descriptors, which change at most channel
numbers of services, and then applies the body of its loop to the transport
stream entries at `nit_offsets`, in order: these are the entries up to the end
of the section or up to the first entry whose descriptor loop does not fit,
where the loop stops.  The entries before that one keep their effect; that
entry and the ones after it are not processed. -/
theorem parse_nit_stops_at_inconsistent_entry (cfg : config) (buf : List Nat) (off : Nat)
    (section_length network_id : Int) (net : net_model) :
    (section_length < ((((rd buf off &&& 0x0f) <<< 8) ||| rd buf (off + 1) : Nat) : Int) + 4 →
      parse_nit cfg buf off section_length network_id net = net) ∧
    (¬ section_length < ((((rd buf off &&& 0x0f) <<< 8) ||| rd buf (off + 1) : Nat) : Int) + 4 →
      parse_nit cfg buf off section_length network_id net =
        (nit_offsets buf
          (section_length - (((((rd buf off &&& 0x0f) <<< 8) ||| rd buf (off + 1)) + 4 : Nat) : Int)).toNat
          (off + ((((rd buf off &&& 0x0f) <<< 8) ||| rd buf (off + 1)) + 4))
          (section_length - (((((rd buf off &&& 0x0f) <<< 8) ||| rd buf (off + 1)) + 4 : Nat) : Int))).foldl
          (fun n o => parse_nit_entry cfg buf network_id o n)
          (parse_descriptors cfg .NIT buf (((rd buf off &&& 0x0f) <<< 8) ||| rd buf (off + 1))
            (off + 2) ((((rd buf off &&& 0x0f) <<< 8) ||| rd buf (off + 1) : Nat) : Int)
            (net, .NULL)).1) ∧
    same_but_channel_num net
      (parse_descriptors cfg .NIT buf (((rd buf off &&& 0x0f) <<< 8) ||| rd buf (off + 1))
        (off + 2) ((((rd buf off &&& 0x0f) <<< 8) ||| rd buf (off + 1) : Nat) : Int)
        (net, .NULL)).1 ∧
    (∀ (fuel o : Nat) (l : Int), l ≤ 6 → nit_offsets buf fuel o l = []) ∧
    (∀ (fuel o : Nat) (l : Int), l > 6 →
      l < ((((rd buf (o + 4) &&& 0x0f) <<< 8) ||| rd buf (o + 5) : Nat) : Int) + 4 →
      nit_offsets buf fuel o l = []) ∧
    (∀ (fuel o : Nat) (l : Int), l > 6 →
      ¬ l < ((((rd buf (o + 4) &&& 0x0f) <<< 8) ||| rd buf (o + 5) : Nat) : Int) + 4 →
      nit_offsets buf (fuel + 1) o l =
        o :: nit_offsets buf fuel (o + ((((rd buf (o + 4) &&& 0x0f) <<< 8) ||| rd buf (o + 5)) + 6))
          (l - (((((rd buf (o + 4) &&& 0x0f) <<< 8) ||| rd buf (o + 5)) + 6 : Nat) : Int))) := by
  refine ⟨?_, ?_, ?_, ?_, ?_, ?_⟩
  · intro h
    unfold parse_nit
    simp only
    rw [if_pos h]
  · intro h
    unfold parse_nit
    simp only
    rw [if_neg h, parse_nit_loop_foldl]
    rfl
  · exact (parse_descriptors_nit_null cfg buf net _ _ _ net (same_but_channel_num_refl net)).1
  · intro fuel o l h
    cases fuel with
    | zero => rfl
    | succ fuel => rw [nit_offsets, if_neg (by omega)]
  · intro fuel o l h h2
    cases fuel with
    | zero => rfl
    | succ fuel =>
      rw [nit_offsets, if_pos h]
      simp only
      rw [if_pos h2]
  · intro fuel o l h h2
    rw [nit_offsets, if_pos h]
    simp only
    rw [if_neg h2]
    rfl

set_option maxRecDepth 100000 in
theorem parse_nit_stops_at_inconsistent_entry_witness :
    parse_nit ex_cfg ex_nit_truncated 8 31 1 ex_net =
      (nit_offsets ex_nit_truncated
        ((31 : Int) - (((((rd ex_nit_truncated 8 &&& 0x0f) <<< 8) ||| rd ex_nit_truncated (8 + 1)) + 4 : Nat) : Int)).toNat
        (8 + ((((rd ex_nit_truncated 8 &&& 0x0f) <<< 8) ||| rd ex_nit_truncated (8 + 1)) + 4))
        ((31 : Int) - (((((rd ex_nit_truncated 8 &&& 0x0f) <<< 8) ||| rd ex_nit_truncated (8 + 1)) + 4 : Nat) : Int))).foldl
        (fun n o => parse_nit_entry ex_cfg ex_nit_truncated 1 o n)
        (parse_descriptors ex_cfg .NIT ex_nit_truncated
          (((rd ex_nit_truncated 8 &&& 0x0f) <<< 8) ||| rd ex_nit_truncated (8 + 1))
          (8 + 2) ((((rd ex_nit_truncated 8 &&& 0x0f) <<< 8) ||| rd ex_nit_truncated (8 + 1) : Nat) : Int)
          (ex_net, .NULL)).1 :=
  (parse_nit_stops_at_inconsistent_entry ex_cfg ex_nit_truncated 8 31 1 ex_net).2.1 (by decide)

/-! ## C33: the new and the scanned list -/

theorem tp_store_keeps {α : Type} (g : transponder → α) (net : net_model) (t : Nat)
    (x : transponder) (h : g x = g (tp_at net t)) (p : Nat) :
    g (tp_at (tp_store net t x) p) = g (tp_at net p) := by
  by_cases hp : p = t
  · subst hp
    by_cases hv : p < net.transponders.length
    · rw [tp_at_tp_store _ _ _ hv, h]
    · rw [tp_store_invalid _ _ _ hv]
  · rw [tp_at_tp_store_ne _ _ _ _ hp]

theorem lists_kept_refl (a : net_model) : lists_kept a a :=
  ⟨rfl, rfl, rfl, fun _ => ⟨rfl, rfl⟩⟩

theorem lists_kept_trans (a b c : net_model) (h1 : lists_kept a b) (h2 : lists_kept b c) :
    lists_kept a c :=
  ⟨h2.1.trans h1.1, h2.2.1.trans h1.2.1, h2.2.2.1.trans h1.2.2.1,
    fun p => ⟨(h2.2.2.2 p).1.trans (h1.2.2.2 p).1, (h2.2.2.2 p).2.trans (h1.2.2.2 p).2⟩⟩

/-- A store through `t` that keeps `scan_done` and `n_other_f`, after
`current_tp` has been set. -/
theorem lists_kept_store (net : net_model) (cur t : Nat) (x : transponder)
    (hs : x.scan_done = (tp_at net t).scan_done) (hn : x.n_other_f = (tp_at net t).n_other_f) :
    lists_kept net (tp_store { net with current_tp := cur } t x) := by
  have hv := tp_store_valid { net with current_tp := cur } t x
  refine ⟨hv.2.2.2, hv.2.2.1, hv.2.1, fun p => ⟨?_, ?_⟩⟩
  · exact tp_store_keeps (fun y => y.scan_done) { net with current_tp := cur } t x hs p
  · exact tp_store_keeps (fun y => y.n_other_f) { net with current_tp := cur } t x hn p

theorem lists_kept_current (net : net_model) (cur : Nat) :
    lists_kept net { net with current_tp := cur } :=
  ⟨rfl, rfl, rfl, fun _ => ⟨rfl, rfl⟩⟩

/-- One tuning attempt, whatever the frontend answers, returns 0 or -1 and
touches neither list, nor `scan_done`, nor `n_other_f`. -/
theorem tune_once_lists (t : Nat) (st : tuner) :
    ((__tune_to_transponder t st).1 = 0 ∨ (__tune_to_transponder t st).1 = -1) ∧
    lists_kept st.net (__tune_to_transponder t st).2.net := by
  unfold __tune_to_transponder
  simp only
  by_cases hz : (tp_at { st.net with current_tp := t } t).param = zero_param
  · rw [if_pos hz]
    exact ⟨Or.inr rfl, lists_kept_current _ _⟩
  · rw [if_neg hz]
    by_cases hs : (st.fe.headD { set_frontend := -1, status := [] }).set_frontend = -1
    · rw [if_pos hs]
      exact ⟨Or.inr rfl, lists_kept_current _ _⟩
    · rw [if_neg hs]
      cases hw : wait_for_lock 10 (st.fe.headD { set_frontend := -1, status := [] }).status with
      | none =>
        exact ⟨Or.inr rfl, lists_kept_store st.net t t _ (by rfl) (by rfl)⟩
      | some r =>
        simp only
        by_cases hr : r = 0
        · rw [if_pos hr]
          exact ⟨Or.inl rfl, lists_kept_store st.net t t _ (by rfl) (by rfl)⟩
        · rw [if_neg hr]
          exact ⟨Or.inr rfl, lists_kept_current _ _⟩

/-- The first statements of tune_to_transponder move `t` to the tail of the
scanned list and set its `scan_done`. -/
theorem mark_scanned_moves (t : Nat) (net : net_model) :
    moved_to_scanned t net (mark_scanned t net) ∧
    (tp_at (mark_scanned t net) t).n_other_f = (tp_at net t).n_other_f := by
  have hm : mark_scanned t net =
      tp_store (relink t net) t { tp_at (relink t net) t with scan_done := 1 } := rfl
  rw [hm]
  generalize hN : relink t net = N
  have hNt : N.transponders = net.transponders := by rw [← hN]; rfl
  have hNn : N.new_transponders = net.new_transponders.erase t := by rw [← hN]; rfl
  have hNs : N.scanned_transponders = net.scanned_transponders.erase t ++ [t] := by
    rw [← hN]; rfl
  have e : ∀ p, tp_at N p = tp_at net p := fun p => by unfold tp_at; rw [hNt]
  have hv := tp_store_valid N t { tp_at N t with scan_done := 1 }
  refine ⟨⟨hv.2.2.2.trans hNn, hv.2.2.1.trans hNs, by rw [hv.2.1, hNt], ?_, ?_⟩, ?_⟩
  · intro ht
    rw [tp_at_tp_store _ _ _ (by rw [hNt]; exact ht)]
  · intro p hp
    rw [tp_at_tp_store_ne _ _ _ _ hp, e]
    exact ⟨rfl, rfl⟩
  · rw [← e t]
    exact tp_store_keeps (fun y => y.n_other_f) N t _ (by rfl) t

theorem moved_then_kept (t : Nat) (a b c : net_model) (h1 : moved_to_scanned t a b)
    (h2 : lists_kept b c) : moved_to_scanned t a c :=
  ⟨h2.1.trans h1.1, h2.2.1.trans h1.2.1, h2.2.2.1.trans h1.2.2.1,
    fun ht => ((h2.2.2.2 t).1).trans (h1.2.2.2.1 ht),
    fun p hp => ⟨(h2.2.2.2 p).1.trans (h1.2.2.2.2 p hp).1,
      (h2.2.2.2 p).2.trans (h1.2.2.2.2 p hp).2⟩⟩

/-- The function tune_to_transponder, whatever the frontend answers, returns 0
or -1, has moved `t` to the tail of the scanned list and set its `scan_done`,
and keeps `n_other_f`. -/
theorem tune_to_transponder_moves (cfg : config) (t : Nat) (st : tuner) :
    ((tune_to_transponder cfg t st).1 = 0 ∨ (tune_to_transponder cfg t st).1 = -1) ∧
    moved_to_scanned t st.net (tune_to_transponder cfg t st).2.net ∧
    (tp_at (tune_to_transponder cfg t st).2.net t).n_other_f = (tp_at st.net t).n_other_f := by
  obtain ⟨m1, m2⟩ := mark_scanned_moves t st.net
  unfold tune_to_transponder
  simp only
  by_cases hty : (tp_at (mark_scanned t st.net) t).type ≠ cfg.fe_type
  · rw [if_pos hty]
    have k : lists_kept (mark_scanned t st.net)
        (tp_store (mark_scanned t st.net) t
          { tp_at (mark_scanned t st.net) t with last_tuning_failed := 1 }) :=
      lists_kept_store (mark_scanned t st.net) (mark_scanned t st.net).current_tp t _ (by rfl) (by rfl)
    exact ⟨Or.inr rfl, moved_then_kept t _ _ _ m1 k, ((k.2.2.2 t).2).trans m2⟩
  · rw [if_neg hty]
    obtain ⟨a1, a2⟩ := tune_once_lists t { st with net := mark_scanned t st.net }
    by_cases h0 : (__tune_to_transponder t { st with net := mark_scanned t st.net }).1 = 0
    · rw [if_pos h0]
      exact ⟨Or.inl rfl, moved_then_kept t _ _ _ m1 a2, ((a2.2.2.2 t).2).trans m2⟩
    · rw [if_neg h0]
      obtain ⟨b1, b2⟩ := tune_once_lists t
        (__tune_to_transponder t { st with net := mark_scanned t st.net }).2
      have k := lists_kept_trans _ _ _ a2 b2
      exact ⟨b1, moved_then_kept t _ _ _ m1 k, ((k.2.2.2 t).2).trans m2⟩

theorem next_other_f_lists (t : Nat) (st : tuner) :
    (next_other_f t st).net.new_transponders = st.net.new_transponders ∧
    (next_other_f t st).net.scanned_transponders = st.net.scanned_transponders ∧
    ∀ p, (tp_at (next_other_f t st).net p).scan_done = (tp_at st.net p).scan_done := by
  unfold next_other_f
  simp only
  have hv := tp_store_valid st.net t
    { tp_at st.net t with
      param := { (tp_at st.net t).param with
        frequency := ((tp_at st.net t).other_f.getD []).getD ((tp_at st.net t).n_other_f - 1) 0 },
      n_other_f := (tp_at st.net t).n_other_f - 1 }
  exact ⟨hv.2.2.2, hv.2.2.1, fun p => tp_store_keeps (fun y => y.scan_done) st.net t _ (by rfl) p⟩

theorem erase_erase_nodup (l : List Nat) (t : Nat) (h : l.Nodup) :
    (l.erase t).erase t = l.erase t :=
  List.erase_of_not_mem (fun hm => ((List.Nodup.mem_erase_iff h).mp hm).1 rfl)

theorem erase_append_self (l : List Nat) (t : Nat) (h : l.Nodup) :
    (l.erase t ++ [t]).erase t ++ [t] = l.erase t ++ [t] := by
  have hn : t ∉ l.erase t := fun hm => ((List.Nodup.mem_erase_iff h).mp hm).1 rfl
  rw [List.erase_append_right _ hn]
  simp

theorem nodup_erase_append (l : List Nat) (t : Nat) (h : l.Nodup) : (l.erase t ++ [t]).Nodup := by
  have hn : t ∉ l.erase t := fun hm => ((List.Nodup.mem_erase_iff h).mp hm).1 rfl
  rw [List.nodup_append]
  refine ⟨h.erase t, List.nodup_singleton t, ?_⟩
  intro a ha hb
  rw [List.mem_singleton] at hb
  exact hn (hb ▸ ha)

/-- The retries of one transponder end, whatever the frontend answers: each
retry decrements `n_other_f`, so a fuel above it is never used up.  The result
is 0 or -1 and the transponder has been moved to the tail of the scanned
list. -/
theorem tune_retry_moves (cfg : config) (t : Nat) (k : Nat) :
    ∀ (fuel : Nat) (st : tuner), st.net.new_transponders.Nodup →
      st.net.scanned_transponders.Nodup → (tp_at st.net t).n_other_f = k → k < fuel →
      ∃ r, tune_retry cfg t fuel st = some r ∧ (r.1 = 0 ∨ r.1 = -1) ∧
        moved_to_scanned t st.net r.2.net := by
  induction k with
  | zero =>
    intro fuel st _ _ hk hfuel
    obtain ⟨fuel, rfl⟩ := Nat.exists_eq_succ_of_ne_zero (by omega : fuel ≠ 0)
    obtain ⟨_, m, hno⟩ := tune_to_transponder_moves cfg t st
    rw [tune_retry]
    simp only
    by_cases h0 : (tune_to_transponder cfg t st).1 = 0
    · rw [if_pos h0]
      exact ⟨_, rfl, Or.inl rfl, m⟩
    · rw [if_neg h0, if_neg (by rw [hno, hk]; simp)]
      exact ⟨_, rfl, Or.inr rfl, m⟩
  | succ k ih =>
    intro fuel st hn hs hk hfuel
    obtain ⟨fuel, rfl⟩ := Nat.exists_eq_succ_of_ne_zero (by omega : fuel ≠ 0)
    obtain ⟨_, m, hno⟩ := tune_to_transponder_moves cfg t st
    rw [tune_retry]
    simp only
    by_cases h0 : (tune_to_transponder cfg t st).1 = 0
    · rw [if_pos h0]
      exact ⟨_, rfl, Or.inl rfl, m⟩
    · rw [if_neg h0]
      split
      · rename_i hc
        have hv : t < (tune_to_transponder cfg t st).2.net.transponders.length := by
          by_contra hv
          rw [tp_at_default _ _ hv] at hc
          exact hc.1 rfl
        obtain ⟨l1, l2, l3⟩ := next_other_f_lists t (tune_to_transponder cfg t st).2
        obtain ⟨r, e1, e2, e3⟩ := ih fuel (next_other_f t (tune_to_transponder cfg t st).2)
          (by rw [l1, m.1]; exact hn.erase t)
          (by rw [l2, m.2.1]; exact nodup_erase_append _ _ hs)
          (by rw [next_other_f_count t _ hv, hno, hk]; rfl)
          (by omega)
        refine ⟨r, e1, e2, ?_, ?_, ?_, ?_, ?_⟩
        · rw [e3.1, l1, m.1, erase_erase_nodup _ _ hn]
        · rw [e3.2.1, l2, m.2.1, erase_append_self _ _ hs]
        · rw [e3.2.2.1, (next_other_f_keeps t _ (t + 1) (by omega)).2.1, m.2.2.1]
        · intro ht
          apply e3.2.2.2.1
          rw [(next_other_f_keeps t _ (t + 1) (by omega)).2.1]
          exact hv
        · intro p hp
          rw [(e3.2.2.2.2 p hp).1, (e3.2.2.2.2 p hp).2, (next_other_f_keeps t _ p hp).1]
          exact m.2.2.2.2 p hp
      · exact ⟨_, rfl, Or.inr rfl, m⟩

/-- With `t` at the head of the new list, moving it to the scanned list keeps
the lists well formed. -/
theorem lists_ok_moved (t : Nat) (rest : List Nat) (a b : net_model) (hok : lists_ok a)
    (hnew : a.new_transponders = t :: rest) (hm : moved_to_scanned t a b) :
    b.new_transponders = rest ∧ b.scanned_transponders = a.scanned_transponders ++ [t] ∧
    lists_ok b := by
  have hnd := hok.1
  rw [hnew] at hnd
  have hts : t ∉ a.scanned_transponders := by
    intro hmem
    exact (List.nodup_append.mp hnd).2.2 hmem (List.mem_cons_self _ _)
  have e1 : b.new_transponders = rest := by rw [hm.1, hnew, List.erase_cons_head]
  have e2 : b.scanned_transponders = a.scanned_transponders ++ [t] := by
    rw [hm.2.1, List.erase_of_not_mem hts]
  have e3 : b.scanned_transponders ++ b.new_transponders =
      a.scanned_transponders ++ a.new_transponders := by
    rw [e1, e2, hnew, List.append_assoc]
    rfl
  refine ⟨e1, e2, ?_⟩
  unfold lists_ok
  rw [e3, hm.2.2.1]
  exact hok

/-- The loop of tune_to_next_transponder over the new list ends whatever the
frontend answers; the transponders it has handed to the tuner are a prefix of
the new list, have been moved to the tail of the scanned list in this order
and have `scan_done = 1`; with the result -1 they are the whole list. -/
theorem tune_to_next_loop_moves (cfg : config) (l : List Nat) :
    ∀ st : tuner, lists_ok st.net → st.net.new_transponders = l →
      ∃ r, tune_to_next_loop cfg l st = some r ∧ (r.1 = 0 ∨ r.1 = -1) ∧
        lists_ok r.2.net ∧
        r.2.net.transponders.length = st.net.transponders.length ∧
        r.2.net.scanned_transponders = st.net.scanned_transponders ++ handed_to_tuner cfg l st ∧
        r.2.net.new_transponders = l.drop (handed_to_tuner cfg l st).length ∧
        handed_to_tuner cfg l st = l.take (handed_to_tuner cfg l st).length ∧
        (r.1 = -1 → handed_to_tuner cfg l st = l) ∧
        (∀ p, (tp_at st.net p).scan_done = 1 → (tp_at r.2.net p).scan_done = 1) ∧
        (∀ p ∈ handed_to_tuner cfg l st, (tp_at r.2.net p).scan_done = 1) := by
  induction l with
  | nil =>
    intro st hok hnew
    refine ⟨(-1, st), rfl, Or.inr rfl, hok, rfl, ?_, ?_, rfl, fun _ => rfl, fun _ h => h, ?_⟩
    · rw [handed_to_tuner, List.append_nil]
    · rw [handed_to_tuner]; exact hnew
    · intro p hp
      rw [handed_to_tuner] at hp
      exact absurd hp (List.not_mem_nil p)
  | cons t rest ih =>
    intro st hok hnew
    have hnd := hok.1
    have htv : t < st.net.transponders.length :=
      hok.2.1 t (List.mem_append_right _ (by rw [hnew]; exact List.mem_cons_self _ _))
    obtain ⟨r1, e1, e2, e3⟩ := tune_retry_moves cfg t _ ((tp_at st.net t).n_other_f + 1) st
      (List.nodup_append.mp hnd).2.1 (List.nodup_append.mp hnd).1 rfl (by omega)
    obtain ⟨n1, s1, ok1⟩ := lists_ok_moved t rest st.net r1.2.net hok hnew e3
    have hmono : ∀ p, (tp_at st.net p).scan_done = 1 → (tp_at r1.2.net p).scan_done = 1 := by
      intro p hp
      by_cases hpt : p = t
      · rw [hpt]; exact e3.2.2.2.1 htv
      · rw [(e3.2.2.2.2 p hpt).1]; exact hp
    rw [tune_to_next_loop, handed_to_tuner, e1]
    simp only
    by_cases h0 : r1.1 = 0
    · rw [if_pos h0, if_pos h0]
      refine ⟨_, rfl, Or.inl rfl, ok1, e3.2.2.1, s1, ?_, rfl, ?_, hmono, ?_⟩
      · rw [n1]; rfl
      · intro h; exact absurd h (by norm_num)
      · intro p hp
        rw [List.mem_singleton] at hp
        rw [hp]; exact e3.2.2.2.1 htv
    · rw [if_neg h0, if_neg h0]
      obtain ⟨r, f1, f2, f3, f4, f5, f6, f7, f8, f9, f10⟩ := ih r1.2 ok1 n1
      refine ⟨r, f1, f2, f3, f4.trans e3.2.2.1, ?_, ?_, ?_, ?_, ?_, ?_⟩
      · rw [f5, s1, List.append_assoc]; rfl
      · rw [f6]; rfl
      · rw [List.length_cons, List.take_succ_cons, ← f7]
      · intro h; rw [f8 h]
      · intro p hp; exact f9 p (hmono p hp)
      · intro p hp
        rcases List.mem_cons.mp hp with h | h
        · rw [h]; exact f9 t (e3.2.2.2.1 htv)
        · exact f10 p h

theorem lists_ok_alloc (net : net_model) (f : Nat) (h : lists_ok net) :
    lists_ok (alloc_transponder net f).1 := by
  unfold alloc_transponder lists_ok
  simp only
  rw [← List.append_assoc, List.length_append, List.length_singleton]
  refine ⟨?_, ?_, ?_⟩
  · rw [List.nodup_append]
    refine ⟨h.1, List.nodup_singleton _, ?_⟩
    intro a ha hb
    rw [List.mem_singleton] at hb
    have := h.2.1 a ha
    omega
  · intro p hp
    rcases List.mem_append.mp hp with hp | hp
    · have := h.2.1 p hp; omega
    · rw [List.mem_singleton] at hp; omega
  · intro p hp
    rw [List.mem_range] at hp
    by_cases hlt : p < net.transponders.length
    · exact List.mem_append_left _ (h.2.2 p (List.mem_range.mpr hlt))
    · exact List.mem_append_right _ (List.mem_singleton.mpr (by omega))

theorem lists_ok_tp_store (net : net_model) (p : Nat) (x : transponder) (h : lists_ok net) :
    lists_ok (tp_store net p x) := by
  have hv := tp_store_valid net p x
  unfold lists_ok
  rw [hv.2.2.1, hv.2.2.2, hv.2.1]
  exact h

theorem lists_ok_store_transponder (cfg : config) (net : net_model) (tn : transponder)
    (h : lists_ok net) : lists_ok (store_transponder cfg net tn) := by
  unfold store_transponder
  simp only
  cases find_transponder cfg net tn.param.frequency with
  | none => exact lists_ok_tp_store _ _ _ (lists_ok_alloc net _ h)
  | some t => exact lists_ok_tp_store _ _ _ h

/-- With `t` anywhere in the new list, moving it to the scanned list keeps the
lists well formed. -/
theorem lists_ok_moved_mem (t : Nat) (a b : net_model) (hok : lists_ok a)
    (hmem : t ∈ a.new_transponders) (hm : moved_to_scanned t a b) :
    b.new_transponders = a.new_transponders.erase t ∧
    b.scanned_transponders = a.scanned_transponders ++ [t] ∧
    t ∉ b.new_transponders ∧ lists_ok b := by
  have hnd := hok.1
  have hts : t ∉ a.scanned_transponders := fun h => (List.nodup_append.mp hnd).2.2 h hmem
  have e2 : b.scanned_transponders = a.scanned_transponders ++ [t] := by
    rw [hm.2.1, List.erase_of_not_mem hts]
  have hp : (b.scanned_transponders ++ b.new_transponders).Perm
      (a.scanned_transponders ++ a.new_transponders) := by
    rw [e2, hm.1, List.append_assoc]
    apply List.Perm.append_left
    exact (List.perm_cons_erase hmem).symm
  refine ⟨hm.1, e2, ?_, ?_, ?_, ?_⟩
  · rw [hm.1]
    exact fun h => ((List.Nodup.mem_erase_iff (List.nodup_append.mp hnd).2.1).mp h).1 rfl
  · exact hp.nodup_iff.mpr hnd
  · intro p hpm
    rw [hm.2.2.1]
    exact hok.2.1 p (hp.mem_iff.mp hpm)
  · intro p hpm
    rw [hm.2.2.1] at hpm
    exact hp.mem_iff.mpr (hok.2.2 p hpm)

/-- C33: in a state in which every transponder is in exactly one of the lists
`scanned_transponders` and `new_transponders` (which holds when the program
starts and is kept by alloc_transponder and by the store of parse_nit):
tune_to_transponder on a transponder `t` of the new list returns 0 or -1 and,
in both cases and whatever the frontend answers, has removed `t` from the new
list, appended it to the scanned list and set its `scan_done` to 1;
tune_to_next_transponder returns (its retries end), the transponders it has
handed to the tuner are a prefix of the new list, they have left the new list
and are at the tail of the scanned list with `scan_done = 1`, and with the
result -1 the new list is empty; and a later call, made in any state that
still has these transponders in its scanned list, hands none of them to the
tuner again. -/
theorem tune_moves_transponder_to_scanned (cfg : config) (st : tuner) (hok : lists_ok st.net) :
    lists_ok initial_net ∧
    (∀ f, lists_ok (alloc_transponder st.net f).1) ∧
    (∀ tn, lists_ok (store_transponder cfg st.net tn)) ∧
    (∀ t ∈ st.net.new_transponders,
      ((tune_to_transponder cfg t st).1 = 0 ∨ (tune_to_transponder cfg t st).1 = -1) ∧
      (tune_to_transponder cfg t st).2.net.new_transponders = st.net.new_transponders.erase t ∧
      (tune_to_transponder cfg t st).2.net.scanned_transponders =
        st.net.scanned_transponders ++ [t] ∧
      t ∉ (tune_to_transponder cfg t st).2.net.new_transponders ∧
      (tp_at (tune_to_transponder cfg t st).2.net t).scan_done = 1 ∧
      lists_ok (tune_to_transponder cfg t st).2.net) ∧
    ∃ r, tune_to_next_transponder cfg st = some r ∧ (r.1 = 0 ∨ r.1 = -1) ∧
      lists_ok r.2.net ∧
      r.2.net.scanned_transponders =
        st.net.scanned_transponders ++ handed_to_tuner cfg st.net.new_transponders st ∧
      r.2.net.new_transponders =
        st.net.new_transponders.drop (handed_to_tuner cfg st.net.new_transponders st).length ∧
      handed_to_tuner cfg st.net.new_transponders st =
        st.net.new_transponders.take (handed_to_tuner cfg st.net.new_transponders st).length ∧
      (r.1 = -1 → r.2.net.new_transponders = []) ∧
      (∀ p ∈ handed_to_tuner cfg st.net.new_transponders st,
        (tp_at r.2.net p).scan_done = 1 ∧ p ∉ r.2.net.new_transponders) ∧
      ∀ st2 : tuner, lists_ok st2.net →
        (∀ p ∈ r.2.net.scanned_transponders, p ∈ st2.net.scanned_transponders) →
        ∀ p ∈ handed_to_tuner cfg st.net.new_transponders st,
          p ∉ handed_to_tuner cfg st2.net.new_transponders st2 := by
  refine ⟨by decide, fun f => lists_ok_alloc _ f hok,
    fun tn => lists_ok_store_transponder cfg _ tn hok, ?_, ?_⟩
  · intro t ht
    obtain ⟨a1, a2, _⟩ := tune_to_transponder_moves cfg t st
    obtain ⟨b1, b2, b3, b4⟩ := lists_ok_moved_mem t _ _ hok ht a2
    exact ⟨a1, b1, b2, b3, a2.2.2.2.1 (hok.2.1 t (List.mem_append_right _ ht)), b4⟩
  · obtain ⟨r, f1, f2, f3, _, f5, f6, f7, f8, _, f10⟩ :=
      tune_to_next_loop_moves cfg st.net.new_transponders st hok rfl
    have hscanned : ∀ p ∈ handed_to_tuner cfg st.net.new_transponders st,
        p ∈ r.2.net.scanned_transponders := by
      intro p hp
      rw [f5]
      exact List.mem_append_right _ hp
    refine ⟨r, f1, f2, f3, f5, f6, f7, ?_, ?_, ?_⟩
    · intro h
      rw [f6, f8 h, List.drop_length]
    · intro p hp
      refine ⟨f10 p hp, fun hn => ?_⟩
      exact (List.nodup_append.mp f3.1).2.2 (hscanned p hp) hn
    · intro st2 hok2 hsub p hp hp2
      obtain ⟨_, _, _, _, _, _, _, g7, _, _, _⟩ :=
        tune_to_next_loop_moves cfg st2.net.new_transponders st2 hok2 rfl
      have hin : p ∈ st2.net.new_transponders := by
        rw [g7] at hp2
        exact List.mem_of_mem_take hp2
      exact (List.nodup_append.mp hok2.1).2.2 (hsub p (hscanned p hp)) hin

set_option maxRecDepth 100000 in
theorem tune_moves_transponder_to_scanned_witness :
    ∃ r, tune_to_next_transponder ex_cfg ex_tuner_locks = some r ∧ (r.1 = 0 ∨ r.1 = -1) ∧
      lists_ok r.2.net ∧
      r.2.net.scanned_transponders =
        ex_tuner_locks.net.scanned_transponders ++
          handed_to_tuner ex_cfg ex_tuner_locks.net.new_transponders ex_tuner_locks :=
  let ⟨r, h1, h2, h3, h4, _⟩ :=
    (tune_moves_transponder_to_scanned ex_cfg ex_tuner_locks (by decide)).2.2.2.2
  ⟨r, h1, h2, h3, h4⟩

set_option maxRecDepth 100000 in
/-- The two outcomes on the example: when the frontend locks on transponder 1,
tune_to_next_transponder returns 0 with transponder 2 still new; when it never
locks, the result is -1, the new list is empty and both transponders are
scanned. -/
theorem tune_to_next_transponder_example :
    (tune_to_next_transponder ex_cfg ex_tuner_locks).map (fun r =>
      (r.1, r.2.net.scanned_transponders, r.2.net.new_transponders)) = some (0, [0, 1], [2]) ∧
    handed_to_tuner ex_cfg ex_tuner_locks.net.new_transponders ex_tuner_locks = [1] ∧
    (tune_to_next_transponder ex_cfg ex_tuner).map (fun r =>
      (r.1, r.2.net.scanned_transponders, r.2.net.new_transponders)) = some (-1, [0, 1, 2], []) ∧
    handed_to_tuner ex_cfg ex_tuner.net.new_transponders ex_tuner = [1, 2] := by
  decide

/-! ## C34: the section loops end -/

theorem pat_offsets_neg (fuel off : Nat) (sl : Int) (h : sl ≤ 0) : pat_offsets fuel off sl = [] := by
  cases fuel with
  | zero => rfl
  | succ fuel => rw [pat_offsets, if_neg (by omega)]

/-- The loop of parse_pat started with the length `4k - 2` visits the `k`
entries at `off`, `off + 4`, ... and no more, for any fuel of at least `k`. -/
theorem pat_offsets_entries (k : Nat) :
    ∀ (fuel off : Nat), k ≤ fuel →
      pat_offsets fuel off (4 * (k : Int) - 2) = (List.range k).map (fun i => off + 4 * i) := by
  induction k with
  | zero =>
    intro fuel off _
    rw [pat_offsets_neg _ _ _ (by omega)]
    rfl
  | succ k ih =>
    intro fuel off hf
    obtain ⟨f, rfl⟩ := Nat.exists_eq_succ_of_ne_zero (by omega : fuel ≠ 0)
    rw [pat_offsets, if_pos (by push_cast; omega)]
    have e : 4 * ((k + 1 : Nat) : Int) - 2 - 4 = 4 * (k : Int) - 2 := by push_cast; ring
    rw [e, ih f (off + 4) (by omega), List.range_succ_eq_map, List.map_cons, List.map_map]
    congr 1
    apply List.map_congr_left
    intro i _
    simp only [Function.comp]
    omega

/-- C35: the buffer of the filter at `sp` holds a PAT section (table_id 0)
whose section_length field is `9 + 4k`.  parse_section passes on the length
`4k - 2`, the `switch` calls parse_pat with it on the bytes from offset 8, and
parse_pat applies the body of its loop to the `k` entries at the offsets 8,
12, ..., `8 + 4(k - 1)` in this order and to nothing else: the last entry is
not skipped and the CRC, which starts at offset `8 + 4k`, is not read as an
entry. -/
theorem pat_entries_exact (cfg : config) (sp : Nat) (st : scan_state) (k : Nat)
    (htid : (seg_at st.flt sp 0).table_id = 0)
    (h0 : rd (seg_at st.flt sp 0).buf 0 = 0)
    (hlen : ((rd (seg_at st.flt sp 0).buf 1 &&& 0x0f) <<< 8) ||| rd (seg_at st.flt sp 0).buf 2 =
      9 + 4 * k) :
    (parse_section cfg sp st).2 =
      record_section cfg sp
        (enter_segment st.flt sp 0 (hdr_ext (seg_at st.flt sp 0).buf)
          (hdr_ver (seg_at st.flt sp 0).buf)).2 0 (seg_at st.flt sp 0).buf (4 * (k : Int) - 2)
        (hdr_ext (seg_at st.flt sp 0).buf) (rd (seg_at st.flt sp 0).buf 6)
        (rd (seg_at st.flt sp 0).buf 7)
        { st with flt := (enter_segment st.flt sp 0 (hdr_ext (seg_at st.flt sp 0).buf)
          (hdr_ver (seg_at st.flt sp 0).buf)).1 } ∧
    (∀ (buf : List Nat) (ext : Int) (st1 : scan_state),
      interpret_section cfg 0 buf (4 * (k : Int) - 2) ext st1 =
        parse_pat cfg buf 8 (4 * (k : Int) - 2) ext st1) ∧
    (∀ (buf : List Nat) (ext : Int) (st1 : scan_state),
      parse_pat cfg buf 8 (4 * (k : Int) - 2) ext st1 =
        ((List.range k).map (fun i => 8 + 4 * i)).foldl
          (fun s o => parse_pat_entry cfg buf o s) st1) ∧
    pat_offsets (4 * (k : Int) - 2).toNat 8 (4 * (k : Int) - 2) =
      (List.range k).map (fun i => 8 + 4 * i) := by
  have hk : k ≤ (4 * (k : Int) - 2).toNat := by omega
  refine ⟨?_, ?_, ?_, pat_offsets_entries k _ 8 hk⟩
  · unfold parse_section
    simp only
    rw [h0, if_neg (by rw [htid]; simp), hlen]
    have e : (((9 + 4 * k : Nat) : Int)) - 11 = 4 * (k : Int) - 2 := by push_cast; ring
    rw [e]
    rfl
  · intro buf ext st1
    unfold interpret_section
    rw [if_pos rfl]
  · intro buf ext st1
    unfold parse_pat
    rw [parse_pat_loop_foldl, pat_offsets_entries k _ 8 hk]

set_option maxRecDepth 100000 in
theorem pat_entries_exact_witness :
    pat_offsets (4 * ((1 : Nat) : Int) - 2).toNat 8 (4 * ((1 : Nat) : Int) - 2) =
      (List.range 1).map (fun i => 8 + 4 * i) :=
  (pat_entries_exact ex_cfg 0 ex_pat_loaded 1 (by decide) (by decide) (by decide)).2.2.2

/-! ## C36: a NIT entry overwrites a scanned transponder -/

/-- The descriptor parsers of a NIT loop do not write `scan_done` or
`last_tuning_failed` of the scratch transponder. -/
theorem dispatch_descriptor_nit_flags (cfg : config) (buf : List Nat) (off : Nat)
    (net : net_model) (tn : transponder) :
    ∃ tn2, (dispatch_descriptor cfg .NIT buf off (net, .tp tn)).2 = .tp tn2 ∧
      tn2.scan_done = tn.scan_done ∧ tn2.last_tuning_failed = tn.last_tuning_failed := by
  unfold dispatch_descriptor
  generalize rd buf off = tag
  by_cases h0 : tag = 0x0a
  · rw [if_pos h0]
    exact ⟨tn, rfl, rfl, rfl⟩
  rw [if_neg h0]
  by_cases h1 : tag = 0x40
  · rw [if_pos h1]
    exact ⟨tn, rfl, rfl, rfl⟩
  rw [if_neg h1]
  by_cases h2 : tag = 0x43
  · rw [if_pos h2]
    exact ⟨_, rfl, rfl, rfl⟩
  rw [if_neg h2]
  by_cases h3 : tag = 0x44
  · rw [if_pos h3]
    exact ⟨_, rfl, rfl, rfl⟩
  rw [if_neg h3]
  by_cases h4 : tag = 0x48
  · rw [if_pos h4]
    exact ⟨tn, rfl, rfl, rfl⟩
  rw [if_neg h4]
  by_cases h5 : tag = 0x53
  · rw [if_pos h5]
    exact ⟨tn, rfl, rfl, rfl⟩
  rw [if_neg h5]
  by_cases h6 : tag = 0x5a
  · rw [if_pos h6]
    exact ⟨_, rfl, rfl, rfl⟩
  rw [if_neg h6]
  by_cases h7 : tag = 0x62
  · rw [if_pos h7]
    refine ⟨parse_frequency_list_descriptor buf off tn, rfl, ?_, ?_⟩
    · unfold parse_frequency_list_descriptor
      split
      · rfl
      · simp only
        split <;> rfl
    · unfold parse_frequency_list_descriptor
      split
      · rfl
      · simp only
        split <;> rfl
  rw [if_neg h7]
  by_cases h8 : tag = 0x83
  · rw [if_pos h8]
    split
    · exact ⟨tn, rfl, rfl, rfl⟩
    · exact ⟨tn, rfl, rfl, rfl⟩
  · rw [if_neg h8]
    exact ⟨tn, rfl, rfl, rfl⟩

theorem parse_descriptors_nit_flags (cfg : config) (buf : List Nat) (fuel : Nat) :
    ∀ (off : Nat) (len : Int) (net : net_model) (tn : transponder),
      ∃ tn2, (parse_descriptors cfg .NIT buf fuel off len (net, .tp tn)).2 = .tp tn2 ∧
        tn2.scan_done = tn.scan_done ∧ tn2.last_tuning_failed = tn.last_tuning_failed := by
  induction fuel with
  | zero => intro off len net tn; exact ⟨tn, rfl, rfl, rfl⟩
  | succ fuel ih =>
    intro off len net tn
    rw [parse_descriptors]
    by_cases h1 : len > 0
    · rw [if_pos h1]
      simp only
      by_cases h2 : (rd buf (off + 1) + 2) % 256 = 0
      · rw [if_pos h2]
        exact ⟨tn, rfl, rfl, rfl⟩
      · rw [if_neg h2]
        obtain ⟨tn1, e1, a1, b1⟩ := dispatch_descriptor_nit_flags cfg buf off net tn
        have e : dispatch_descriptor cfg .NIT buf off (net, .tp tn) =
            ((dispatch_descriptor cfg .NIT buf off (net, .tp tn)).1, .tp tn1) := by
          rw [← e1]
        rw [e]
        obtain ⟨tn2, e2, a2, b2⟩ := ih (off + (rd buf (off + 1) + 2) % 256)
          (len - ((rd buf (off + 1) + 2) % 256 : Nat))
          (dispatch_descriptor cfg .NIT buf off (net, .tp tn)).1 tn1
        exact ⟨tn2, e2, a2.trans a1, b2.trans b1⟩
    · rw [if_neg h1]
      exact ⟨tn, rfl, rfl, rfl⟩

theorem nit_scratch_flags (cfg : config) (buf : List Nat) (network_id : Int) (off : Nat)
    (net : net_model) :
    (nit_scratch cfg buf network_id off net).scan_done = 0 ∧
    (nit_scratch cfg buf network_id off net).last_tuning_failed = 0 := by
  unfold nit_scratch
  simp only
  obtain ⟨tn2, e, a, b⟩ := parse_descriptors_nit_flags cfg buf
    (((rd buf (off + 4) &&& 0x0f) <<< 8) ||| rd buf (off + 5)) (off + 6)
    ((((rd buf (off + 4) &&& 0x0f) <<< 8) ||| rd buf (off + 5) : Nat) : Int) net
    { calloc_transponder with
      type := -1, network_id := network_id,
      transport_stream_id := (((rd buf off <<< 8) ||| rd buf (off + 1) : Nat) : Int) }
  rw [e]
  exact ⟨a, b⟩

set_option maxRecDepth 100000 in
/-- C36: when find_transponder returns the transponder `t` for the frequency
of the scratch record `tn`, the block of parse_nit that stores `tn` leaves in
`t` the result of copy_transponder: every field of `tn` in place of its own,
that is network_id, transport_stream_id, type, param (with `param.frequency`),
polarisation, orbital_pos, we_flag, scan_done, last_tuning_failed,
other_frequency_flag, n_other_f and a copy of the first n_other_f entries of
other_f (NULL when n_other_f is 0), with only the service list kept; `t` stays
in the list it is in and no other transponder changes.  The scratch record
of a NIT entry has `scan_done = 0` and `last_tuning_failed = 0`, whatever its
descriptors.  So a transponder of the scanned list, whose `scan_done` is 1,
ends with 0 in both fields and with the frequency of the NIT: in the example
the scanned transponder at 500 002 100 Hz is found for a NIT entry at
500 002 600 Hz, and after parse_nit it is still the only member of the scanned
list, has the frequency of the NIT and `scan_done = 0`. -/
theorem nit_overwrites_scan_done (cfg : config) (net : net_model) (tn : transponder) (t : Nat)
    (hfind : find_transponder cfg net tn.param.frequency = some t)
    (hv : t < net.transponders.length) :
    tp_at (store_transponder cfg net tn) t = copy_transponder (tp_at net t) tn ∧
    (tp_at (store_transponder cfg net tn) t).param = tn.param ∧
    (tp_at (store_transponder cfg net tn) t).scan_done = tn.scan_done ∧
    (tp_at (store_transponder cfg net tn) t).last_tuning_failed = tn.last_tuning_failed ∧
    (tp_at (store_transponder cfg net tn) t).services = (tp_at net t).services ∧
    (store_transponder cfg net tn).scanned_transponders = net.scanned_transponders ∧
    (store_transponder cfg net tn).new_transponders = net.new_transponders ∧
    (∀ (buf : List Nat) (network_id : Int) (off : Nat) (net0 : net_model),
      (nit_scratch cfg buf network_id off net0).scan_done = 0 ∧
      (nit_scratch cfg buf network_id off net0).last_tuning_failed = 0) ∧
    (tp_at (store_transponder cfg net tn) t).network_id = tn.network_id ∧
    (tp_at (store_transponder cfg net tn) t).transport_stream_id = tn.transport_stream_id ∧
    (tp_at (store_transponder cfg net tn) t).type = tn.type ∧
    (tp_at (store_transponder cfg net tn) t).polarisation = tn.polarisation ∧
    (tp_at (store_transponder cfg net tn) t).orbital_pos = tn.orbital_pos ∧
    (tp_at (store_transponder cfg net tn) t).we_flag = tn.we_flag ∧
    (tp_at (store_transponder cfg net tn) t).other_frequency_flag = tn.other_frequency_flag ∧
    (tp_at (store_transponder cfg net tn) t).n_other_f = tn.n_other_f ∧
    (tp_at (store_transponder cfg net tn) t).other_f =
      (if tn.n_other_f ≠ 0 then tn.other_f.map (List.take tn.n_other_f) else none) ∧
    (store_transponder cfg net tn).transponders.length = net.transponders.length ∧
    (∀ p, p ≠ t → tp_at (store_transponder cfg net tn) p = tp_at net p) ∧
    (ex_net_near.scanned_transponders = [0] ∧
      (tp_at ex_net_near 0).scan_done = 1 ∧
      (tp_at ex_net_near 0).param.frequency = 500002100 ∧
      (parse_nit ex_cfg (nit_section 1 500 50000260 0x1f 0 0) 8 21 1
        ex_net_near).scanned_transponders = [0] ∧
      (parse_nit ex_cfg (nit_section 1 500 50000260 0x1f 0 0) 8 21 1
        ex_net_near).new_transponders = [] ∧
      (tp_at (parse_nit ex_cfg (nit_section 1 500 50000260 0x1f 0 0) 8 21 1
        ex_net_near) 0).scan_done = 0 ∧
      (tp_at (parse_nit ex_cfg (nit_section 1 500 50000260 0x1f 0 0) 8 21 1
        ex_net_near) 0).last_tuning_failed = 0 ∧
      (tp_at (parse_nit ex_cfg (nit_section 1 500 50000260 0x1f 0 0) 8 21 1
        ex_net_near) 0).param.frequency = 500002600) := by
  have h : store_transponder cfg net tn = tp_store net t (copy_transponder (tp_at net t) tn) := by
    unfold store_transponder
    rw [hfind]
  rw [h, tp_at_tp_store _ _ _ hv]
  exact ⟨rfl, rfl, rfl, rfl, rfl, rfl, rfl, nit_scratch_flags cfg, rfl, rfl, rfl, rfl, rfl, rfl,
    rfl, rfl, rfl, (tp_store_valid _ _ _).2.1, fun p hp => tp_at_tp_store_ne _ _ _ _ hp,
    by decide⟩

set_option maxRecDepth 100000 in
theorem nit_overwrites_scan_done_witness :
    tp_at (store_transponder ex_cfg ex_net_near
        (nit_scratch ex_cfg (nit_section 1 500 50000260 0x1f 0 0) 1 12 ex_net_near)) 0 =
      copy_transponder (tp_at ex_net_near 0)
        (nit_scratch ex_cfg (nit_section 1 500 50000260 0x1f 0 0) 1 12 ex_net_near) :=
  (nit_overwrites_scan_done ex_cfg ex_net_near
    (nit_scratch ex_cfg (nit_section 1 500 50000260 0x1f 0 0) 1 12 ex_net_near) 0
    (by decide) (by decide)).1

/-! ## C37: is_same_transponder is not transitive -/

theorem is_same_transponder_symm (f1 f2 : Nat) :
    is_same_transponder f1 f2 = is_same_transponder f2 f1 := by
  unfold is_same_transponder
  by_cases h : f1 = f2
  · subst h; rfl
  · rw [if_neg h, if_neg (Ne.symm h)]
    simp only
    by_cases hgt : f1 > f2
    · rw [if_pos hgt, if_neg (by omega : ¬ f2 > f1)]
    · rw [if_neg hgt, if_pos (by omega : f2 > f1)]

/-- C37: is_same_transponder is reflexive and symmetric, and it is not
transitive: 0 and 1500 are the same transponder, 1500 and 3000 are, 0 and 3000
are not.  So the transponder find_transponder returns depends on the order of
the list: of two new transponders at 500 000 and 503 000 it returns, for the
frequency 501 500, the one that comes first in `new_transponders`. -/
theorem is_same_transponder_not_transitive :
    (∀ f, is_same_transponder f f = 1) ∧
    (∀ f1 f2, is_same_transponder f1 f2 = is_same_transponder f2 f1) ∧
    (is_same_transponder 0 1500 = 1 ∧ is_same_transponder 1500 3000 = 1 ∧
      is_same_transponder 0 3000 = 0) ∧
    (find_transponder ex_cfg (ex_net_order [0, 1]) 501500 = some 0 ∧
      find_transponder ex_cfg (ex_net_order [1, 0]) 501500 = some 1 ∧
      (tp_at (ex_net_order [0, 1]) 0).param.frequency = 500000 ∧
      (tp_at (ex_net_order [1, 0]) 1).param.frequency = 503000) := by
  refine ⟨?_, is_same_transponder_symm, by decide, by decide⟩
  intro f
  unfold is_same_transponder
  rw [if_pos rfl]

/-! ## C38: the first entry of the libsi2 iterators -/

/-- The loop of the parse function ends: every pass advances `pos` by at least
the four bytes of an entry header. -/
theorem names_parse_loop_ends (d : List Nat) (len : Nat) :
    ∀ (fuel pos : Nat), 0 < fuel → len < pos + fuel →
      ∃ b, names_parse_loop d len fuel pos = some b := by
  intro fuel
  induction fuel with
  | zero =>
    intro pos h0 _
    exact absurd h0 (by omega)
  | succ fuel ih =>
    intro pos _ h
    rw [names_parse_loop]
    by_cases h1 : pos < len
    · rw [if_pos h1]
      simp only
      by_cases h2 : pos + sizeof_dvb_multilingual_network_name > len
      · rw [if_pos h2]; exact ⟨false, rfl⟩
      · rw [if_neg h2]
        by_cases h3 : pos + sizeof_dvb_multilingual_network_name + rd d (2 + pos + 3) > len
        · rw [if_pos h3]; exact ⟨false, rfl⟩
        · rw [if_neg h3]
          unfold sizeof_dvb_multilingual_network_name at h2 h3 ⊢
          exact ih _ (by omega) (by omega)
    · rw [if_neg h1]; exact ⟨true, rfl⟩

/-- Started at an entry the parse function walks, the steps of names_next
visit the entries the parse function walks from there on. -/
theorem names_iterate_walked (d : List Nat) :
    ∀ (fuel fuel2 pos : Nat), fuel ≤ fuel2 → pos < rd d 1 →
      names_parse_loop d (rd d 1) fuel pos = some true →
      names_iterate d fuel2 (some (2 + pos)) = some (names_walked_loop d (rd d 1) fuel pos) := by
  intro fuel
  induction fuel with
  | zero =>
    intro fuel2 pos _ _ h
    rw [names_parse_loop] at h
    exact absurd h (by simp)
  | succ fuel ih =>
    intro fuel2 pos hf hp h
    obtain ⟨f2, rfl⟩ := Nat.exists_eq_succ_of_ne_zero (by omega : fuel2 ≠ 0)
    rw [names_parse_loop, if_pos hp] at h
    rw [names_walked_loop, if_pos hp, names_iterate]
    simp only at h ⊢
    by_cases h2 : pos + sizeof_dvb_multilingual_network_name > rd d 1
    · rw [if_pos h2] at h; exact absurd h (by simp)
    · rw [if_neg h2] at h ⊢
      by_cases h3 : pos + sizeof_dvb_multilingual_network_name + rd d (2 + pos + 3) > rd d 1
      · rw [if_pos h3] at h; exact absurd h (by simp)
      · rw [if_neg h3] at h ⊢
        have hnext : ptr_add (ptr_add (2 + pos) sizeof_dvb_multilingual_network_name 1)
            (rd d (2 + pos + 3)) 1 =
            2 + (pos + sizeof_dvb_multilingual_network_name + rd d (2 + pos + 3)) := by
          unfold ptr_add; omega
        have hend : ptr_add (ptr_add 0 2 1) (rd d 1) 1 = 2 + rd d 1 := by
          unfold ptr_add; omega
        unfold dvb_multilingual_network_name_descriptor_names_next
        simp only
        rw [hnext, hend]
        by_cases h4 : pos + sizeof_dvb_multilingual_network_name + rd d (2 + pos + 3) < rd d 1
        · rw [if_neg (by omega), ih f2 _ (by omega) h4 h]
          rfl
        · rw [if_pos (by omega)]
          have hw : names_walked_loop d (rd d 1) fuel
              (pos + sizeof_dvb_multilingual_network_name + rd d (2 + pos + 3)) = [] := by
            cases fuel with
            | zero => rfl
            | succ fuel => rw [names_walked_loop, if_neg h4]
          rw [hw]
          cases f2 <;> rfl

set_option maxRecDepth 100000 in
/-- C38: the three `_first` functions do not return the first entry.  Written
`(struct X *) (uint8_t*) d + sizeof(struct D)`, they add `sizeof(struct D)`
objects of type `struct X` to `d`: names_first yields the byte offset
2 * 4 = 8 instead of 2, components_first 3 * 4 = 12 instead of 3, and
cells_first 2 * 10 = 20 instead of 2, for every descriptor that is not empty.
The parse function returns for every descriptor, and for one it accepts the
steps of names_next, started at offset 2, visit exactly the entries it walked;
but names_for_each starts at offset 8.  On the example descriptor with names
at the offsets 2 and 9, parse accepts it and names_for_each visits the single
position 8, which is inside the first name. -/
theorem names_first_skips_entries :
    (∀ d : List Nat, rd d 1 ≠ 0 →
      dvb_multilingual_network_name_descriptor_names_first d = some 8) ∧
    (∀ d : List Nat, rd d 1 ≠ 1 →
      dvb_multilingual_component_descriptor_components_first d = some 12) ∧
    (∀ d : List Nat, rd d 1 ≠ 0 → dvb_cell_list_descriptor_cells_first d = some 20) ∧
    (∀ d : List Nat, ∃ b, dvb_multilingual_network_name_descriptor_parse d = some b) ∧
    (∀ d : List Nat, dvb_multilingual_network_name_descriptor_parse d = some true →
      rd d 1 ≠ 0 →
      names_iterate d (rd d 1 + 3) (some 2) = some (names_walked d) ∧
      (names_walked d).head? = some 2) ∧
    dvb_multilingual_network_name_descriptor_parse ex_network_names = some true ∧
    names_walked ex_network_names = [2, 9] ∧
    dvb_multilingual_network_name_descriptor_names_first ex_network_names = some 8 ∧
    dvb_multilingual_network_name_descriptor_names_for_each ex_network_names = some [8] := by
  refine ⟨?_, ?_, ?_, ?_, ?_, by decide, by decide, by decide, by decide⟩
  · intro d h
    unfold dvb_multilingual_network_name_descriptor_names_first
    rw [if_neg h]
    rfl
  · intro d h
    unfold dvb_multilingual_component_descriptor_components_first
    rw [if_neg h]
    rfl
  · intro d h
    unfold dvb_cell_list_descriptor_cells_first
    rw [if_neg h]
    rfl
  · intro d
    exact names_parse_loop_ends d (rd d 1) (rd d 1 + 1) 0 (by omega) (by omega)
  · intro d hp h0
    unfold dvb_multilingual_network_name_descriptor_parse at hp
    have hpos : 0 < rd d 1 := Nat.pos_of_ne_zero h0
    have := names_iterate_walked d (rd d 1 + 1) (rd d 1 + 3) 0 (by omega) hpos hp
    refine ⟨this, ?_⟩
    unfold names_walked
    rw [names_walked_loop, if_pos hpos]
    simp only
    split
    · rfl
    · split <;> rfl

/-! ## C39: get_pmt_pid and the CRC -/

theorem pmt_pid_loop_stop (buf : List Nat) (sid : Int) (fuel off : Nat) (sl pid : Int)
    (h : sl ≤ 0) : pmt_pid_loop buf sid fuel off sl pid = pid := by
  cases fuel with
  | zero => rfl
  | succ fuel => rw [pmt_pid_loop, if_neg (by omega)]

/-- The loop of get_pmt_pid started with the length `4k + 1` on entries of
which the first `k` do not match: it goes on to the entry at `off + 4k`. -/
theorem pmt_pid_loop_no_match (buf : List Nat) (sid : Int) (k : Nat) :
    ∀ (fuel off : Nat) (pid : Int), k < fuel →
      (∀ i, i < k → pat_entry_sid buf (off + 4 * i) ≠ sid) →
      pmt_pid_loop buf sid fuel off (4 * (k : Int) + 1) pid =
        if pat_entry_sid buf (off + 4 * k) = sid then pat_entry_pid buf (off + 4 * k) else pid := by
  induction k with
  | zero =>
    intro fuel off pid hf _
    obtain ⟨f, rfl⟩ := Nat.exists_eq_succ_of_ne_zero (by omega : fuel ≠ 0)
    rw [pmt_pid_loop, if_pos (by norm_num)]
    simp only
    unfold pat_entry_sid pat_entry_pid
    by_cases hm : ((((rd buf off <<< 8) ||| rd buf (off + 1) : Nat)) : Int) = sid
    · rw [if_pos hm, if_pos (by simpa using hm)]
      exact pmt_pid_loop_stop _ _ _ _ _ _ (by norm_num)
    · rw [if_neg hm, if_neg (by simpa using hm)]
      exact pmt_pid_loop_stop _ _ _ _ _ _ (by norm_num)
  | succ k ih =>
    intro fuel off pid hf hno
    obtain ⟨f, rfl⟩ := Nat.exists_eq_succ_of_ne_zero (by omega : fuel ≠ 0)
    rw [pmt_pid_loop, if_pos (by push_cast; omega)]
    simp only
    have h0 := hno 0 (by omega)
    unfold pat_entry_sid at h0
    rw [if_neg (by simpa using h0)]
    have e : 4 * ((k + 1 : Nat) : Int) + 1 - 4 = 4 * (k : Int) + 1 := by push_cast; ring
    rw [e, ih f (off + 4) pid (by omega) (fun i hi => by
      have := hno (i + 1) (by omega)
      rw [show off + 4 * (i + 1) = off + 4 + 4 * i by ring] at this
      exact this)]
    rw [show off + 4 + 4 * k = off + 4 * (k + 1) by ring]

/-- The loop of get_pmt_pid returns the PID of the first entry that
matches. -/
theorem pmt_pid_loop_match (buf : List Nat) (sid : Int) (j : Nat) :
    ∀ (fuel off : Nat) (sl pid : Int), j < fuel → 4 * (j : Int) < sl →
      (∀ i, i < j → pat_entry_sid buf (off + 4 * i) ≠ sid) →
      pat_entry_sid buf (off + 4 * j) = sid →
      pmt_pid_loop buf sid fuel off sl pid = pat_entry_pid buf (off + 4 * j) := by
  induction j with
  | zero =>
    intro fuel off sl pid hf hsl _ hm
    obtain ⟨f, rfl⟩ := Nat.exists_eq_succ_of_ne_zero (by omega : fuel ≠ 0)
    rw [pmt_pid_loop, if_pos (by omega)]
    simp only
    unfold pat_entry_sid at hm
    rw [if_pos (by simpa using hm)]
    exact pmt_pid_loop_stop _ _ _ _ _ _ (by norm_num)
  | succ j ih =>
    intro fuel off sl pid hf hsl hno hm
    obtain ⟨f, rfl⟩ := Nat.exists_eq_succ_of_ne_zero (by omega : fuel ≠ 0)
    rw [pmt_pid_loop, if_pos (by push_cast at hsl; omega)]
    simp only
    have h0 := hno 0 (by omega)
    unfold pat_entry_sid at h0
    rw [if_neg (by simpa using h0)]
    rw [ih f (off + 4) (sl - 4) pid (by omega) (by push_cast at hsl; omega) (fun i hi => by
      have := hno (i + 1) (by omega)
      rw [show off + 4 * (i + 1) = off + 4 + 4 * i by ring] at this
      exact this) (by
      rw [show off + 4 + 4 * j = off + 4 * (j + 1) by ring]
      exact hm)]
    rw [show off + 4 + 4 * j = off + 4 * (j + 1) by ring]

/-- The call of get_pmt_pid when the first `read` delivers a whole section:
the result is what the loop over the entries computes with the length
`section_length - 8`. -/
theorem get_pmt_pid_one_read (open_result set_filter : Int) (r : read_result)
    (buft : List Nat) (sid : Int) (n : Nat)
    (ho : ¬ open_result < 0) (hs : set_filter ≠ -1)
    (hn : ((rd (read_buft buft r) 1 &&& 0x0f) <<< 8) ||| rd (read_buft buft r) 2 = n)
    (hc : r.count = (n : Int) + 3) :
    get_pmt_pid open_result set_filter [r] buft sid =
      some (pmt_pid_loop (read_buft buft r) sid ((n : Int) - 8).toNat 8 ((n : Int) - 8) 0) := by
  unfold get_pmt_pid
  rw [if_neg ho, if_neg hs]
  show get_pmt_pid_reads sid 1 [r] buft = _
  rw [get_pmt_pid_reads]
  have hag : decide (r.count < 0 ∧ r.errno = EOVERFLOW) = false := by
    rw [decide_eq_false_iff_not]
    intro h
    omega
  simp only [hag, Bool.false_eq_true, false_and, if_false]
  rw [if_neg (by omega), hn, if_neg (by rw [hc]; simp)]

/-- C39: get_pmt_pid on a PAT section with `k` program entries
(section_length field `9 + 4k`) that one `read` delivers.  The loop over the
entries starts with the length `section_length - 8 = 4k + 1` and so makes
`k + 1` passes when no entry matches: the first four bytes after the last
entry, which are the CRC, are compared with `sid` like an entry, and when
their first two bytes equal `sid` the result is taken from the other two
instead of being 0.  When one of the `k` entries matches, the result is the
PID of the first that does.  On the example section, whose one entry is
program 100 and whose CRC is 00 65 e1 23, the call for `sid = 101` returns
0x0123. -/
theorem get_pmt_pid_examines_crc :
    (∀ (open_result set_filter : Int) (r : read_result) (buft : List Nat) (sid : Int) (k : Nat),
      ¬ open_result < 0 → set_filter ≠ -1 →
      ((rd (read_buft buft r) 1 &&& 0x0f) <<< 8) ||| rd (read_buft buft r) 2 = 9 + 4 * k →
      r.count = ((9 + 4 * k : Nat) : Int) + 3 →
      (∀ i, i < k → pat_entry_sid (read_buft buft r) (8 + 4 * i) ≠ sid) →
      get_pmt_pid open_result set_filter [r] buft sid =
        some (if pat_entry_sid (read_buft buft r) (8 + 4 * k) = sid then
          pat_entry_pid (read_buft buft r) (8 + 4 * k) else 0)) ∧
    (∀ (open_result set_filter : Int) (r : read_result) (buft : List Nat) (sid : Int) (k j : Nat),
      ¬ open_result < 0 → set_filter ≠ -1 →
      ((rd (read_buft buft r) 1 &&& 0x0f) <<< 8) ||| rd (read_buft buft r) 2 = 9 + 4 * k →
      r.count = ((9 + 4 * k : Nat) : Int) + 3 →
      j < k → (∀ i, i < j → pat_entry_sid (read_buft buft r) (8 + 4 * i) ≠ sid) →
      pat_entry_sid (read_buft buft r) (8 + 4 * j) = sid →
      get_pmt_pid open_result set_filter [r] buft sid =
        some (pat_entry_pid (read_buft buft r) (8 + 4 * j))) ∧
    ex_pat_crc.length = 3 + (9 + 4 * 1) ∧
    ((rd ex_pat_crc 1 &&& 0x0f) <<< 8) ||| rd ex_pat_crc 2 = 9 + 4 * 1 ∧
    pat_entry_sid ex_pat_crc 8 = 100 ∧
    (∀ buft : List Nat, get_pmt_pid 3 0 [read_of ex_pat_crc] buft 100 = some 0x200) ∧
    (∀ buft : List Nat, get_pmt_pid 3 0 [read_of ex_pat_crc] buft 101 = some 0x123) := by
  have general : ∀ (open_result set_filter : Int) (r : read_result) (buft : List Nat)
      (sid : Int) (k : Nat),
      ¬ open_result < 0 → set_filter ≠ -1 →
      ((rd (read_buft buft r) 1 &&& 0x0f) <<< 8) ||| rd (read_buft buft r) 2 = 9 + 4 * k →
      r.count = ((9 + 4 * k : Nat) : Int) + 3 →
      (∀ i, i < k → pat_entry_sid (read_buft buft r) (8 + 4 * i) ≠ sid) →
      get_pmt_pid open_result set_filter [r] buft sid =
        some (if pat_entry_sid (read_buft buft r) (8 + 4 * k) = sid then
          pat_entry_pid (read_buft buft r) (8 + 4 * k) else 0) := by
    intro o s r buft sid k ho hs hn hc hno
    rw [get_pmt_pid_one_read o s r buft sid _ ho hs hn hc]
    have e : (((9 + 4 * k : Nat) : Int)) - 8 = 4 * (k : Int) + 1 := by push_cast; ring
    rw [e, pmt_pid_loop_no_match _ _ k _ 8 0 (by omega) hno]
  have found : ∀ (open_result set_filter : Int) (r : read_result) (buft : List Nat)
      (sid : Int) (k j : Nat),
      ¬ open_result < 0 → set_filter ≠ -1 →
      ((rd (read_buft buft r) 1 &&& 0x0f) <<< 8) ||| rd (read_buft buft r) 2 = 9 + 4 * k →
      r.count = ((9 + 4 * k : Nat) : Int) + 3 →
      j < k → (∀ i, i < j → pat_entry_sid (read_buft buft r) (8 + 4 * i) ≠ sid) →
      pat_entry_sid (read_buft buft r) (8 + 4 * j) = sid →
      get_pmt_pid open_result set_filter [r] buft sid =
        some (pat_entry_pid (read_buft buft r) (8 + 4 * j)) := by
    intro o s r buft sid k j ho hs hn hc hj hno hm
    rw [get_pmt_pid_one_read o s r buft sid _ ho hs hn hc]
    have e : (((9 + 4 * k : Nat) : Int)) - 8 = 4 * (k : Int) + 1 := by push_cast; ring
    rw [e, pmt_pid_loop_match _ _ j _ 8 _ 0 (by omega) (by omega) hno hm]
  have hb : ∀ buft : List Nat,
      read_buft buft (read_of ex_pat_crc) = ex_pat_crc ++ buft.drop 16 := fun _ => rfl
  have hrd : ∀ (buft : List Nat) (i : Nat), i < 16 →
      rd (read_buft buft (read_of ex_pat_crc)) i = rd ex_pat_crc i := by
    intro buft i hi
    rw [hb]
    unfold rd
    rw [List.getD_append ex_pat_crc _ _ _ (by rw [show ex_pat_crc.length = 16 from rfl]; exact hi)]
  have hlen : ∀ buft : List Nat,
      ((rd (read_buft buft (read_of ex_pat_crc)) 1 &&& 0x0f) <<< 8) |||
        rd (read_buft buft (read_of ex_pat_crc)) 2 = 9 + 4 * 1 := by
    intro buft
    rw [hrd buft 1 (by norm_num), hrd buft 2 (by norm_num)]
    decide
  have hsid : ∀ (buft : List Nat) (off : Nat), off + 3 < 16 →
      pat_entry_sid (read_buft buft (read_of ex_pat_crc)) off = pat_entry_sid ex_pat_crc off ∧
      pat_entry_pid (read_buft buft (read_of ex_pat_crc)) off = pat_entry_pid ex_pat_crc off := by
    intro buft off ho
    unfold pat_entry_sid pat_entry_pid
    rw [hrd buft off (by omega), hrd buft (off + 1) (by omega), hrd buft (off + 2) (by omega),
      hrd buft (off + 3) (by omega)]
    exact ⟨rfl, rfl⟩
  refine ⟨general, found, by decide, by decide, by decide, ?_, ?_⟩
  · intro buft
    rw [found 3 0 (read_of ex_pat_crc) buft 100 1 0 (by decide) (by decide)
      (hlen buft) (by decide) (by decide) (fun i hi => absurd hi (by omega))
      (by rw [(hsid buft _ (by norm_num)).1]; decide)]
    rw [(hsid buft _ (by norm_num)).2]
    decide
  · intro buft
    rw [general 3 0 (read_of ex_pat_crc) buft 101 1 (by decide) (by decide)
      (hlen buft) (by decide) (fun i hi => by
        have : i = 0 := by omega
        subst this
        rw [(hsid buft _ (by norm_num)).1]
        decide)]
    rw [(hsid buft _ (by norm_num)).1, (hsid buft _ (by norm_num)).2]
    decide

/-! ## C40: the parameter tables of tzap -/

theorem name_at_some (plist : List Param) (index character x : Nat)
    (h : name_at plist index character = some x) : ∃ p, plist.get? index = some p := by
  unfold name_at at h
  cases hg : plist.get? index with
  | none => rw [hg] at h; exact absurd h (by simp)
  | some p => exact ⟨p, rfl⟩

/-- A result of parse_param other than -1 does not depend on the characters
that follow the ones read. -/
theorem parse_param_loop_append (plist : List Param) (list_size param : Int) (rest : List Nat)
    (r v : Int) (hr : r ≠ -1) :
    ∀ (input : List Nat) (character index : Nat),
      parse_param_loop plist list_size param input character index = some (r, v) →
      parse_param_loop plist list_size param (input ++ rest) character index = some (r, v) := by
  intro input
  induction input with
  | nil =>
    intro character index h
    rw [parse_param_loop] at h
    injection h with h
    injection h with h1 _
    exact absurd h1.symm hr
  | cons c input ih =>
    intro character index h
    rw [List.cons_append, parse_param_loop]
    rw [parse_param_loop] at h
    cases hn : name_at plist index character with
    | none => rw [hn] at h; exact absurd h (by simp)
    | some x =>
      rw [hn] at h
      simp only at h ⊢
      by_cases ht : (c = 58 ∨ c = 10) ∧ x = 0
      · rw [if_pos ht] at h ⊢
        exact h
      · rw [if_neg ht] at h ⊢
        cases hs : skip_entries plist list_size c character (plist.length + 1) index with
        | none => rw [hs] at h; exact absurd h (by simp)
        | some o =>
          rw [hs] at h
          cases o with
          | none => exact h
          | some i => exact ih _ _ h

/-- A successful parse_param stores the same value whatever `*param` held. -/
theorem parse_param_loop_param (plist : List Param) (list_size param param2 : Int) (v : Int) :
    ∀ (input : List Nat) (character index : Nat),
      parse_param_loop plist list_size param input character index = some (0, v) →
      parse_param_loop plist list_size param2 input character index = some (0, v) := by
  intro input
  induction input with
  | nil =>
    intro character index h
    rw [parse_param_loop] at h
    injection h with h
    injection h with h1 _
    exact absurd h1 (by decide)
  | cons c input ih =>
    intro character index h
    rw [parse_param_loop]
    rw [parse_param_loop] at h
    cases hn : name_at plist index character with
    | none => rw [hn] at h; exact absurd h (by simp)
    | some x =>
      rw [hn] at h
      simp only at h ⊢
      by_cases ht : (c = 58 ∨ c = 10) ∧ x = 0
      · rw [if_pos ht] at h ⊢
        obtain ⟨p, hp⟩ := name_at_some plist index character x hn
        rw [hp] at h ⊢
        exact h
      · rw [if_neg ht] at h ⊢
        cases hs : skip_entries plist list_size c character (plist.length + 1) index with
        | none => rw [hs] at h; exact absurd h (by simp)
        | some o =>
          rw [hs] at h
          cases o with
          | none =>
            simp only at h
            injection h with h
            injection h with h1 _
            exact absurd h1 (by decide)
          | some i => exact ih _ _ h

set_option maxRecDepth 100000 in
theorem tables_parse :
    ∀ plist ∈ [inversion_list, bw_list, fec_list, guard_list, hierarchy_list,
      constellation_list, transmissionmode_list],
    ∀ t ∈ [58, 10], table_parses plist t = true := by
  decide

/-- C40: for each of the seven parameter tables of tzap, each entry `p` of the
table and each of the terminators ':' (58) and newline (10): parse_param,
reading the name of `p`, the terminator and whatever follows, returns 0 and
stores the value of `p`, whatever `*param` held before; no read leaves a name
or the table. -/
theorem parse_param_reads_every_entry :
    ∀ plist ∈ [inversion_list, bw_list, fec_list, guard_list, hierarchy_list,
      constellation_list, transmissionmode_list],
    ∀ p ∈ plist, ∀ t ∈ [58, 10], ∀ (rest : List Nat) (param : Int),
      parse_param (p.name ++ t :: rest) plist (LIST_SIZE plist) param = some (0, p.value) := by
  intro plist hpl p hp t ht rest param
  have key := tables_parse plist hpl t ht
  unfold table_parses at key
  rw [List.all_eq_true] at key
  have hp1 := key p hp
  rw [beq_iff_eq] at hp1
  unfold parse_param at hp1 ⊢
  have e : p.name ++ t :: rest = (p.name ++ [t]) ++ rest := by simp
  rw [e]
  apply parse_param_loop_append _ _ _ _ _ _ (by decide)
  exact parse_param_loop_param _ _ _ _ _ _ _ _ hp1

set_option maxRecDepth 100000 in
theorem parse_param_reads_every_entry_witness :
    parse_param (c_string "QAM_64" ++ 58 :: c_string "34:") constellation_list
      (LIST_SIZE constellation_list) 7 = some (0, (QAM_64 : Int)) :=
  parse_param_reads_every_entry constellation_list (by decide)
    { name := c_string "QAM_64", value := QAM_64 } (by decide) 58 (by decide)
    (c_string "34:") 7

set_option maxRecDepth 100000 in
/-- The scan through the table on examples: "QAM_64" passes the entries
QAM_128, QAM_16, QAM_256 and QAM_32 at its fifth character; a name that is in
no entry gives -2, and the end of the input gives -1; in both cases `*param`
is left as it was. -/
theorem parse_param_example :
    skip_entries constellation_list 6 54 4 7 1 = some (some 5) ∧
    parse_param (c_string "QAM_64:") constellation_list 6 7 = some (0, (QAM_64 : Int)) ∧
    parse_param (c_string "QAM_8:") constellation_list 6 7 = some (-2, 7) ∧
    parse_param (c_string "QAM_6") constellation_list 6 7 = some (-1, 7) := by
  decide

end DvbScan
